import Mathlib

/-!
# valhaj: a shallow embedding of the server core

The development follows the Go sources of `valhaj-server`:

* `internal/memory/memory.go`     : the sharded multi-database store,
* `internal/reader/reader.go`     : the request tokenizer,
* `internal/writer/writer.go`     : the response assembler,
* `internal/statistics`           : the INFO lines,
* `internal/commands/commands.go` : the command dispatcher.

Go strings and byte slices are lists of bytes.  The Go `int` is the 64-bit
signed integer, modelled by `Int` with an explicit wrap.  Locks, goroutines
and timers are not modelled: one session runs one command at a time, and a
goroutine started by `setExpiration` is recorded, not run.
-/

namespace Valhaj

/-! ## Go strings -/

/-- A Go `string` or `[]byte`: a sequence of bytes. -/
abbrev GoString := List UInt8

/-- The bytes of a string literal of the source (all literals are ASCII). -/
def lit (s : String) : GoString := s.toList.map (fun c => UInt8.ofNat c.toNat)

/-- Go `strings.Join(pieces, "")`. -/
def Join (pieces : List GoString) : GoString := pieces.foldr (fun p acc => p ++ acc) []

/-- Go `strings.Contains(s, sub)`. -/
def Contains (s sub : GoString) : Bool := s.tails.any (fun t => sub.isPrefixOf t)

/-- The functions of the Go standard library that the embedding does not
compute: byte 17 of the SHA-1 digest of a key (`sha1.Sum(key)[17]`), and
`strings.Map(unicode.ToUpper, s)`, the path `strings.ToUpper` takes on a
string holding a byte of 0x80 or more. -/
structure Lib where
  sha1Byte17 : GoString → Nat
  mapToUpper : GoString → GoString

/-- ASCII branch of `strings.ToUpper`: `c -= 'a' - 'A'` on a lower-case letter. -/
def asciiUpper (c : UInt8) : UInt8 :=
  if 97 ≤ c.toNat ∧ c.toNat ≤ 122 then UInt8.ofNat (c.toNat - 32) else c

/-- Go `strings.ToUpper`: byte-wise on an ASCII-only string, rune-wise otherwise. -/
def ToUpper (L : Lib) (s : GoString) : GoString :=
  if s.all (fun c => decide (c.toNat < 128)) then s.map asciiUpper else L.mapToUpper s

/-! ## strconv -/

/-- The Go `int` of a 64-bit platform: the value of an exact integer after
wrapping into [-2^63, 2^63). -/
def wrapInt (x : Int) : Int := (x + 2 ^ 63) % 2 ^ 64 - 2 ^ 63

/-- The two errors of `strconv`. -/
inductive NumError where
  | ErrSyntax
  | ErrRange
deriving DecidableEq, Repr

def isDigit (c : UInt8) : Bool := decide (48 ≤ c.toNat) && decide (c.toNat ≤ 57)

def maxUint64 : Nat := 2 ^ 64 - 1

/-- The digit loop of `strconv.ParseUint(s, 10, 64)`: a byte that is not a
digit is a syntax error, a value past 2^64-1 a range error. -/
def parseUintLoop : GoString → Nat → Nat × Option NumError
  | [], n => (n, none)
  | c :: cs, n =>
    if !isDigit c then (0, some NumError.ErrSyntax)
    else if n ≥ maxUint64 / 10 + 1 then (maxUint64, some NumError.ErrRange)
    else
      let n1 := n * 10 + (c.toNat - 48)
      if n1 > maxUint64 then (maxUint64, some NumError.ErrRange) else parseUintLoop cs n1

def ParseUint (s : GoString) : Nat × Option NumError :=
  if s = [] then (0, some NumError.ErrSyntax) else parseUintLoop s 0

/-- Go `strconv.ParseInt(s, 10, 0)` with `IntSize = 64`. -/
def ParseInt (s : GoString) : Int × Option NumError :=
  match s with
  | [] => (0, some NumError.ErrSyntax)
  | c :: cs =>
    let neg : Bool := decide (c = 45)
    let body := if c = 43 ∨ c = 45 then cs else s
    match ParseUint body with
    | (_, some NumError.ErrSyntax) => (0, some NumError.ErrSyntax)
    | (un, _) =>
      if !neg && decide (un ≥ 2 ^ 63) then (2 ^ 63 - 1, some NumError.ErrRange)
      else if neg && decide (un > 2 ^ 63) then (-(2 ^ 63), some NumError.ErrRange)
      else (if neg then -(un : Int) else (un : Int), none)

/-- The digit loop of the fast path of `strconv.Atoi`. -/
def atoiFastLoop : GoString → Nat → Option Nat
  | [], n => some n
  | c :: cs, n => if !isDigit c then none else atoiFastLoop cs (n * 10 + (c.toNat - 48))

/-- Go `strconv.Atoi` on a 64-bit platform: the fast path for 1 to 18 bytes,
`ParseInt` otherwise.  The pair is (value, error); the error is `none` for
Go's `nil`. -/
def Atoi (s : GoString) : Int × Option NumError :=
  if 0 < s.length ∧ s.length < 19 then
    match s with
    | [] => (0, some NumError.ErrSyntax)
    | c :: cs =>
      let signed : Bool := decide (c = 45 ∨ c = 43)
      let body := if signed then cs else s
      if signed && decide (cs.length < 1) then (0, some NumError.ErrSyntax)
      else
        match atoiFastLoop body 0 with
        | none => (0, some NumError.ErrSyntax)
        | some n => (if c = 45 then -(n : Int) else (n : Int), none)
  else
    let r := ParseInt s
    (wrapInt r.1, r.2)

/-- Decimal digits of a natural number, most significant first. -/
def digitsLoop : Nat → Nat → GoString → GoString
  | 0, _, acc => acc
  | fuel + 1, n, acc =>
    let acc1 := UInt8.ofNat (48 + n % 10) :: acc
    if n / 10 = 0 then acc1 else digitsLoop fuel (n / 10) acc1

def natDecimal (n : Nat) : GoString := digitsLoop (n + 1) n []

/-- Go `strconv.Itoa`. -/
def Itoa (i : Int) : GoString :=
  if i < 0 then 45 :: natDecimal (-i).toNat else natDecimal i.toNat

/-! ## internal/config -/

def MemoryCacheContainerSize : Int := 3

def MemoryCacheShardCount : Nat := 50

def ReleaseVersion : GoString := lit "1.0.31"

def ServerInetNetwork : GoString := lit "tcp"

/-- The network of the Unix domain socket the server can listen on. -/
def ServerUnixNetwork : GoString := lit "unix"

/-! ## internal/memory -/

/-- A Go `map[string]string`: the entries, at most one per key when built by
`mapStore` and `mapDelete` from the empty map. -/
abbrev GoMap := List (GoString × GoString)

/-- The map read `m[key]`, `none` for an absent key. -/
def mapLookup : GoMap → GoString → Option GoString
  | [], _ => none
  | (k, v) :: m, key => if k = key then some v else mapLookup m key

/-- The assignment `m[key] = value`. -/
def mapStore (m : GoMap) (key value : GoString) : GoMap :=
  (key, value) :: m.filter (fun e => decide (e.1 ≠ key))

/-- The statement `delete(m, key)`. -/
def mapDelete (m : GoMap) (key : GoString) : GoMap :=
  m.filter (fun e => decide (e.1 ≠ key))

/-- The two results of `value, ok := m[key]`: the zero value (the empty
string) and false for an absent key. -/
def commaOk : Option GoString → GoString × Bool
  | some v => (v, true)
  | none => ([], false)

/-- A shard: one map (its lock is not modelled). -/
structure shard where
  m : GoMap
deriving DecidableEq, Repr

abbrev ShardedCache := List shard

abbrev CacheContainer := List ShardedCache

def NewShardedCache (shardCount : Nat) : ShardedCache :=
  List.replicate shardCount { m := [] }

def NewCacheContainer (cacheCount shardCount : Nat) : CacheContainer :=
  List.replicate cacheCount (NewShardedCache shardCount)

/-- The index `hash % len(sc)`; Go panics on an empty `sc`. -/
def getShardIndex (L : Lib) (sc : ShardedCache) (key : GoString) : Nat :=
  L.sha1Byte17 key % sc.length

def getShard (L : Lib) (sc : ShardedCache) (key : GoString) : shard :=
  sc.getD (getShardIndex L sc key) { m := [] }

/-- Writes the map of the shard of `key` back into the cache. -/
def putShard (L : Lib) (sc : ShardedCache) (key : GoString) (m : GoMap) : ShardedCache :=
  sc.set (getShardIndex L sc key) { m := m }

def Load (L : Lib) (sc : ShardedCache) (key : GoString) : GoString × Bool :=
  commaOk (mapLookup (getShard L sc key).m key)

/-- The value the cache holds at `key`: the entry of `key` in the map of its
shard, `none` when the key is absent. -/
def stored (L : Lib) (sc : ShardedCache) (key : GoString) : Option GoString :=
  mapLookup (getShard L sc key).m key

def LoadAndDelete (L : Lib) (sc : ShardedCache) (key : GoString) :
    ShardedCache × GoString × Bool :=
  let sh := getShard L sc key
  let r := commaOk (mapLookup sh.m key)
  if r.2 then (putShard L sc key (mapDelete sh.m key), r.1, r.2) else (sc, r.1, r.2)

def LoadExistStore (L : Lib) (sc : ShardedCache) (key value : GoString)
    (exists_ overwrite : Bool) : ShardedCache × GoString × Bool :=
  let sh := getShard L sc key
  let r := commaOk (mapLookup sh.m key)
  if r.2 = exists_ ∨ overwrite = true then (putShard L sc key (mapStore sh.m key value), r.1, r.2)
  else (sc, r.1, r.2)

def LoadModifyStore (L : Lib) (sc : ShardedCache) (key : GoString)
    (modifier : GoString → GoString × Bool) (initial : GoString) :
    ShardedCache × GoString × Bool :=
  let sh := getShard L sc key
  let r := commaOk (mapLookup sh.m key)
  let value := if !r.2 then initial else r.1
  let r2 := modifier value
  (putShard L sc key (mapStore sh.m key r2.1), r2.1, r2.2)

def Store (L : Lib) (sc : ShardedCache) (key value : GoString) : ShardedCache :=
  putShard L sc key (mapStore (getShard L sc key).m key value)

def Delete (L : Lib) (sc : ShardedCache) (key : GoString) : ShardedCache :=
  putShard L sc key (mapDelete (getShard L sc key).m key)

/-- The items of `Range`, shard by shard; the order inside a shard is the
order of the entries of the model (Go leaves it unspecified). -/
def Range (sc : ShardedCache) : List GoString × Nat :=
  let items := sc.foldl (fun acc sh => acc ++ sh.m.foldr (fun e r => e.1 :: e.2 :: r) []) []
  (items, items.length / 2)

def Count (sc : ShardedCache) : Nat × List Nat :=
  sc.foldl (fun acc sh => (acc.1 + sh.m.length, acc.2 ++ [sh.m.length])) (0, [])

def Clear (sc : ShardedCache) : ShardedCache := sc.map (fun _ => { m := [] })

/-! ## internal/writer -/

def BuildResponse (pieces : List GoString) : GoString := Join pieces

/-! ## internal/reader -/

inductive ReadError where
  | errIncompleteEmptyData
  | errIncongruousQuotes
deriving DecidableEq, Repr

def readMinMessage : Nat := 3

/-- The tokenizer state of `Reader`: the current line and the position in it. -/
structure Reader where
  line : GoString
  pos : Nat
deriving DecidableEq, Repr

def Reader.end_ (r : Reader) : Bool := decide (r.pos ≥ r.line.length)

def Reader.current (r : Reader) : UInt8 :=
  if r.end_ then 10 else r.line.getD r.pos 0

def Reader.advance (r : Reader) : Reader := { r with pos := r.pos + 1 }

/-- Go `string(b)` for a byte `b`: the UTF-8 encoding of the code point `b`,
one byte below 0x80 and two bytes from 0x80 on. -/
def byteToString (b : UInt8) : GoString :=
  if b.toNat < 128 then [b]
  else [UInt8.ofNat (192 + b.toNat / 64), UInt8.ofNat (128 + b.toNat % 64)]

/-- The loop of `consumeString`; `none` when the fuel runs out. -/
def consumeStringLoop : Nat → Reader → GoString → Option (Reader × GoString)
  | 0, _, _ => none
  | fuel + 1, r, s =>
    if r.current ≠ 34 ∧ r.end_ = false then
      let cur := r.current
      let r1 := r.advance
      if cur = 92 then
        let next := r1.current
        consumeStringLoop fuel r1.advance (s ++ [cur, next])
      else consumeStringLoop fuel r1 (s ++ [cur])
    else some (r, s)

/-- The function `consumeString`: the reader afterwards, the bytes and the error. -/
def consumeString (r : Reader) : Option (Reader × GoString × Option ReadError) :=
  match consumeStringLoop (r.line.length + 1) r [] with
  | none => none
  | some (r1, s) =>
    if r1.current ≠ 34 then some (r1, [], some ReadError.errIncongruousQuotes)
    else some (r1.advance, s, none)

/-- The loop `for r.current() == ' ' { r.advance() }`. -/
def skipSpaces : Nat → Reader → Option Reader
  | 0, _ => none
  | fuel + 1, r => if r.current = 32 then skipSpaces fuel r.advance else some r

/-- The loop of `consumeArg` over a bare argument. -/
def bareLoop : Nat → Reader → GoString → Option (Reader × GoString)
  | 0, _, _ => none
  | fuel + 1, r, s =>
    if r.end_ = false ∧ r.current ≠ 32 ∧ r.current ≠ 10 then
      bareLoop fuel r.advance (s ++ byteToString r.current)
    else some (r, s)

def consumeArg (r : Reader) : Option (Reader × GoString × Option ReadError) :=
  match skipSpaces (r.line.length + 1) r with
  | none => none
  | some r1 =>
    if r1.current = 34 then consumeString r1.advance
    else
      match bareLoop (r1.line.length + 1) r1 [] with
      | none => none
      | some (r2, s) => some (r2, s, none)

/-- The function `readLine` on the bytes `ReadBytes` returned, which end
with the first newline of the stream. -/
def readLine (line : GoString) : GoString × Option ReadError :=
  let lineLen := line.length
  if lineLen < readMinMessage then ([], some ReadError.errIncompleteEmptyData)
  else if line.getD (lineLen - 2) 0 ≠ 13 then ([], some ReadError.errIncompleteEmptyData)
  else (line.take (lineLen - 2), none)

/-- The loop `for !r.end()` of `Read`: the arguments so far and the error. -/
def readLoop : Nat → Reader → List GoString → Option (List GoString × Option ReadError)
  | 0, _, _ => none
  | fuel + 1, r, args =>
    if r.end_ = false then
      match consumeArg r with
      | none => none
      | some (r1, arg, err) =>
        if err ≠ none then some (args, err)
        else readLoop fuel r1 (if arg ≠ [] then args ++ [arg] else args)
    else some (args, none)

/-- The tokenization of a line: `Read` from `r.pos = 0` on.  The result is
the argument list of the command and the error; `none` when a loop runs out
of fuel, which is more than the length of the line. -/
def tokenize (line : GoString) : Option (List GoString × Option ReadError) :=
  match skipSpaces (line.length + 1) { line := line, pos := 0 } with
  | none => none
  | some r => readLoop (line.length + 1) r []

/-- The function `Read` on the bytes `ReadBytes` returned. -/
def Read (raw : GoString) : Option (List GoString × Option ReadError) :=
  match readLine raw with
  | (_, some err) => some ([], some err)
  | (line, none) => tokenize line

/-- The bytes of the line from the position on: `r.line[r.pos:]`, empty at
and past the end. -/
def Reader.rest (r : Reader) : GoString := r.line.drop r.pos

/-- The closing quote of a quoted argument, as the specification words it:
in the bytes after the opening quote, the offset of the first double quote
that is not the second byte of a backslash pair; `none` when there is none. -/
def closingQuote : GoString → Option Nat
  | [] => none
  | [c] => if c = 34 then some 0 else none
  | c :: c2 :: cs =>
    if c = 34 then some 0
    else if c = 92 then (closingQuote cs).map (fun i => i + 2)
    else (closingQuote (c2 :: cs)).map (fun i => i + 1)

/-- The test of the first loop of `consumeArg`: the space byte. -/
def isSpace (c : UInt8) : Bool := decide (c = 32)

/-- The test of the bare-argument loop of `consumeArg` on a byte of the
line: neither a space nor a newline. -/
def isBare (c : UInt8) : Bool := decide (c ≠ 32) && decide (c ≠ 10)

/-- The states in which the loop `for !r.end()` of `Read` tests its
condition on a line: the state after the leading spaces, and the state after
each call of `consumeArg` that returned no error. -/
inductive LoopState (line : GoString) : Reader → Prop where
  | first (r : Reader) :
      skipSpaces (line.length + 1) { line := line, pos := 0 } = some r → LoopState line r
  | next (r r1 : Reader) (arg : GoString) :
      LoopState line r → r.end_ = false → consumeArg r = some (r1, arg, none) →
      LoopState line r1

/-- The pieces of a line between space bytes, the last piece being built in `cur`. -/
def splitSpace : GoString → GoString → List GoString
  | [], cur => [cur]
  | c :: cs, cur => if c = 32 then cur :: splitSpace cs [] else splitSpace cs (cur ++ [c])

/-- The line split on the space byte, empty pieces removed: the argument list
the specification gives a line without quotes. -/
def spaceFields (line : GoString) : List GoString :=
  (splitSpace line []).filter (fun p => decide (p ≠ []))

/-- What the bare-argument loop of `consumeArg` makes of the bytes `p`: each
byte through `string(b)`. -/
def encodeBare (p : GoString) : GoString := Join (p.map byteToString)

/-! ## internal/statistics -/

/-- The values `GetStats` reads from the process and the Go runtime. -/
structure Runtime where
  ProcessId : Int
  uptime : GoString
  NumCPU : Int
  NumGoroutine : Int
  GOOS : GoString
  GOARCH : GoString
  Version : GoString

def GetStats (R : Runtime) (index : Int) (totalKeys : Int) : List GoString :=
  [ Join [lit "server_pid:", Itoa R.ProcessId],
    Join [lit "server_uptime:", R.uptime],
    Join [lit "server_version:", ReleaseVersion],
    Join [lit "server_network:", ServerInetNetwork],
    Join [lit "system_logical_cpus:", Itoa R.NumCPU],
    Join [lit "runtime_current_threads:", Itoa R.NumGoroutine],
    Join [lit "release_os_arch:", R.GOOS, lit "-", R.GOARCH],
    Join [lit "release_go_version:", R.Version],
    Join [lit "keyspace_keys:", Itoa totalKeys],
    Join [lit "memory_database_shards:", Itoa MemoryCacheShardCount],
    Join [lit "memory_logical_databases:", Itoa MemoryCacheContainerSize],
    Join [lit "memory_active_database:", Itoa index] ]

/-! ## internal/commands -/

/-- A `net.Addr`: the results of its `Network()` and `String()`. -/
structure Addr where
  Network : GoString
  String : GoString
deriving DecidableEq, Repr

/-- The connection of a session as a command sees it: the remote address,
and whether `Write` returns an error. -/
structure Conn where
  RemoteAddr : Addr
  writeErr : Bool
deriving DecidableEq, Repr

/-- The struct `Command`.  Its field `Database` is the database the session
bound, `*memory.Container[Index]`: it shares the shards of the container, so
the model reads and writes it inside the container at `Index`. -/
structure Command where
  Arguments : List GoString
  Connection : Conn
  Index : Int
deriving DecidableEq, Repr

/-- A goroutine started by `setExpiration`: after `duration` nanoseconds it
deletes `key` from the database at `db`. -/
structure Timer where
  db : Int
  key : GoString
  duration : Int
deriving DecidableEq, Repr

/-- What one call of `Execute` does: the container afterwards, the bytes
handed to `Connection.Write`, the goroutines started, whether SIGINT was sent
to the process, and the two results (next index, keep the connection open). -/
structure Outcome where
  Container : CacheContainer
  wire : GoString
  timers : List Timer
  sigint : Bool
  Index : Int
  keepOpen : Bool
deriving DecidableEq, Repr

def Command.Empty (cmd : Command) : Bool := decide (cmd.Arguments.length = 0)

/-- The argument `cmd.Arguments[i]` (read only below the checked length). -/
def Command.arg (cmd : Command) (i : Nat) : GoString := cmd.Arguments.getD i []

/-- The database `memory.Container[i]`. -/
def database (C : CacheContainer) (i : Int) : ShardedCache := C.getD i.toNat []

/-- The container after the database at `i` went through an operation. -/
def setDatabase (C : CacheContainer) (i : Int) (db : ShardedCache) : CacheContainer :=
  C.set i.toNat db

/-- The recurring end of a command: write the response, return
`(index, false)` on a write error and `(index, true)` otherwise. -/
def respond (cmd : Command) (C : CacheContainer) (responses : List GoString) (index : Int) :
    Outcome :=
  { Container := C, wire := BuildResponse responses, timers := [], sigint := false,
    Index := index, keepOpen := !cmd.Connection.writeErr }

def wrongArguments (cmd : Command) (C : CacheContainer) : Outcome :=
  respond cmd C
    [lit "!1\r\n", lit "-ERR wrong number of arguments for '", cmd.arg 0, lit "' command\r\n"]
    cmd.Index

def isAdmin (address : Addr) : Bool :=
  if address.Network = lit "unix" then true
  else if Contains address.String (lit "127.0.0.1") || Contains address.String (lit "[::1]")
  then true
  else false

def selectCommand (cmd : Command) (C : CacheContainer) : Outcome :=
  if cmd.Arguments.length ≠ 2 then wrongArguments cmd C
  else
    let r := Atoi (cmd.arg 1)
    if r.2 ≠ none then
      respond cmd C [lit "!1\r\n", lit "-ERR index value is not an integer\r\n"] cmd.Index
    else if r.1 < 0 ∨ r.1 ≥ MemoryCacheContainerSize then
      respond cmd C [lit "!1\r\n", lit "-ERR index value is out of bounds\r\n"] cmd.Index
    else respond cmd C [lit "!1\r\n", lit "+OK\r\n"] r.1

def flushallCommand (cmd : Command) (C : CacheContainer) : Outcome :=
  if cmd.Arguments.length ≠ 1 then wrongArguments cmd C
  else if !isAdmin cmd.Connection.RemoteAddr then
    respond cmd C [lit "!1\r\n", lit "-ERR insufficient permissions\r\n"] cmd.Index
  else respond cmd (C.map Clear) [lit "!1\r\n", lit "+OK\r\n"] cmd.Index

def moveCommand (L : Lib) (cmd : Command) (C : CacheContainer) : Outcome :=
  if cmd.Arguments.length ≠ 3 then wrongArguments cmd C
  else
    let r := Atoi (cmd.arg 2)
    if r.2 ≠ none then
      respond cmd C [lit "!1\r\n", lit "-ERR index value is not an integer\r\n"] cmd.Index
    else if r.1 < 0 ∨ r.1 ≥ MemoryCacheContainerSize then
      respond cmd C [lit "!1\r\n", lit "-ERR index value is out of bounds\r\n"] cmd.Index
    else if r.1 = cmd.Index then respond cmd C [lit "!1\r\n", lit "+OK\r\n"] cmd.Index
    else
      let l := Load L (database C cmd.Index) (cmd.arg 1)
      if l.2 then
        let e := LoadExistStore L (database C r.1) (cmd.arg 1) l.1 false false
        let C1 := setDatabase C r.1 e.1
        if e.2.2 then
          respond cmd C1
            [lit "!1\r\n", lit "-ERR key already exists in destination database\r\n"] cmd.Index
        else
          respond cmd (setDatabase C1 cmd.Index (Delete L (database C1 cmd.Index) (cmd.arg 1)))
            [lit "!1\r\n", lit "+OK\r\n"] cmd.Index
      else respond cmd C [lit "!1\r\n", lit "-ERR no such key\r\n"] cmd.Index

/-- The loop of `mgetCommand`: for each key its value and the line end, or
the line end alone. -/
def mgetLines (L : Lib) (db : ShardedCache) : List GoString → List GoString
  | [] => []
  | k :: ks =>
    let l := Load L db k
    (if l.2 then [l.1, lit "\r\n"] else [lit "\r\n"]) ++ mgetLines L db ks

def mgetCommand (L : Lib) (cmd : Command) (C : CacheContainer) : Outcome :=
  let clen := (cmd.Arguments.drop 1).length
  if clen < 1 then wrongArguments cmd C
  else
    respond cmd C
      ([lit "!", Itoa clen, lit "\r\n"] ++ mgetLines L (database C cmd.Index) (cmd.Arguments.drop 1))
      cmd.Index

/-- The loop of `msetCommand` over the arguments after the command name. -/
def msetLoop (L : Lib) : List GoString → ShardedCache → ShardedCache
  | k :: v :: rest, db => msetLoop L rest (Store L db k v)
  | _, db => db

def msetCommand (L : Lib) (cmd : Command) (C : CacheContainer) : Outcome :=
  let clen := (cmd.Arguments.drop 1).length
  if clen % 2 ≠ 0 ∨ clen = 0 then wrongArguments cmd C
  else
    respond cmd
      (setDatabase C cmd.Index (msetLoop L (cmd.Arguments.drop 1) (database C cmd.Index)))
      [lit "!1\r\n", lit "+OK\r\n"] cmd.Index

def getCommand (L : Lib) (cmd : Command) (C : CacheContainer) : Outcome :=
  if cmd.Arguments.length ≠ 2 then wrongArguments cmd C
  else
    let l := Load L (database C cmd.Index) (cmd.arg 1)
    if l.2 then respond cmd C [lit "!1\r\n", l.1, lit "\r\n"] cmd.Index
    else respond cmd C [lit "!1\r\n", lit "\r\n"] cmd.Index

/-- The variables the option loop of `setCommand` assigns. -/
structure setOptions where
  syntaxError : Bool
  checkExist : Bool
  checkExpire : Bool
  optExist : GoString
  optExpire : GoString
  durExpire : GoString
deriving DecidableEq, Repr

/-- The loop `for idx := 3; idx < clen; idx++` of `setCommand` over the
arguments from index 3 on; an expiration option takes the next argument as
its duration and skips it. -/
def setParse (L : Lib) : List GoString → setOptions → setOptions
  | [], st => st
  | [o], st =>
    let option := ToUpper L o
    if (option = lit "NX" ∨ option = lit "XX") ∧ st.checkExist = false then
      { st with optExist := option, checkExist := true }
    else if (option = lit "PX" ∨ option = lit "EX") ∧ st.checkExpire = false then
      { st with optExpire := option, syntaxError := true }
    else { st with syntaxError := true }
  | o :: d :: rest, st =>
    let option := ToUpper L o
    if (option = lit "NX" ∨ option = lit "XX") ∧ st.checkExist = false then
      setParse L (d :: rest) { st with optExist := option, checkExist := true }
    else if (option = lit "PX" ∨ option = lit "EX") ∧ st.checkExpire = false then
      setParse L rest { st with optExpire := option, durExpire := d, checkExpire := true }
    else setParse L (d :: rest) { st with syntaxError := true }

/-- The function `setExpiration`: the goroutines it starts (none for a
duration value of zero, which is also what `Atoi` leaves on a syntax error). -/
def setExpiration (key option ttl : GoString) (db : Int) : List Timer :=
  let value := (Atoi ttl).1
  if value = 0 then []
  else
    let duration :=
      if option = lit "PX" then wrapInt (1000000 * value) else wrapInt (1000000000 * value)
    [{ db := db, key := key, duration := duration }]

def setCommand (L : Lib) (cmd : Command) (C : CacheContainer) : Outcome :=
  let clen := cmd.Arguments.length
  if clen < 3 ∨ clen > 6 then wrongArguments cmd C
  else
    let st := setParse L (cmd.Arguments.drop 3)
      { syntaxError := false, checkExist := false, checkExpire := false,
        optExist := [], optExpire := [], durExpire := [] }
    if st.syntaxError then
      respond cmd C [lit "!1\r\n", lit "-ERR wrong syntax for '", cmd.arg 0, lit "' command\r\n"]
        cmd.Index
    else
      let written : Outcome :=
        if st.checkExist then
          let exists_ : Bool := decide (st.optExist = lit "XX")
          let e := LoadExistStore L (database C cmd.Index) (cmd.arg 1) (cmd.arg 2) exists_ false
          if e.2.2 = exists_ then
            respond cmd (setDatabase C cmd.Index e.1) [lit "!1\r\n", lit "+OK\r\n"] cmd.Index
          else respond cmd (setDatabase C cmd.Index e.1) [lit "!1\r\n", lit "\r\n"] cmd.Index
        else
          respond cmd
            (setDatabase C cmd.Index (Store L (database C cmd.Index) (cmd.arg 1) (cmd.arg 2)))
            [lit "!1\r\n", lit "+OK\r\n"] cmd.Index
      if cmd.Connection.writeErr then written
      else if st.checkExpire then
        { written with timers := setExpiration (cmd.arg 1) st.optExpire st.durExpire cmd.Index }
      else written

/-- The modifier closure of `incrCommand`. -/
def incrModifier (increment : Int) (v : GoString) : GoString × Bool :=
  let r := Atoi v
  if r.2 ≠ none then (v, false)
  else
    let positive : Bool := decide (r.1 > 0)
    let n := wrapInt (r.1 + increment)
    if positive ∧ n < 0 then (v, false) else (Itoa n, true)

/-- The modifier closure of `decrCommand`. -/
def decrModifier (decrement : Int) (v : GoString) : GoString × Bool :=
  let r := Atoi v
  if r.2 ≠ none then (v, false)
  else
    let negative : Bool := decide (r.1 < 0)
    let n := wrapInt (r.1 - decrement)
    if negative ∧ n > 0 then (v, false) else (Itoa n, true)

/-- The common end of `incrCommand` and `decrCommand` once the delta is known. -/
def stepCommand (L : Lib) (cmd : Command) (C : CacheContainer)
    (modifier : GoString → GoString × Bool) : Outcome :=
  let r := LoadModifyStore L (database C cmd.Index) (cmd.arg 1) modifier (lit "0")
  let C1 := setDatabase C cmd.Index r.1
  if !r.2.2 then
    respond cmd C1 [lit "!1\r\n", lit "-ERR value is either not an integer or too large\r\n"]
      cmd.Index
  else respond cmd C1 [lit "!1\r\n", r.2.1, lit "\r\n"] cmd.Index

def incrCommand (L : Lib) (cmd : Command) (C : CacheContainer) : Outcome :=
  let clen := cmd.Arguments.length
  if clen < 2 ∨ clen > 3 then wrongArguments cmd C
  else if clen = 3 then
    let r := Atoi (cmd.arg 2)
    if r.2 ≠ none then
      respond cmd C [lit "!1\r\n", lit "-ERR increment is either not an integer or too large\r\n"]
        cmd.Index
    else if r.1 < 1 then
      respond cmd C [lit "!1\r\n", lit "-ERR inverse/non operations are discouraged\r\n"] cmd.Index
    else stepCommand L cmd C (incrModifier r.1)
  else stepCommand L cmd C (incrModifier 1)

def decrCommand (L : Lib) (cmd : Command) (C : CacheContainer) : Outcome :=
  let clen := cmd.Arguments.length
  if clen < 2 ∨ clen > 3 then wrongArguments cmd C
  else if clen = 3 then
    let r := Atoi (cmd.arg 2)
    if r.2 ≠ none then
      respond cmd C [lit "!1\r\n", lit "-ERR decrement is either not an integer or too large\r\n"]
        cmd.Index
    else if r.1 < 1 then
      respond cmd C [lit "!1\r\n", lit "-ERR inverse/non operations are discouraged\r\n"] cmd.Index
    else stepCommand L cmd C (decrModifier r.1)
  else stepCommand L cmd C (decrModifier 1)

def appendCommand (L : Lib) (cmd : Command) (C : CacheContainer) : Outcome :=
  if cmd.Arguments.length ≠ 3 then wrongArguments cmd C
  else
    let r := LoadModifyStore L (database C cmd.Index) (cmd.arg 1)
      (fun v => (Join [v, cmd.arg 2], true)) (lit "")
    respond cmd (setDatabase C cmd.Index r.1) [lit "!1\r\n", r.2.1, lit "\r\n"] cmd.Index

def prependCommand (L : Lib) (cmd : Command) (C : CacheContainer) : Outcome :=
  if cmd.Arguments.length ≠ 3 then wrongArguments cmd C
  else
    let r := LoadModifyStore L (database C cmd.Index) (cmd.arg 1)
      (fun v => (Join [cmd.arg 2, v], true)) (lit "")
    respond cmd (setDatabase C cmd.Index r.1) [lit "!1\r\n", r.2.1, lit "\r\n"] cmd.Index

/-- The loop of `lenCommand`. -/
def lenLines (L : Lib) (db : ShardedCache) : List GoString → List GoString
  | [] => []
  | k :: ks =>
    let l := Load L db k
    (if l.2 then [lit "$", Itoa l.1.length, lit "\r\n"] else [lit "$-1\r\n"]) ++ lenLines L db ks

def lenCommand (L : Lib) (cmd : Command) (C : CacheContainer) : Outcome :=
  let clen := (cmd.Arguments.drop 1).length
  if clen < 1 then wrongArguments cmd C
  else
    respond cmd C
      ([lit "!", Itoa clen, lit "\r\n"] ++ lenLines L (database C cmd.Index) (cmd.Arguments.drop 1))
      cmd.Index

def renameCommand (L : Lib) (cmd : Command) (C : CacheContainer) : Outcome :=
  if cmd.Arguments.length ≠ 3 then wrongArguments cmd C
  else
    let r := LoadAndDelete L (database C cmd.Index) (cmd.arg 1)
    if r.2.2 then
      respond cmd (setDatabase C cmd.Index (Store L r.1 (cmd.arg 2) r.2.1))
        [lit "!1\r\n", lit "+OK\r\n"] cmd.Index
    else respond cmd (setDatabase C cmd.Index r.1) [lit "!1\r\n", lit "-ERR no such key\r\n"]
      cmd.Index

def copyCommand (L : Lib) (cmd : Command) (C : CacheContainer) : Outcome :=
  let clen := cmd.Arguments.length
  if clen < 3 ∨ clen > 4 then wrongArguments cmd C
  else if clen = 4 ∧ ToUpper L (cmd.arg 3) ≠ lit "REPLACE" then
    respond cmd C [lit "!1\r\n", lit "-ERR unknown option\r\n"] cmd.Index
  else
    let exists_ : Bool := false
    let overwrite : Bool := decide (clen = 4)
    let l := Load L (database C cmd.Index) (cmd.arg 1)
    if l.2 then
      let e := LoadExistStore L (database C cmd.Index) (cmd.arg 2) l.1 exists_ overwrite
      if e.2.2 = exists_ ∨ overwrite = true then
        respond cmd (setDatabase C cmd.Index e.1) [lit "!1\r\n", lit "+OK\r\n"] cmd.Index
      else
        respond cmd (setDatabase C cmd.Index e.1)
          [lit "!1\r\n", lit "-ERR destination key is not empty\r\n"] cmd.Index
    else respond cmd C [lit "!1\r\n", lit "-ERR no such key\r\n"] cmd.Index

def getsetCommand (L : Lib) (cmd : Command) (C : CacheContainer) : Outcome :=
  if cmd.Arguments.length ≠ 3 then wrongArguments cmd C
  else
    let e := LoadExistStore L (database C cmd.Index) (cmd.arg 1) (cmd.arg 2) true true
    respond cmd (setDatabase C cmd.Index e.1) [lit "!1\r\n", e.2.1, lit "\r\n"] cmd.Index

def getdelCommand (L : Lib) (cmd : Command) (C : CacheContainer) : Outcome :=
  if cmd.Arguments.length ≠ 2 then wrongArguments cmd C
  else
    let r := LoadAndDelete L (database C cmd.Index) (cmd.arg 1)
    if r.2.2 then
      respond cmd (setDatabase C cmd.Index r.1) [lit "!1\r\n", r.2.1, lit "\r\n"] cmd.Index
    else respond cmd (setDatabase C cmd.Index r.1) [lit "!1\r\n", lit "\r\n"] cmd.Index

/-- The loop of `delCommand`: the database afterwards and the count. -/
def delLoop (L : Lib) : List GoString → ShardedCache → Int → ShardedCache × Int
  | [], db, count => (db, count)
  | k :: ks, db, count =>
    let r := LoadAndDelete L db k
    delLoop L ks r.1 (if r.2.2 then count + 1 else count)

def delCommand (L : Lib) (cmd : Command) (C : CacheContainer) : Outcome :=
  if cmd.Arguments.length < 2 then wrongArguments cmd C
  else
    let r := delLoop L (cmd.Arguments.drop 1) (database C cmd.Index) 0
    respond cmd (setDatabase C cmd.Index r.1) [lit "!1\r\n", lit ":", Itoa r.2, lit "\r\n"]
      cmd.Index

/-- The loop of `existsCommand`. -/
def existsLoop (L : Lib) (db : ShardedCache) : List GoString → Int → Int
  | [], count => count
  | k :: ks, count => existsLoop L db ks (if (Load L db k).2 then count + 1 else count)

def existsCommand (L : Lib) (cmd : Command) (C : CacheContainer) : Outcome :=
  if cmd.Arguments.length < 2 then wrongArguments cmd C
  else
    respond cmd C
      [lit "!1\r\n", lit ":", Itoa (existsLoop L (database C cmd.Index) (cmd.Arguments.drop 1) 0),
        lit "\r\n"]
      cmd.Index

def quitCommand (cmd : Command) (C : CacheContainer) : Outcome :=
  if cmd.Arguments.length ≠ 1 then wrongArguments cmd C
  else { respond cmd C [lit "!1\r\n", lit "+OK\r\n"] cmd.Index with keepOpen := false }

/-- The loop of `infoCommand`: each stat and the line end. -/
def infoLines : List GoString → List GoString
  | [] => []
  | stat :: stats => [stat, lit "\r\n"] ++ infoLines stats

def infoCommand (R : Runtime) (cmd : Command) (C : CacheContainer) : Outcome :=
  if cmd.Arguments.length ≠ 1 then wrongArguments cmd C
  else
    let totalKeys := (Count (database C cmd.Index)).1
    let stats := GetStats R cmd.Index totalKeys
    respond cmd C ([lit "!", Itoa stats.length, lit "\r\n"] ++ infoLines stats) cmd.Index

def echoCommand (cmd : Command) (C : CacheContainer) : Outcome :=
  if cmd.Arguments.length ≠ 2 then wrongArguments cmd C
  else respond cmd C [lit "!1\r\n", cmd.arg 1, lit "\r\n"] cmd.Index

def flushCommand (cmd : Command) (C : CacheContainer) : Outcome :=
  if cmd.Arguments.length ≠ 1 then wrongArguments cmd C
  else if isAdmin cmd.Connection.RemoteAddr then
    respond cmd (setDatabase C cmd.Index (Clear (database C cmd.Index)))
      [lit "!1\r\n", lit "+OK\r\n"] cmd.Index
  else respond cmd C [lit "!1\r\n", lit "-ERR insufficient permissions\r\n"] cmd.Index

def shutdownCommand (cmd : Command) (C : CacheContainer) : Outcome :=
  if cmd.Arguments.length ≠ 1 then wrongArguments cmd C
  else if isAdmin cmd.Connection.RemoteAddr then
    { respond cmd C [lit "!1\r\n", lit "+OK\r\n"] cmd.Index with sigint := true, keepOpen := false }
  else respond cmd C [lit "!1\r\n", lit "-ERR insufficient permissions\r\n"] cmd.Index

/-- The method `Execute`, called by the session on a command that is not
empty, with `cmd.Database` bound to `memory.Container[cmd.Index]`. -/
def Execute (L : Lib) (R : Runtime) (cmd : Command) (C : CacheContainer) : Outcome :=
  let command := ToUpper L (cmd.arg 0)
  if command = lit "SELECT" then selectCommand cmd C
  else if command = lit "FLUSHALL" then flushallCommand cmd C
  else if command = lit "MOVE" then moveCommand L cmd C
  else if command = lit "MGET" then mgetCommand L cmd C
  else if command = lit "MSET" then msetCommand L cmd C
  else if command = lit "GET" then getCommand L cmd C
  else if command = lit "SET" then setCommand L cmd C
  else if command = lit "INCR" then incrCommand L cmd C
  else if command = lit "DECR" then decrCommand L cmd C
  else if command = lit "APPEND" then appendCommand L cmd C
  else if command = lit "PREPEND" then prependCommand L cmd C
  else if command = lit "LEN" then lenCommand L cmd C
  else if command = lit "RENAME" then renameCommand L cmd C
  else if command = lit "COPY" then copyCommand L cmd C
  else if command = lit "GETSET" then getsetCommand L cmd C
  else if command = lit "GETDEL" then getdelCommand L cmd C
  else if command = lit "DEL" then delCommand L cmd C
  else if command = lit "EXISTS" then existsCommand L cmd C
  else if command = lit "QUIT" then quitCommand cmd C
  else if command = lit "INFO" then infoCommand R cmd C
  else if command = lit "ECHO" then echoCommand cmd C
  else if command = lit "FLUSH" then flushCommand cmd C
  else if command = lit "SHUTDOWN" then shutdownCommand cmd C
  else respond cmd C [lit "!1\r\n", lit "-ERR unknown command '", command, lit "'\r\n"] cmd.Index

/-! ## internal/storage -/

/-- The function `strings.Split` for a separator of one byte: the pieces of
`s` between the separators, one piece more than there are separators. -/
def Split : GoString → UInt8 → List GoString
  | [], _ => [[]]
  | c :: s, sep =>
    if c = sep then [] :: Split s sep
    else (c :: (Split s sep).headD []) :: (Split s sep).tail

/-- The two results of `os.ReadFile(filename)` as `DiskRead` tells them
apart: the content, the error `os.ErrNotExist`, or another error with its
text. -/
inductive FileRead where
  | ok (content : GoString)
  | notExist
  | failed (err : GoString)
deriving DecidableEq, Repr

/-- The loop of `DiskRead` over the rows with its variables `pair` and `kv`:
every second row stores the two rows collected. -/
def diskReadLoop (L : Lib) : List GoString → Nat → List GoString → ShardedCache → ShardedCache
  | [], _, _, database => database
  | row :: rows, pair, kv, database =>
    let kv1 := kv ++ [row]
    let pair1 := pair + 1
    if pair1 = 2 then diskReadLoop L rows 0 [] (Store L database (kv1.getD 0 []) (kv1.getD 1 []))
    else diskReadLoop L rows pair1 kv1 database

/-- The function `DiskRead`, given what `os.ReadFile` returned for the file
name: the database afterwards and the error (its text), `none` for `nil`. -/
def DiskRead (L : Lib) (file : FileRead) (database : ShardedCache) :
    ShardedCache × Option GoString :=
  match file with
  | FileRead.notExist => (database, some (lit "no snapshot to restore"))
  | FileRead.failed err =>
    (database, some (Join [lit "error reading snapshot from disk (", err, lit ")"]))
  | FileRead.ok fileContent =>
    let fileRows := Split fileContent 10
    let rowCount := fileRows.length
    let fileRows1 := if rowCount > 0 then fileRows.take (rowCount - 1) else fileRows
    let rowCount1 := if rowCount > 0 then rowCount - 1 else rowCount
    if rowCount1 % 2 ≠ 0 then (database, some (lit "error loading incomplete snapshot"))
    else (diskReadLoop L fileRows1 0 [] database, none)

/-- The bytes `fmt.Fprintf(file, "%v\n", item)` writes for each item. -/
def snapshotBytes (items : List GoString) : GoString := Join (items.map (fun item => item ++ [10]))

/-- The function `DiskWrite`.  `createErr` is the error of `os.Create`, if
any, and `writeErr` the number of the first `Fprintf` that fails, with its
error, if any.  The first result is the content of the file after the call,
`none` when the call neither created nor truncated the file; the second is
the error (its text), `none` for `nil`. -/
def DiskWrite (database : ShardedCache) (createErr : Option GoString)
    (writeErr : Option (Nat × GoString)) : Option GoString × Option GoString :=
  let items := (Range database).1
  if items.length = 0 then (none, some (lit "no data to persist to disk"))
  else
    match createErr with
    | some err => (none, some (Join [lit "error creating snapshot file (", err, lit ")"]))
    | none =>
      match writeErr with
      | some (n, err) =>
        if n < items.length then
          (some (snapshotBytes (items.take n)),
            some (Join [lit "error writing snapshot file (", err, lit ")"]))
        else (some (snapshotBytes items), none)
      | none => (some (snapshotBytes items), none)

/-! ## States of a running server -/

/-- The container of a running server: `NewCacheContainer` built it with
`MemoryCacheContainerSize` databases, each with at least one shard, and no
operation changes either number. -/
def CacheContainer.ok (C : CacheContainer) : Prop :=
  (C.length : Int) = MemoryCacheContainerSize ∧ ∀ db ∈ C, db ≠ []

instance (C : CacheContainer) : Decidable (CacheContainer.ok C) :=
  inferInstanceAs (Decidable ((C.length : Int) = MemoryCacheContainerSize ∧ ∀ db ∈ C, db ≠ []))

/-- The database index of a session: within the container. -/
def indexOk (i : Int) : Prop := 0 ≤ i ∧ i < MemoryCacheContainerSize

instance (i : Int) : Decidable (indexOk i) :=
  inferInstanceAs (Decidable (0 ≤ i ∧ i < MemoryCacheContainerSize))

/-- No stored key and no stored value of the container holds a newline byte. -/
def CacheContainer.clean (C : CacheContainer) : Prop :=
  ∀ db ∈ C, ∀ sh ∈ db, ∀ e ∈ sh.m, (10 : UInt8) ∉ e.1 ∧ (10 : UInt8) ∉ e.2

instance (C : CacheContainer) : Decidable (CacheContainer.clean C) :=
  inferInstanceAs
    (Decidable (∀ db ∈ C, ∀ sh ∈ db, ∀ e ∈ sh.m, (10 : UInt8) ∉ e.1 ∧ (10 : UInt8) ∉ e.2))

/-- The strings the Go runtime gives `GetStats` hold no newline byte. -/
def Runtime.clean (R : Runtime) : Prop :=
  (10 : UInt8) ∉ R.uptime ∧ (10 : UInt8) ∉ R.GOOS ∧ (10 : UInt8) ∉ R.GOARCH ∧
    (10 : UInt8) ∉ R.Version

instance (R : Runtime) : Decidable (Runtime.clean R) :=
  inferInstanceAs (Decidable ((10 : UInt8) ∉ R.uptime ∧ (10 : UInt8) ∉ R.GOOS ∧
    (10 : UInt8) ∉ R.GOARCH ∧ (10 : UInt8) ∉ R.Version))

/-- The envelope of the protocol for the payload lines `lines`: the count
line `!N\r\n` with `N` the number of lines in decimal, then each line
followed by `\r\n`. -/
def envelope (lines : List GoString) : GoString :=
  lit "!" ++ Itoa lines.length ++ lit "\r\n" ++ Join (lines.map (fun l => l ++ lit "\r\n"))

/-- The bytes are exactly one envelope: the envelope of payload lines that
hold no newline byte, so that the lines of the envelope are these lines. -/
def IsEnvelope (out : GoString) : Prop :=
  ∃ lines : List GoString, (∀ l ∈ lines, (10 : UInt8) ∉ l) ∧ out = envelope lines

/-- The shape of a database built by the operations of the store: a shard
holds a key at most once, and only keys whose shard index is its own. -/
def ShardedCache.wf (L : Lib) (sc : ShardedCache) : Prop :=
  (∀ sh ∈ sc, (sh.m.map Prod.fst).Nodup) ∧
    ∀ i < sc.length, ∀ e ∈ (sc.getD i { m := [] }).m, getShardIndex L sc e.1 = i

instance (L : Lib) (sc : ShardedCache) : Decidable (ShardedCache.wf L sc) :=
  inferInstanceAs (Decidable ((∀ sh ∈ sc, (sh.m.map Prod.fst).Nodup) ∧
    ∀ i < sc.length, ∀ e ∈ (sc.getD i { m := [] }).m, getShardIndex L sc e.1 = i))

/-- The entries of all the shards of a database. -/
def entries (sc : ShardedCache) : GoMap := (sc.map (fun sh => sh.m)).flatten

/-! ## The options of SET, as the specification words them -/

/-- An existence guard: NX or XX in any letter case. -/
def isGuard (L : Lib) (o : GoString) : Prop := ToUpper L o = lit "NX" ∨ ToUpper L o = lit "XX"

instance (L : Lib) (o : GoString) : Decidable (isGuard L o) :=
  inferInstanceAs (Decidable (ToUpper L o = lit "NX" ∨ ToUpper L o = lit "XX"))

/-- An expiration keyword: EX or PX in any letter case. -/
def isExpire (L : Lib) (o : GoString) : Prop := ToUpper L o = lit "PX" ∨ ToUpper L o = lit "EX"

instance (L : Lib) (o : GoString) : Decidable (isExpire L o) :=
  inferInstanceAs (Decidable (ToUpper L o = lit "PX" ∨ ToUpper L o = lit "EX"))

/-- The option lists of at most one existence guard and at most one
expiration (a keyword followed by one duration argument), in either order. -/
def acceptedOptions (L : Lib) : List GoString → Prop
  | [] => True
  | [g] => isGuard L g
  | [e, _] => isExpire L e
  | [a, b, c] => (isGuard L a ∧ isExpire L b) ∨ (isExpire L a ∧ isGuard L c)
  | _ => False

instance acceptedOptions.decidable (L : Lib) :
    (opts : List GoString) → Decidable (acceptedOptions L opts)
  | [] => isTrue trivial
  | [g] => inferInstanceAs (Decidable (isGuard L g))
  | [e, _] => inferInstanceAs (Decidable (isExpire L e))
  | [a, b, c] =>
    inferInstanceAs (Decidable ((isGuard L a ∧ isExpire L b) ∨ (isExpire L a ∧ isGuard L c)))
  | _ :: _ :: _ :: _ :: _ => isFalse (fun h => h)

/-- The state of the option loop of `setCommand` before the first option. -/
def setOptionsInit : setOptions :=
  { syntaxError := false, checkExist := false, checkExpire := false,
    optExist := [], optExpire := [], durExpire := [] }

/-! ## The error branches of Execute -/

/-- The payload line of the arity error. -/
def arityLine (cmd : Command) : GoString :=
  Join [lit "-ERR wrong number of arguments for '", cmd.arg 0, lit "' command\r\n"]

/-- The branches of `selectCommand` that write an error, by their conditions
in the order of the source: the payload line written, `none` when the
command reaches its `+OK`. -/
def selectError (cmd : Command) : Option GoString :=
  if cmd.Arguments.length ≠ 2 then some (arityLine cmd)
  else if (Atoi (cmd.arg 1)).2 ≠ none then some (lit "-ERR index value is not an integer\r\n")
  else if (Atoi (cmd.arg 1)).1 < 0 ∨ (Atoi (cmd.arg 1)).1 ≥ MemoryCacheContainerSize then
    some (lit "-ERR index value is out of bounds\r\n")
  else none

/-- The error branches of `flushallCommand`, `flushCommand` and
`shutdownCommand`. -/
def adminError (cmd : Command) : Option GoString :=
  if cmd.Arguments.length ≠ 1 then some (arityLine cmd)
  else if isAdmin cmd.Connection.RemoteAddr then none
  else some (lit "-ERR insufficient permissions\r\n")

/-- The error branches of `moveCommand`. -/
def moveError (L : Lib) (cmd : Command) (C : CacheContainer) : Option GoString :=
  if cmd.Arguments.length ≠ 3 then some (arityLine cmd)
  else if (Atoi (cmd.arg 2)).2 ≠ none then some (lit "-ERR index value is not an integer\r\n")
  else if (Atoi (cmd.arg 2)).1 < 0 ∨ (Atoi (cmd.arg 2)).1 ≥ MemoryCacheContainerSize then
    some (lit "-ERR index value is out of bounds\r\n")
  else if (Atoi (cmd.arg 2)).1 = cmd.Index then none
  else if (Load L (database C cmd.Index) (cmd.arg 1)).2 then
    if (LoadExistStore L (database C (Atoi (cmd.arg 2)).1) (cmd.arg 1)
        (Load L (database C cmd.Index) (cmd.arg 1)).1 false false).2.2 then
      some (lit "-ERR key already exists in destination database\r\n")
    else none
  else some (lit "-ERR no such key\r\n")

/-- The error branch of a command that checks its arity only. -/
def arityError (cmd : Command) (wrong : Bool) : Option GoString :=
  if wrong then some (arityLine cmd) else none

/-- The error branches of `setCommand`. -/
def setError (L : Lib) (cmd : Command) : Option GoString :=
  if cmd.Arguments.length < 3 ∨ cmd.Arguments.length > 6 then some (arityLine cmd)
  else if (setParse L (cmd.Arguments.drop 3) setOptionsInit).syntaxError then
    some (Join [lit "-ERR wrong syntax for '", cmd.arg 0, lit "' command\r\n"])
  else none

/-- The error branch of INCR and DECR once the delta is known: the modifier
returned the status false. -/
def stepError (L : Lib) (cmd : Command) (C : CacheContainer)
    (modifier : GoString → GoString × Bool) : Option GoString :=
  if !(LoadModifyStore L (database C cmd.Index) (cmd.arg 1) modifier (lit "0")).2.2 then
    some (lit "-ERR value is either not an integer or too large\r\n")
  else none

/-- The error branches of `incrCommand`. -/
def incrError (L : Lib) (cmd : Command) (C : CacheContainer) : Option GoString :=
  if cmd.Arguments.length < 2 ∨ cmd.Arguments.length > 3 then some (arityLine cmd)
  else if cmd.Arguments.length = 3 then
    if (Atoi (cmd.arg 2)).2 ≠ none then
      some (lit "-ERR increment is either not an integer or too large\r\n")
    else if (Atoi (cmd.arg 2)).1 < 1 then
      some (lit "-ERR inverse/non operations are discouraged\r\n")
    else stepError L cmd C (incrModifier (Atoi (cmd.arg 2)).1)
  else stepError L cmd C (incrModifier 1)

/-- The error branches of `decrCommand`. -/
def decrError (L : Lib) (cmd : Command) (C : CacheContainer) : Option GoString :=
  if cmd.Arguments.length < 2 ∨ cmd.Arguments.length > 3 then some (arityLine cmd)
  else if cmd.Arguments.length = 3 then
    if (Atoi (cmd.arg 2)).2 ≠ none then
      some (lit "-ERR decrement is either not an integer or too large\r\n")
    else if (Atoi (cmd.arg 2)).1 < 1 then
      some (lit "-ERR inverse/non operations are discouraged\r\n")
    else stepError L cmd C (decrModifier (Atoi (cmd.arg 2)).1)
  else stepError L cmd C (decrModifier 1)

/-- The error branches of `renameCommand`. -/
def renameError (L : Lib) (cmd : Command) (C : CacheContainer) : Option GoString :=
  if cmd.Arguments.length ≠ 3 then some (arityLine cmd)
  else if (LoadAndDelete L (database C cmd.Index) (cmd.arg 1)).2.2 then none
  else some (lit "-ERR no such key\r\n")

/-- The error branches of `copyCommand`. -/
def copyError (L : Lib) (cmd : Command) (C : CacheContainer) : Option GoString :=
  if cmd.Arguments.length < 3 ∨ cmd.Arguments.length > 4 then some (arityLine cmd)
  else if cmd.Arguments.length = 4 ∧ ToUpper L (cmd.arg 3) ≠ lit "REPLACE" then
    some (lit "-ERR unknown option\r\n")
  else if (Load L (database C cmd.Index) (cmd.arg 1)).2 then
    if (LoadExistStore L (database C cmd.Index) (cmd.arg 2)
          (Load L (database C cmd.Index) (cmd.arg 1)).1 false
          (decide (cmd.Arguments.length = 4))).2.2 = false ∨
        decide (cmd.Arguments.length = 4) = true then none
    else some (lit "-ERR destination key is not empty\r\n")
  else some (lit "-ERR no such key\r\n")

/-- The error `Execute` answers the command with, if it answers with one:
the argument, semantic, authorization and unknown-command errors, which are
the branches of the source that write a `-ERR` line; `none` when the command
runs to its reply of success. -/
def errorReply (L : Lib) (cmd : Command) (C : CacheContainer) : Option GoString :=
  let command := ToUpper L (cmd.arg 0)
  if command = lit "SELECT" then selectError cmd
  else if command = lit "FLUSHALL" then adminError cmd
  else if command = lit "MOVE" then moveError L cmd C
  else if command = lit "MGET" then arityError cmd (decide ((cmd.Arguments.drop 1).length < 1))
  else if command = lit "MSET" then
    arityError cmd (decide ((cmd.Arguments.drop 1).length % 2 ≠ 0 ∨
      (cmd.Arguments.drop 1).length = 0))
  else if command = lit "GET" then arityError cmd (decide (cmd.Arguments.length ≠ 2))
  else if command = lit "SET" then setError L cmd
  else if command = lit "INCR" then incrError L cmd C
  else if command = lit "DECR" then decrError L cmd C
  else if command = lit "APPEND" then arityError cmd (decide (cmd.Arguments.length ≠ 3))
  else if command = lit "PREPEND" then arityError cmd (decide (cmd.Arguments.length ≠ 3))
  else if command = lit "LEN" then arityError cmd (decide ((cmd.Arguments.drop 1).length < 1))
  else if command = lit "RENAME" then renameError L cmd C
  else if command = lit "COPY" then copyError L cmd C
  else if command = lit "GETSET" then arityError cmd (decide (cmd.Arguments.length ≠ 3))
  else if command = lit "GETDEL" then arityError cmd (decide (cmd.Arguments.length ≠ 2))
  else if command = lit "DEL" then arityError cmd (decide (cmd.Arguments.length < 2))
  else if command = lit "EXISTS" then arityError cmd (decide (cmd.Arguments.length < 2))
  else if command = lit "QUIT" then arityError cmd (decide (cmd.Arguments.length ≠ 1))
  else if command = lit "INFO" then arityError cmd (decide (cmd.Arguments.length ≠ 1))
  else if command = lit "ECHO" then arityError cmd (decide (cmd.Arguments.length ≠ 2))
  else if command = lit "FLUSH" then adminError cmd
  else if command = lit "SHUTDOWN" then adminError cmd
  else some (Join [lit "-ERR unknown command '", command, lit "'\r\n"])

/-- Every key of every database of `C1` holds what it holds in `C`. -/
def sameContent (L : Lib) (C C1 : CacheContainer) : Prop :=
  C1.length = C.length ∧
    ∀ (j : Int) (k : GoString), stored L (database C1 j) k = stored L (database C j) k

/-- The outcome of a command answered with the error line `e`: the error in
its envelope, the content of every database as before, the current index,
no goroutine, no signal, and the second result false on a write error only. -/
def rejected (L : Lib) (cmd : Command) (C : CacheContainer) (e : GoString) (o : Outcome) :
    Prop :=
  o.wire = lit "!1\r\n" ++ e ∧ sameContent L C o.Container ∧
    (e ≠ lit "-ERR value is either not an integer or too large\r\n" → o.Container = C) ∧
    o.Index = cmd.Index ∧ o.keepOpen = (!cmd.Connection.writeErr) ∧ o.timers = [] ∧
    o.sigint = false

/-! ## The states of a database -/

/-- The databases reachable from `NewShardedCache(S)` by the operations that
write: `Store`, `Delete`, `LoadAndDelete`, `LoadExistStore`,
`LoadModifyStore` and `Clear`, with any arguments. -/
inductive Reachable (L : Lib) (S : Nat) : ShardedCache → Prop where
  | new : Reachable L S (NewShardedCache S)
  | store (sc : ShardedCache) (key value : GoString) :
      Reachable L S sc → Reachable L S (Store L sc key value)
  | delete (sc : ShardedCache) (key : GoString) :
      Reachable L S sc → Reachable L S (Delete L sc key)
  | loadAndDelete (sc : ShardedCache) (key : GoString) :
      Reachable L S sc → Reachable L S (LoadAndDelete L sc key).1
  | loadExistStore (sc : ShardedCache) (key value : GoString) (exists_ overwrite : Bool) :
      Reachable L S sc → Reachable L S (LoadExistStore L sc key value exists_ overwrite).1
  | loadModifyStore (sc : ShardedCache) (key : GoString)
      (modifier : GoString → GoString × Bool) (initial : GoString) :
      Reachable L S sc → Reachable L S (LoadModifyStore L sc key modifier initial).1
  | clear (sc : ShardedCache) : Reachable L S sc → Reachable L S (Clear sc)

/-! ## The index of a session -/

/-- The loop of `StartSession` over the commands read from the connection,
from the value `newIndex` on: the values of `newIndex` with which the loop
binds `memory.Container[newIndex]` (or keeps that binding) and executes a
command, until a command is empty, `Execute` returns the status false, or
the commands end. -/
def sessionIndices (L : Lib) (R : Runtime) (conn : Conn) :
    List (List GoString) → Int → CacheContainer → List Int
  | [], _, _ => []
  | args :: rest, newIndex, C =>
    if args.length = 0 then []
    else
      let o := Execute L R { Arguments := args, Connection := conn, Index := newIndex } C
      newIndex :: (if o.keepOpen then sessionIndices L R conn rest o.Index o.Container else [])

/-- The index with which `moveCommand` evaluates `memory.Container[newIndex]`
for the destination, `none` when it returns before that line. -/
def moveDestination (cmd : Command) : Option Int :=
  if cmd.Arguments.length ≠ 3 then none
  else if (Atoi (cmd.arg 2)).2 ≠ none then none
  else if (Atoi (cmd.arg 2)).1 < 0 ∨ (Atoi (cmd.arg 2)).1 ≥ MemoryCacheContainerSize then none
  else if (Atoi (cmd.arg 2)).1 = cmd.Index then none
  else some (Atoi (cmd.arg 2)).1

/-- An outcome that keeps the index of the session within the container and
the container at its size. -/
def framed (cmd : Command) (C : CacheContainer) (o : Outcome) : Prop :=
  (indexOk cmd.Index → indexOk o.Index) ∧ o.Container.length = C.length

/-! ## Commands that differ in the spelling of the name -/

/-- The payload line of the syntax error of SET. -/
def syntaxLine (cmd : Command) : GoString :=
  Join [lit "-ERR wrong syntax for '", cmd.arg 0, lit "' command\r\n"]

/-- The outcomes `o` of `cmd` and `o1` of `cmd1` are the same, but for the
name of the command in the reply of an arity error or a syntax error, which
is the first argument as the client typed it. -/
def sameButName (cmd cmd1 : Command) (o o1 : Outcome) : Prop :=
  o1.Container = o.Container ∧ o1.Index = o.Index ∧ o1.keepOpen = o.keepOpen ∧
    o1.timers = o.timers ∧ o1.sigint = o.sigint ∧
    (o1.wire = o.wire ∨
      (o.wire = lit "!1\r\n" ++ arityLine cmd ∧ o1.wire = lit "!1\r\n" ++ arityLine cmd1) ∨
      (o.wire = lit "!1\r\n" ++ syntaxLine cmd ∧ o1.wire = lit "!1\r\n" ++ syntaxLine cmd1))

/-! ## go-valhaj/client -/

namespace Client

/-- The errors `Exec` returns: the end of the stream (`io.EOF` of the
buffered reader), the two errors of the client packages, the error of
`strconv.Atoi`, the error of `conn.Write`, and the panic of `make` on a
negative capacity. -/
inductive ClientError where
  | EOF
  | errIncompleteEmptyData
  | errInvalidProtoCount
  | atoi (e : NumError)
  | write
  | makeslice
deriving DecidableEq, Repr

def readEmptyMessage : Nat := 2

def countMinMessage : Nat := 2

/-- The method `bufio.Reader.ReadString(delim)` on the bytes still to come:
the bytes through the first delimiter and the bytes left, or all the bytes
and `io.EOF` when no delimiter comes. -/
def ReadString (stream : GoString) (delim : UInt8) :
    (GoString × Option ClientError) × GoString :=
  if delim ∈ stream then
    ((stream.takeWhile (fun c => decide (c ≠ delim)) ++ [delim], none),
      (stream.dropWhile (fun c => decide (c ≠ delim))).tail)
  else ((stream, some ClientError.EOF), [])

/-- The method `Reader.Read` of the client: one line of the reply, without
its `\r\n`, and the bytes left in the stream. -/
def Read (stream : GoString) : (GoString × Option ClientError) × GoString :=
  let r := ReadString stream 10
  if r.1.2 ≠ none then (([], r.1.2), r.2)
  else
    let line := r.1.1
    let lineLen := line.length
    if lineLen < readEmptyMessage then (([], some ClientError.errIncompleteEmptyData), r.2)
    else if line.getD (lineLen - 2) 0 ≠ 13 then
      (([], some ClientError.errIncompleteEmptyData), r.2)
    else ((line.take (lineLen - 2), none), r.2)

/-- The loop `for i := 0; i < rescount; i++` of `Exec`, by the number of
rounds left. -/
def execLoop : Nat → GoString → List GoString → (List GoString × Option ClientError) × GoString
  | 0, stream, response => ((response, none), stream)
  | n + 1, stream, response =>
    let r := Read stream
    if r.1.2 ≠ none then (([], r.1.2), r.2)
    else execLoop n r.2 (response ++ [r.1.1])

/-- The function `Exec` after the query was handed to `conn.Write`, which
failed or not, on the bytes the server sends from then on: the response
with the error, and the bytes left in the stream. -/
def Exec (writeErr : Bool) (stream : GoString) :
    (List GoString × Option ClientError) × GoString :=
  if writeErr then (([], some ClientError.write), stream)
  else
    let r := Read stream
    if r.1.2 ≠ none then (([], r.1.2), r.2)
    else if r.1.1.length < countMinMessage then
      (([], some ClientError.errInvalidProtoCount), r.2)
    else
      let a := Atoi (r.1.1.drop 1)
      match a.2 with
      | some e => (([], some (ClientError.atoi e)), r.2)
      | none =>
        if a.1 < 0 then (([], some ClientError.makeslice), r.2)
        else execLoop a.1.toNat r.2 []

end Client

/-! ## Test fixtures -/

/-- A library instance for concrete runs: the hash byte is the length of the
key, the rune-wise upper-casing is the identity. -/
def testLib : Lib := { sha1Byte17 := fun k => k.length, mapToUpper := fun s => s }

def testRuntime : Runtime :=
  { ProcessId := 4242, uptime := lit "1m0s", NumCPU := 8, NumGoroutine := 5,
    GOOS := lit "linux", GOARCH := lit "amd64", Version := lit "go1.22.1" }

/-- A local TCP peer whose writes succeed. -/
def testConn : Conn :=
  { RemoteAddr := { Network := lit "tcp", String := lit "127.0.0.1:50000" }, writeErr := false }

/-- The command of the request line `s` on database `i`, when it tokenizes. -/
def testCommand (s : String) (i : Int) : Command :=
  { Arguments := match tokenize (lit s) with
      | some (args, none) => args
      | _ => [],
    Connection := testConn, Index := i }

/-- A small container: three databases of four shards. -/
def testContainer : CacheContainer := NewCacheContainer 3 4

/-- The small container with one key stored in database 0. -/
def testContainerWith (k v : String) : CacheContainer :=
  setDatabase testContainer 0 (Store testLib (database testContainer 0) (lit k) (lit v))

end Valhaj

/-! # Theorems -/

namespace Valhaj

/-! ## The store -/

theorem mapLookup_filter (m : GoMap) (k k' : GoString) :
    mapLookup (m.filter (fun e => decide (e.1 ≠ k))) k' =
      if k' = k then none else mapLookup m k' := by
  induction m with
  | nil => simp [mapLookup]
  | cons e m ih =>
    obtain ⟨a, b⟩ := e
    by_cases hak : a = k
    · subst hak
      by_cases hk : k' = a
      · subst hk
        simpa [List.filter_cons] using ih
      · have hne : ¬ a = k' := fun h => hk h.symm
        simp [List.filter_cons, mapLookup, hne, hk] at ih ⊢
        exact ih
    · by_cases hk : k' = k
      · subst hk
        simp [List.filter_cons, mapLookup, hak] at ih ⊢
        exact ih
      · by_cases hak' : a = k'
        · simp [List.filter_cons, mapLookup, hak, hak', hk]
        · simp [List.filter_cons, mapLookup, hak, hak', hk] at ih ⊢
          exact ih

theorem mapLookup_mapStore (m : GoMap) (k v k' : GoString) :
    mapLookup (mapStore m k v) k' = if k' = k then some v else mapLookup m k' := by
  unfold mapStore
  by_cases hk : k' = k
  · subst hk
    simp [mapLookup]
  · have hne : ¬ k = k' := fun h => hk h.symm
    show mapLookup ((k, v) :: m.filter (fun e => decide (e.1 ≠ k))) k' = _
    rw [mapLookup, if_neg hne, mapLookup_filter, if_neg hk, if_neg hk]

theorem mapLookup_mapDelete (m : GoMap) (k k' : GoString) :
    mapLookup (mapDelete m k) k' = if k' = k then none else mapLookup m k' :=
  mapLookup_filter m k k'

theorem getShardIndex_lt (L : Lib) (sc : ShardedCache) (key : GoString) (h : sc ≠ []) :
    getShardIndex L sc key < sc.length :=
  Nat.mod_lt _ (List.length_pos.mpr h)

theorem putShard_length (L : Lib) (sc : ShardedCache) (key : GoString) (m : GoMap) :
    (putShard L sc key m).length = sc.length := by
  simp [putShard]

theorem putShard_ne_nil (L : Lib) (sc : ShardedCache) (key : GoString) (m : GoMap)
    (h : sc ≠ []) : putShard L sc key m ≠ [] := by
  intro hnil
  have := putShard_length L sc key m
  rw [hnil] at this
  exact h (List.length_eq_zero.mp this.symm)

/-- A read after the shard of `key` was written: the new map for a key of the
same shard, the old shard otherwise. -/
theorem stored_putShard (L : Lib) (sc : ShardedCache) (key k' : GoString) (m : GoMap)
    (h : sc ≠ []) :
    stored L (putShard L sc key m) k' =
      if getShardIndex L sc k' = getShardIndex L sc key then mapLookup m k'
      else stored L sc k' := by
  have hlt := getShardIndex_lt L sc key h
  unfold stored getShard
  have hidx : ∀ x, getShardIndex L (putShard L sc key m) x = getShardIndex L sc x := by
    intro x; simp [getShardIndex, putShard]
  rw [hidx]
  unfold putShard
  by_cases hs : getShardIndex L sc k' = getShardIndex L sc key
  · rw [hs]
    simp [List.getD_eq_getElem?_getD, List.getElem?_set, hlt]
  · have hs' : ¬ getShardIndex L sc key = getShardIndex L sc k' := fun e => hs e.symm
    simp [List.getD_eq_getElem?_getD, List.getElem?_set, hs, hs']

theorem stored_putShard_mapStore (L : Lib) (sc : ShardedCache) (key v k' : GoString)
    (h : sc ≠ []) :
    stored L (putShard L sc key (mapStore (getShard L sc key).m key v)) k' =
      if k' = key then some v else stored L sc k' := by
  rw [stored_putShard L sc key k' _ h, mapLookup_mapStore]
  by_cases hk : k' = key
  · subst hk; simp
  · by_cases hs : getShardIndex L sc k' = getShardIndex L sc key
    · simp [hk, hs, stored, getShard]
    · simp [hk, hs]

theorem stored_putShard_mapDelete (L : Lib) (sc : ShardedCache) (key k' : GoString)
    (h : sc ≠ []) :
    stored L (putShard L sc key (mapDelete (getShard L sc key).m key)) k' =
      if k' = key then none else stored L sc k' := by
  rw [stored_putShard L sc key k' _ h, mapLookup_mapDelete]
  by_cases hk : k' = key
  · subst hk; simp
  · by_cases hs : getShardIndex L sc k' = getShardIndex L sc key
    · simp [hk, hs, stored, getShard]
    · simp [hk, hs]

theorem Load_eq (L : Lib) (sc : ShardedCache) (key : GoString) :
    Load L sc key = commaOk (stored L sc key) := rfl

theorem commaOk_fst (o : Option GoString) : (commaOk o).1 = o.getD [] := by
  cases o <;> rfl

theorem commaOk_snd (o : Option GoString) : (commaOk o).2 = o.isSome := by
  cases o <;> rfl

theorem stored_Store (L : Lib) (sc : ShardedCache) (key v k' : GoString) (h : sc ≠ []) :
    stored L (Store L sc key v) k' = if k' = key then some v else stored L sc k' :=
  stored_putShard_mapStore L sc key v k' h

theorem stored_Delete (L : Lib) (sc : ShardedCache) (key k' : GoString) (h : sc ≠ []) :
    stored L (Delete L sc key) k' = if k' = key then none else stored L sc k' :=
  stored_putShard_mapDelete L sc key k' h

/-- C1: `LoadExistStore(k, v, wantExists, overwrite)` returns the old value of
`k` (the empty string when `k` was absent) and whether `k` was present; it
writes `v` at `k` exactly when the old presence equals `wantExists` or
`overwrite` is set, leaves the cache as it was otherwise, and never changes
another key. -/
theorem C1_LoadExistStore (L : Lib) (sc : ShardedCache) (k v : GoString)
    (wantExists overwrite : Bool) (h : sc ≠ []) :
    (LoadExistStore L sc k v wantExists overwrite).2.1 = (stored L sc k).getD [] ∧
    (LoadExistStore L sc k v wantExists overwrite).2.2 = (stored L sc k).isSome ∧
    (((stored L sc k).isSome = wantExists ∨ overwrite = true) →
      stored L (LoadExistStore L sc k v wantExists overwrite).1 k = some v) ∧
    (¬ ((stored L sc k).isSome = wantExists ∨ overwrite = true) →
      (LoadExistStore L sc k v wantExists overwrite).1 = sc) ∧
    (∀ k', k' ≠ k →
      stored L (LoadExistStore L sc k v wantExists overwrite).1 k' = stored L sc k') ∧
    (LoadExistStore L sc k v wantExists overwrite).1.length = sc.length := by
  have hc : (commaOk (mapLookup (getShard L sc k).m k)).2 = (stored L sc k).isSome :=
    commaOk_snd _
  have hv : (commaOk (mapLookup (getShard L sc k).m k)).1 = (stored L sc k).getD [] :=
    commaOk_fst _
  unfold LoadExistStore
  simp only [hc, hv]
  by_cases hcond : (stored L sc k).isSome = wantExists ∨ overwrite = true
  · simp only [if_pos hcond]
    refine ⟨trivial, trivial, fun _ => ?_, fun hn => absurd hcond hn, fun k' hk' => ?_, ?_⟩
    · rw [stored_putShard_mapStore L sc k v k h]; simp
    · rw [stored_putShard_mapStore L sc k v k' h]; simp [hk']
    · exact putShard_length _ _ _ _
  · simp only [if_neg hcond]
    exact ⟨trivial, trivial, fun hp => absurd hp hcond, fun _ => trivial, fun _ _ => trivial,
      trivial⟩

theorem C1_LoadExistStore_witness :
    stored testLib
      (LoadExistStore testLib (NewShardedCache 4) (lit "k") (lit "v") false false).1 (lit "k") =
      some (lit "v") :=
  (C1_LoadExistStore testLib (NewShardedCache 4) (lit "k") (lit "v") false false
    (by decide)).2.2.1 (by decide)

/-- C2: `LoadModifyStore(k, f, initial)` applies `f` to the current value of
`k`, or to `initial` when `k` is absent, stores the first result of `f` at `k`
whatever the status is (so `k` is present afterwards), returns both results of
`f`, and never changes another key. -/
theorem C2_LoadModifyStore (L : Lib) (sc : ShardedCache) (k : GoString)
    (f : GoString → GoString × Bool) (initial : GoString) (h : sc ≠ []) :
    (LoadModifyStore L sc k f initial).2.1 = (f ((stored L sc k).getD initial)).1 ∧
    (LoadModifyStore L sc k f initial).2.2 = (f ((stored L sc k).getD initial)).2 ∧
    stored L (LoadModifyStore L sc k f initial).1 k =
      some (f ((stored L sc k).getD initial)).1 ∧
    (∀ k', k' ≠ k → stored L (LoadModifyStore L sc k f initial).1 k' = stored L sc k') ∧
    (LoadModifyStore L sc k f initial).1.length = sc.length := by
  have hval : (if !(commaOk (mapLookup (getShard L sc k).m k)).2 then initial
      else (commaOk (mapLookup (getShard L sc k).m k)).1) = (stored L sc k).getD initial := by
    unfold stored
    cases mapLookup (getShard L sc k).m k <;> simp [commaOk]
  unfold LoadModifyStore
  simp only [hval]
  refine ⟨trivial, trivial, ?_, fun k' hk' => ?_, putShard_length _ _ _ _⟩
  · rw [stored_putShard_mapStore L sc k _ k h]; simp
  · rw [stored_putShard_mapStore L sc k _ k' h]; simp [hk']

theorem C2_LoadModifyStore_witness :
    stored testLib
      (LoadModifyStore testLib (NewShardedCache 4) (lit "k") (fun v => (v ++ lit "x", false))
        (lit "0")).1 (lit "k") = some (lit "0x") :=
  (C2_LoadModifyStore testLib (NewShardedCache 4) (lit "k") (fun v => (v ++ lit "x", false))
    (lit "0") (by decide)).2.2.1

/-! ## Containers -/

theorem database_ne_nil (C : CacheContainer) (i : Int) (hC : CacheContainer.ok C)
    (hi : indexOk i) : database C i ≠ [] := by
  obtain ⟨hlen, hall⟩ := hC
  obtain ⟨h0, h3⟩ := hi
  have hlt : i.toNat < C.length := by
    have : ((i.toNat : Nat) : Int) = i := Int.toNat_of_nonneg h0
    omega
  unfold database
  rw [List.getD_eq_getElem?_getD, List.getElem?_eq_getElem hlt]
  exact hall _ (List.getElem_mem hlt)

theorem toNat_lt_length (C : CacheContainer) (i : Int) (hC : CacheContainer.ok C)
    (hi : indexOk i) : i.toNat < C.length := by
  obtain ⟨hlen, _⟩ := hC
  obtain ⟨h0, h3⟩ := hi
  have : ((i.toNat : Nat) : Int) = i := Int.toNat_of_nonneg h0
  omega

theorem database_setDatabase_same (C : CacheContainer) (i : Int) (db : ShardedCache)
    (h : i.toNat < C.length) : database (setDatabase C i db) i = db := by
  simp [database, setDatabase, List.getD_eq_getElem?_getD, List.getElem?_set, h]

theorem getElem?_setDatabase_other (C : CacheContainer) (i : Int) (db : ShardedCache) (j : Nat)
    (h : j ≠ i.toNat) : (setDatabase C i db)[j]? = C[j]? := by
  have h' : ¬ i.toNat = j := fun e => h e.symm
  simp [setDatabase, List.getElem?_set, h']

theorem setDatabase_length (C : CacheContainer) (i : Int) (db : ShardedCache) :
    (setDatabase C i db).length = C.length := by
  simp [setDatabase]

/-! ## Dispatch -/

theorem Execute_SET (L : Lib) (R : Runtime) (cmd : Command) (C : CacheContainer)
    (h : ToUpper L (cmd.arg 0) = lit "SET") : Execute L R cmd C = setCommand L cmd C := by
  simp only [Execute, h]
  rfl

theorem Execute_GET (L : Lib) (R : Runtime) (cmd : Command) (C : CacheContainer)
    (h : ToUpper L (cmd.arg 0) = lit "GET") : Execute L R cmd C = getCommand L cmd C := by
  simp only [Execute, h]
  rfl

/-! ## SET and GET -/

theorem BuildResponse_three (a b c : GoString) : BuildResponse [a, b, c] = a ++ b ++ c := by
  simp [BuildResponse, Join]

/-- C3: on every database, `SET k v` without options replies
`!1\r\n+OK\r\n`; a `GET k` executed next on the same database replies `!1\r\n`,
then `v`, then `\r\n`; the SET leaves every other key of the database and
every other database as they were. -/
theorem C3_set_then_get (L : Lib) (R : Runtime) (C : CacheContainer) (conn conn' : Conn)
    (idx : Int) (c g k v : GoString) (hC : CacheContainer.ok C) (hi : indexOk idx)
    (hc : ToUpper L c = lit "SET") (hg : ToUpper L g = lit "GET") :
    (Execute L R { Arguments := [c, k, v], Connection := conn, Index := idx } C).wire =
      lit "!1\r\n+OK\r\n" ∧
    (Execute L R { Arguments := [g, k], Connection := conn', Index := idx }
      (Execute L R { Arguments := [c, k, v], Connection := conn, Index := idx } C).Container).wire
      = lit "!1\r\n" ++ v ++ lit "\r\n" ∧
    (∀ k', k' ≠ k →
      stored L (database
        (Execute L R { Arguments := [c, k, v], Connection := conn, Index := idx } C).Container
        idx) k' = stored L (database C idx) k') ∧
    (∀ j : Nat, j ≠ idx.toNat →
      (Execute L R { Arguments := [c, k, v], Connection := conn, Index := idx } C).Container[j]?
        = C[j]?) ∧
    (Execute L R { Arguments := [c, k, v], Connection := conn, Index := idx } C).Container.length
      = C.length := by
  have hdb := database_ne_nil C idx hC hi
  have hlt := toNat_lt_length C idx hC hi
  have hset : Execute L R { Arguments := [c, k, v], Connection := conn, Index := idx } C =
      respond { Arguments := [c, k, v], Connection := conn, Index := idx }
        (setDatabase C idx (Store L (database C idx) k v)) [lit "!1\r\n", lit "+OK\r\n"] idx := by
    rw [Execute_SET L R { Arguments := [c, k, v], Connection := conn, Index := idx } C hc]
    cases hw : conn.writeErr <;>
      simp [setCommand, setParse, Command.arg, hw, respond]
  rw [hset]
  refine ⟨?_, ?_, fun k' hk' => ?_, fun j hj => ?_, ?_⟩
  · simp only [respond]
    decide
  · rw [Execute_GET L R { Arguments := [g, k], Connection := conn', Index := idx } _ hg]
    have hst : stored L (Store L (database C idx) k v) k = some v := by
      rw [stored_Store L _ k v k hdb]; simp
    simp [getCommand, Command.arg, respond, Load_eq, database_setDatabase_same C idx _ hlt, hst,
      commaOk, BuildResponse_three]
  · simp only [respond]
    rw [database_setDatabase_same C idx _ hlt, stored_Store L _ k v k' hdb]
    simp [hk']
  · simp only [respond]
    exact getElem?_setDatabase_other C idx _ j hj
  · simp only [respond]
    exact setDatabase_length C idx _

theorem C3_set_then_get_witness :
    (Execute testLib testRuntime
      { Arguments := [lit "get", lit "600"], Connection := testConn, Index := 0 }
      (Execute testLib testRuntime
        { Arguments := [lit "set", lit "600", lit "hi"], Connection := testConn, Index := 0 }
        testContainer).Container).wire = lit "!1\r\n" ++ lit "hi" ++ lit "\r\n" :=
  (C3_set_then_get testLib testRuntime testContainer testConn testConn 0 (lit "set") (lit "get")
    (lit "600") (lit "hi") (by decide) (by decide) (by decide) (by decide)).2.1

/-! ## strconv: ranges and digits -/

theorem wrapInt_of_range (x : Int) (h1 : -(2 ^ 63) ≤ x) (h2 : x < 2 ^ 63) : wrapInt x = x := by
  unfold wrapInt
  norm_num at h1 h2 ⊢
  omega

theorem wrapInt_of_over (x : Int) (h1 : 2 ^ 63 ≤ x) (h2 : x < 2 ^ 64) :
    wrapInt x = x - 2 ^ 64 := by
  unfold wrapInt
  norm_num at h1 h2 ⊢
  omega

theorem wrapInt_of_under (x : Int) (h1 : -(2 ^ 64) ≤ x) (h2 : x < -(2 ^ 63)) :
    wrapInt x = x + 2 ^ 64 := by
  unfold wrapInt
  norm_num at h1 h2 ⊢
  omega

theorem atoiFastLoop_bound (cs : GoString) :
    ∀ n m, atoiFastLoop cs n = some m → m < (n + 1) * 10 ^ cs.length := by
  induction cs with
  | nil =>
    intro n m h
    simp [atoiFastLoop] at h
    subst h
    simp
  | cons c cs ih =>
    intro n m h
    unfold atoiFastLoop at h
    by_cases hd : isDigit c = true
    · simp only [hd, Bool.not_true, Bool.false_eq_true, if_false] at h
      have hb := ih _ _ h
      have hc : c.toNat - 48 ≤ 9 := by
        simp only [isDigit, Bool.and_eq_true, decide_eq_true_eq] at hd
        omega
      have hstep : n * 10 + (c.toNat - 48) + 1 ≤ (n + 1) * 10 := by omega
      calc m < (n * 10 + (c.toNat - 48) + 1) * 10 ^ cs.length := hb
        _ ≤ ((n + 1) * 10) * 10 ^ cs.length := Nat.mul_le_mul_right _ hstep
        _ = (n + 1) * 10 ^ (c :: cs).length := by
          rw [List.length_cons, pow_succ]; ring
    · simp [hd] at h

theorem ParseInt_range (s : GoString) (h : (ParseInt s).2 = none) :
    -(2 ^ 63) ≤ (ParseInt s).1 ∧ (ParseInt s).1 < 2 ^ 63 := by
  unfold ParseInt at h ⊢
  cases s with
  | nil => simp at h
  | cons c cs =>
    simp only at h ⊢
    generalize ParseUint (if c = 43 ∨ c = 45 then cs else c :: cs) = pu at h ⊢
    obtain ⟨un, e⟩ := pu
    cases e with
    | some e =>
      cases e with
      | ErrSyntax => simp at h
      | ErrRange =>
        simp only at h ⊢
        split_ifs at h ⊢ with h1 h2 h3 <;> simp_all <;> omega
    | none =>
      simp only at h ⊢
      split_ifs at h ⊢ with h1 h2 h3 <;> simp_all <;> omega

/-- A value `Atoi` returns without an error is a signed 64-bit integer. -/
theorem Atoi_range (s : GoString) (h : (Atoi s).2 = none) :
    -(2 ^ 63) ≤ (Atoi s).1 ∧ (Atoi s).1 < 2 ^ 63 := by
  unfold Atoi at h ⊢
  by_cases hlen : 0 < s.length ∧ s.length < 19
  · rw [if_pos hlen] at h ⊢
    cases s with
    | nil => exact absurd hlen.1 (by simp)
    | cons c cs =>
      dsimp only at h ⊢
      generalize decide (c = 45 ∨ c = 43) = signed at h ⊢
      by_cases hsg : (signed && decide (cs.length < 1)) = true
      · rw [if_pos hsg] at h
        exact absurd h (by simp)
      · rw [if_neg hsg] at h ⊢
        cases hf : atoiFastLoop (if signed = true then cs else c :: cs) 0 with
        | none =>
          rw [hf] at h
          exact absurd h (by simp)
        | some n =>
          dsimp only
          have hb := atoiFastLoop_bound _ 0 n hf
          have hl : (if signed = true then cs else c :: cs).length ≤ 18 := by
            have := hlen.2
            simp only [List.length_cons] at this
            split_ifs
            · omega
            · simp only [List.length_cons]; omega
          have hp : 10 ^ (if signed = true then cs else c :: cs).length
              ≤ 10 ^ 18 := Nat.pow_le_pow_right (by norm_num) hl
          have hn : n < 10 ^ 18 := by
            have : n < 10 ^ (if signed = true then cs else c :: cs).length := by
              simpa using hb
            omega
          norm_num at hn ⊢
          split_ifs <;> constructor <;> omega
  · rw [if_neg hlen] at h ⊢
    dsimp only at h ⊢
    have hr := ParseInt_range s h
    rw [wrapInt_of_range _ hr.1 hr.2]
    exact hr

theorem incrModifier_of_ok (d n : Int) (v : GoString) (hv : Atoi v = (n, none)) (hd1 : 1 ≤ d)
    (hd2 : d ≤ 2 ^ 63 - 1) :
    incrModifier d v = if n + d ≤ 2 ^ 63 - 1 then (Itoa (n + d), true) else (v, false) := by
  have hr := Atoi_range v (by rw [hv])
  rw [hv] at hr
  simp only at hr
  unfold incrModifier
  simp only [hv, ne_eq, not_true_eq_false, if_false]
  by_cases hfit : n + d ≤ 2 ^ 63 - 1
  · have hw : wrapInt (n + d) = n + d :=
      wrapInt_of_range _ (by norm_num at hr hd2 ⊢; omega) (by norm_num at hfit ⊢; omega)
    rw [hw, if_pos hfit]
    have : ¬ ((decide (n > 0) = true) ∧ n + d < 0) := by
      intro hc
      have hpos : n > 0 := by simpa using hc.1
      omega
    rw [if_neg this]
  · have hpos : n > 0 := by norm_num at hfit hd2 ⊢; omega
    have hw : wrapInt (n + d) = n + d - 2 ^ 64 :=
      wrapInt_of_over _ (by norm_num at hfit ⊢; omega) (by norm_num at hr hd2 ⊢; omega)
    rw [hw, if_neg hfit]
    have : (decide (n > 0) = true) ∧ n + d - 2 ^ 64 < 0 := by
      refine ⟨by simpa using hpos, ?_⟩
      norm_num at hr hd2 ⊢; omega
    rw [if_pos this]

theorem decrModifier_of_ok (d n : Int) (v : GoString) (hv : Atoi v = (n, none)) (hd1 : 1 ≤ d)
    (hd2 : d ≤ 2 ^ 63 - 1) :
    decrModifier d v = if -(2 ^ 63) ≤ n - d then (Itoa (n - d), true) else (v, false) := by
  have hr := Atoi_range v (by rw [hv])
  rw [hv] at hr
  simp only at hr
  unfold decrModifier
  simp only [hv, ne_eq, not_true_eq_false, if_false]
  by_cases hfit : -(2 ^ 63) ≤ n - d
  · have hw : wrapInt (n - d) = n - d :=
      wrapInt_of_range _ hfit (by norm_num at hr hd2 ⊢; omega)
    rw [hw, if_pos hfit]
    have : ¬ ((decide (n < 0) = true) ∧ n - d > 0) := by
      intro hc
      have hneg : n < 0 := by simpa using hc.1
      omega
    rw [if_neg this]
  · have hneg : n < 0 := by norm_num at hfit hd2 ⊢; omega
    have hw : wrapInt (n - d) = n - d + 2 ^ 64 :=
      wrapInt_of_under _ (by norm_num at hr hd2 ⊢; omega) (by norm_num at hfit ⊢; omega)
    rw [hw, if_neg hfit]
    have : (decide (n < 0) = true) ∧ n - d + 2 ^ 64 > 0 := by
      refine ⟨by simpa using hneg, ?_⟩
      norm_num at hr hd2 ⊢; omega
    rw [if_pos this]

theorem isDigit_ofNat (d : Nat) (hd : d < 10) : isDigit (UInt8.ofNat (48 + d)) = true := by
  interval_cases d <;> decide

theorem digitsLoop_digits (fuel : Nat) :
    ∀ (n : Nat) (acc : GoString), (∀ c ∈ acc, isDigit c = true) →
      ∀ c ∈ digitsLoop fuel n acc, isDigit c = true := by
  induction fuel with
  | zero =>
    intro n acc hacc c hc
    exact hacc c (by simpa [digitsLoop] using hc)
  | succ fuel ih =>
    intro n acc hacc c hc
    have hacc1 : ∀ x ∈ UInt8.ofNat (48 + n % 10) :: acc, isDigit x = true := by
      intro x hx
      rcases List.mem_cons.mp hx with rfl | hx
      · exact isDigit_ofNat _ (Nat.mod_lt _ (by norm_num))
      · exact hacc x hx
    unfold digitsLoop at hc
    dsimp only at hc
    split_ifs at hc with h0
    · exact hacc1 c hc
    · exact ih _ _ hacc1 c hc

theorem natDecimal_digits (n : Nat) : ∀ c ∈ natDecimal n, isDigit c = true :=
  digitsLoop_digits (n + 1) n [] (by simp)

theorem Itoa_cases (i : Int) :
    Itoa i = natDecimal i.toNat ∨ Itoa i = 45 :: natDecimal (-i).toNat := by
  unfold Itoa
  split_ifs
  · exact Or.inr rfl
  · exact Or.inl rfl

theorem Itoa_no_newline (i : Int) : ∀ c ∈ Itoa i, c ≠ 10 := by
  intro c hc
  rcases Itoa_cases i with h | h
  · rw [h] at hc
    have := natDecimal_digits _ c hc
    intro h10
    subst h10
    exact absurd this (by decide)
  · rw [h] at hc
    rcases List.mem_cons.mp hc with rfl | hc
    · decide
    · have := natDecimal_digits _ c hc
      intro h10
      subst h10
      exact absurd this (by decide)

theorem Itoa_ne_err (i : Int) :
    Itoa i ≠ lit "-ERR value is either not an integer or too large" := by
  intro he
  rcases Itoa_cases i with h | h
  · have h45 : (45 : UInt8) ∈ lit "-ERR value is either not an integer or too large" := by
      decide
    rw [← he, h] at h45
    exact absurd (natDecimal_digits _ _ h45) (by decide)
  · have h69 : (69 : UInt8) ∈ (lit "-ERR value is either not an integer or too large").tail := by
      decide
    rw [← he, h] at h69
    exact absurd (natDecimal_digits _ _ (by simpa using h69)) (by decide)

/-! ## The store, once more -/

theorem LoadModifyStore_result (L : Lib) (sc : ShardedCache) (k : GoString)
    (f : GoString → GoString × Bool) (initial : GoString) :
    (LoadModifyStore L sc k f initial).2 = f ((stored L sc k).getD initial) := by
  unfold LoadModifyStore stored
  dsimp only
  cases mapLookup (getShard L sc k).m k <;> simp [commaOk]

theorem LoadModifyStore_cache (L : Lib) (sc : ShardedCache) (k : GoString)
    (f : GoString → GoString × Bool) (initial : GoString) :
    (LoadModifyStore L sc k f initial).1 = Store L sc k (f ((stored L sc k).getD initial)).1 := by
  unfold LoadModifyStore stored Store
  dsimp only
  cases mapLookup (getShard L sc k).m k <;> simp [commaOk]

theorem LoadExistStore_result (L : Lib) (sc : ShardedCache) (k v : GoString) (e o : Bool) :
    (LoadExistStore L sc k v e o).2 = commaOk (stored L sc k) := by
  unfold LoadExistStore stored
  dsimp only
  split_ifs <;> rfl

theorem LoadExistStore_cache (L : Lib) (sc : ShardedCache) (k v : GoString) (e o : Bool) :
    (LoadExistStore L sc k v e o).1 =
      if (stored L sc k).isSome = e ∨ o = true then Store L sc k v else sc := by
  unfold LoadExistStore stored Store
  dsimp only
  rw [commaOk_snd]
  split_ifs <;> rfl

theorem LoadAndDelete_result (L : Lib) (sc : ShardedCache) (k : GoString) :
    (LoadAndDelete L sc k).2 = commaOk (stored L sc k) := by
  unfold LoadAndDelete stored
  dsimp only
  split_ifs <;> rfl

theorem LoadAndDelete_cache (L : Lib) (sc : ShardedCache) (k : GoString) :
    (LoadAndDelete L sc k).1 = if (stored L sc k).isSome then Delete L sc k else sc := by
  unfold LoadAndDelete stored Delete
  dsimp only
  rw [commaOk_snd]
  split_ifs <;> rfl

theorem Store_ne_nil (L : Lib) (sc : ShardedCache) (k v : GoString) (h : sc ≠ []) :
    Store L sc k v ≠ [] := putShard_ne_nil L sc k _ h

theorem Delete_ne_nil (L : Lib) (sc : ShardedCache) (k : GoString) (h : sc ≠ []) :
    Delete L sc k ≠ [] := putShard_ne_nil L sc k _ h

/-! ## INCR and DECR -/

theorem Execute_INCR (L : Lib) (R : Runtime) (cmd : Command) (C : CacheContainer)
    (h : ToUpper L (cmd.arg 0) = lit "INCR") : Execute L R cmd C = incrCommand L cmd C := by
  simp only [Execute, h]
  rfl

theorem Execute_DECR (L : Lib) (R : Runtime) (cmd : Command) (C : CacheContainer)
    (h : ToUpper L (cmd.arg 0) = lit "DECR") : Execute L R cmd C = decrCommand L cmd C := by
  simp only [Execute, h]
  rfl

/-- The reply of `stepCommand` is decided by the results of the modifier on
the current value, or on `"0"` for an absent key. -/
theorem stepCommand_wire (L : Lib) (cmd : Command) (C : CacheContainer)
    (f : GoString → GoString × Bool) :
    (stepCommand L cmd C f).wire =
      if (f ((stored L (database C cmd.Index) (cmd.arg 1)).getD (lit "0"))).2 = true then
        lit "!1\r\n" ++ (f ((stored L (database C cmd.Index) (cmd.arg 1)).getD (lit "0"))).1
          ++ lit "\r\n"
      else lit "!1\r\n-ERR value is either not an integer or too large\r\n" := by
  unfold stepCommand
  dsimp only
  rw [LoadModifyStore_result]
  cases hst : (f ((stored L (database C cmd.Index) (cmd.arg 1)).getD (lit "0"))).2
  · simp only [Bool.not_false, if_true, respond, Bool.false_eq_true, if_false]
    decide
  · simp only [Bool.not_true, Bool.false_eq_true, if_false, respond, if_true]
    exact BuildResponse_three _ _ _

theorem stepCommand_Container (L : Lib) (cmd : Command) (C : CacheContainer)
    (f : GoString → GoString × Bool) :
    (stepCommand L cmd C f).Container =
      setDatabase C cmd.Index (Store L (database C cmd.Index) (cmd.arg 1)
        (f ((stored L (database C cmd.Index) (cmd.arg 1)).getD (lit "0"))).1) := by
  unfold stepCommand
  dsimp only
  rw [LoadModifyStore_cache]
  split_ifs <;> rfl

/-- A value line is never the error line of INCR and DECR. -/
theorem valueLine_ne_errLine (i : Int) :
    lit "!1\r\n" ++ Itoa i ++ lit "\r\n" ≠
      lit "!1\r\n-ERR value is either not an integer or too large\r\n" := by
  intro h
  have hsplit : lit "!1\r\n-ERR value is either not an integer or too large\r\n" =
      lit "!1\r\n" ++ lit "-ERR value is either not an integer or too large" ++ lit "\r\n" := by
    decide
  rw [hsplit, List.append_assoc, List.append_assoc] at h
  have h2 := List.append_cancel_left h
  have h3 := List.append_cancel_right h2
  exact Itoa_ne_err i h3

theorem incrCommand_delta (L : Lib) (C : CacheContainer) (conn : Conn) (idx : Int)
    (c k ds : GoString) (d : Int) (hds : Atoi ds = (d, none)) (hd1 : 1 ≤ d) :
    incrCommand L { Arguments := [c, k, ds], Connection := conn, Index := idx } C =
      stepCommand L { Arguments := [c, k, ds], Connection := conn, Index := idx } C
        (incrModifier d) := by
  have hlt : ¬ d < 1 := by omega
  simp [incrCommand, Command.arg, hds, hlt]

theorem incrCommand_default (L : Lib) (C : CacheContainer) (conn : Conn) (idx : Int)
    (c k : GoString) :
    incrCommand L { Arguments := [c, k], Connection := conn, Index := idx } C =
      stepCommand L { Arguments := [c, k], Connection := conn, Index := idx } C
        (incrModifier 1) := by
  simp [incrCommand]

theorem decrCommand_delta (L : Lib) (C : CacheContainer) (conn : Conn) (idx : Int)
    (c k ds : GoString) (d : Int) (hds : Atoi ds = (d, none)) (hd1 : 1 ≤ d) :
    decrCommand L { Arguments := [c, k, ds], Connection := conn, Index := idx } C =
      stepCommand L { Arguments := [c, k, ds], Connection := conn, Index := idx } C
        (decrModifier d) := by
  have hlt : ¬ d < 1 := by omega
  simp [decrCommand, Command.arg, hds, hlt]

theorem decrCommand_default (L : Lib) (C : CacheContainer) (conn : Conn) (idx : Int)
    (c k : GoString) :
    decrCommand L { Arguments := [c, k], Connection := conn, Index := idx } C =
      stepCommand L { Arguments := [c, k], Connection := conn, Index := idx } C
        (decrModifier 1) := by
  simp [decrCommand]

/-- INCR on a parsable value: the error line exactly when the exact sum
leaves the range, the sum as reply and as stored value otherwise. -/
theorem incr_step (L : Lib) (cmd : Command) (C : CacheContainer) (d n : Int)
    (hC : CacheContainer.ok C) (hi : indexOk cmd.Index) (hd1 : 1 ≤ d) (hd2 : d ≤ 2 ^ 63 - 1)
    (hn : Atoi ((stored L (database C cmd.Index) (cmd.arg 1)).getD (lit "0")) = (n, none)) :
    ((stepCommand L cmd C (incrModifier d)).wire =
        lit "!1\r\n-ERR value is either not an integer or too large\r\n" ↔
      ¬ n + d ≤ 2 ^ 63 - 1) ∧
    (n + d ≤ 2 ^ 63 - 1 →
      (stepCommand L cmd C (incrModifier d)).wire = lit "!1\r\n" ++ Itoa (n + d) ++ lit "\r\n" ∧
      stored L (database (stepCommand L cmd C (incrModifier d)).Container cmd.Index) (cmd.arg 1)
        = some (Itoa (n + d))) := by
  have hm := incrModifier_of_ok d n _ hn hd1 hd2
  have hdb := database_ne_nil C cmd.Index hC hi
  have hlt := toNat_lt_length C cmd.Index hC hi
  rw [stepCommand_wire, stepCommand_Container, hm]
  by_cases hfit : n + d ≤ 2 ^ 63 - 1
  · simp only [if_pos hfit, if_true]
    refine ⟨⟨fun h => absurd h (valueLine_ne_errLine _), fun h => absurd hfit h⟩, fun _ => ?_⟩
    refine ⟨trivial, ?_⟩
    rw [database_setDatabase_same C cmd.Index _ hlt, stored_Store L _ _ _ _ hdb]
    simp
  · simp only [if_neg hfit, Bool.false_eq_true, if_false]
    exact ⟨⟨fun _ => hfit, fun _ => trivial⟩, fun h => absurd h hfit⟩

/-- DECR on a parsable value: the error line exactly when the exact
difference leaves the range, the difference as reply and stored value
otherwise. -/
theorem decr_step (L : Lib) (cmd : Command) (C : CacheContainer) (d n : Int)
    (hC : CacheContainer.ok C) (hi : indexOk cmd.Index) (hd1 : 1 ≤ d) (hd2 : d ≤ 2 ^ 63 - 1)
    (hn : Atoi ((stored L (database C cmd.Index) (cmd.arg 1)).getD (lit "0")) = (n, none)) :
    ((stepCommand L cmd C (decrModifier d)).wire =
        lit "!1\r\n-ERR value is either not an integer or too large\r\n" ↔
      ¬ -(2 ^ 63) ≤ n - d) ∧
    (-(2 ^ 63) ≤ n - d →
      (stepCommand L cmd C (decrModifier d)).wire = lit "!1\r\n" ++ Itoa (n - d) ++ lit "\r\n" ∧
      stored L (database (stepCommand L cmd C (decrModifier d)).Container cmd.Index) (cmd.arg 1)
        = some (Itoa (n - d))) := by
  have hm := decrModifier_of_ok d n _ hn hd1 hd2
  have hdb := database_ne_nil C cmd.Index hC hi
  have hlt := toNat_lt_length C cmd.Index hC hi
  rw [stepCommand_wire, stepCommand_Container, hm]
  by_cases hfit : -(2 ^ 63) ≤ n - d
  · simp only [if_pos hfit, if_true]
    refine ⟨⟨fun h => absurd h (valueLine_ne_errLine _), fun h => absurd hfit h⟩, fun _ => ?_⟩
    refine ⟨trivial, ?_⟩
    rw [database_setDatabase_same C cmd.Index _ hlt, stored_Store L _ _ _ _ hdb]
    simp
  · simp only [if_neg hfit, Bool.false_eq_true, if_false]
    exact ⟨⟨fun _ => hfit, fun _ => trivial⟩, fun h => absurd h hfit⟩

theorem Atoi_delta_le (ds : GoString) (d : Int) (hds : Atoi ds = (d, none)) :
    d ≤ 2 ^ 63 - 1 := by
  have hr := Atoi_range ds (by rw [hds])
  rw [hds] at hr
  have := hr.2
  simp only at this
  omega

/-- C4: INCR never wraps.  When the current value of `k` (or `"0"` for an
absent key) parses as the integer `n` and the delta argument as `d` with
`1 ≤ d`, `INCR k d` replies the error line `-ERR value is either not an
integer or too large` exactly when the exact sum `n + d` is above 2^63-1, and
otherwise the reply line and the stored value are the decimal digits of
`n + d`; the same holds for `INCR k` with the delta 1. -/
theorem C4_incr_never_wraps (L : Lib) (R : Runtime) (C : CacheContainer) (conn : Conn)
    (idx : Int) (c k ds : GoString) (d n : Int)
    (hC : CacheContainer.ok C) (hi : indexOk idx) (hc : ToUpper L c = lit "INCR")
    (hds : Atoi ds = (d, none)) (hd1 : 1 ≤ d)
    (hn : Atoi ((stored L (database C idx) k).getD (lit "0")) = (n, none)) :
    (((Execute L R { Arguments := [c, k, ds], Connection := conn, Index := idx } C).wire =
        lit "!1\r\n-ERR value is either not an integer or too large\r\n" ↔
      ¬ n + d ≤ 2 ^ 63 - 1) ∧
    (n + d ≤ 2 ^ 63 - 1 →
      (Execute L R { Arguments := [c, k, ds], Connection := conn, Index := idx } C).wire =
        lit "!1\r\n" ++ Itoa (n + d) ++ lit "\r\n" ∧
      stored L (database
        (Execute L R { Arguments := [c, k, ds], Connection := conn, Index := idx } C).Container
        idx) k = some (Itoa (n + d)))) ∧
    (((Execute L R { Arguments := [c, k], Connection := conn, Index := idx } C).wire =
        lit "!1\r\n-ERR value is either not an integer or too large\r\n" ↔
      ¬ n + 1 ≤ 2 ^ 63 - 1) ∧
    (n + 1 ≤ 2 ^ 63 - 1 →
      (Execute L R { Arguments := [c, k], Connection := conn, Index := idx } C).wire =
        lit "!1\r\n" ++ Itoa (n + 1) ++ lit "\r\n" ∧
      stored L (database
        (Execute L R { Arguments := [c, k], Connection := conn, Index := idx } C).Container
        idx) k = some (Itoa (n + 1)))) := by
  have hd2 := Atoi_delta_le ds d hds
  constructor
  · rw [Execute_INCR L R { Arguments := [c, k, ds], Connection := conn, Index := idx } C hc,
      incrCommand_delta L C conn idx c k ds d hds hd1]
    exact incr_step L { Arguments := [c, k, ds], Connection := conn, Index := idx } C d n hC hi
      hd1 hd2 hn
  · rw [Execute_INCR L R { Arguments := [c, k], Connection := conn, Index := idx } C hc,
      incrCommand_default L C conn idx c k]
    exact incr_step L { Arguments := [c, k], Connection := conn, Index := idx } C 1 n hC hi
      (by norm_num) (by norm_num) hn

theorem C4_incr_never_wraps_witness :
    (Execute testLib testRuntime
        { Arguments := [lit "incr", lit "9000", lit "1"], Connection := testConn, Index := 0 }
        (testContainerWith "9000" "9223372036854775806")).wire =
      lit "!1\r\n" ++ Itoa (9223372036854775806 + 1) ++ lit "\r\n" ∧
    (Execute testLib testRuntime
        { Arguments := [lit "incr", lit "9000", lit "2"], Connection := testConn, Index := 0 }
        (testContainerWith "9000" "9223372036854775806")).wire =
      lit "!1\r\n-ERR value is either not an integer or too large\r\n" :=
  ⟨((C4_incr_never_wraps testLib testRuntime (testContainerWith "9000" "9223372036854775806")
      testConn 0 (lit "incr") (lit "9000") (lit "1") 1 9223372036854775806
      (by decide) (by decide) (by decide) (by decide) (by decide) (by decide)).1.2
      (by decide)).1,
    (C4_incr_never_wraps testLib testRuntime (testContainerWith "9000" "9223372036854775806")
      testConn 0 (lit "incr") (lit "9000") (lit "2") 2 9223372036854775806
      (by decide) (by decide) (by decide) (by decide) (by decide) (by decide)).1.1.mpr
      (by decide)⟩

/-- C5: DECR never wraps.  When the current value of `k` (or `"0"` for an
absent key) parses as the integer `n` and the delta argument as `d` with
`1 ≤ d`, `DECR k d` replies the error line exactly when the exact difference
`n - d` is below -2^63, and otherwise the reply line and the stored value are
the decimal digits of `n - d`; the same holds for `DECR k` with the delta 1. -/
theorem C5_decr_never_wraps (L : Lib) (R : Runtime) (C : CacheContainer) (conn : Conn)
    (idx : Int) (c k ds : GoString) (d n : Int)
    (hC : CacheContainer.ok C) (hi : indexOk idx) (hc : ToUpper L c = lit "DECR")
    (hds : Atoi ds = (d, none)) (hd1 : 1 ≤ d)
    (hn : Atoi ((stored L (database C idx) k).getD (lit "0")) = (n, none)) :
    (((Execute L R { Arguments := [c, k, ds], Connection := conn, Index := idx } C).wire =
        lit "!1\r\n-ERR value is either not an integer or too large\r\n" ↔
      ¬ -(2 ^ 63) ≤ n - d) ∧
    (-(2 ^ 63) ≤ n - d →
      (Execute L R { Arguments := [c, k, ds], Connection := conn, Index := idx } C).wire =
        lit "!1\r\n" ++ Itoa (n - d) ++ lit "\r\n" ∧
      stored L (database
        (Execute L R { Arguments := [c, k, ds], Connection := conn, Index := idx } C).Container
        idx) k = some (Itoa (n - d)))) ∧
    (((Execute L R { Arguments := [c, k], Connection := conn, Index := idx } C).wire =
        lit "!1\r\n-ERR value is either not an integer or too large\r\n" ↔
      ¬ -(2 ^ 63) ≤ n - 1) ∧
    (-(2 ^ 63) ≤ n - 1 →
      (Execute L R { Arguments := [c, k], Connection := conn, Index := idx } C).wire =
        lit "!1\r\n" ++ Itoa (n - 1) ++ lit "\r\n" ∧
      stored L (database
        (Execute L R { Arguments := [c, k], Connection := conn, Index := idx } C).Container
        idx) k = some (Itoa (n - 1)))) := by
  have hd2 := Atoi_delta_le ds d hds
  constructor
  · rw [Execute_DECR L R { Arguments := [c, k, ds], Connection := conn, Index := idx } C hc,
      decrCommand_delta L C conn idx c k ds d hds hd1]
    exact decr_step L { Arguments := [c, k, ds], Connection := conn, Index := idx } C d n hC hi
      hd1 hd2 hn
  · rw [Execute_DECR L R { Arguments := [c, k], Connection := conn, Index := idx } C hc,
      decrCommand_default L C conn idx c k]
    exact decr_step L { Arguments := [c, k], Connection := conn, Index := idx } C 1 n hC hi
      (by norm_num) (by norm_num) hn

theorem C5_decr_never_wraps_witness :
    (Execute testLib testRuntime
        { Arguments := [lit "decr", lit "90000", lit "1"], Connection := testConn, Index := 0 }
        (testContainerWith "90000" "-9223372036854775807")).wire =
      lit "!1\r\n" ++ Itoa (-9223372036854775807 - 1) ++ lit "\r\n" ∧
    (Execute testLib testRuntime
        { Arguments := [lit "decr", lit "90000"], Connection := testConn, Index := 0 }
        (testContainerWith "90000" "-9223372036854775808")).wire =
      lit "!1\r\n-ERR value is either not an integer or too large\r\n" :=
  ⟨((C5_decr_never_wraps testLib testRuntime (testContainerWith "90000" "-9223372036854775807")
      testConn 0 (lit "decr") (lit "90000") (lit "1") 1 (-9223372036854775807)
      (by decide) (by decide) (by decide) (by decide) (by decide) (by decide)).1.2
      (by decide)).1,
    (C5_decr_never_wraps testLib testRuntime (testContainerWith "90000" "-9223372036854775808")
      testConn 0 (lit "decr") (lit "90000") (lit "1") 1 (-9223372036854775808)
      (by decide) (by decide) (by decide) (by decide) (by decide) (by decide)).2.1.mpr
      (by decide)⟩

theorem Atoi_zero : Atoi (lit "0") = (0, none) := by decide

theorem incrModifier_zero (d : Int) : (incrModifier d (lit "0")).2 = true := by
  unfold incrModifier
  rw [Atoi_zero]
  simp

theorem decrModifier_zero (d : Int) : (decrModifier d (lit "0")).2 = true := by
  unfold decrModifier
  rw [Atoi_zero]
  simp

theorem incrModifier_shape (d : Int) (v : GoString) :
    ((incrModifier d v).2 = false ∧ (incrModifier d v).1 = v) ∨
    ((incrModifier d v).2 = true ∧ ∃ i, (incrModifier d v).1 = Itoa i) := by
  unfold incrModifier
  dsimp only
  split_ifs
  · exact Or.inl ⟨rfl, rfl⟩
  · exact Or.inl ⟨rfl, rfl⟩
  · exact Or.inr ⟨rfl, _, rfl⟩

theorem decrModifier_shape (d : Int) (v : GoString) :
    ((decrModifier d v).2 = false ∧ (decrModifier d v).1 = v) ∨
    ((decrModifier d v).2 = true ∧ ∃ i, (decrModifier d v).1 = Itoa i) := by
  unfold decrModifier
  dsimp only
  split_ifs
  · exact Or.inl ⟨rfl, rfl⟩
  · exact Or.inl ⟨rfl, rfl⟩
  · exact Or.inr ⟨rfl, _, rfl⟩

/-- A modifier that fails only by returning its input, and never on `"0"`:
when `stepCommand` replies the error line, every key reads as before. -/
theorem stepCommand_error_keeps (L : Lib) (cmd : Command) (C : CacheContainer)
    (f : GoString → GoString × Bool) (hC : CacheContainer.ok C) (hi : indexOk cmd.Index)
    (hzero : (f (lit "0")).2 = true)
    (hshape : ∀ v, ((f v).2 = false ∧ (f v).1 = v) ∨ ((f v).2 = true ∧ ∃ i, (f v).1 = Itoa i))
    (herr : (stepCommand L cmd C f).wire =
      lit "!1\r\n-ERR value is either not an integer or too large\r\n") :
    (∀ k', stored L (database (stepCommand L cmd C f).Container cmd.Index) k' =
      stored L (database C cmd.Index) k') ∧
    (∀ j : Nat, j ≠ cmd.Index.toNat → (stepCommand L cmd C f).Container[j]? = C[j]?) ∧
    (stepCommand L cmd C f).Container.length = C.length := by
  have hdb := database_ne_nil C cmd.Index hC hi
  have hlt := toNat_lt_length C cmd.Index hC hi
  rw [stepCommand_wire] at herr
  rw [stepCommand_Container]
  refine ⟨fun k' => ?_, fun j hj => getElem?_setDatabase_other C _ _ j hj,
    setDatabase_length C _ _⟩
  rw [database_setDatabase_same C cmd.Index _ hlt, stored_Store L _ _ _ _ hdb]
  rcases hshape ((stored L (database C cmd.Index) (cmd.arg 1)).getD (lit "0")) with
    ⟨hst, hv⟩ | ⟨hst, i, hv⟩
  · rw [hv]
    by_cases hk : k' = cmd.arg 1
    · subst hk
      simp only [if_true]
      cases hcur : stored L (database C cmd.Index) (cmd.arg 1) with
      | none =>
        rw [hcur] at hst
        simp only [Option.getD_none] at hst
        rw [hzero] at hst
        exact absurd hst (by simp)
      | some v => simp
    · simp [hk]
  · rw [hst, hv] at herr
    simp only [if_true] at herr
    exact absurd herr (valueLine_ne_errLine i)

/-- C6: whenever INCR or DECR replies `-ERR value is either not an integer or
too large`, every key of the database, the key of the command included, holds
the value it held before (present with the same bytes, or absent as before),
and no other database changes. -/
theorem C6_step_error_keeps_value (L : Lib) (R : Runtime) (cmd : Command) (C : CacheContainer)
    (hC : CacheContainer.ok C) (hi : indexOk cmd.Index)
    (hc : ToUpper L (cmd.arg 0) = lit "INCR" ∨ ToUpper L (cmd.arg 0) = lit "DECR")
    (herr : (Execute L R cmd C).wire =
      lit "!1\r\n-ERR value is either not an integer or too large\r\n") :
    (∀ k', stored L (database (Execute L R cmd C).Container cmd.Index) k' =
      stored L (database C cmd.Index) k') ∧
    (∀ j : Nat, j ≠ cmd.Index.toNat → (Execute L R cmd C).Container[j]? = C[j]?) ∧
    (Execute L R cmd C).Container.length = C.length := by
  have hkeep : ∀ o : Outcome, o.Container = C →
      (∀ k', stored L (database o.Container cmd.Index) k' = stored L (database C cmd.Index) k') ∧
      (∀ j : Nat, j ≠ cmd.Index.toNat → o.Container[j]? = C[j]?) ∧
      o.Container.length = C.length := by
    intro o ho
    rw [ho]
    exact ⟨fun _ => rfl, fun _ _ => rfl, rfl⟩
  rcases hc with hc | hc
  · rw [Execute_INCR L R cmd C hc] at herr ⊢
    unfold incrCommand at herr ⊢
    dsimp only at herr ⊢
    split_ifs at herr ⊢
    · exact hkeep _ rfl
    · exact hkeep _ rfl
    · exact hkeep _ rfl
    · exact stepCommand_error_keeps L cmd C _ hC hi (incrModifier_zero _)
        (incrModifier_shape _) herr
    · exact stepCommand_error_keeps L cmd C _ hC hi (incrModifier_zero _)
        (incrModifier_shape _) herr
  · rw [Execute_DECR L R cmd C hc] at herr ⊢
    unfold decrCommand at herr ⊢
    dsimp only at herr ⊢
    split_ifs at herr ⊢
    · exact hkeep _ rfl
    · exact hkeep _ rfl
    · exact hkeep _ rfl
    · exact stepCommand_error_keeps L cmd C _ hC hi (decrModifier_zero _)
        (decrModifier_shape _) herr
    · exact stepCommand_error_keeps L cmd C _ hC hi (decrModifier_zero _)
        (decrModifier_shape _) herr

theorem C6_step_error_keeps_value_witness :
    stored testLib (database
      (Execute testLib testRuntime
        { Arguments := [lit "incr", lit "600"], Connection := testConn, Index := 0 }
        (testContainerWith "600" "hi")).Container 0) (lit "600") =
      stored testLib (database (testContainerWith "600" "hi") 0) (lit "600") :=
  (C6_step_error_keeps_value testLib testRuntime
    { Arguments := [lit "incr", lit "600"], Connection := testConn, Index := 0 }
    (testContainerWith "600" "hi") (by decide) (by decide) (by decide) (by decide)).1 (lit "600")

/-! ## The tokenizer -/

theorem Reader.end_eq (r : Reader) : r.end_ = decide (r.rest = []) := by
  unfold Reader.end_ Reader.rest
  by_cases h : r.pos ≥ r.line.length
  · simp [h, List.drop_eq_nil_iff]
  · have h' : r.pos < r.line.length := by omega
    simp [h']

theorem Reader.current_eq (r : Reader) : r.current = r.rest.headD 10 := by
  unfold Reader.current
  rw [Reader.end_eq]
  unfold Reader.rest
  rw [List.headD_eq_head?_getD, List.head?_drop]
  by_cases h : r.pos < r.line.length
  · have hne : List.drop r.pos r.line ≠ [] := by
      simp [List.drop_eq_nil_iff, h]
    simp only [hne, decide_False, Bool.false_eq_true, if_false]
    rw [List.getD_eq_getElem?_getD, List.getElem?_eq_getElem h]
    simp
  · have he : List.drop r.pos r.line = [] := by
      simp [List.drop_eq_nil_iff]; omega
    have hn : r.line[r.pos]? = none := by
      simp [List.getElem?_eq_none_iff]; omega
    simp [he, hn]

theorem Reader.rest_advance (r : Reader) : r.advance.rest = r.rest.tail := by
  unfold Reader.advance Reader.rest
  simp [List.tail_drop]

theorem Reader.line_advance (r : Reader) : r.advance.line = r.line := rfl

theorem Reader.pos_advance (r : Reader) : r.advance.pos = r.pos + 1 := rfl

theorem Reader.rest_length_le (r : Reader) : r.rest.length ≤ r.line.length := by
  unfold Reader.rest
  simp

theorem Reader.end_of_nil (r : Reader) (h : r.rest = []) : r.end_ = true := by
  rw [Reader.end_eq, h]; rfl

theorem Reader.end_of_cons (r : Reader) (c : UInt8) (cs : GoString) (h : r.rest = c :: cs) :
    r.end_ = false := by
  rw [Reader.end_eq, h]; rfl

theorem Reader.current_of_cons (r : Reader) (c : UInt8) (cs : GoString) (h : r.rest = c :: cs) :
    r.current = c := by
  rw [Reader.current_eq, h]; rfl

theorem Reader.current_of_nil (r : Reader) (h : r.rest = []) : r.current = 10 := by
  rw [Reader.current_eq, h]; rfl

theorem Reader.rest_advance_of_cons (r : Reader) (c : UInt8) (cs : GoString)
    (h : r.rest = c :: cs) : r.advance.rest = cs := by
  rw [Reader.rest_advance, h]; rfl

theorem Reader.mk_pos_zero (r : Reader) : ({ line := r.line, pos := r.pos + 0 } : Reader) = r := by
  cases r; rfl

/-- The loop of `consumeString` against `closingQuote`: it stops on the
closing quote with the bytes before it, or at the end of the line. -/
theorem consumeStringLoop_spec (fuel : Nat) :
    ∀ (r : Reader) (s : GoString), r.rest.length < fuel →
      (∀ i, closingQuote r.rest = some i →
        consumeStringLoop fuel r s =
          some ({ line := r.line, pos := r.pos + i }, s ++ r.rest.take i) ∧
        ({ line := r.line, pos := r.pos + i } : Reader).current = 34) ∧
      (closingQuote r.rest = none →
        ∃ r1 s1, consumeStringLoop fuel r s = some (r1, s1) ∧ r1.end_ = true ∧
          r1.line = r.line) := by
  induction fuel with
  | zero => intro r s h; exact absurd h (Nat.not_lt_zero _)
  | succ fuel ih =>
    intro r s hlen
    cases hrest : r.rest with
    | nil =>
      have hend := Reader.end_of_nil r hrest
      refine ⟨fun i hi => ?_, fun _ => ⟨r, s, ?_, hend, rfl⟩⟩
      · simp [closingQuote] at hi
      · unfold consumeStringLoop
        simp [hend]
    | cons c cs =>
      have hend := Reader.end_of_cons r c cs hrest
      have hcur := Reader.current_of_cons r c cs hrest
      have hadv := Reader.rest_advance_of_cons r c cs hrest
      rw [hrest] at hlen
      by_cases hq : c = 34
      · subst hq
        have hloop : consumeStringLoop (fuel + 1) r s = some (r, s) := by
          unfold consumeStringLoop
          simp [hcur]
        have hcq : closingQuote ((34 : UInt8) :: cs) = some 0 := by
          cases cs <;> simp [closingQuote]
        refine ⟨fun i hi => ?_, fun hn => ?_⟩
        · rw [hcq] at hi
          have hi0 : i = 0 := by simpa using hi.symm
          subst hi0
          rw [Reader.mk_pos_zero]
          exact ⟨by simpa using hloop, hcur⟩
        · rw [hcq] at hn
          exact absurd hn (by simp)
      · by_cases hb : c = 92
        · subst hb
          have hnext : r.advance.current = cs.headD 10 := by
            rw [Reader.current_eq, hadv]
          have hadv2 : r.advance.advance.rest = cs.tail := by
            rw [Reader.rest_advance, hadv]
          have hloop : consumeStringLoop (fuel + 1) r s =
              consumeStringLoop fuel r.advance.advance (s ++ [92, cs.headD 10]) := by
            conv_lhs => unfold consumeStringLoop
            simp [hcur, hend, hnext]
          have hlen2 : r.advance.advance.rest.length < fuel := by
            rw [hadv2]
            have := List.length_tail cs
            simp only [List.length_cons] at hlen
            omega
          obtain ⟨ih1, ih2⟩ := ih r.advance.advance (s ++ [92, cs.headD 10]) hlen2
          rw [hadv2] at ih1 ih2
          cases cs with
          | nil =>
            refine ⟨fun i hi => ?_, fun _ => ?_⟩
            · simp [closingQuote] at hi
            · obtain ⟨r1, s1, h1, h2, h3⟩ := ih2 (by simp [closingQuote])
              exact ⟨r1, s1, by rw [hloop]; exact h1, h2, h3⟩
          | cons c2 cs1 =>
            have hcq : closingQuote ((92 : UInt8) :: c2 :: cs1) =
                (closingQuote cs1).map (fun i => i + 2) := by
              simp [closingQuote]
            simp only [List.tail_cons] at ih1 ih2
            refine ⟨fun i hi => ?_, fun hn => ?_⟩
            · rw [hcq] at hi
              cases hc1 : closingQuote cs1 with
              | none => rw [hc1] at hi; exact absurd hi (by simp)
              | some j =>
                rw [hc1] at hi
                have hij : i = j + 2 := by simpa using hi.symm
                subst hij
                obtain ⟨h1, h2⟩ := ih1 j hc1
                have hpos : r.advance.advance.pos + j = r.pos + (j + 2) := by
                  simp only [Reader.pos_advance]; omega
                simp only [Reader.line_advance, hpos] at h1 h2
                refine ⟨?_, h2⟩
                rw [hloop, h1]
                simp
            · rw [hcq] at hn
              have hn1 : closingQuote cs1 = none := by
                cases hc1 : closingQuote cs1 with
                | none => rfl
                | some j => rw [hc1] at hn; exact absurd hn (by simp)
              obtain ⟨r1, s1, h1, h2, h3⟩ := ih2 hn1
              exact ⟨r1, s1, by rw [hloop]; exact h1, h2, h3⟩
        · have hloop : consumeStringLoop (fuel + 1) r s =
              consumeStringLoop fuel r.advance (s ++ [c]) := by
            conv_lhs => unfold consumeStringLoop
            simp [hcur, hend, hq, hb]
          have hlen2 : r.advance.rest.length < fuel := by
            rw [hadv]
            simp only [List.length_cons] at hlen
            omega
          obtain ⟨ih1, ih2⟩ := ih r.advance (s ++ [c]) hlen2
          rw [hadv] at ih1 ih2
          have hcq : closingQuote (c :: cs) = (closingQuote cs).map (fun i => i + 1) := by
            cases cs with
            | nil => simp [closingQuote, hq]
            | cons c2 cs1 => simp [closingQuote, hq, hb]
          refine ⟨fun i hi => ?_, fun hn => ?_⟩
          · rw [hcq] at hi
            cases hc1 : closingQuote cs with
            | none => rw [hc1] at hi; exact absurd hi (by simp)
            | some j =>
              rw [hc1] at hi
              have hij : i = j + 1 := by simpa using hi.symm
              subst hij
              obtain ⟨h1, h2⟩ := ih1 j hc1
              have hpos : r.advance.pos + j = r.pos + (j + 1) := by
                simp only [Reader.pos_advance]; omega
              simp only [Reader.line_advance, hpos] at h1 h2
              refine ⟨?_, h2⟩
              rw [hloop, h1]
              simp
          · rw [hcq] at hn
            have hn1 : closingQuote cs = none := by
              cases hc1 : closingQuote cs with
              | none => rfl
              | some j => rw [hc1] at hn; exact absurd hn (by simp)
            obtain ⟨r1, s1, h1, h2, h3⟩ := ih2 hn1
            exact ⟨r1, s1, by rw [hloop]; exact h1, h2, h3⟩

theorem drop_takeWhile_length (p : UInt8 → Bool) (l : GoString) :
    l.drop (l.takeWhile p).length = l.dropWhile p := by
  induction l with
  | nil => simp
  | cons a l ih =>
    by_cases h : p a = true
    · simp [List.takeWhile_cons, List.dropWhile_cons, h, ih]
    · simp [List.takeWhile_cons, List.dropWhile_cons, h]

theorem Reader.rest_mk (r : Reader) (i : Nat) :
    ({ line := r.line, pos := r.pos + i } : Reader).rest = r.rest.drop i := by
  simp [Reader.rest, List.drop_drop, Nat.add_comm]

theorem consumeString_closed (r : Reader) (i : Nat) (h : closingQuote r.rest = some i) :
    consumeString r = some ({ line := r.line, pos := r.pos + i + 1 }, r.rest.take i, none) := by
  have hfuel : r.rest.length < r.line.length + 1 :=
    Nat.lt_succ_of_le (Reader.rest_length_le r)
  obtain ⟨h1, h2⟩ := (consumeStringLoop_spec (r.line.length + 1) r [] hfuel).1 i h
  unfold consumeString
  rw [h1]
  simp [h2, Reader.advance]

theorem consumeString_open (r : Reader) (h : closingQuote r.rest = none) :
    ∃ r1, consumeString r = some (r1, [], some ReadError.errIncongruousQuotes) := by
  have hfuel : r.rest.length < r.line.length + 1 :=
    Nat.lt_succ_of_le (Reader.rest_length_le r)
  obtain ⟨r1, s1, h1, h2, _⟩ := (consumeStringLoop_spec (r.line.length + 1) r [] hfuel).2 h
  have hcur : r1.current = 10 := by
    unfold Reader.current
    simp [h2]
  refine ⟨r1, ?_⟩
  unfold consumeString
  rw [h1]
  simp [hcur]

theorem skipSpaces_spec (fuel : Nat) :
    ∀ r : Reader, r.rest.length < fuel →
      skipSpaces fuel r =
        some { line := r.line, pos := r.pos + (r.rest.takeWhile isSpace).length } := by
  induction fuel with
  | zero => intro r h; exact absurd h (Nat.not_lt_zero _)
  | succ fuel ih =>
    intro r hlen
    cases hrest : r.rest with
    | nil =>
      have hcur := Reader.current_of_nil r hrest
      unfold skipSpaces
      simp [hcur, Reader.mk_pos_zero]
    | cons c cs =>
      have hcur := Reader.current_of_cons r c cs hrest
      have hadv := Reader.rest_advance_of_cons r c cs hrest
      rw [hrest] at hlen
      unfold skipSpaces
      by_cases hc : c = 32
      · subst hc
        have hlen2 : r.advance.rest.length < fuel := by
          rw [hadv]
          simp only [List.length_cons] at hlen
          omega
        rw [if_pos hcur, ih r.advance hlen2, hadv]
        have htw : (List.takeWhile isSpace ((32 : UInt8) :: cs)).length =
            (List.takeWhile isSpace cs).length + 1 := by
          simp [List.takeWhile_cons, isSpace]
        rw [htw]
        simp only [Reader.line_advance, Reader.pos_advance]
        congr 2
        omega
      · have hcur' : ¬ r.current = 32 := by rw [hcur]; exact hc
        have htw : List.takeWhile isSpace (c :: cs) = [] := by
          simp [List.takeWhile_cons, isSpace, hc]
        rw [if_neg hcur', htw]
        simp [Reader.mk_pos_zero]

theorem bareLoop_spec (fuel : Nat) :
    ∀ (r : Reader) (s : GoString), r.rest.length < fuel →
      bareLoop fuel r s =
        some ({ line := r.line, pos := r.pos + (r.rest.takeWhile isBare).length },
          s ++ Join ((r.rest.takeWhile isBare).map byteToString)) := by
  induction fuel with
  | zero => intro r s h; exact absurd h (Nat.not_lt_zero _)
  | succ fuel ih =>
    intro r s hlen
    cases hrest : r.rest with
    | nil =>
      have hend := Reader.end_of_nil r hrest
      unfold bareLoop
      simp [hend, Reader.mk_pos_zero, Join]
    | cons c cs =>
      have hend := Reader.end_of_cons r c cs hrest
      have hcur := Reader.current_of_cons r c cs hrest
      have hadv := Reader.rest_advance_of_cons r c cs hrest
      rw [hrest] at hlen
      unfold bareLoop
      by_cases hc : isBare c = true
      · have hc' : c ≠ 32 ∧ c ≠ 10 := by simpa [isBare] using hc
        have hcond : r.end_ = false ∧ r.current ≠ 32 ∧ r.current ≠ 10 := by
          rw [hcur]; exact ⟨hend, hc'⟩
        have hlen2 : r.advance.rest.length < fuel := by
          rw [hadv]
          simp only [List.length_cons] at hlen
          omega
        rw [if_pos hcond, ih r.advance _ hlen2, hadv, hcur]
        have htw : List.takeWhile isBare (c :: cs) = c :: List.takeWhile isBare cs := by
          simp [List.takeWhile_cons, hc]
        rw [htw]
        simp only [Reader.line_advance, Reader.pos_advance, List.length_cons, List.map_cons]
        have hj : Join (byteToString c :: List.map byteToString (List.takeWhile isBare cs)) =
            byteToString c ++ Join (List.map byteToString (List.takeWhile isBare cs)) := rfl
        rw [hj, List.append_assoc]
        congr 3
        omega
      · have hcond : ¬ (r.end_ = false ∧ r.current ≠ 32 ∧ r.current ≠ 10) := by
          rw [hcur]
          intro h
          apply hc
          simp [isBare, h.2.1, h.2.2]
        have htw : List.takeWhile isBare (c :: cs) = [] := by
          simp [List.takeWhile_cons, hc]
        rw [if_neg hcond, htw]
        simp [Reader.mk_pos_zero, Join]

theorem skipSpaces_consumeArg (r : Reader) :
    skipSpaces (r.line.length + 1) r =
      some { line := r.line, pos := r.pos + (r.rest.takeWhile isSpace).length } :=
  skipSpaces_spec _ r (Nat.lt_succ_of_le (Reader.rest_length_le r))

theorem Reader.rest_skipped (r : Reader) :
    ({ line := r.line, pos := r.pos + (r.rest.takeWhile isSpace).length } : Reader).rest =
      r.rest.dropWhile isSpace := by
  rw [Reader.rest_mk, drop_takeWhile_length]

/-- A quoted argument with a closing quote: `consumeArg` returns the bytes
between the quotes and stops behind the closing quote. -/
theorem consumeArg_quoted_closed (r : Reader) (body : GoString) (i : Nat)
    (hq : r.rest.dropWhile isSpace = 34 :: body) (hc : closingQuote body = some i) :
    consumeArg r =
      some ({ line := r.line,
              pos := r.pos + (r.rest.takeWhile isSpace).length + 1 + i + 1 },
        body.take i, none) := by
  have hrest := Reader.rest_skipped r
  rw [hq] at hrest
  have hcur := Reader.current_of_cons _ _ _ hrest
  have hadv := Reader.rest_advance_of_cons _ _ _ hrest
  unfold consumeArg
  rw [skipSpaces_consumeArg]
  simp only [hcur, if_true]
  have := consumeString_closed
    ({ line := r.line, pos := r.pos + (r.rest.takeWhile isSpace).length } : Reader).advance i
    (by rw [hadv]; exact hc)
  rw [this, hadv]
  rfl

/-- A quoted argument without a closing quote: `consumeArg` returns the error. -/
theorem consumeArg_quoted_open (r : Reader) (body : GoString)
    (hq : r.rest.dropWhile isSpace = 34 :: body) (hc : closingQuote body = none) :
    ∃ r1, consumeArg r = some (r1, [], some ReadError.errIncongruousQuotes) := by
  have hrest := Reader.rest_skipped r
  rw [hq] at hrest
  have hcur := Reader.current_of_cons _ _ _ hrest
  have hadv := Reader.rest_advance_of_cons _ _ _ hrest
  obtain ⟨r1, h1⟩ := consumeString_open
    ({ line := r.line, pos := r.pos + (r.rest.takeWhile isSpace).length } : Reader).advance
    (by rw [hadv]; exact hc)
  refine ⟨r1, ?_⟩
  unfold consumeArg
  rw [skipSpaces_consumeArg]
  simp only [hcur, if_true]
  exact h1

/-- A bare argument: `consumeArg` returns the bytes up to the next space,
newline or end of line, each passed through `string(b)`. -/
theorem consumeArg_bare (r : Reader) (hq : (r.rest.dropWhile isSpace).headD 10 ≠ 34) :
    consumeArg r =
      some ({ line := r.line,
              pos := r.pos + (r.rest.takeWhile isSpace).length +
                ((r.rest.dropWhile isSpace).takeWhile isBare).length },
        Join (((r.rest.dropWhile isSpace).takeWhile isBare).map byteToString), none) := by
  have hrest := Reader.rest_skipped r
  have hcur : ({ line := r.line, pos := r.pos + (r.rest.takeWhile isSpace).length } :
      Reader).current ≠ 34 := by
    rw [Reader.current_eq, hrest]; exact hq
  unfold consumeArg
  rw [skipSpaces_consumeArg]
  simp only [hcur, if_false]
  have hb := bareLoop_spec (r.line.length + 1)
    { line := r.line, pos := r.pos + (r.rest.takeWhile isSpace).length } []
    (Nat.lt_succ_of_le (Reader.rest_length_le _))
  rw [hrest] at hb
  rw [hb]
  simp

theorem closingQuote_is_quote (n : Nat) :
    ∀ (l : GoString) (i : Nat), l.length ≤ n → closingQuote l = some i → l[i]? = some 34 := by
  induction n with
  | zero =>
    intro l i hl h
    have : l = [] := List.length_eq_zero.mp (Nat.le_zero.mp hl)
    subst this
    simp [closingQuote] at h
  | succ n ih =>
    intro l i hl h
    match l, hl, h with
    | [], _, h => simp [closingQuote] at h
    | [c], _, h =>
      simp only [closingQuote] at h
      split_ifs at h with hc
      · have hi : i = 0 := by simpa using h.symm
        subst hi; subst hc; rfl
    | c :: c2 :: cs, hl, h =>
      simp only [closingQuote] at h
      simp only [List.length_cons] at hl
      split_ifs at h with hc hb
      · have hi : i = 0 := by simpa using h.symm
        subst hi; subst hc; rfl
      · cases hc1 : closingQuote cs with
        | none => rw [hc1] at h; exact absurd h (by simp)
        | some j =>
          rw [hc1] at h
          have hi : i = j + 2 := by simpa using h.symm
          subst hi
          have := ih cs j (by omega) hc1
          simpa using this
      · cases hc1 : closingQuote (c2 :: cs) with
        | none => rw [hc1] at h; exact absurd h (by simp)
        | some j =>
          rw [hc1] at h
          have hi : i = j + 1 := by simpa using h.symm
          subst hi
          have := ih (c2 :: cs) j (by simp only [List.length_cons]; omega) hc1
          simpa using this

/-- C8: a quoted argument is passed through undecoded.  When `consumeArg`
meets, after the spaces, a double quote followed by the bytes `body` and
returns without error, the argument is exactly the bytes of `body` before its
closing quote, the closing quote being the first double quote of `body` that
is not the second byte of a backslash pair, and the reader stops behind that
quote; the line `"a\"b"` gives the one argument of four bytes a, backslash,
double quote, b. -/
theorem C8_quoted_argument_verbatim (r r1 : Reader) (arg body : GoString)
    (hq : r.rest.dropWhile isSpace = 34 :: body)
    (hok : consumeArg r = some (r1, arg, none)) :
    (∃ i, closingQuote body = some i ∧ body[i]? = some 34 ∧ arg = body.take i ∧
      r1.rest = body.drop (i + 1)) ∧
    tokenize (lit "\"a\\\"b\"") = some ([[97, 92, 34, 98]], none) := by
  refine ⟨?_, by decide⟩
  cases hcq : closingQuote body with
  | none =>
    obtain ⟨r2, h2⟩ := consumeArg_quoted_open r body hq hcq
    rw [h2] at hok
    simp at hok
  | some i =>
    have h2 := consumeArg_quoted_closed r body i hq hcq
    rw [h2] at hok
    simp only [Option.some.injEq, Prod.mk.injEq, and_true] at hok
    obtain ⟨hr, ha⟩ := hok
    refine ⟨i, rfl, closingQuote_is_quote body.length body i (Nat.le_refl _) hcq, ha.symm, ?_⟩
    rw [← hr]
    have hpos : r.pos + (r.rest.takeWhile isSpace).length + 1 + i + 1 =
        r.pos + ((r.rest.takeWhile isSpace).length + (i + 2)) := by omega
    rw [hpos, Reader.rest_mk, ← List.drop_drop, drop_takeWhile_length, hq]
    simp

theorem C8_quoted_argument_verbatim_witness :
    (∃ i, closingQuote (lit "a\\\"b\" c") = some i ∧ (lit "a\\\"b\" c")[i]? = some 34 ∧
      lit "a\\\"b" = (lit "a\\\"b\" c").take i ∧
      ({ line := lit "set k \"a\\\"b\" c", pos := 12 } : Reader).rest =
        (lit "a\\\"b\" c").drop (i + 1)) ∧
    tokenize (lit "\"a\\\"b\"") = some ([[97, 92, 34, 98]], none) :=
  C8_quoted_argument_verbatim { line := lit "set k \"a\\\"b\" c", pos := 5 }
    { line := lit "set k \"a\\\"b\" c", pos := 12 } (lit "a\\\"b") (lit "a\\\"b\" c")
    (by decide) (by decide)

theorem Reader.rest_subset (r : Reader) : ∀ c ∈ r.rest, c ∈ r.line := by
  intro c hc
  exact List.mem_of_mem_drop hc

/-- On a line without a newline byte, a call of `consumeArg` before the end
of the line that returns no error keeps the line and moves the position
forward. -/
theorem consumeArg_advances (r r1 : Reader) (arg : GoString) (hnl : (10 : UInt8) ∉ r.line)
    (hend : r.end_ = false) (hok : consumeArg r = some (r1, arg, none)) :
    r1.line = r.line ∧ r.pos < r1.pos := by
  by_cases hq : (r.rest.dropWhile isSpace).headD 10 = 34
  · cases hdw : r.rest.dropWhile isSpace with
    | nil => rw [hdw] at hq; exact absurd hq (by decide)
    | cons c body =>
      rw [hdw] at hq
      have hc : c = 34 := by simpa using hq
      subst hc
      cases hcq : closingQuote body with
      | none =>
        obtain ⟨r2, h2⟩ := consumeArg_quoted_open r body hdw hcq
        rw [h2] at hok
        simp at hok
      | some i =>
        rw [consumeArg_quoted_closed r body i hdw hcq] at hok
        simp only [Option.some.injEq, Prod.mk.injEq, and_true] at hok
        rw [← hok.1]
        exact ⟨rfl, by simp only; omega⟩
  · rw [consumeArg_bare r hq] at hok
    simp only [Option.some.injEq, Prod.mk.injEq, and_true] at hok
    rw [← hok.1]
    refine ⟨rfl, ?_⟩
    simp only
    cases hrest : r.rest with
    | nil =>
      have := Reader.end_of_nil r hrest
      rw [this] at hend
      exact absurd hend (by simp)
    | cons c cs =>
      by_cases hc : c = 32
      · subst hc
        have : (List.takeWhile isSpace ((32 : UInt8) :: cs)).length =
            (List.takeWhile isSpace cs).length + 1 := by
          simp [List.takeWhile_cons, isSpace]
        omega
      · have hdw : List.dropWhile isSpace (c :: cs) = c :: cs := by
          simp [List.dropWhile_cons, isSpace, hc]
        have hc10 : c ≠ 10 := by
          intro h10
          subst h10
          exact hnl (Reader.rest_subset r _ (by rw [hrest]; simp))
        have hbare : isBare c = true := by simp [isBare, hc, hc10]
        have : (List.takeWhile isBare (c :: cs)).length =
            (List.takeWhile isBare cs).length + 1 := by
          simp [List.takeWhile_cons, hbare]
        rw [hdw]
        omega

theorem Reader.pos_lt_of_not_end (r : Reader) (h : r.end_ = false) : r.pos < r.line.length := by
  unfold Reader.end_ at h
  simpa using h

/-- Every state the loop of `Read` reaches on a line without a newline byte
is a state of the run of `tokenize`, with fuel left for the rest of the line. -/
theorem LoopState_run (line : GoString) (hnl : (10 : UInt8) ∉ line) (r : Reader)
    (h : LoopState line r) :
    r.line = line ∧
    ∃ fuel args, line.length + 1 ≤ fuel + r.pos ∧ tokenize line = readLoop fuel r args := by
  induction h with
  | first r hs =>
    have hspec := skipSpaces_consumeArg { line := line, pos := 0 }
    simp only at hspec
    rw [hspec] at hs
    have hr : r.line = line := by
      rw [← Option.some.inj hs]
    refine ⟨hr, line.length + 1, [], by omega, ?_⟩
    unfold tokenize
    rw [hspec, Option.some.inj hs]
  | next r r1 arg _ hend hok ih =>
    obtain ⟨hline, fuel, args, hfuel, hrun⟩ := ih
    have hnl' : (10 : UInt8) ∉ r.line := by rw [hline]; exact hnl
    obtain ⟨hl1, hp1⟩ := consumeArg_advances r r1 arg hnl' hend hok
    have hpos := Reader.pos_lt_of_not_end r hend
    rw [hline] at hpos
    refine ⟨by rw [hl1, hline], ?_⟩
    cases fuel with
    | zero => omega
    | succ f =>
      refine ⟨f, if arg ≠ [] then args ++ [arg] else args, by omega, ?_⟩
      rw [hrun]
      conv_lhs => unfold readLoop
      simp [hend, hok]

/-- C9: an unclosed quote fails the tokenization.  On a line without a
newline byte, when the loop of `Read` reaches a state in which the next
argument is opened by a double quote and the bytes after that quote hold no
closing quote outside a backslash pair, the tokenization returns the error
`incongruous quotes`; so it does when the only later quote follows a
backslash, and when the line ends right after a backslash. -/
theorem C9_unclosed_quote_fails (line : GoString) (r : Reader) (body : GoString)
    (hnl : (10 : UInt8) ∉ line) (hr : LoopState line r)
    (hq : r.rest.dropWhile isSpace = 34 :: body) (hc : closingQuote body = none) :
    (∃ args, tokenize line = some (args, some ReadError.errIncongruousQuotes)) ∧
    tokenize (lit "get \"ab\\\"") = some ([lit "get"], some ReadError.errIncongruousQuotes) ∧
    tokenize (lit "get \"ab\\") = some ([lit "get"], some ReadError.errIncongruousQuotes) := by
  refine ⟨?_, by decide, by decide⟩
  obtain ⟨hline, fuel, args, hfuel, hrun⟩ := LoopState_run line hnl r hr
  have hend : r.end_ = false := by
    cases hrest : r.rest with
    | nil => rw [hrest] at hq; simp at hq
    | cons c cs => exact Reader.end_of_cons r c cs hrest
  have hpos := Reader.pos_lt_of_not_end r hend
  rw [hline] at hpos
  obtain ⟨r2, h2⟩ := consumeArg_quoted_open r body hq hc
  cases fuel with
  | zero => omega
  | succ f =>
    refine ⟨args, ?_⟩
    rw [hrun]
    conv_lhs => unfold readLoop
    simp [hend, h2]

theorem C9_unclosed_quote_fails_witness :
    (∃ args, tokenize (lit "set \"k\" \"v") =
      some (args, some ReadError.errIncongruousQuotes)) ∧
    tokenize (lit "get \"ab\\\"") = some ([lit "get"], some ReadError.errIncongruousQuotes) ∧
    tokenize (lit "get \"ab\\") = some ([lit "get"], some ReadError.errIncongruousQuotes) :=
  C9_unclosed_quote_fails (lit "set \"k\" \"v") { line := lit "set \"k\" \"v", pos := 7 }
    (lit "v") (by decide)
    (LoopState.next { line := lit "set \"k\" \"v", pos := 3 } _ (lit "k")
      (LoopState.next { line := lit "set \"k\" \"v", pos := 0 } _ (lit "set")
        (LoopState.first _ (by decide)) (by decide) (by decide))
      (by decide) (by decide))
    (by decide) (by decide)

/-- C7, at the failing input: a bare argument is not kept byte for byte.
The request line `GET` space 0xC3 0xA9 holds no double quote and no newline;
split on the space byte it gives the argument C3 A9, and the tokenizer gives
C3 83 C2 A9, since `string(r.current())` encodes each byte from 0x80 on as a
code point, in two bytes. -/
theorem C7_bare_argument_reencoded :
    (34 : UInt8) ∉ lit "GET " ++ [0xC3, 0xA9] ∧ (10 : UInt8) ∉ lit "GET " ++ [0xC3, 0xA9] ∧
    spaceFields (lit "GET " ++ [0xC3, 0xA9]) = [lit "GET", [0xC3, 0xA9]] ∧
    tokenize (lit "GET " ++ [0xC3, 0xA9]) = some ([lit "GET", [0xC3, 0x83, 0xC2, 0xA9]], none) ∧
    tokenize (lit "GET " ++ [0xC3, 0xA9]) ≠ some (spaceFields (lit "GET " ++ [0xC3, 0xA9]), none) ∧
    tokenize (lit "GET \"" ++ [0xC3, 0xA9] ++ lit "\"") = some ([lit "GET", [0xC3, 0xA9]], none) := by
  decide

/-! ## The envelope -/

theorem Join_append (a b : List GoString) : Join (a ++ b) = Join a ++ Join b := by
  induction a with
  | nil => rfl
  | cons x a ih =>
    show x ++ Join (a ++ b) = (x ++ Join a) ++ Join b
    rw [ih, List.append_assoc]

theorem Join_cons (x : GoString) (a : List GoString) : Join (x :: a) = x ++ Join a := rfl

theorem Join_nil : Join [] = [] := rfl

/-- One payload line without a newline byte makes an envelope. -/
theorem IsEnvelope_one (line : GoString) (h : (10 : UInt8) ∉ line) :
    IsEnvelope (lit "!1\r\n" ++ line ++ lit "\r\n") := by
  refine ⟨[line], ?_, ?_⟩
  · intro l hl
    rw [List.mem_singleton.mp hl]
    exact h
  · have h1 : lit "!" ++ Itoa ((1 : Nat) : Int) ++ lit "\r\n" = lit "!1\r\n" := by
      decide
    show lit "!1\r\n" ++ line ++ lit "\r\n" =
      lit "!" ++ Itoa ((1 : Nat) : Int) ++ lit "\r\n" ++ Join [line ++ lit "\r\n"]
    rw [h1]
    simp [Join]

/-- A reply of a count line `!1` and one fixed message ending in `\r\n`. -/
theorem IsEnvelope_fixed (msg : GoString)
    (h1 : msg = msg.dropLast.dropLast ++ lit "\r\n")
    (h2 : (10 : UInt8) ∉ msg.dropLast.dropLast) :
    IsEnvelope (BuildResponse [lit "!1\r\n", msg]) := by
  have := IsEnvelope_one _ h2
  rw [List.append_assoc, ← h1] at this
  simpa [BuildResponse, Join] using this

/-- A reply of a count line `!1`, a value and the line end. -/
theorem IsEnvelope_value (v : GoString) (h : (10 : UInt8) ∉ v) :
    IsEnvelope (BuildResponse [lit "!1\r\n", v, lit "\r\n"]) := by
  rw [BuildResponse_three]
  exact IsEnvelope_one v h

/-- A reply of a count line `!1` and a message around a variable part. -/
theorem IsEnvelope_around (pre v post : GoString) (hv : (10 : UInt8) ∉ v)
    (hpre : (10 : UInt8) ∉ pre)
    (h1 : post = post.dropLast.dropLast ++ lit "\r\n")
    (h2 : (10 : UInt8) ∉ post.dropLast.dropLast) :
    IsEnvelope (BuildResponse [lit "!1\r\n", pre, v, post]) := by
  have hline : (10 : UInt8) ∉ pre ++ v ++ post.dropLast.dropLast := by
    simp only [List.mem_append, not_or]
    exact ⟨⟨hpre, hv⟩, h2⟩
  have := IsEnvelope_one _ hline
  have hb : BuildResponse [lit "!1\r\n", pre, v, post] =
      lit "!1\r\n" ++ (pre ++ v ++ post.dropLast.dropLast) ++ lit "\r\n" := by
    conv_lhs => rw [h1]
    simp [BuildResponse, Join]
  rw [hb]
  exact this

theorem wrongArguments_envelope (cmd : Command) (C : CacheContainer)
    (h : (10 : UInt8) ∉ cmd.arg 0) : IsEnvelope (wrongArguments cmd C).wire := by
  unfold wrongArguments respond
  exact IsEnvelope_around _ _ _ h (by decide) (by decide) (by decide)

theorem IsEnvelope_lines (lines pieces : List GoString) (n : Nat)
    (hl : ∀ l ∈ lines, (10 : UInt8) ∉ l) (hn : n = lines.length)
    (hp : Join pieces = Join (lines.map (fun l => l ++ lit "\r\n"))) :
    IsEnvelope (BuildResponse ([lit "!", Itoa n, lit "\r\n"] ++ pieces)) := by
  refine ⟨lines, hl, ?_⟩
  unfold BuildResponse envelope
  rw [Join_append, hp, hn]
  simp [Join]

theorem arg_clean (cmd : Command) (i : Nat) (h : ∀ a ∈ cmd.Arguments, (10 : UInt8) ∉ a) :
    (10 : UInt8) ∉ cmd.arg i := by
  unfold Command.arg
  rw [List.getD_eq_getElem?_getD]
  cases hi : cmd.Arguments[i]? with
  | none => simp
  | some a => exact h a (List.getElem?_mem hi)

theorem mapLookup_mem (m : GoMap) (k v : GoString) (h : mapLookup m k = some v) :
    ∃ e ∈ m, e.2 = v := by
  induction m with
  | nil => simp [mapLookup] at h
  | cons e m ih =>
    obtain ⟨a, b⟩ := e
    unfold mapLookup at h
    split_ifs at h with hk
    · exact ⟨(a, b), by simp, by simpa using h⟩
    · obtain ⟨e, he, hv⟩ := ih h
      exact ⟨e, List.mem_cons_of_mem _ he, hv⟩

theorem database_clean (C : CacheContainer) (i : Int) (hclean : CacheContainer.clean C) :
    ∀ sh ∈ database C i, ∀ e ∈ sh.m, (10 : UInt8) ∉ e.1 ∧ (10 : UInt8) ∉ e.2 := by
  unfold database
  rw [List.getD_eq_getElem?_getD]
  cases hi : C[i.toNat]? with
  | none => simp
  | some db => exact hclean db (List.getElem?_mem hi)

theorem stored_clean (L : Lib) (sc : ShardedCache) (k v : GoString)
    (hsc : ∀ sh ∈ sc, ∀ e ∈ sh.m, (10 : UInt8) ∉ e.1 ∧ (10 : UInt8) ∉ e.2)
    (h : stored L sc k = some v) : (10 : UInt8) ∉ v := by
  unfold stored getShard at h
  rw [List.getD_eq_getElem?_getD] at h
  cases hi : sc[getShardIndex L sc k]? with
  | none =>
    rw [hi] at h
    simp [mapLookup] at h
  | some sh =>
    rw [hi] at h
    obtain ⟨e, he, hv⟩ := mapLookup_mem _ _ _ h
    rw [← hv]
    exact (hsc sh (List.getElem?_mem hi) e he).2

theorem Load_clean (L : Lib) (C : CacheContainer) (i : Int) (k : GoString)
    (hclean : CacheContainer.clean C) : (10 : UInt8) ∉ (Load L (database C i) k).1 := by
  rw [Load_eq]
  cases h : stored L (database C i) k with
  | none => simp [commaOk]
  | some v => exact stored_clean L _ k v (database_clean C i hclean) h

theorem selectCommand_envelope (cmd : Command) (C : CacheContainer)
    (h : (10 : UInt8) ∉ cmd.arg 0) : IsEnvelope (selectCommand cmd C).wire := by
  unfold selectCommand
  dsimp only
  split_ifs
  · exact wrongArguments_envelope cmd C h
  · exact IsEnvelope_fixed _ (by decide) (by decide)
  · exact IsEnvelope_fixed _ (by decide) (by decide)
  · exact IsEnvelope_fixed _ (by decide) (by decide)

theorem flushallCommand_envelope (cmd : Command) (C : CacheContainer)
    (h : (10 : UInt8) ∉ cmd.arg 0) : IsEnvelope (flushallCommand cmd C).wire := by
  unfold flushallCommand
  split_ifs
  · exact wrongArguments_envelope cmd C h
  · exact IsEnvelope_fixed _ (by decide) (by decide)
  · exact IsEnvelope_fixed _ (by decide) (by decide)

theorem moveCommand_envelope (L : Lib) (cmd : Command) (C : CacheContainer)
    (h : (10 : UInt8) ∉ cmd.arg 0) : IsEnvelope (moveCommand L cmd C).wire := by
  unfold moveCommand
  dsimp only
  split_ifs
  · exact wrongArguments_envelope cmd C h
  all_goals exact IsEnvelope_fixed _ (by decide) (by decide)

theorem msetCommand_envelope (L : Lib) (cmd : Command) (C : CacheContainer)
    (h : (10 : UInt8) ∉ cmd.arg 0) : IsEnvelope (msetCommand L cmd C).wire := by
  unfold msetCommand
  dsimp only
  split_ifs
  · exact wrongArguments_envelope cmd C h
  · exact IsEnvelope_fixed _ (by decide) (by decide)

theorem getCommand_envelope (L : Lib) (cmd : Command) (C : CacheContainer)
    (h : (10 : UInt8) ∉ cmd.arg 0) (hclean : CacheContainer.clean C) :
    IsEnvelope (getCommand L cmd C).wire := by
  unfold getCommand
  dsimp only
  split_ifs
  · exact wrongArguments_envelope cmd C h
  · exact IsEnvelope_value _ (Load_clean L C cmd.Index _ hclean)
  · exact IsEnvelope_fixed _ (by decide) (by decide)

theorem setCommand_envelope (L : Lib) (cmd : Command) (C : CacheContainer)
    (h : (10 : UInt8) ∉ cmd.arg 0) : IsEnvelope (setCommand L cmd C).wire := by
  unfold setCommand
  dsimp only
  split_ifs
  · exact wrongArguments_envelope cmd C h
  · exact IsEnvelope_around _ _ _ h (by decide) (by decide) (by decide)
  all_goals exact IsEnvelope_fixed _ (by decide) (by decide)

theorem errLine_envelope :
    IsEnvelope (lit "!1\r\n-ERR value is either not an integer or too large\r\n") := by
  have h : lit "!1\r\n-ERR value is either not an integer or too large\r\n" =
      lit "!1\r\n" ++ lit "-ERR value is either not an integer or too large" ++ lit "\r\n" := by
    decide
  rw [h]
  exact IsEnvelope_one _ (by decide)

theorem stepCommand_envelope (L : Lib) (cmd : Command) (C : CacheContainer)
    (f : GoString → GoString × Bool)
    (hshape : ∀ v, ((f v).2 = false ∧ (f v).1 = v) ∨ ((f v).2 = true ∧ ∃ i, (f v).1 = Itoa i)) :
    IsEnvelope (stepCommand L cmd C f).wire := by
  rw [stepCommand_wire]
  rcases hshape ((stored L (database C cmd.Index) (cmd.arg 1)).getD (lit "0")) with
    ⟨hst, _⟩ | ⟨hst, i, hv⟩
  · rw [hst]
    exact errLine_envelope
  · rw [hst, hv]
    exact IsEnvelope_one _ (fun h => Itoa_no_newline i 10 h rfl)

theorem incrCommand_envelope (L : Lib) (cmd : Command) (C : CacheContainer)
    (h : (10 : UInt8) ∉ cmd.arg 0) : IsEnvelope (incrCommand L cmd C).wire := by
  unfold incrCommand
  dsimp only
  split_ifs
  · exact wrongArguments_envelope cmd C h
  · exact IsEnvelope_fixed _ (by decide) (by decide)
  · exact IsEnvelope_fixed _ (by decide) (by decide)
  · exact stepCommand_envelope L cmd C _ (incrModifier_shape _)
  · exact stepCommand_envelope L cmd C _ (incrModifier_shape _)

theorem decrCommand_envelope (L : Lib) (cmd : Command) (C : CacheContainer)
    (h : (10 : UInt8) ∉ cmd.arg 0) : IsEnvelope (decrCommand L cmd C).wire := by
  unfold decrCommand
  dsimp only
  split_ifs
  · exact wrongArguments_envelope cmd C h
  · exact IsEnvelope_fixed _ (by decide) (by decide)
  · exact IsEnvelope_fixed _ (by decide) (by decide)
  · exact stepCommand_envelope L cmd C _ (decrModifier_shape _)
  · exact stepCommand_envelope L cmd C _ (decrModifier_shape _)

theorem stored_getD_clean (L : Lib) (C : CacheContainer) (i : Int) (k d : GoString)
    (hclean : CacheContainer.clean C) (hd : (10 : UInt8) ∉ d) :
    (10 : UInt8) ∉ (stored L (database C i) k).getD d := by
  cases h : stored L (database C i) k with
  | none => exact hd
  | some v => exact stored_clean L _ k v (database_clean C i hclean) h

theorem appendCommand_envelope (L : Lib) (cmd : Command) (C : CacheContainer)
    (hargs : ∀ a ∈ cmd.Arguments, (10 : UInt8) ∉ a) (hclean : CacheContainer.clean C) :
    IsEnvelope (appendCommand L cmd C).wire := by
  unfold appendCommand
  dsimp only
  split_ifs
  · exact wrongArguments_envelope cmd C (arg_clean cmd 0 hargs)
  · rw [LoadModifyStore_result]
    refine IsEnvelope_value _ ?_
    simp only [Join, List.foldr_cons, List.foldr_nil, List.append_nil, List.mem_append, not_or]
    exact ⟨stored_getD_clean L C _ _ _ hclean (by decide), arg_clean cmd 2 hargs⟩

theorem prependCommand_envelope (L : Lib) (cmd : Command) (C : CacheContainer)
    (hargs : ∀ a ∈ cmd.Arguments, (10 : UInt8) ∉ a) (hclean : CacheContainer.clean C) :
    IsEnvelope (prependCommand L cmd C).wire := by
  unfold prependCommand
  dsimp only
  split_ifs
  · exact wrongArguments_envelope cmd C (arg_clean cmd 0 hargs)
  · rw [LoadModifyStore_result]
    refine IsEnvelope_value _ ?_
    simp only [Join, List.foldr_cons, List.foldr_nil, List.append_nil, List.mem_append, not_or]
    exact ⟨arg_clean cmd 2 hargs, stored_getD_clean L C _ _ _ hclean (by decide)⟩

theorem renameCommand_envelope (L : Lib) (cmd : Command) (C : CacheContainer)
    (h : (10 : UInt8) ∉ cmd.arg 0) : IsEnvelope (renameCommand L cmd C).wire := by
  unfold renameCommand
  dsimp only
  split_ifs
  · exact wrongArguments_envelope cmd C h
  all_goals exact IsEnvelope_fixed _ (by decide) (by decide)

theorem copyCommand_envelope (L : Lib) (cmd : Command) (C : CacheContainer)
    (h : (10 : UInt8) ∉ cmd.arg 0) : IsEnvelope (copyCommand L cmd C).wire := by
  unfold copyCommand
  dsimp only
  split_ifs
  · exact wrongArguments_envelope cmd C h
  all_goals exact IsEnvelope_fixed _ (by decide) (by decide)

theorem getsetCommand_envelope (L : Lib) (cmd : Command) (C : CacheContainer)
    (h : (10 : UInt8) ∉ cmd.arg 0) (hclean : CacheContainer.clean C) :
    IsEnvelope (getsetCommand L cmd C).wire := by
  unfold getsetCommand
  dsimp only
  split_ifs
  · exact wrongArguments_envelope cmd C h
  · rw [LoadExistStore_result, ← Load_eq]
    exact IsEnvelope_value _ (Load_clean L C cmd.Index _ hclean)

theorem getdelCommand_envelope (L : Lib) (cmd : Command) (C : CacheContainer)
    (h : (10 : UInt8) ∉ cmd.arg 0) (hclean : CacheContainer.clean C) :
    IsEnvelope (getdelCommand L cmd C).wire := by
  unfold getdelCommand
  dsimp only
  split_ifs
  · exact wrongArguments_envelope cmd C h
  · rw [LoadAndDelete_result, ← Load_eq]
    exact IsEnvelope_value _ (Load_clean L C cmd.Index _ hclean)
  · exact IsEnvelope_fixed _ (by decide) (by decide)

theorem IsEnvelope_count (n : Int) :
    IsEnvelope (BuildResponse [lit "!1\r\n", lit ":", Itoa n, lit "\r\n"]) :=
  IsEnvelope_around _ _ _ (fun h => Itoa_no_newline n 10 h rfl) (by decide) (by decide)
    (by decide)

theorem delCommand_envelope (L : Lib) (cmd : Command) (C : CacheContainer)
    (h : (10 : UInt8) ∉ cmd.arg 0) : IsEnvelope (delCommand L cmd C).wire := by
  unfold delCommand
  dsimp only
  split_ifs
  · exact wrongArguments_envelope cmd C h
  · exact IsEnvelope_count _

theorem existsCommand_envelope (L : Lib) (cmd : Command) (C : CacheContainer)
    (h : (10 : UInt8) ∉ cmd.arg 0) : IsEnvelope (existsCommand L cmd C).wire := by
  unfold existsCommand
  split_ifs
  · exact wrongArguments_envelope cmd C h
  · exact IsEnvelope_count _

theorem quitCommand_envelope (cmd : Command) (C : CacheContainer)
    (h : (10 : UInt8) ∉ cmd.arg 0) : IsEnvelope (quitCommand cmd C).wire := by
  unfold quitCommand
  split_ifs
  · exact wrongArguments_envelope cmd C h
  · exact IsEnvelope_fixed _ (by decide) (by decide)

theorem echoCommand_envelope (cmd : Command) (C : CacheContainer)
    (hargs : ∀ a ∈ cmd.Arguments, (10 : UInt8) ∉ a) :
    IsEnvelope (echoCommand cmd C).wire := by
  unfold echoCommand
  split_ifs
  · exact wrongArguments_envelope cmd C (arg_clean cmd 0 hargs)
  · exact IsEnvelope_value _ (arg_clean cmd 1 hargs)

theorem flushCommand_envelope (cmd : Command) (C : CacheContainer)
    (h : (10 : UInt8) ∉ cmd.arg 0) : IsEnvelope (flushCommand cmd C).wire := by
  unfold flushCommand
  split_ifs
  · exact wrongArguments_envelope cmd C h
  all_goals exact IsEnvelope_fixed _ (by decide) (by decide)

theorem shutdownCommand_envelope (cmd : Command) (C : CacheContainer)
    (h : (10 : UInt8) ∉ cmd.arg 0) : IsEnvelope (shutdownCommand cmd C).wire := by
  unfold shutdownCommand
  split_ifs
  · exact wrongArguments_envelope cmd C h
  all_goals exact IsEnvelope_fixed _ (by decide) (by decide)

theorem mgetLines_Join (L : Lib) (db : ShardedCache) (keys : List GoString) :
    Join (mgetLines L db keys) =
      Join ((keys.map (fun k => if (Load L db k).2 then (Load L db k).1 else [])).map
        (fun l => l ++ lit "\r\n")) := by
  induction keys with
  | nil => rfl
  | cons k ks ih =>
    unfold mgetLines
    dsimp only
    rw [Join_append, ih]
    simp only [List.map_cons, Join_cons]
    split_ifs <;> simp [Join]

theorem mgetCommand_envelope (L : Lib) (cmd : Command) (C : CacheContainer)
    (h : (10 : UInt8) ∉ cmd.arg 0) (hclean : CacheContainer.clean C) :
    IsEnvelope (mgetCommand L cmd C).wire := by
  unfold mgetCommand
  dsimp only
  split_ifs
  · exact wrongArguments_envelope cmd C h
  · refine IsEnvelope_lines _ _ _ ?_ ?_ (mgetLines_Join L _ _)
    · intro l hl
      obtain ⟨k, _, hk⟩ := List.mem_map.mp hl
      rw [← hk]
      split_ifs
      · exact Load_clean L C cmd.Index k hclean
      · simp
    · simp

theorem lenLines_Join (L : Lib) (db : ShardedCache) (keys : List GoString) :
    Join (lenLines L db keys) =
      Join ((keys.map (fun k =>
          if (Load L db k).2 then lit "$" ++ Itoa (Load L db k).1.length else lit "$-1")).map
        (fun l => l ++ lit "\r\n")) := by
  induction keys with
  | nil => rfl
  | cons k ks ih =>
    unfold lenLines
    dsimp only
    rw [Join_append, ih]
    simp only [List.map_cons, Join_cons]
    split_ifs
    · simp [Join]
    · have : lit "$-1\r\n" = lit "$-1" ++ lit "\r\n" := by decide
      simp [Join, this]

theorem lenCommand_envelope (L : Lib) (cmd : Command) (C : CacheContainer)
    (h : (10 : UInt8) ∉ cmd.arg 0) : IsEnvelope (lenCommand L cmd C).wire := by
  unfold lenCommand
  dsimp only
  split_ifs
  · exact wrongArguments_envelope cmd C h
  · refine IsEnvelope_lines _ _ _ ?_ ?_ (lenLines_Join L _ _)
    · intro l hl
      obtain ⟨k, _, hk⟩ := List.mem_map.mp hl
      rw [← hk]
      split_ifs
      · simp only [List.mem_append, not_or]
        exact ⟨by decide, fun h10 => Itoa_no_newline _ 10 h10 rfl⟩
      · decide
    · simp

theorem infoLines_Join (stats : List GoString) :
    Join (infoLines stats) = Join (stats.map (fun l => l ++ lit "\r\n")) := by
  induction stats with
  | nil => rfl
  | cons st stats ih =>
    unfold infoLines
    rw [Join_append, ih]
    simp [Join]

theorem GetStats_clean (R : Runtime) (index totalKeys : Int) (hR : Runtime.clean R) :
    ∀ l ∈ GetStats R index totalKeys, (10 : UInt8) ∉ l := by
  obtain ⟨h1, h2, h3, h4⟩ := hR
  have hI : ∀ i : Int, (10 : UInt8) ∉ Itoa i := fun i h10 => Itoa_no_newline i 10 h10 rfl
  intro l hl
  unfold GetStats at hl
  simp only [List.mem_cons, List.mem_singleton, List.not_mem_nil, or_false] at hl
  rcases hl with rfl | rfl | rfl | rfl | rfl | rfl | rfl | rfl | rfl | rfl | rfl | rfl
  all_goals
    simp only [Join, List.foldr_cons, List.foldr_nil, List.append_nil, List.mem_append, not_or]
  · exact ⟨by decide, hI _⟩
  · exact ⟨by decide, h1⟩
  · exact ⟨by decide, by decide⟩
  · exact ⟨by decide, by decide⟩
  · exact ⟨by decide, hI _⟩
  · exact ⟨by decide, hI _⟩
  · exact ⟨by decide, h2, by decide, h3⟩
  · exact ⟨by decide, h4⟩
  · exact ⟨by decide, hI _⟩
  · exact ⟨by decide, hI _⟩
  · exact ⟨by decide, hI _⟩
  · exact ⟨by decide, hI _⟩

theorem infoCommand_envelope (R : Runtime) (cmd : Command) (C : CacheContainer)
    (h : (10 : UInt8) ∉ cmd.arg 0) (hR : Runtime.clean R) :
    IsEnvelope (infoCommand R cmd C).wire := by
  unfold infoCommand
  dsimp only
  split_ifs
  · exact wrongArguments_envelope cmd C h
  · exact IsEnvelope_lines _ _ _ (GetStats_clean R _ _ hR) rfl (infoLines_Join _)

theorem asciiUpper_ne_newline (c : UInt8) (h : c ≠ 10) : asciiUpper c ≠ 10 := by
  unfold asciiUpper
  split_ifs with hc
  · have h1 : 65 ≤ c.toNat - 32 := by omega
    have h2 : c.toNat - 32 ≤ 90 := by omega
    generalize c.toNat - 32 = n at h1 h2
    interval_cases n <;> decide
  · exact h

theorem ToUpper_clean (L : Lib) (s : GoString)
    (hL : ∀ t, (10 : UInt8) ∉ t → (10 : UInt8) ∉ L.mapToUpper t) (h : (10 : UInt8) ∉ s) :
    (10 : UInt8) ∉ ToUpper L s := by
  unfold ToUpper
  split_ifs
  · intro hm
    obtain ⟨c, hc, hc10⟩ := List.mem_map.mp hm
    exact asciiUpper_ne_newline c (fun e => h (e ▸ hc)) hc10
  · exact hL s h

theorem IsEnvelope_ite (c : Prop) [Decidable c] (a b : Outcome) (ha : IsEnvelope a.wire)
    (hb : IsEnvelope b.wire) : IsEnvelope (if c then a else b).wire := by
  split_ifs
  · exact ha
  · exact hb

/-- C10: for every command and every state in which no argument and no
stored key or value holds a newline byte, the bytes `Execute` writes are exactly one envelope: the count
line `!N\r\n` with `N` in decimal, then exactly `N` lines, each without a
newline byte inside and ended by `\r\n`, and nothing else.  The upper-casing
of the library and the strings of the Go runtime are taken not to produce a
newline byte. -/
theorem C10_execute_writes_one_envelope (L : Lib) (R : Runtime) (cmd : Command)
    (C : CacheContainer)
    (hL : ∀ t, (10 : UInt8) ∉ t → (10 : UInt8) ∉ L.mapToUpper t) (hR : Runtime.clean R)
    (hargs : ∀ a ∈ cmd.Arguments, (10 : UInt8) ∉ a) (hclean : CacheContainer.clean C) :
    IsEnvelope (Execute L R cmd C).wire := by
  have h0 := arg_clean cmd 0 hargs
  unfold Execute
  dsimp only
  refine IsEnvelope_ite _ _ _ (selectCommand_envelope cmd C h0) ?_
  refine IsEnvelope_ite _ _ _ (flushallCommand_envelope cmd C h0) ?_
  refine IsEnvelope_ite _ _ _ (moveCommand_envelope L cmd C h0) ?_
  refine IsEnvelope_ite _ _ _ (mgetCommand_envelope L cmd C h0 hclean) ?_
  refine IsEnvelope_ite _ _ _ (msetCommand_envelope L cmd C h0) ?_
  refine IsEnvelope_ite _ _ _ (getCommand_envelope L cmd C h0 hclean) ?_
  refine IsEnvelope_ite _ _ _ (setCommand_envelope L cmd C h0) ?_
  refine IsEnvelope_ite _ _ _ (incrCommand_envelope L cmd C h0) ?_
  refine IsEnvelope_ite _ _ _ (decrCommand_envelope L cmd C h0) ?_
  refine IsEnvelope_ite _ _ _ (appendCommand_envelope L cmd C hargs hclean) ?_
  refine IsEnvelope_ite _ _ _ (prependCommand_envelope L cmd C hargs hclean) ?_
  refine IsEnvelope_ite _ _ _ (lenCommand_envelope L cmd C h0) ?_
  refine IsEnvelope_ite _ _ _ (renameCommand_envelope L cmd C h0) ?_
  refine IsEnvelope_ite _ _ _ (copyCommand_envelope L cmd C h0) ?_
  refine IsEnvelope_ite _ _ _ (getsetCommand_envelope L cmd C h0 hclean) ?_
  refine IsEnvelope_ite _ _ _ (getdelCommand_envelope L cmd C h0 hclean) ?_
  refine IsEnvelope_ite _ _ _ (delCommand_envelope L cmd C h0) ?_
  refine IsEnvelope_ite _ _ _ (existsCommand_envelope L cmd C h0) ?_
  refine IsEnvelope_ite _ _ _ (quitCommand_envelope cmd C h0) ?_
  refine IsEnvelope_ite _ _ _ (infoCommand_envelope R cmd C h0 hR) ?_
  refine IsEnvelope_ite _ _ _ (echoCommand_envelope cmd C hargs) ?_
  refine IsEnvelope_ite _ _ _ (flushCommand_envelope cmd C h0) ?_
  refine IsEnvelope_ite _ _ _ (shutdownCommand_envelope cmd C h0) ?_
  exact IsEnvelope_around _ _ _ (ToUpper_clean L _ hL h0) (by decide) (by decide) (by decide)

theorem C10_execute_writes_one_envelope_witness :
    IsEnvelope (Execute testLib testRuntime
      { Arguments := [lit "mget", lit "500", lit "600", lit "800"], Connection := testConn,
        Index := 0 }
      (testContainerWith "500" "hi")).wire :=
  C10_execute_writes_one_envelope testLib testRuntime
    { Arguments := [lit "mget", lit "500", lit "600", lit "800"], Connection := testConn,
      Index := 0 }
    (testContainerWith "500" "hi") (fun _ h => h) (by decide) (by decide) (by decide)

/-! ## Lines without quotes -/

theorem fields_space (cs cur : GoString) :
    (splitSpace (32 :: cs) cur).filter (fun p => decide (p ≠ [])) =
      (if cur ≠ [] then [cur] else []) ++
        (splitSpace cs []).filter (fun p => decide (p ≠ [])) := by
  have h1 : splitSpace (32 :: cs) cur = cur :: splitSpace cs [] := by
    conv_lhs => unfold splitSpace
    simp
  rw [h1]
  by_cases h : cur = []
  · simp [h, List.filter_cons]
  · simp [h, List.filter_cons]

theorem fields_dropWhile (l : GoString) :
    spaceFields l = spaceFields (l.dropWhile isSpace) := by
  induction l with
  | nil => rfl
  | cons c cs ih =>
    by_cases hc : c = 32
    · subst hc
      have hd : List.dropWhile isSpace ((32 : UInt8) :: cs) = List.dropWhile isSpace cs := by
        simp [List.dropWhile_cons, isSpace]
      rw [hd, ← ih]
      unfold spaceFields
      rw [fields_space]
      simp
    · have hd : List.dropWhile isSpace (c :: cs) = c :: cs := by
        simp [List.dropWhile_cons, isSpace, hc]
      rw [hd]

theorem splitSpace_bare (l : GoString) (hnl : (10 : UInt8) ∉ l) :
    ∀ cur, splitSpace l cur =
      splitSpace (l.dropWhile isBare) (cur ++ l.takeWhile isBare) := by
  induction l with
  | nil => intro cur; simp
  | cons c cs ih =>
    intro cur
    have hc10 : c ≠ 10 := fun h => hnl (by simp [h])
    have hcs : (10 : UInt8) ∉ cs := fun h => hnl (List.mem_cons_of_mem _ h)
    by_cases hc : c = 32
    · subst hc
      have hb : isBare (32 : UInt8) = false := by decide
      simp [List.dropWhile_cons, List.takeWhile_cons, hb]
    · have hb : isBare c = true := by simp [isBare, hc, hc10]
      have hstep : splitSpace (c :: cs) cur = splitSpace cs (cur ++ [c]) := by
        conv_lhs => unfold splitSpace
        simp [hc]
      rw [hstep, ih hcs]
      simp [List.dropWhile_cons, List.takeWhile_cons, hb]

theorem dropWhile_isBare_head (l : GoString) (hnl : (10 : UInt8) ∉ l) :
    l.dropWhile isBare = [] ∨ ∃ cs, l.dropWhile isBare = 32 :: cs := by
  induction l with
  | nil => exact Or.inl rfl
  | cons c cs ih =>
    have hc10 : c ≠ 10 := fun h => hnl (by simp [h])
    have hcs : (10 : UInt8) ∉ cs := fun h => hnl (List.mem_cons_of_mem _ h)
    by_cases hc : c = 32
    · subst hc
      have hb : isBare (32 : UInt8) = false := by decide
      exact Or.inr ⟨cs, by simp [List.dropWhile_cons, hb]⟩
    · have hb : isBare c = true := by simp [isBare, hc, hc10]
      have hd : List.dropWhile isBare (c :: cs) = List.dropWhile isBare cs := by
        simp [List.dropWhile_cons, hb]
      rw [hd]
      exact ih hcs

/-- The fields of a line that starts with a byte of an argument: the first
field is the run of argument bytes, the others are the fields of the rest. -/
theorem fields_bare (c : UInt8) (cs : GoString) (hc : c ≠ 32) (hnl : (10 : UInt8) ∉ c :: cs) :
    spaceFields (c :: cs) =
      (c :: cs).takeWhile isBare :: spaceFields ((c :: cs).dropWhile isBare) := by
  have hc10 : c ≠ 10 := fun h => hnl (by simp [h])
  have hb : isBare c = true := by simp [isBare, hc, hc10]
  have htw : (c :: cs).takeWhile isBare ≠ [] := by
    simp [List.takeWhile_cons, hb]
  unfold spaceFields
  rw [splitSpace_bare (c :: cs) hnl []]
  simp only [List.nil_append]
  rcases dropWhile_isBare_head (c :: cs) hnl with h | ⟨t, h⟩
  · rw [h]
    simp [splitSpace, List.filter_cons, htw]
  · rw [h, fields_space, fields_space]
    simp [htw]

theorem byteToString_ne_nil (b : UInt8) : byteToString b ≠ [] := by
  unfold byteToString
  split_ifs <;> simp

theorem encodeBare_ne_nil (p : GoString) (h : p ≠ []) : encodeBare p ≠ [] := by
  cases p with
  | nil => exact absurd rfl h
  | cons b bs =>
    unfold encodeBare
    simp only [List.map_cons, Join_cons]
    intro hnil
    exact byteToString_ne_nil b (List.append_eq_nil.mp hnil).1

theorem dropWhile_isSpace_head (l : GoString) (c : UInt8) (cs : GoString)
    (h : l.dropWhile isSpace = c :: cs) : c ≠ 32 := by
  induction l with
  | nil => simp at h
  | cons a l ih =>
    by_cases ha : a = 32
    · subst ha
      have hd : List.dropWhile isSpace ((32 : UInt8) :: l) = List.dropWhile isSpace l := by
        simp [List.dropWhile_cons, isSpace]
      rw [hd] at h
      exact ih h
    · have hd : List.dropWhile isSpace (a :: l) = a :: l := by
        simp [List.dropWhile_cons, isSpace, ha]
      rw [hd] at h
      have : a = c := by simpa using (List.cons.inj h).1
      rw [← this]
      exact ha

theorem dropWhile_subset (p : UInt8 → Bool) (l : GoString) : ∀ c ∈ l.dropWhile p, c ∈ l := by
  intro c hc
  have := List.takeWhile_append_dropWhile p l
  rw [← this]
  exact List.mem_append_right _ hc

theorem dropWhile_length_le (p : UInt8 → Bool) (l : GoString) :
    (l.dropWhile p).length ≤ l.length := by
  have h := congrArg List.length (List.takeWhile_append_dropWhile p l)
  rw [List.length_append] at h
  omega

/-- One turn of the loop of `Read` on a line without double quote: the bare
argument after the spaces is consumed and, when not empty, appended. -/
theorem readLoop_step_bare (f : Nat) (r : Reader) (args : List GoString)
    (hq : (34 : UInt8) ∉ r.line) (hend : r.end_ = false) :
    ∃ r1 : Reader, r1.line = r.line ∧
      r1.rest = (r.rest.dropWhile isSpace).dropWhile isBare ∧
      readLoop (f + 1) r args =
        readLoop f r1
          (if encodeBare ((r.rest.dropWhile isSpace).takeWhile isBare) ≠ [] then
            args ++ [encodeBare ((r.rest.dropWhile isSpace).takeWhile isBare)] else args) := by
  have hsub : ∀ x ∈ r.rest.dropWhile isSpace, x ∈ r.line := fun x hx =>
    Reader.rest_subset r x (dropWhile_subset isSpace _ x hx)
  have hhead : (r.rest.dropWhile isSpace).headD 10 ≠ 34 := by
    cases hd : r.rest.dropWhile isSpace with
    | nil => decide
    | cons a t =>
      intro h34
      have ha : a = 34 := by simpa using h34
      have hmem : a ∈ r.line := hsub a (by rw [hd]; simp)
      rw [ha] at hmem
      exact hq hmem
  have hca := consumeArg_bare r hhead
  refine ⟨Reader.mk r.line (r.pos + (r.rest.takeWhile isSpace).length +
    ((r.rest.dropWhile isSpace).takeWhile isBare).length), rfl, ?_, ?_⟩
  · rw [Nat.add_assoc, Reader.rest_mk, ← List.drop_drop, drop_takeWhile_length,
      drop_takeWhile_length]
  · conv_lhs => unfold readLoop
    simp [hend, hca, encodeBare]

/-- The loop of `Read` on a rest of line without double quote and newline:
the fields of the rest, each through the bare-argument loop, are appended to
the arguments. -/
theorem readLoop_bare (fuel : Nat) :
    ∀ (r : Reader) (args : List GoString), (34 : UInt8) ∉ r.line → (10 : UInt8) ∉ r.line →
      r.rest.length < fuel →
      readLoop fuel r args = some (args ++ (spaceFields r.rest).map encodeBare, none) := by
  induction fuel with
  | zero => intro r args _ _ h; exact absurd h (Nat.not_lt_zero _)
  | succ f ih =>
    intro r args hq hnl hlen
    cases hrest : r.rest with
    | nil =>
      have hend := Reader.end_of_nil r hrest
      unfold readLoop
      simp [hend, spaceFields, splitSpace]
    | cons c cs =>
      have hend := Reader.end_of_cons r c cs hrest
      obtain ⟨r1, hl1, hr1, hstep⟩ := readLoop_step_bare f r args hq hend
      have hsub : ∀ x ∈ r.rest.dropWhile isSpace, x ∈ r.line := fun x hx =>
        Reader.rest_subset r x (dropWhile_subset isSpace _ x hx)
      have hrl : r.rest.length = cs.length + 1 := by rw [hrest]; rfl
      have hdl : (r.rest.dropWhile isSpace).length ≤ cs.length + 1 := by
        have := dropWhile_length_le isSpace r.rest
        omega
      have hhd : ∀ a t, r.rest.dropWhile isSpace = a :: t → a ≠ 32 :=
        fun a t h => dropWhile_isSpace_head _ a t h
      have hfl : spaceFields r.rest = spaceFields (r.rest.dropWhile isSpace) :=
        fields_dropWhile r.rest
      have hq1 : (34 : UInt8) ∉ r1.line := by rw [hl1]; exact hq
      have hnl1 : (10 : UInt8) ∉ r1.line := by rw [hl1]; exact hnl
      rw [← hrest, hstep, hfl]
      rw [hrest] at hlen
      simp only [List.length_cons] at hlen
      generalize r.rest.dropWhile isSpace = rest1 at hr1 hsub hdl hhd ⊢
      cases rest1 with
      | nil =>
        have hlen1 : r1.rest.length < f := by
          rw [hr1]
          simp only [List.dropWhile_nil, List.length_nil]
          omega
        rw [ih r1 _ hq1 hnl1 hlen1, hr1]
        simp [encodeBare, Join, spaceFields, splitSpace]
      | cons a t =>
        have ha : a ≠ 32 := hhd a t rfl
        have hnl' : (10 : UInt8) ∉ a :: t := fun h10 => hnl (hsub 10 h10)
        have ha10 : a ≠ 10 := fun h => hnl' (by simp [h])
        have hb : isBare a = true := by simp [isBare, ha, ha10]
        have htw : (a :: t).takeWhile isBare ≠ [] := by
          simp [List.takeWhile_cons, hb]
        have henc := encodeBare_ne_nil _ htw
        have hlen1 : r1.rest.length < f := by
          rw [hr1]
          have h1 : List.dropWhile isBare (a :: t) = List.dropWhile isBare t := by
            simp [List.dropWhile_cons, hb]
          have h2 := dropWhile_length_le isBare t
          have h3 : (a :: t).length = t.length + 1 := rfl
          rw [h1]
          omega
        rw [if_pos henc, ih r1 _ hq1 hnl1 hlen1, hr1, fields_bare a t ha hnl']
        simp

/-- The tokenization of a line without double quote and newline: it
succeeds, and the arguments are the fields of the line, each byte of a field
through `string(b)`. -/
theorem tokenize_bare (line : GoString) (hq : (34 : UInt8) ∉ line) (hnl : (10 : UInt8) ∉ line) :
    tokenize line = some ((spaceFields line).map encodeBare, none) := by
  have hspec := skipSpaces_consumeArg { line := line, pos := 0 }
  simp only at hspec
  unfold tokenize
  rw [hspec]
  have hrest : (Reader.mk line
      (0 + ((Reader.mk line 0).rest.takeWhile isSpace).length)).rest =
      line.dropWhile isSpace := by
    have := Reader.rest_skipped { line := line, pos := 0 }
    simpa [Reader.rest] using this
  have := readLoop_bare (line.length + 1) _ [] hq hnl
    (by rw [hrest]; exact Nat.lt_succ_of_le (dropWhile_length_le _ _))
  rw [hrest] at this
  dsimp only
  rw [this, ← fields_dropWhile]
  simp

theorem splitSpace_mem (l : GoString) :
    ∀ (cur p : GoString), p ∈ splitSpace l cur → ∀ c ∈ p, c ∈ cur ∨ c ∈ l := by
  induction l with
  | nil =>
    intro cur p hp c hc
    simp only [splitSpace, List.mem_singleton] at hp
    rw [hp] at hc
    exact Or.inl hc
  | cons a l ih =>
    intro cur p hp c hc
    unfold splitSpace at hp
    split_ifs at hp with ha
    · rcases List.mem_cons.mp hp with h | h
      · rw [h] at hc
        exact Or.inl hc
      · rcases ih [] p h c hc with h1 | h1
        · simp at h1
        · exact Or.inr (List.mem_cons_of_mem _ h1)
    · rcases ih (cur ++ [a]) p hp c hc with h1 | h1
      · rcases List.mem_append.mp h1 with h2 | h2
        · exact Or.inl h2
        · exact Or.inr (by rw [List.mem_singleton.mp h2]; simp)
      · exact Or.inr (List.mem_cons_of_mem _ h1)

theorem encodeBare_ascii (p : GoString) (h : ∀ c ∈ p, c.toNat < 128) : encodeBare p = p := by
  induction p with
  | nil => rfl
  | cons b bs ih =>
    have hb : b.toNat < 128 := h b (by simp)
    have hbs : ∀ c ∈ bs, c.toNat < 128 := fun c hc => h c (List.mem_cons_of_mem _ hc)
    have ih' := ih hbs
    unfold encodeBare at ih' ⊢
    simp only [List.map_cons, Join_cons, ih']
    simp [byteToString, hb]

/-- On a line of bytes below 0x80 without double quote and newline the
arguments are the fields of the line. -/
theorem tokenize_ascii (line : GoString) (hq : (34 : UInt8) ∉ line) (hnl : (10 : UInt8) ∉ line)
    (hascii : ∀ c ∈ line, c.toNat < 128) : tokenize line = some (spaceFields line, none) := by
  rw [tokenize_bare line hq hnl]
  have : (spaceFields line).map encodeBare = spaceFields line := by
    conv_rhs => rw [← List.map_id (spaceFields line)]
    apply List.map_congr_left
    intro p hp
    show encodeBare p = p
    apply encodeBare_ascii
    intro c hc
    have hp' : p ∈ splitSpace line [] := List.mem_of_mem_filter hp
    rcases splitSpace_mem line [] p hp' c hc with h | h
    · simp at h
    · exact hascii c h
  rw [this]

/-! ## The decimal digits of `Itoa` -/

theorem digitsLoop_eq_digits (fuel : Nat) :
    ∀ (n : Nat) (acc : GoString), n < fuel → n ≠ 0 →
      digitsLoop fuel n acc =
        ((Nat.digits 10 n).reverse.map (fun d => UInt8.ofNat (48 + d))) ++ acc := by
  induction fuel with
  | zero => intro n acc h; exact absurd h (Nat.not_lt_zero _)
  | succ fuel ih =>
    intro n acc hlt hn
    have hpos : 0 < n := Nat.pos_of_ne_zero hn
    have hdig : Nat.digits 10 n = n % 10 :: Nat.digits 10 (n / 10) :=
      Nat.digits_def' (by norm_num) hpos
    unfold digitsLoop
    dsimp only
    by_cases h0 : n / 10 = 0
    · rw [if_pos h0, hdig, h0]
      simp
    · rw [if_neg h0, ih (n / 10) _ (by omega) h0, hdig]
      simp

/-- The digits `Itoa` writes for a positive number are its decimal digits,
most significant first. -/
theorem natDecimal_eq_digits (n : Nat) (hn : n ≠ 0) :
    natDecimal n = (Nat.digits 10 n).reverse.map (fun d => UInt8.ofNat (48 + d)) := by
  unfold natDecimal
  rw [digitsLoop_eq_digits (n + 1) n [] (Nat.lt_succ_self n) hn]
  simp

/-! ## SET with options -/

theorem isGuard_not_isExpire (L : Lib) (o : GoString) (h : isGuard L o) : ¬ isExpire L o := by
  unfold isGuard at h
  unfold isExpire
  rcases h with h | h <;> rw [h] <;> decide

theorem isExpire_not_isGuard (L : Lib) (o : GoString) (h : isExpire L o) : ¬ isGuard L o :=
  fun hg => isGuard_not_isExpire L o hg h

theorem setDatabase_self (C : CacheContainer) (i : Int) (h : i.toNat < C.length) :
    setDatabase C i (database C i) = C := by
  unfold setDatabase database
  apply List.ext_getElem?
  intro j
  rw [List.getElem?_set]
  by_cases hj : i.toNat = j
  · subst hj
    simp [h, List.getD_eq_getElem?_getD]
  · simp [hj]

theorem database_setDatabase_other (C : CacheContainer) (i j : Int) (db : ShardedCache)
    (h : j.toNat ≠ i.toNat) : database (setDatabase C i db) j = database C j := by
  unfold database
  rw [List.getD_eq_getElem?_getD, List.getD_eq_getElem?_getD,
    getElem?_setDatabase_other C i db j.toNat h]

theorem setParse_guard (L : Lib) (g : GoString) (hg : isGuard L g) :
    setParse L [g] setOptionsInit =
      { setOptionsInit with optExist := ToUpper L g, checkExist := true } := by
  have hg' : ToUpper L g = lit "NX" ∨ ToUpper L g = lit "XX" := hg
  simp [setParse, setOptionsInit, hg']

theorem setParse_guard_expire (L : Lib) (g e d : GoString) (hg : isGuard L g)
    (he : isExpire L e) :
    setParse L [g, e, d] setOptionsInit =
      { setOptionsInit with optExist := ToUpper L g, checkExist := true,
                            optExpire := ToUpper L e, durExpire := d, checkExpire := true } := by
  have hg' : ToUpper L g = lit "NX" ∨ ToUpper L g = lit "XX" := hg
  have he' : ToUpper L e = lit "PX" ∨ ToUpper L e = lit "EX" := he
  simp [setParse, setOptionsInit, hg', he']

theorem setParse_expire_guard (L : Lib) (g e d : GoString) (hg : isGuard L g)
    (he : isExpire L e) :
    setParse L [e, d, g] setOptionsInit =
      { setOptionsInit with optExist := ToUpper L g, checkExist := true,
                            optExpire := ToUpper L e, durExpire := d, checkExpire := true } := by
  have hg' : ToUpper L g = lit "NX" ∨ ToUpper L g = lit "XX" := hg
  have he' : ToUpper L e = lit "PX" ∨ ToUpper L e = lit "EX" := he
  have hne : ¬ (ToUpper L e = lit "NX" ∨ ToUpper L e = lit "XX") := isExpire_not_isGuard L e he
  simp [setParse, setOptionsInit, hg', he', hne]

/-- What `setCommand` does once its option loop found a guard and no syntax
error: the reply, the container and the goroutines. -/
theorem setCommand_guarded (L : Lib) (cmd : Command) (C : CacheContainer) (st : setOptions)
    (hlen : ¬ (cmd.Arguments.length < 3 ∨ cmd.Arguments.length > 6))
    (hst : setParse L (cmd.Arguments.drop 3) setOptionsInit = st)
    (hse : st.syntaxError = false) (hce : st.checkExist = true) :
    (setCommand L cmd C).wire =
      (if (stored L (database C cmd.Index) (cmd.arg 1)).isSome = decide (st.optExist = lit "XX")
        then lit "!1\r\n+OK\r\n" else lit "!1\r\n\r\n") ∧
    (setCommand L cmd C).Container =
      setDatabase C cmd.Index
        (if (stored L (database C cmd.Index) (cmd.arg 1)).isSome = decide (st.optExist = lit "XX")
          then Store L (database C cmd.Index) (cmd.arg 1) (cmd.arg 2)
          else database C cmd.Index) ∧
    (setCommand L cmd C).timers =
      (if cmd.Connection.writeErr = true then []
        else if st.checkExpire = true then
          setExpiration (cmd.arg 1) st.optExpire st.durExpire cmd.Index
        else []) := by
  have hst' : setParse L (cmd.Arguments.drop 3)
      { syntaxError := false, checkExist := false, checkExpire := false,
        optExist := [], optExpire := [], durExpire := [] } = st := hst
  have hok : BuildResponse [lit "!1\r\n", lit "+OK\r\n"] = lit "!1\r\n+OK\r\n" := by decide
  have hem : BuildResponse [lit "!1\r\n", lit "\r\n"] = lit "!1\r\n\r\n" := by decide
  unfold setCommand
  dsimp only
  rw [if_neg hlen, hst']
  simp only [hse, hce, Bool.false_eq_true, if_false, if_true, LoadExistStore_result,
    LoadExistStore_cache, commaOk_snd]
  by_cases hp : (stored L (database C cmd.Index) (cmd.arg 1)).isSome =
      decide (st.optExist = lit "XX")
  · simp only [hp, if_true, true_or]
    cases hw : cmd.Connection.writeErr <;> cases hx : st.checkExpire <;>
      simp [respond, hok]
  · have hp' : ¬ ((stored L (database C cmd.Index) (cmd.arg 1)).isSome =
        decide (st.optExist = lit "XX") ∨ false = true) := by simp [hp]
    simp only [hp, hp', if_false]
    cases hw : cmd.Connection.writeErr <;> cases hx : st.checkExpire <;>
      simp [respond, hem]

/-- C11: SET with exactly one guard (alone, or before or after an expiration
with its duration).  With NX the reply is `+OK` exactly when `k` was absent,
and then `v` is written; with XX the reply is `+OK` exactly when `k` was
present, and then `v` is written; in the other case the reply is the empty
payload line and the container is unchanged.  No other key and no other
database changes in any case. -/
theorem C11_set_guard (L : Lib) (R : Runtime) (C : CacheContainer) (conn : Conn) (idx : Int)
    (c k v g e d : GoString) (opts : List GoString) (o : Outcome)
    (hC : CacheContainer.ok C) (hi : indexOk idx) (hc : ToUpper L c = lit "SET")
    (hg : isGuard L g) (he : isExpire L e)
    (hopts : opts = [g] ∨ opts = [g, e, d] ∨ opts = [e, d, g])
    (ho : o = Execute L R { Arguments := c :: k :: v :: opts, Connection := conn, Index := idx }
      C) :
    (ToUpper L g = lit "NX" →
      (o.wire = lit "!1\r\n+OK\r\n" ↔ stored L (database C idx) k = none) ∧
      (stored L (database C idx) k = none → stored L (database o.Container idx) k = some v) ∧
      (stored L (database C idx) k ≠ none → o.wire = lit "!1\r\n\r\n" ∧ o.Container = C)) ∧
    (ToUpper L g = lit "XX" →
      (o.wire = lit "!1\r\n+OK\r\n" ↔ stored L (database C idx) k ≠ none) ∧
      (stored L (database C idx) k ≠ none → stored L (database o.Container idx) k = some v) ∧
      (stored L (database C idx) k = none → o.wire = lit "!1\r\n\r\n" ∧ o.Container = C)) ∧
    (∀ k', k' ≠ k → stored L (database o.Container idx) k' = stored L (database C idx) k') ∧
    (∀ j : Nat, j ≠ idx.toNat → o.Container[j]? = C[j]?) := by
  have hdb := database_ne_nil C idx hC hi
  have hlt := toNat_lt_length C idx hC hi
  obtain ⟨st, hst, hse, hce, hoe⟩ : ∃ st, setParse L opts setOptionsInit = st ∧
      st.syntaxError = false ∧ st.checkExist = true ∧ st.optExist = ToUpper L g := by
    rcases hopts with h | h | h
    · exact ⟨_, by rw [h, setParse_guard L g hg], rfl, rfl, rfl⟩
    · exact ⟨_, by rw [h, setParse_guard_expire L g e d hg he], rfl, rfl, rfl⟩
    · exact ⟨_, by rw [h, setParse_expire_guard L g e d hg he], rfl, rfl, rfl⟩
  have hlen : ¬ ((c :: k :: v :: opts).length < 3 ∨ (c :: k :: v :: opts).length > 6) := by
    rcases hopts with h | h | h <;> rw [h] <;> simp
  obtain ⟨hw, hCn, _⟩ := setCommand_guarded L
    { Arguments := c :: k :: v :: opts, Connection := conn, Index := idx } C st hlen hst hse hce
  rw [Execute_SET L R { Arguments := c :: k :: v :: opts, Connection := conn, Index := idx } C
    hc] at ho
  rw [← ho, hoe] at hw hCn
  have hk : ({ Arguments := c :: k :: v :: opts, Connection := conn, Index := idx } :
      Command).arg 1 = k := rfl
  have hv : ({ Arguments := c :: k :: v :: opts, Connection := conn, Index := idx } :
      Command).arg 2 = v := rfl
  simp only [hk, hv] at hw hCn
  have hne : lit "!1\r\n\r\n" ≠ lit "!1\r\n+OK\r\n" := by decide
  refine ⟨fun hnx => ?_, fun hxx => ?_, fun k' hk' => ?_, fun j hj => ?_⟩
  · have hx : decide (ToUpper L g = lit "XX") = false := by
      rw [hnx]; decide
    rw [hx] at hw hCn
    cases hp : stored L (database C idx) k with
    | none =>
      rw [hp] at hw hCn
      simp only [Option.isSome_none, if_true] at hw hCn
      refine ⟨⟨fun _ => rfl, fun _ => hw⟩, fun _ => ?_, fun h => absurd rfl h⟩
      rw [hCn, database_setDatabase_same C idx _ hlt, stored_Store L _ k v k hdb]
      simp
    | some x =>
      rw [hp] at hw hCn
      simp only [Option.isSome_some, Bool.true_eq_false, if_false] at hw hCn
      refine ⟨⟨fun h => absurd (hw.symm.trans h) hne, fun h => absurd h (by simp)⟩,
        fun h => absurd h (by simp), fun _ => ⟨hw, ?_⟩⟩
      rw [hCn, setDatabase_self C idx hlt]
  · have hx : decide (ToUpper L g = lit "XX") = true := by
      rw [hxx]; decide
    rw [hx] at hw hCn
    cases hp : stored L (database C idx) k with
    | none =>
      rw [hp] at hw hCn
      simp only [Option.isSome_none, Bool.false_eq_true, if_false] at hw hCn
      refine ⟨⟨fun h => absurd (hw.symm.trans h) hne, fun h => absurd rfl h⟩,
        fun h => absurd rfl h, fun _ => ⟨hw, ?_⟩⟩
      rw [hCn, setDatabase_self C idx hlt]
    | some x =>
      rw [hp] at hw hCn
      simp only [Option.isSome_some, if_true] at hw hCn
      refine ⟨⟨fun _ => by simp, fun _ => hw⟩, fun _ => ?_, fun h => absurd h (by simp)⟩
      rw [hCn, database_setDatabase_same C idx _ hlt, stored_Store L _ k v k hdb]
      simp
  · rw [hCn, database_setDatabase_same C idx _ hlt]
    split_ifs
    · rw [stored_Store L _ k v k' hdb]
      simp [hk']
    · rfl
  · rw [hCn]
    exact getElem?_setDatabase_other C idx _ j hj

theorem C11_set_guard_witness :
    (Execute testLib testRuntime
        { Arguments := [lit "set", lit "600", lit "hi", lit "nx"], Connection := testConn,
          Index := 0 }
        (testContainerWith "600" "bye")).wire = lit "!1\r\n\r\n" ∧
    (Execute testLib testRuntime
        { Arguments := [lit "set", lit "600", lit "hi", lit "nx"], Connection := testConn,
          Index := 0 }
        (testContainerWith "600" "bye")).Container = testContainerWith "600" "bye" :=
  ((C11_set_guard testLib testRuntime (testContainerWith "600" "bye") testConn 0 (lit "set")
    (lit "600") (lit "hi") (lit "nx") (lit "ex") (lit "1") [lit "nx"] _ (by decide) (by decide)
    (by decide) (by decide) (by decide) (Or.inl rfl) rfl).1 (by decide)).2.2 (by decide)

/-- The option loop never clears a syntax error. -/
theorem setParse_sticky (L : Lib) (n : Nat) :
    ∀ (opts : List GoString) (st : setOptions), opts.length ≤ n → st.syntaxError = true →
      (setParse L opts st).syntaxError = true := by
  induction n with
  | zero =>
    intro opts st hl hs
    have : opts = [] := List.length_eq_zero.mp (Nat.le_zero.mp hl)
    subst this
    simpa [setParse] using hs
  | succ n ih =>
    intro opts st hl hs
    match opts, hl with
    | [], _ => simpa [setParse] using hs
    | [a], _ =>
      unfold setParse
      dsimp only
      split_ifs <;> simp [hs]
    | a :: b :: rest, hl =>
      simp only [List.length_cons] at hl
      unfold setParse
      dsimp only
      split_ifs
      · exact ih _ _ (by simp only [List.length_cons]; omega) hs
      · exact ih _ _ (by omega) hs
      · exact ih _ _ (by simp only [List.length_cons]; omega) rfl

/-- The option loop of `setCommand` ends without a syntax error exactly on
the accepted option lists. -/
theorem setParse_accepts (L : Lib) (opts : List GoString) (hlen : opts.length ≤ 3) :
    (setParse L opts setOptionsInit).syntaxError = false ↔ acceptedOptions L opts := by
  match opts, hlen with
  | [], _ => simp [setParse, setOptionsInit, acceptedOptions]
  | [a], _ =>
    by_cases hga : ToUpper L a = lit "NX" ∨ ToUpper L a = lit "XX"
    · simp [setParse, setOptionsInit, acceptedOptions, isGuard, hga]
    · by_cases hea : ToUpper L a = lit "PX" ∨ ToUpper L a = lit "EX"
      · simp [setParse, setOptionsInit, acceptedOptions, isGuard, hga, hea]
      · simp [setParse, setOptionsInit, acceptedOptions, isGuard, hga, hea]
  | [a, b], _ =>
    by_cases hga : ToUpper L a = lit "NX" ∨ ToUpper L a = lit "XX"
    · have hea : ¬ (ToUpper L a = lit "PX" ∨ ToUpper L a = lit "EX") :=
        isGuard_not_isExpire L a hga
      by_cases heb : ToUpper L b = lit "PX" ∨ ToUpper L b = lit "EX"
      · simp [setParse, setOptionsInit, acceptedOptions, isExpire, hga, hea, heb]
      · simp [setParse, setOptionsInit, acceptedOptions, isExpire, hga, hea, heb]
    · by_cases hea : ToUpper L a = lit "PX" ∨ ToUpper L a = lit "EX"
      · simp [setParse, setOptionsInit, acceptedOptions, isExpire, hga, hea]
      · have hs := setParse_sticky L 1 [b]
          { setOptionsInit with syntaxError := true } (by simp) rfl
        simp [setParse, setOptionsInit, acceptedOptions, isExpire, hga, hea] at hs ⊢
        simpa [setParse] using hs
  | [a, b, c], _ =>
    by_cases hga : ToUpper L a = lit "NX" ∨ ToUpper L a = lit "XX"
    · have hea : ¬ (ToUpper L a = lit "PX" ∨ ToUpper L a = lit "EX") :=
        isGuard_not_isExpire L a hga
      by_cases heb : ToUpper L b = lit "PX" ∨ ToUpper L b = lit "EX"
      · simp [setParse, setOptionsInit, acceptedOptions, isGuard, isExpire, hga, hea, heb]
      · have hs := setParse_sticky L 1 [c]
          { setOptionsInit with optExist := ToUpper L a, checkExist := true,
                                syntaxError := true } (by simp) rfl
        simp [setParse, setOptionsInit, acceptedOptions, isGuard, isExpire, hga, hea, heb]
          at hs ⊢
        simpa [setParse] using hs
    · by_cases hea : ToUpper L a = lit "PX" ∨ ToUpper L a = lit "EX"
      · by_cases hgc : ToUpper L c = lit "NX" ∨ ToUpper L c = lit "XX"
        · simp [setParse, setOptionsInit, acceptedOptions, isGuard, isExpire, hga, hea, hgc]
        · by_cases hec : ToUpper L c = lit "PX" ∨ ToUpper L c = lit "EX"
          · simp [setParse, setOptionsInit, acceptedOptions, isGuard, isExpire, hga, hea, hgc,
              hec]
          · simp [setParse, setOptionsInit, acceptedOptions, isGuard, isExpire, hga, hea, hgc,
              hec]
      · have hs := setParse_sticky L 2 [b, c]
          { setOptionsInit with syntaxError := true } (by simp) rfl
        simp [setParse, setOptionsInit, acceptedOptions, isGuard, isExpire, hga, hea] at hs ⊢
        simpa [setParse] using hs
  | _ :: _ :: _ :: _ :: _, h => simp at h

theorem wrongSyntax_ne (c rest : GoString) (x : GoString)
    (hx : x = lit "!1\r\n+OK\r\n" ∨ x = lit "!1\r\n\r\n") :
    lit "!1\r\n" ++ (lit "-ERR wrong syntax for '" ++ c ++ rest) ≠ x := by
  have h1 : lit "-ERR wrong syntax for '" = 45 :: lit "ERR wrong syntax for '" := by decide
  have h2 : lit "!1\r\n+OK\r\n" = lit "!1\r\n" ++ (43 :: lit "OK\r\n") := by decide
  have h3 : lit "!1\r\n\r\n" = lit "!1\r\n" ++ (13 :: lit "\n") := by decide
  intro h
  rcases hx with hx | hx
  · rw [hx, h2, h1] at h
    have := List.append_cancel_left h
    simp at this
  · rw [hx, h3, h1] at h
    have := List.append_cancel_left h
    simp at this

/-- A syntax error of the option loop: the reply names the command as typed
and nothing else happens. -/
theorem setCommand_syntaxError (L : Lib) (cmd : Command) (C : CacheContainer)
    (hlen : ¬ (cmd.Arguments.length < 3 ∨ cmd.Arguments.length > 6))
    (hse : (setParse L (cmd.Arguments.drop 3) setOptionsInit).syntaxError = true) :
    setCommand L cmd C =
      respond cmd C
        [lit "!1\r\n", lit "-ERR wrong syntax for '", cmd.arg 0, lit "' command\r\n"]
        cmd.Index := by
  have hse' : (setParse L (cmd.Arguments.drop 3)
      { syntaxError := false, checkExist := false, checkExpire := false,
        optExist := [], optExpire := [], durExpire := [] }).syntaxError = true := hse
  unfold setCommand
  dsimp only
  rw [if_neg hlen, if_pos hse']

/-- Without a syntax error the reply of `setCommand` is `+OK` or the empty
payload line. -/
theorem setCommand_accepted_wire (L : Lib) (cmd : Command) (C : CacheContainer)
    (hlen : ¬ (cmd.Arguments.length < 3 ∨ cmd.Arguments.length > 6))
    (hse : (setParse L (cmd.Arguments.drop 3) setOptionsInit).syntaxError = false) :
    (setCommand L cmd C).wire = lit "!1\r\n+OK\r\n" ∨
      (setCommand L cmd C).wire = lit "!1\r\n\r\n" := by
  cases hce : (setParse L (cmd.Arguments.drop 3) setOptionsInit).checkExist with
  | true =>
    obtain ⟨hw, _, _⟩ := setCommand_guarded L cmd C _ hlen rfl hse hce
    rw [hw]
    split_ifs
    · exact Or.inl rfl
    · exact Or.inr rfl
  | false =>
    have hse' : (setParse L (cmd.Arguments.drop 3)
        { syntaxError := false, checkExist := false, checkExpire := false,
          optExist := [], optExpire := [], durExpire := [] }).syntaxError = false := hse
    have hce' : (setParse L (cmd.Arguments.drop 3)
        { syntaxError := false, checkExist := false, checkExpire := false,
          optExist := [], optExpire := [], durExpire := [] }).checkExist = false := hce
    have hok : BuildResponse [lit "!1\r\n", lit "+OK\r\n"] = lit "!1\r\n+OK\r\n" := by decide
    left
    unfold setCommand
    dsimp only
    rw [if_neg hlen]
    simp only [hse', hce', Bool.false_eq_true, if_false]
    split_ifs <;> simp [respond, hok]

/-- C12: for every SET with 3 to 6 arguments, the options after the value
are accepted (the reply is `+OK` or the empty payload line) exactly when they
are at most one existence guard and at most one expiration keyword with its
duration argument, in either order; every other option list is answered with
`-ERR wrong syntax for '<name>' command`, the name as typed, and then no
database changes and no goroutine is started. -/
theorem C12_set_options_accepted (L : Lib) (R : Runtime) (C : CacheContainer) (conn : Conn)
    (idx : Int) (c k v : GoString) (opts : List GoString) (o : Outcome)
    (hc : ToUpper L c = lit "SET") (hlen : opts.length ≤ 3)
    (ho : o = Execute L R { Arguments := c :: k :: v :: opts, Connection := conn, Index := idx }
      C) :
    (acceptedOptions L opts → o.wire = lit "!1\r\n+OK\r\n" ∨ o.wire = lit "!1\r\n\r\n") ∧
    (¬ acceptedOptions L opts →
      o.wire = lit "!1\r\n" ++ (lit "-ERR wrong syntax for '" ++ c ++ lit "' command\r\n") ∧
      o.Container = C ∧ o.timers = []) ∧
    (o.wire = lit "!1\r\n" ++ (lit "-ERR wrong syntax for '" ++ c ++ lit "' command\r\n") ↔
      ¬ acceptedOptions L opts) := by
  have hl : ¬ ((c :: k :: v :: opts).length < 3 ∨ (c :: k :: v :: opts).length > 6) := by
    simp only [List.length_cons]; omega
  have hacc := setParse_accepts L opts hlen
  rw [Execute_SET L R { Arguments := c :: k :: v :: opts, Connection := conn, Index := idx } C
    hc] at ho
  have hyes : acceptedOptions L opts →
      o.wire = lit "!1\r\n+OK\r\n" ∨ o.wire = lit "!1\r\n\r\n" := by
    intro ha
    rw [ho]
    exact setCommand_accepted_wire L _ C hl (hacc.mpr ha)
  have hno : ¬ acceptedOptions L opts →
      o.wire = lit "!1\r\n" ++ (lit "-ERR wrong syntax for '" ++ c ++ lit "' command\r\n") ∧
      o.Container = C ∧ o.timers = [] := by
    intro ha
    have hse : (setParse L opts setOptionsInit).syntaxError = true := by
      cases h : (setParse L opts setOptionsInit).syntaxError with
      | true => rfl
      | false => exact absurd (hacc.mp h) ha
    rw [ho, setCommand_syntaxError L
      { Arguments := c :: k :: v :: opts, Connection := conn, Index := idx } C hl hse]
    refine ⟨?_, rfl, rfl⟩
    simp [respond, BuildResponse, Join, Command.arg]
  refine ⟨hyes, hno, ⟨fun hw ha => ?_, fun ha => (hno ha).1⟩⟩
  exact wrongSyntax_ne c _ _ (hyes ha) hw.symm

theorem C12_set_options_accepted_witness :
    (Execute testLib testRuntime
        { Arguments := [lit "set", lit "600", lit "hi", lit "nx", lit "xx"],
          Connection := testConn, Index := 0 } testContainer).wire =
      lit "!1\r\n" ++ (lit "-ERR wrong syntax for '" ++ lit "set" ++ lit "' command\r\n") ∧
    (Execute testLib testRuntime
        { Arguments := [lit "set", lit "600", lit "hi", lit "nx", lit "xx"],
          Connection := testConn, Index := 0 } testContainer).Container = testContainer ∧
    (Execute testLib testRuntime
        { Arguments := [lit "set", lit "600", lit "hi", lit "nx", lit "xx"],
          Connection := testConn, Index := 0 } testContainer).timers = [] :=
  (C12_set_options_accepted testLib testRuntime testContainer testConn 0 (lit "set") (lit "600")
    (lit "hi") [lit "nx", lit "xx"] _ (by decide) (by decide) rfl).2.1 (by decide)

theorem ToUpper_ascii (L : Lib) (s : GoString)
    (h : s.all (fun c => decide (c.toNat < 128)) = true) : ToUpper L s = s.map asciiUpper := by
  unfold ToUpper
  rw [if_pos h]

theorem isGuard_any_case (L : Lib) :
    isGuard L (lit "NX") ∧ isGuard L (lit "nx") ∧ isGuard L (lit "Nx") ∧ isGuard L (lit "nX") ∧
    isGuard L (lit "XX") ∧ isGuard L (lit "xx") ∧ isGuard L (lit "Xx") ∧ isGuard L (lit "xX") ∧
    isExpire L (lit "EX") ∧ isExpire L (lit "ex") ∧ isExpire L (lit "Ex") ∧
    isExpire L (lit "eX") ∧ isExpire L (lit "PX") ∧ isExpire L (lit "px") ∧
    isExpire L (lit "Px") ∧ isExpire L (lit "pX") := by
  refine ⟨?_, ?_, ?_, ?_, ?_, ?_, ?_, ?_, ?_, ?_, ?_, ?_, ?_, ?_, ?_, ?_⟩ <;>
    first
      | exact Or.inl (by rw [ToUpper_ascii L _ (by decide)]; decide)
      | exact Or.inr (by rw [ToUpper_ascii L _ (by decide)]; decide)

/-! ## Expiration -/

/-- The function `setExpiration` starts no goroutine exactly when the value
`Atoi` leaves is zero. -/
theorem setExpiration_eq_nil (key option ttl : GoString) (db : Int) :
    setExpiration key option ttl db = [] ↔ (Atoi ttl).1 = 0 := by
  unfold setExpiration
  dsimp only
  split_ifs with h
  · simp [h]
  · simp [h]

/-- C13, at the failing inputs: a duration too large to parse and a negative
duration both start the goroutine.  `Atoi` returns the largest integer with
its range error, `setExpiration` drops the error and tests the value against
zero only; the product with the nanoseconds of a second wraps, so that
`SET k v EX 9223372036854775808` schedules the delete of `k` with a duration
of minus one second, and `SET k v PX -5` with minus five milliseconds. -/
theorem C13_expiration_scheduled_for_invalid :
    Atoi (lit "9223372036854775808") = (9223372036854775807, some NumError.ErrRange) ∧
    (Execute testLib testRuntime
      { Arguments := [lit "SET", lit "k", lit "v", lit "EX", lit "9223372036854775808"],
        Connection := testConn, Index := 0 } testContainer).timers =
      [{ db := 0, key := lit "k", duration := -1000000000 }] ∧
    Atoi (lit "-5") = (-5, none) ∧
    (Execute testLib testRuntime
      { Arguments := [lit "SET", lit "k", lit "v", lit "PX", lit "-5"],
        Connection := testConn, Index := 0 } testContainer).timers =
      [{ db := 0, key := lit "k", duration := -5000000 }] ∧
    (Execute testLib testRuntime
      { Arguments := [lit "SET", lit "k", lit "v", lit "EX", lit "abc"],
        Connection := testConn, Index := 0 } testContainer).timers = [] ∧
    (Execute testLib testRuntime
      { Arguments := [lit "SET", lit "k", lit "v", lit "EX", lit "0"],
        Connection := testConn, Index := 0 } testContainer).timers = [] ∧
    (Execute testLib testRuntime
      { Arguments := [lit "SET", lit "k", lit "v", lit "EX", lit "10"],
        Connection := testConn, Index := 0 } testContainer).timers =
      [{ db := 0, key := lit "k", duration := 10000000000 }] := by
  decide

/-- A positive duration within the range of `time.Duration`: EX schedules
the delete after that many seconds, PX after that many milliseconds. -/
theorem setExpiration_positive (key ttl : GoString) (db d : Int) (hd : Atoi ttl = (d, none))
    (hpos : 0 < d) :
    (1000000000 * d < 2 ^ 63 →
      setExpiration key (lit "EX") ttl db =
        [{ db := db, key := key, duration := 1000000000 * d }]) ∧
    (1000000 * d < 2 ^ 63 →
      setExpiration key (lit "PX") ttl db =
        [{ db := db, key := key, duration := 1000000 * d }]) := by
  have hne : d ≠ 0 := by omega
  have hEX : ¬ (lit "EX" = lit "PX") := by decide
  constructor
  · intro hfit
    unfold setExpiration
    simp only [hd, hne, if_false, hEX]
    rw [wrapInt_of_range _ (by norm_num at hfit ⊢; omega) hfit]
  · intro hfit
    unfold setExpiration
    simp only [hd, hne, if_false, if_true]
    rw [wrapInt_of_range _ (by norm_num at hfit ⊢; omega) hfit]

/-- A duration whose value is zero, as `Atoi` leaves it on a syntax error,
schedules nothing. -/
theorem setExpiration_wrong_option (key option ttl : GoString) (db : Int)
    (h : (Atoi ttl).1 = 0) : setExpiration key option ttl db = [] :=
  (setExpiration_eq_nil key option ttl db).mpr h

/-! ## APPEND with an empty argument -/

theorem Execute_APPEND (L : Lib) (R : Runtime) (cmd : Command) (C : CacheContainer)
    (h : ToUpper L (cmd.arg 0) = lit "APPEND") : Execute L R cmd C = appendCommand L cmd C := by
  simp only [Execute, h]
  rfl

/-- The loop of `Read` passes over an empty quoted argument: the reader moves
behind the two quotes and the arguments stay as they are. -/
theorem readLoop_empty_quoted (fuel : Nat) (r : Reader) (args : List GoString)
    (rest1 : GoString) (hend : r.end_ = false)
    (hq : r.rest.dropWhile isSpace = 34 :: 34 :: rest1) :
    ∃ r1 : Reader, r1.line = r.line ∧ r1.rest = rest1 ∧
      readLoop (fuel + 1) r args = readLoop fuel r1 args := by
  have hcq : closingQuote (34 :: rest1) = some 0 := by
    cases rest1 <;> simp [closingQuote]
  have hca := consumeArg_quoted_closed r (34 :: rest1) 0 hq hcq
  refine ⟨Reader.mk r.line (r.pos + (r.rest.takeWhile isSpace).length + 1 + 0 + 1), rfl, ?_, ?_⟩
  · have hpos : r.pos + (r.rest.takeWhile isSpace).length + 1 + 0 + 1 =
        r.pos + ((r.rest.takeWhile isSpace).length + 2) := by omega
    rw [hpos, Reader.rest_mk, ← List.drop_drop, drop_takeWhile_length, hq]
    rfl
  · conv_lhs => unfold readLoop
    simp [hend, hca]

/-- C14, the claim as written fails: the request line `APPEND k ""` is
tokenized to the two arguments APPEND and k, and the dispatched command is
answered with the arity error; on an absent key it creates nothing, and on a
key that holds `v` the reply is not `v`. -/
theorem C14_append_empty_line_counterexample :
    (testCommand "APPEND k \"\"" 0).Arguments = [lit "APPEND", lit "k"] ∧
    (Execute testLib testRuntime (testCommand "APPEND k \"\"" 0) testContainer).wire =
      lit "!1\r\n-ERR wrong number of arguments for 'APPEND' command\r\n" ∧
    stored testLib
      (database (Execute testLib testRuntime (testCommand "APPEND k \"\"" 0)
        testContainer).Container 0) (lit "k") ≠ some (lit "") ∧
    (Execute testLib testRuntime (testCommand "APPEND k \"\"" 0)
      (testContainerWith "k" "v")).wire ≠ lit "!1\r\nv\r\n" := by
  decide

theorem lit_empty : lit "" = [] := rfl

/-- APPEND with three arguments: the reply and the container. -/
theorem appendCommand_three (L : Lib) (C : CacheContainer) (conn : Conn) (idx : Int)
    (c k s : GoString) :
    (appendCommand L { Arguments := [c, k, s], Connection := conn, Index := idx } C).wire =
      lit "!1\r\n" ++ ((stored L (database C idx) k).getD [] ++ s) ++ lit "\r\n" ∧
    (appendCommand L { Arguments := [c, k, s], Connection := conn, Index := idx } C).Container =
      setDatabase C idx
        (Store L (database C idx) k ((stored L (database C idx) k).getD [] ++ s)) := by
  unfold appendCommand
  dsimp only
  rw [if_neg (by simp), LoadModifyStore_result, LoadModifyStore_cache]
  simp only [respond, Command.arg, List.getD_cons_succ, List.getD_cons_zero, lit_empty]
  constructor
  · rw [BuildResponse_three]
    simp [Join]
  · simp [Join]

theorem wrongArguments_wire (cmd : Command) (C : CacheContainer) :
    (wrongArguments cmd C).wire =
      lit "!1\r\n" ++
        (lit "-ERR wrong number of arguments for '" ++ cmd.arg 0 ++ lit "' command\r\n") := by
  simp [wrongArguments, respond, BuildResponse, Join]

/-- C14, amended: the request line `APPEND k ""` is tokenized to the two
arguments APPEND and k, because the loop of `Read` passes over every empty
quoted argument; APPEND with two arguments is answered with the arity error
and changes nothing.  APPEND with an empty third argument, which no request
line produces, is a no-op on a key that holds a value and replies with that
value, and on an absent key it creates the key holding the empty string. -/
theorem C14_append_empty (L : Lib) (R : Runtime) (C : CacheContainer) (conn : Conn) (idx : Int)
    (c k : GoString) (o2 o3 : Outcome)
    (hC : CacheContainer.ok C) (hi : indexOk idx) (hc : ToUpper L c = lit "APPEND")
    (ho2 : o2 = Execute L R { Arguments := [c, k], Connection := conn, Index := idx } C)
    (ho3 : o3 = Execute L R { Arguments := [c, k, []], Connection := conn, Index := idx } C) :
    tokenize (lit "APPEND k \"\"") = some ([lit "APPEND", lit "k"], none) ∧
    (∀ (fuel : Nat) (r : Reader) (args : List GoString) (rest1 : GoString),
      r.end_ = false → r.rest.dropWhile isSpace = 34 :: 34 :: rest1 →
      ∃ r1 : Reader, r1.line = r.line ∧ r1.rest = rest1 ∧
        readLoop (fuel + 1) r args = readLoop fuel r1 args) ∧
    (o2.wire = lit "!1\r\n" ++
        (lit "-ERR wrong number of arguments for '" ++ c ++ lit "' command\r\n") ∧
      o2.Container = C) ∧
    (∀ x, stored L (database C idx) k = some x →
      o3.wire = lit "!1\r\n" ++ x ++ lit "\r\n" ∧
      ∀ k', stored L (database o3.Container idx) k' = stored L (database C idx) k') ∧
    (stored L (database C idx) k = none →
      o3.wire = lit "!1\r\n\r\n" ∧
      stored L (database o3.Container idx) k = some [] ∧
      ∀ k', k' ≠ k → stored L (database o3.Container idx) k' = stored L (database C idx) k') ∧
    (∀ j : Nat, j ≠ idx.toNat → o3.Container[j]? = C[j]?) := by
  have hdb := database_ne_nil C idx hC hi
  have hlt := toNat_lt_length C idx hC hi
  rw [Execute_APPEND L R { Arguments := [c, k], Connection := conn, Index := idx } C hc] at ho2
  rw [Execute_APPEND L R { Arguments := [c, k, []], Connection := conn, Index := idx } C hc]
    at ho3
  obtain ⟨hw3, hc3⟩ := appendCommand_three L C conn idx c k []
  rw [← ho3] at hw3 hc3
  simp only [List.append_nil] at hw3 hc3
  refine ⟨by decide, fun fuel r args rest1 hend hq => readLoop_empty_quoted fuel r args rest1
    hend hq, ?_, fun x hx => ?_, fun hn => ?_, fun j hj => ?_⟩
  · rw [ho2]
    have h2 : appendCommand L { Arguments := [c, k], Connection := conn, Index := idx } C =
        wrongArguments { Arguments := [c, k], Connection := conn, Index := idx } C := by
      simp [appendCommand]
    rw [h2, wrongArguments_wire]
    exact ⟨rfl, rfl⟩
  · rw [hx] at hw3 hc3
    simp only [Option.getD_some] at hw3 hc3
    refine ⟨hw3, fun k' => ?_⟩
    rw [hc3, database_setDatabase_same C idx _ hlt, stored_Store L _ k x k' hdb]
    by_cases hk : k' = k
    · rw [hk, hx]; simp
    · simp [hk]
  · rw [hn] at hw3 hc3
    simp only [Option.getD_none] at hw3 hc3
    refine ⟨by rw [hw3]; decide, ?_, fun k' hk' => ?_⟩
    · rw [hc3, database_setDatabase_same C idx _ hlt, stored_Store L _ k [] k hdb]
      simp
    · rw [hc3, database_setDatabase_same C idx _ hlt, stored_Store L _ k [] k' hdb]
      simp [hk']
  · rw [hc3]
    exact getElem?_setDatabase_other C idx _ j hj

theorem C14_append_empty_witness :
    (Execute testLib testRuntime
        { Arguments := [lit "append", lit "k", []], Connection := testConn, Index := 0 }
        (testContainerWith "k" "v")).wire = lit "!1\r\n" ++ lit "v" ++ lit "\r\n" ∧
    ∀ k', stored testLib (database
        (Execute testLib testRuntime
          { Arguments := [lit "append", lit "k", []], Connection := testConn, Index := 0 }
          (testContainerWith "k" "v")).Container 0) k' =
      stored testLib (database (testContainerWith "k" "v") 0) k' :=
  (C14_append_empty testLib testRuntime (testContainerWith "k" "v") testConn 0 (lit "append")
    (lit "k") _ _ (by decide) (by decide) (by decide) rfl rfl).2.2.2.1 (lit "v") (by decide)

/-! ## DEL and EXISTS -/

theorem Execute_DEL (L : Lib) (R : Runtime) (cmd : Command) (C : CacheContainer)
    (h : ToUpper L (cmd.arg 0) = lit "DEL") : Execute L R cmd C = delCommand L cmd C := by
  simp only [Execute, h]
  rfl

theorem Execute_EXISTS (L : Lib) (R : Runtime) (cmd : Command) (C : CacheContainer)
    (h : ToUpper L (cmd.arg 0) = lit "EXISTS") : Execute L R cmd C = existsCommand L cmd C := by
  simp only [Execute, h]
  rfl

/-- Counting the keys of `insert k S` with a property: the keys of `S` other
than `k` with the property, and one more when `k` has it. -/
theorem card_filter_insert (S : Finset GoString) (P : GoString → Prop) [DecidablePred P]
    (k : GoString) :
    (((insert k S).filter P).card : Int) =
      (if P k then 1 else 0) + ((S.filter (fun x => x ≠ k ∧ P x)).card : Int) := by
  have herase : S.filter (fun x => x ≠ k ∧ P x) = (S.filter P).erase k := by
    ext x
    simp only [Finset.mem_filter, Finset.mem_erase]
    tauto
  rw [herase, Finset.filter_insert]
  by_cases hP : P k
  · simp only [hP, if_true]
    by_cases hk : k ∈ S.filter P
    · rw [Finset.insert_eq_of_mem hk]
      have := Finset.card_erase_add_one hk
      omega
    · rw [Finset.card_insert_of_not_mem hk, Finset.erase_eq_of_not_mem hk]
      push_cast
      omega
  · simp only [hP, if_false]
    have hk : k ∉ S.filter P := by
      simp [Finset.mem_filter, hP]
    rw [Finset.erase_eq_of_not_mem hk]
    simp

theorem stored_after_LoadAndDelete (L : Lib) (db : ShardedCache) (k k' : GoString)
    (hdb : db ≠ []) :
    stored L (LoadAndDelete L db k).1 k' = if k' = k then none else stored L db k' := by
  rw [LoadAndDelete_cache]
  cases hp : stored L db k with
  | none =>
    simp only [Option.isSome_none, Bool.false_eq_true, if_false]
    by_cases hk : k' = k
    · rw [hk, hp]; simp
    · simp [hk]
  | some x =>
    simp only [Option.isSome_some, if_true]
    exact stored_Delete L db k k' hdb

theorem LoadAndDelete_ne_nil (L : Lib) (db : ShardedCache) (k : GoString) (hdb : db ≠ []) :
    (LoadAndDelete L db k).1 ≠ [] := by
  rw [LoadAndDelete_cache]
  split_ifs
  · exact Delete_ne_nil L db k hdb
  · exact hdb

/-- The loop of `delCommand`: every key of the list is absent afterwards,
the others are as before, and the count grows by the number of distinct keys
of the list that were present. -/
theorem delLoop_spec (L : Lib) (keys : List GoString) :
    ∀ (db : ShardedCache) (count : Int), db ≠ [] →
      (delLoop L keys db count).1 ≠ [] ∧
      (∀ k', stored L (delLoop L keys db count).1 k' =
        if k' ∈ keys then none else stored L db k') ∧
      (delLoop L keys db count).2 =
        count + ((keys.toFinset.filter (fun k => (stored L db k).isSome = true)).card : Int) := by
  induction keys with
  | nil =>
    intro db count hdb
    simp [delLoop, hdb]
  | cons k ks ih =>
    intro db count hdb
    have hdb1 := LoadAndDelete_ne_nil L db k hdb
    have hst1 := fun k' => stored_after_LoadAndDelete L db k k' hdb
    obtain ⟨h1, h2, h3⟩ := ih (LoadAndDelete L db k).1
      (if (LoadAndDelete L db k).2.2 = true then count + 1 else count) hdb1
    have hloop : delLoop L (k :: ks) db count =
        delLoop L ks (LoadAndDelete L db k).1
          (if (LoadAndDelete L db k).2.2 = true then count + 1 else count) := rfl
    rw [hloop]
    refine ⟨h1, fun k' => ?_, ?_⟩
    · rw [h2 k', hst1 k']
      by_cases hk : k' = k
      · simp [hk]
      · simp [hk]
    · rw [h3, List.toFinset_cons, card_filter_insert]
      have hcongr : ks.toFinset.filter
            (fun x => (stored L (LoadAndDelete L db k).1 x).isSome = true) =
          ks.toFinset.filter (fun x => x ≠ k ∧ (stored L db x).isSome = true) := by
        apply Finset.filter_congr
        intro x _
        rw [hst1 x]
        by_cases hx : x = k
        · simp [hx]
        · simp [hx]
      rw [hcongr, LoadAndDelete_result, commaOk_snd]
      split_ifs <;> omega

theorem countLine (n : Int) :
    BuildResponse [lit "!1\r\n", lit ":", Itoa n, lit "\r\n"] =
      lit "!1\r\n" ++ (lit ":" ++ Itoa n ++ lit "\r\n") := by
  simp [BuildResponse, Join]

/-- C15: for every DEL with at least one key, the count in the reply is the
number of distinct keys among the arguments that were present before the
command; afterwards no key of the arguments is present, every key that is
not among the arguments is as before, and no other database changes. -/
theorem C15_del_counts (L : Lib) (R : Runtime) (C : CacheContainer) (conn : Conn) (idx : Int)
    (c : GoString) (keys : List GoString) (o : Outcome)
    (hC : CacheContainer.ok C) (hi : indexOk idx) (hc : ToUpper L c = lit "DEL")
    (hkeys : keys ≠ [])
    (ho : o = Execute L R { Arguments := c :: keys, Connection := conn, Index := idx } C) :
    o.wire = lit "!1\r\n" ++ (lit ":" ++
      Itoa ((keys.toFinset.filter
        (fun k => (stored L (database C idx) k).isSome = true)).card : Int) ++ lit "\r\n") ∧
    (∀ k, k ∈ keys → stored L (database o.Container idx) k = none) ∧
    (∀ k', k' ∉ keys → stored L (database o.Container idx) k' = stored L (database C idx) k') ∧
    (∀ j : Nat, j ≠ idx.toNat → o.Container[j]? = C[j]?) := by
  have hdb := database_ne_nil C idx hC hi
  have hlt := toNat_lt_length C idx hC hi
  obtain ⟨_, h2, h3⟩ := delLoop_spec L keys (database C idx) 0 hdb
  have hlen : ¬ ((c :: keys).length < 2) := by
    cases keys with
    | nil => exact absurd rfl hkeys
    | cons a t => simp
  have hcmd : o = respond { Arguments := c :: keys, Connection := conn, Index := idx }
      (setDatabase C idx (delLoop L keys (database C idx) 0).1)
      [lit "!1\r\n", lit ":", Itoa (delLoop L keys (database C idx) 0).2, lit "\r\n"] idx := by
    rw [ho, Execute_DEL L R { Arguments := c :: keys, Connection := conn, Index := idx } C hc]
    unfold delCommand
    dsimp only
    rw [if_neg hlen]
    rfl
  rw [hcmd]
  simp only [respond]
  refine ⟨?_, fun k hk => ?_, fun k' hk' => ?_, fun j hj => ?_⟩
  · rw [countLine, h3]
    simp
  · rw [database_setDatabase_same C idx _ hlt, h2 k]
    simp [hk]
  · rw [database_setDatabase_same C idx _ hlt, h2 k']
    simp [hk']
  · exact getElem?_setDatabase_other C idx _ j hj

theorem C15_del_counts_witness :
    (Execute testLib testRuntime
        { Arguments := [lit "del", lit "70000", lit "70707", lit "70000"],
          Connection := testConn, Index := 0 } (testContainerWith "70000" "x")).wire =
      lit "!1\r\n" ++ (lit ":" ++
        Itoa (([lit "70000", lit "70707", lit "70000"].toFinset.filter
          (fun k => (stored testLib (database (testContainerWith "70000" "x") 0) k).isSome
            = true)).card : Int) ++ lit "\r\n") ∧
    (([lit "70000", lit "70707", lit "70000"].toFinset.filter
      (fun k => (stored testLib (database (testContainerWith "70000" "x") 0) k).isSome
        = true)).card : Int) = 1 :=
  ⟨(C15_del_counts testLib testRuntime (testContainerWith "70000" "x") testConn 0 (lit "del")
    [lit "70000", lit "70707", lit "70000"] _ (by decide) (by decide) (by decide) (by decide)
    rfl).1, by decide⟩

theorem existsLoop_spec (L : Lib) (db : ShardedCache) (keys : List GoString) :
    ∀ count : Int, existsLoop L db keys count =
      count + (keys.countP (fun k => (stored L db k).isSome) : Int) := by
  induction keys with
  | nil => intro count; simp [existsLoop]
  | cons k ks ih =>
    intro count
    unfold existsLoop
    rw [ih, Load_eq, commaOk_snd, List.countP_cons]
    split_ifs <;> push_cast <;> omega

/-- C16: for every EXISTS with at least one key, the count in the reply is
the number of argument positions whose key is present, a present key named
twice counting twice, and the container is unchanged. -/
theorem C16_exists_counts (L : Lib) (R : Runtime) (C : CacheContainer) (conn : Conn)
    (idx : Int) (c : GoString) (keys : List GoString) (o : Outcome)
    (hc : ToUpper L c = lit "EXISTS") (hkeys : keys ≠ [])
    (ho : o = Execute L R { Arguments := c :: keys, Connection := conn, Index := idx } C) :
    o.wire = lit "!1\r\n" ++ (lit ":" ++
      Itoa (keys.countP (fun k => (stored L (database C idx) k).isSome) : Int) ++ lit "\r\n") ∧
    o.Container = C := by
  have hlen : ¬ ((c :: keys).length < 2) := by
    cases keys with
    | nil => exact absurd rfl hkeys
    | cons a t => simp
  rw [ho, Execute_EXISTS L R { Arguments := c :: keys, Connection := conn, Index := idx } C hc]
  unfold existsCommand
  dsimp only
  rw [if_neg hlen]
  simp only [respond, List.drop_succ_cons, List.drop_zero]
  rw [countLine, existsLoop_spec]
  simp

theorem C16_exists_counts_witness :
    (Execute testLib testRuntime
        { Arguments := [lit "exists", lit "600", lit "900", lit "600"],
          Connection := testConn, Index := 0 } (testContainerWith "600" "x")).wire =
      lit "!1\r\n:2\r\n" ∧
    (Execute testLib testRuntime
        { Arguments := [lit "exists", lit "600", lit "900", lit "600"],
          Connection := testConn, Index := 0 } (testContainerWith "600" "x")).Container =
      testContainerWith "600" "x" :=
  C16_exists_counts testLib testRuntime (testContainerWith "600" "x") testConn 0 (lit "exists")
    [lit "600", lit "900", lit "600"] _ (by decide) (by decide) rfl

/-! ## MOVE -/

theorem Execute_MOVE (L : Lib) (R : Runtime) (cmd : Command) (C : CacheContainer)
    (h : ToUpper L (cmd.arg 0) = lit "MOVE") : Execute L R cmd C = moveCommand L cmd C := by
  simp only [Execute, h]
  rfl

theorem toNat_ne_of_ok (i j : Int) (hi : indexOk i) (hj : indexOk j) (h : j ≠ i) :
    j.toNat ≠ i.toNat := by
  obtain ⟨hi0, _⟩ := hi
  obtain ⟨hj0, _⟩ := hj
  intro he
  apply h
  have h1 : ((i.toNat : Nat) : Int) = i := Int.toNat_of_nonneg hi0
  have h2 : ((j.toNat : Nat) : Int) = j := Int.toNat_of_nonneg hj0
  omega

theorem okLine : BuildResponse [lit "!1\r\n", lit "+OK\r\n"] = lit "!1\r\n+OK\r\n" := by decide

/-- MOVE of a present key to another database, by the presence of the key
in the destination. -/
theorem moveCommand_present (L : Lib) (C : CacheContainer) (conn : Conn) (i j : Int)
    (c k js v : GoString) (hj : indexOk j) (hij : j ≠ i) (hjs : Atoi js = (j, none))
    (hk : stored L (database C i) k = some v) :
    moveCommand L { Arguments := [c, k, js], Connection := conn, Index := i } C =
      if (stored L (database C j) k).isSome = true then
        respond { Arguments := [c, k, js], Connection := conn, Index := i }
          (setDatabase C j (database C j))
          [lit "!1\r\n", lit "-ERR key already exists in destination database\r\n"] i
      else
        respond { Arguments := [c, k, js], Connection := conn, Index := i }
          (setDatabase (setDatabase C j (Store L (database C j) k v)) i
            (Delete L (database (setDatabase C j (Store L (database C j) k v)) i) k))
          [lit "!1\r\n", lit "+OK\r\n"] i := by
  obtain ⟨hj0, hj3⟩ := hj
  have hb : ¬ (j < 0 ∨ j ≥ MemoryCacheContainerSize) := by omega
  have hl : Load L (database C i) k = (v, true) := by rw [Load_eq, hk]; rfl
  unfold moveCommand
  dsimp only
  simp only [List.length_cons, List.length_nil, Command.arg, List.getD_cons_succ,
    List.getD_cons_zero, hjs, hb, hij, hl, ne_eq, not_true_eq_false, if_false, if_true,
    LoadExistStore_result, LoadExistStore_cache, commaOk_snd]
  cases hp : stored L (database C j) k with
  | none => simp
  | some x => simp

/-- C17: MOVE k j on database i, with j a valid index other than i and k
present in database i with the value v.  When database j does not hold k the
reply is `+OK`, afterwards k is absent from database i, database j holds v at
k, and every other key of every database is as before; when database j holds
k already the reply is `-ERR key already exists in destination database` and
the container is unchanged. -/
theorem C17_move (L : Lib) (R : Runtime) (C : CacheContainer) (conn : Conn) (i j : Int)
    (c k js v : GoString) (o : Outcome)
    (hC : CacheContainer.ok C) (hi : indexOk i) (hj : indexOk j) (hij : j ≠ i)
    (hc : ToUpper L c = lit "MOVE") (hjs : Atoi js = (j, none))
    (hk : stored L (database C i) k = some v)
    (ho : o = Execute L R { Arguments := [c, k, js], Connection := conn, Index := i } C) :
    (stored L (database C j) k = none →
      o.wire = lit "!1\r\n+OK\r\n" ∧
      stored L (database o.Container i) k = none ∧
      stored L (database o.Container j) k = some v ∧
      (∀ k', k' ≠ k → stored L (database o.Container i) k' = stored L (database C i) k') ∧
      (∀ k', k' ≠ k → stored L (database o.Container j) k' = stored L (database C j) k') ∧
      (∀ d : Nat, d ≠ i.toNat → d ≠ j.toNat → o.Container[d]? = C[d]?)) ∧
    (stored L (database C j) k ≠ none →
      o.wire = lit "!1\r\n-ERR key already exists in destination database\r\n" ∧
      o.Container = C) := by
  have hdbi := database_ne_nil C i hC hi
  have hdbj := database_ne_nil C j hC hj
  have hlti := toNat_lt_length C i hC hi
  have hltj := toNat_lt_length C j hC hj
  have hne := toNat_ne_of_ok i j hi hj hij
  have hmove := moveCommand_present L C conn i j c k js v hj hij hjs hk
  rw [Execute_MOVE L R { Arguments := [c, k, js], Connection := conn, Index := i } C hc,
    hmove] at ho
  constructor
  · intro hn
    rw [hn] at ho
    simp only [Option.isSome_none, Bool.false_eq_true, if_false] at ho
    have hlti' : i.toNat < (setDatabase C j (Store L (database C j) k v)).length := by
      rw [setDatabase_length]; exact hlti
    have hsrc : database (setDatabase C j (Store L (database C j) k v)) i = database C i :=
      database_setDatabase_other C j i _ (fun e => hne e.symm)
    rw [ho]
    simp only [respond]
    refine ⟨okLine, ?_, ?_, fun k' hk' => ?_, fun k' hk' => ?_, fun d hdi hdj => ?_⟩
    · rw [database_setDatabase_same _ i _ hlti', hsrc, stored_Delete L _ k k hdbi]
      simp
    · rw [database_setDatabase_other _ i j _ hne, database_setDatabase_same C j _ hltj,
        stored_Store L _ k v k hdbj]
      simp
    · rw [database_setDatabase_same _ i _ hlti', hsrc, stored_Delete L _ k k' hdbi]
      simp [hk']
    · rw [database_setDatabase_other _ i j _ hne, database_setDatabase_same C j _ hltj,
        stored_Store L _ k v k' hdbj]
      simp [hk']
    · rw [getElem?_setDatabase_other _ i _ d hdi, getElem?_setDatabase_other C j _ d hdj]
  · intro hs
    have hsome : (stored L (database C j) k).isSome = true := by
      cases h : stored L (database C j) k with
      | none => exact absurd h hs
      | some x => rfl
    rw [hsome] at ho
    simp only [if_true] at ho
    rw [ho, setDatabase_self C j hltj]
    exact ⟨by simp only [respond]; decide, rfl⟩

theorem C17_move_witness :
    (Execute testLib testRuntime
        { Arguments := [lit "move", lit "454545", lit "1"], Connection := testConn, Index := 0 }
        (testContainerWith "454545" "hello")).wire = lit "!1\r\n+OK\r\n" ∧
    stored testLib (database
        (Execute testLib testRuntime
          { Arguments := [lit "move", lit "454545", lit "1"], Connection := testConn,
            Index := 0 }
          (testContainerWith "454545" "hello")).Container 0) (lit "454545") = none ∧
    stored testLib (database
        (Execute testLib testRuntime
          { Arguments := [lit "move", lit "454545", lit "1"], Connection := testConn,
            Index := 0 }
          (testContainerWith "454545" "hello")).Container 1) (lit "454545") =
      some (lit "hello") :=
  have h := (C17_move testLib testRuntime (testContainerWith "454545" "hello") testConn 0 1
    (lit "move") (lit "454545") (lit "1") (lit "hello") _ (by decide) (by decide) (by decide)
    (by decide) (by decide) (by decide) (by decide) rfl).1 (by decide)
  ⟨h.1, h.2.1, h.2.2.1⟩

/-! ## COPY, RENAME and GETSET -/

theorem Execute_COPY (L : Lib) (R : Runtime) (cmd : Command) (C : CacheContainer)
    (h : ToUpper L (cmd.arg 0) = lit "COPY") : Execute L R cmd C = copyCommand L cmd C := by
  simp only [Execute, h]
  rfl

theorem Execute_RENAME (L : Lib) (R : Runtime) (cmd : Command) (C : CacheContainer)
    (h : ToUpper L (cmd.arg 0) = lit "RENAME") : Execute L R cmd C = renameCommand L cmd C := by
  simp only [Execute, h]
  rfl

theorem Execute_GETSET (L : Lib) (R : Runtime) (cmd : Command) (C : CacheContainer)
    (h : ToUpper L (cmd.arg 0) = lit "GETSET") : Execute L R cmd C = getsetCommand L cmd C := by
  simp only [Execute, h]
  rfl

/-- COPY without REPLACE, by the presence of the two keys. -/
theorem copyCommand_plain (L : Lib) (C : CacheContainer) (conn : Conn) (idx : Int)
    (c k1 k2 : GoString) :
    copyCommand L { Arguments := [c, k1, k2], Connection := conn, Index := idx } C =
      if (stored L (database C idx) k1).isSome = true then
        if (stored L (database C idx) k2).isSome = false then
          respond { Arguments := [c, k1, k2], Connection := conn, Index := idx }
            (setDatabase C idx
              (Store L (database C idx) k2 ((stored L (database C idx) k1).getD [])))
            [lit "!1\r\n", lit "+OK\r\n"] idx
        else
          respond { Arguments := [c, k1, k2], Connection := conn, Index := idx }
            (setDatabase C idx (database C idx))
            [lit "!1\r\n", lit "-ERR destination key is not empty\r\n"] idx
      else
        respond { Arguments := [c, k1, k2], Connection := conn, Index := idx } C
          [lit "!1\r\n", lit "-ERR no such key\r\n"] idx := by
  unfold copyCommand
  dsimp only
  simp only [List.length_cons, List.length_nil, Command.arg, List.getD_cons_succ,
    List.getD_cons_zero, Load_eq, commaOk_snd, commaOk_fst, LoadExistStore_result,
    LoadExistStore_cache]
  cases h1 : stored L (database C idx) k1 <;> cases h2 : stored L (database C idx) k2 <;> simp

/-- COPY with REPLACE, by the presence of the source key. -/
theorem copyCommand_replace (L : Lib) (C : CacheContainer) (conn : Conn) (idx : Int)
    (c k1 k2 rep : GoString) (hrep : ToUpper L rep = lit "REPLACE") :
    copyCommand L { Arguments := [c, k1, k2, rep], Connection := conn, Index := idx } C =
      if (stored L (database C idx) k1).isSome = true then
        respond { Arguments := [c, k1, k2, rep], Connection := conn, Index := idx }
          (setDatabase C idx
            (Store L (database C idx) k2 ((stored L (database C idx) k1).getD [])))
          [lit "!1\r\n", lit "+OK\r\n"] idx
      else
        respond { Arguments := [c, k1, k2, rep], Connection := conn, Index := idx } C
          [lit "!1\r\n", lit "-ERR no such key\r\n"] idx := by
  unfold copyCommand
  dsimp only
  simp only [List.length_cons, List.length_nil, Command.arg, List.getD_cons_succ,
    List.getD_cons_zero, Load_eq, commaOk_snd, commaOk_fst, LoadExistStore_result,
    LoadExistStore_cache, hrep]
  cases h1 : stored L (database C idx) k1 <;> simp

/-- C18: COPY k1 k2 [REPLACE].  With k1 present holding v: when k2 is absent,
or REPLACE is given, the reply is `+OK` and afterwards k2 holds v, k1 still
holds v and no other key changed; when k2 is present and REPLACE is not
given, the reply is `-ERR destination key is not empty` and the container is
unchanged.  With k1 absent the reply is `-ERR no such key` and the container
is unchanged. -/
theorem C18_copy (L : Lib) (R : Runtime) (C : CacheContainer) (conn : Conn) (idx : Int)
    (c k1 k2 rep : GoString) (o3 o4 : Outcome)
    (hC : CacheContainer.ok C) (hi : indexOk idx) (hc : ToUpper L c = lit "COPY")
    (hrep : ToUpper L rep = lit "REPLACE")
    (ho3 : o3 = Execute L R { Arguments := [c, k1, k2], Connection := conn, Index := idx } C)
    (ho4 : o4 = Execute L R { Arguments := [c, k1, k2, rep], Connection := conn, Index := idx }
      C) :
    (∀ v, stored L (database C idx) k1 = some v →
      (stored L (database C idx) k2 = none →
        o3.wire = lit "!1\r\n+OK\r\n" ∧
        stored L (database o3.Container idx) k2 = some v ∧
        stored L (database o3.Container idx) k1 = some v ∧
        (∀ k', k' ≠ k2 →
          stored L (database o3.Container idx) k' = stored L (database C idx) k')) ∧
      (stored L (database C idx) k2 ≠ none →
        o3.wire = lit "!1\r\n-ERR destination key is not empty\r\n" ∧ o3.Container = C) ∧
      (o4.wire = lit "!1\r\n+OK\r\n" ∧
        stored L (database o4.Container idx) k2 = some v ∧
        stored L (database o4.Container idx) k1 = some v ∧
        (∀ k', k' ≠ k2 →
          stored L (database o4.Container idx) k' = stored L (database C idx) k'))) ∧
    (stored L (database C idx) k1 = none →
      o3.wire = lit "!1\r\n-ERR no such key\r\n" ∧ o3.Container = C ∧
      o4.wire = lit "!1\r\n-ERR no such key\r\n" ∧ o4.Container = C) ∧
    (∀ j : Nat, j ≠ idx.toNat → o3.Container[j]? = C[j]? ∧ o4.Container[j]? = C[j]?) := by
  have hdb := database_ne_nil C idx hC hi
  have hlt := toNat_lt_length C idx hC hi
  rw [Execute_COPY L R { Arguments := [c, k1, k2], Connection := conn, Index := idx } C hc,
    copyCommand_plain] at ho3
  rw [Execute_COPY L R { Arguments := [c, k1, k2, rep], Connection := conn, Index := idx } C
    hc, copyCommand_replace L C conn idx c k1 k2 rep hrep] at ho4
  have hwritten : ∀ v, stored L (database C idx) k1 = some v →
      stored L (database (setDatabase C idx (Store L (database C idx) k2 v)) idx) k2 = some v ∧
      stored L (database (setDatabase C idx (Store L (database C idx) k2 v)) idx) k1 = some v ∧
      (∀ k', k' ≠ k2 →
        stored L (database (setDatabase C idx (Store L (database C idx) k2 v)) idx) k' =
          stored L (database C idx) k') := by
    intro v hv
    rw [database_setDatabase_same C idx _ hlt]
    refine ⟨?_, ?_, fun k' hk' => ?_⟩
    · rw [stored_Store L _ k2 v k2 hdb]; simp
    · rw [stored_Store L _ k2 v k1 hdb]
      by_cases h12 : k1 = k2
      · simp [h12]
      · simp [h12, hv]
    · rw [stored_Store L _ k2 v k' hdb]; simp [hk']
  refine ⟨fun v hv => ⟨fun h2 => ?_, fun h2 => ?_, ?_⟩, fun h1 => ?_, fun j hj => ⟨?_, ?_⟩⟩
  · rw [hv, h2] at ho3
    simp only [Option.isSome_some, Option.isSome_none, if_true, Option.getD_some] at ho3
    rw [ho3]
    exact ⟨okLine, hwritten v hv⟩
  · have hs : (stored L (database C idx) k2).isSome = true := by
      cases h : stored L (database C idx) k2 with
      | none => exact absurd h h2
      | some x => rfl
    rw [hv, hs] at ho3
    simp only [Option.isSome_some, if_true, Bool.true_eq_false, if_false] at ho3
    rw [ho3, setDatabase_self C idx hlt]
    exact ⟨by simp only [respond]; decide, rfl⟩
  · rw [hv] at ho4
    simp only [Option.isSome_some, if_true, Option.getD_some] at ho4
    rw [ho4]
    exact ⟨okLine, hwritten v hv⟩
  · rw [h1] at ho3 ho4
    simp only [Option.isSome_none, Bool.false_eq_true, if_false] at ho3 ho4
    rw [ho3, ho4]
    exact ⟨by simp only [respond]; decide, rfl, by simp only [respond]; decide, rfl⟩
  · rw [ho3]
    split_ifs
    · exact getElem?_setDatabase_other C idx _ j hj
    · exact getElem?_setDatabase_other C idx _ j hj
    · rfl
  · rw [ho4]
    split_ifs
    · exact getElem?_setDatabase_other C idx _ j hj
    · rfl

theorem C18_copy_witness :
    (Execute testLib testRuntime
        { Arguments := [lit "copy", lit "70000", lit "80000"], Connection := testConn,
          Index := 0 } (testContainerWith "70000" "hello")).wire = lit "!1\r\n+OK\r\n" ∧
    stored testLib (database
        (Execute testLib testRuntime
          { Arguments := [lit "copy", lit "70000", lit "80000"], Connection := testConn,
            Index := 0 } (testContainerWith "70000" "hello")).Container 0) (lit "80000") =
      some (lit "hello") :=
  have h := ((C18_copy testLib testRuntime (testContainerWith "70000" "hello") testConn 0
    (lit "copy") (lit "70000") (lit "80000") (lit "replace") _ _ (by decide) (by decide)
    (by decide) (by decide) rfl rfl).1 (lit "hello") (by decide)).1 (by decide)
  ⟨h.1, h.2.1⟩

/-- RENAME, by the presence of the source key. -/
theorem renameCommand_run (L : Lib) (C : CacheContainer) (conn : Conn) (idx : Int)
    (c k1 k2 : GoString) :
    renameCommand L { Arguments := [c, k1, k2], Connection := conn, Index := idx } C =
      if (stored L (database C idx) k1).isSome = true then
        respond { Arguments := [c, k1, k2], Connection := conn, Index := idx }
          (setDatabase C idx
            (Store L (Delete L (database C idx) k1) k2
              ((stored L (database C idx) k1).getD [])))
          [lit "!1\r\n", lit "+OK\r\n"] idx
      else
        respond { Arguments := [c, k1, k2], Connection := conn, Index := idx }
          (setDatabase C idx (database C idx))
          [lit "!1\r\n", lit "-ERR no such key\r\n"] idx := by
  unfold renameCommand
  dsimp only
  simp only [List.length_cons, List.length_nil, Command.arg, List.getD_cons_succ,
    List.getD_cons_zero, commaOk_snd, commaOk_fst, LoadAndDelete_result, LoadAndDelete_cache]
  cases h1 : stored L (database C idx) k1 <;> simp

/-- C19: RENAME k1 k2.  With k1 present holding v the reply is `+OK`,
afterwards k2 holds v whatever it held before, k1 is absent when it differs
from k2, and every other key is as before; with k1 absent the reply is
`-ERR no such key` and the container, k2 included, is unchanged. -/
theorem C19_rename (L : Lib) (R : Runtime) (C : CacheContainer) (conn : Conn) (idx : Int)
    (c k1 k2 : GoString) (o : Outcome)
    (hC : CacheContainer.ok C) (hi : indexOk idx) (hc : ToUpper L c = lit "RENAME")
    (ho : o = Execute L R { Arguments := [c, k1, k2], Connection := conn, Index := idx } C) :
    (∀ v, stored L (database C idx) k1 = some v →
      o.wire = lit "!1\r\n+OK\r\n" ∧
      stored L (database o.Container idx) k2 = some v ∧
      (k1 ≠ k2 → stored L (database o.Container idx) k1 = none) ∧
      (∀ k', k' ≠ k1 → k' ≠ k2 →
        stored L (database o.Container idx) k' = stored L (database C idx) k')) ∧
    (stored L (database C idx) k1 = none →
      o.wire = lit "!1\r\n-ERR no such key\r\n" ∧ o.Container = C) ∧
    (∀ j : Nat, j ≠ idx.toNat → o.Container[j]? = C[j]?) := by
  have hdb := database_ne_nil C idx hC hi
  have hdel := Delete_ne_nil L (database C idx) k1 hdb
  have hlt := toNat_lt_length C idx hC hi
  rw [Execute_RENAME L R { Arguments := [c, k1, k2], Connection := conn, Index := idx } C hc,
    renameCommand_run] at ho
  refine ⟨fun v hv => ?_, fun h1 => ?_, fun j hj => ?_⟩
  · rw [hv] at ho
    simp only [Option.isSome_some, if_true, Option.getD_some] at ho
    rw [ho]
    simp only [respond]
    rw [database_setDatabase_same C idx _ hlt]
    refine ⟨okLine, ?_, fun h12 => ?_, fun k' hk1 hk2 => ?_⟩
    · rw [stored_Store L _ k2 v k2 hdel]; simp
    · rw [stored_Store L _ k2 v k1 hdel, stored_Delete L _ k1 k1 hdb]; simp [h12]
    · rw [stored_Store L _ k2 v k' hdel, stored_Delete L _ k1 k' hdb]; simp [hk1, hk2]
  · rw [h1] at ho
    simp only [Option.isSome_none, Bool.false_eq_true, if_false] at ho
    rw [ho, setDatabase_self C idx hlt]
    exact ⟨by simp only [respond]; decide, rfl⟩
  · rw [ho]
    split_ifs
    · exact getElem?_setDatabase_other C idx _ j hj
    · exact getElem?_setDatabase_other C idx _ j hj

theorem C19_rename_witness :
    (Execute testLib testRuntime
        { Arguments := [lit "rename", lit "80000", lit "70000"], Connection := testConn,
          Index := 0 } (testContainerWith "80000" "hello")).wire = lit "!1\r\n+OK\r\n" ∧
    stored testLib (database
        (Execute testLib testRuntime
          { Arguments := [lit "rename", lit "80000", lit "70000"], Connection := testConn,
            Index := 0 } (testContainerWith "80000" "hello")).Container 0) (lit "70000") =
      some (lit "hello") ∧
    stored testLib (database
        (Execute testLib testRuntime
          { Arguments := [lit "rename", lit "80000", lit "70000"], Connection := testConn,
            Index := 0 } (testContainerWith "80000" "hello")).Container 0) (lit "80000") =
      none :=
  have h := (C19_rename testLib testRuntime (testContainerWith "80000" "hello") testConn 0
    (lit "rename") (lit "80000") (lit "70000") _ (by decide) (by decide) (by decide) rfl).1
    (lit "hello") (by decide)
  ⟨h.1, h.2.1, h.2.2.1 (by decide)⟩

/-- C20: GETSET k v replies with the value k held before the command, the
empty payload line when k was absent; afterwards k holds v, every other key
is as before and no other database changed. -/
theorem C20_getset (L : Lib) (R : Runtime) (C : CacheContainer) (conn : Conn) (idx : Int)
    (c k v : GoString) (o : Outcome)
    (hC : CacheContainer.ok C) (hi : indexOk idx) (hc : ToUpper L c = lit "GETSET")
    (ho : o = Execute L R { Arguments := [c, k, v], Connection := conn, Index := idx } C) :
    o.wire = lit "!1\r\n" ++ (stored L (database C idx) k).getD [] ++ lit "\r\n" ∧
    stored L (database o.Container idx) k = some v ∧
    (∀ k', k' ≠ k → stored L (database o.Container idx) k' = stored L (database C idx) k') ∧
    (∀ j : Nat, j ≠ idx.toNat → o.Container[j]? = C[j]?) := by
  have hdb := database_ne_nil C idx hC hi
  have hlt := toNat_lt_length C idx hC hi
  have hrun : o = respond { Arguments := [c, k, v], Connection := conn, Index := idx }
      (setDatabase C idx (Store L (database C idx) k v))
      [lit "!1\r\n", (stored L (database C idx) k).getD [], lit "\r\n"] idx := by
    rw [ho, Execute_GETSET L R { Arguments := [c, k, v], Connection := conn, Index := idx } C
      hc]
    unfold getsetCommand
    dsimp only
    simp [Command.arg, LoadExistStore_result, LoadExistStore_cache, commaOk_fst]
  rw [hrun]
  simp only [respond]
  rw [database_setDatabase_same C idx _ hlt]
  refine ⟨BuildResponse_three _ _ _, ?_, fun k' hk' => ?_, fun j hj => ?_⟩
  · rw [stored_Store L _ k v k hdb]; simp
  · rw [stored_Store L _ k v k' hdb]; simp [hk']
  · exact getElem?_setDatabase_other C idx _ j hj

theorem C20_getset_witness :
    (Execute testLib testRuntime
        { Arguments := [lit "getset", lit "70000", lit "bye"], Connection := testConn,
          Index := 0 } (testContainerWith "70000" "hello")).wire =
      lit "!1\r\n" ++ lit "hello" ++ lit "\r\n" ∧
    stored testLib (database
        (Execute testLib testRuntime
          { Arguments := [lit "getset", lit "70000", lit "bye"], Connection := testConn,
            Index := 0 } (testContainerWith "70000" "hello")).Container 0) (lit "70000") =
      some (lit "bye") :=
  have h := C20_getset testLib testRuntime (testContainerWith "70000" "hello") testConn 0
    (lit "getset") (lit "70000") (lit "bye") _ (by decide) (by decide) (by decide) rfl
  ⟨h.1, h.2.1⟩

/-! ## MGET and LEN -/

theorem Execute_MGET (L : Lib) (R : Runtime) (cmd : Command) (C : CacheContainer)
    (h : ToUpper L (cmd.arg 0) = lit "MGET") : Execute L R cmd C = mgetCommand L cmd C := by
  simp only [Execute, h]
  rfl

theorem Execute_LEN (L : Lib) (R : Runtime) (cmd : Command) (C : CacheContainer)
    (h : ToUpper L (cmd.arg 0) = lit "LEN") : Execute L R cmd C = lenCommand L cmd C := by
  simp only [Execute, h]
  rfl

/-- The count pieces followed by pieces that join to the lines, each with its
line end, are the envelope of the lines. -/
theorem BuildResponse_envelope (lines pieces : List GoString) (n : Nat)
    (hn : n = lines.length)
    (hp : Join pieces = Join (lines.map (fun l => l ++ lit "\r\n"))) :
    BuildResponse ([lit "!", Itoa n, lit "\r\n"] ++ pieces) = envelope lines := by
  unfold BuildResponse envelope
  rw [Join_append, hp, hn]
  simp [Join]

/-- C21: for every MGET with n >= 1 keys the reply is the count line of n
followed by n payload lines in the order of the arguments, the line of a key
being the value stored at it, or the empty line when the key is absent; the
container is unchanged. -/
theorem C21_mget (L : Lib) (R : Runtime) (C : CacheContainer) (conn : Conn) (idx : Int)
    (c : GoString) (keys : List GoString) (o : Outcome)
    (hc : ToUpper L c = lit "MGET") (hkeys : keys ≠ [])
    (ho : o = Execute L R { Arguments := c :: keys, Connection := conn, Index := idx } C) :
    o.wire = lit "!" ++ Itoa keys.length ++ lit "\r\n" ++
      Join (keys.map (fun k => (stored L (database C idx) k).getD [] ++ lit "\r\n")) ∧
    o.wire = envelope (keys.map (fun k => (stored L (database C idx) k).getD [])) ∧
    o.Container = C := by
  have hlen : ¬ (keys.length < 1) := by
    cases keys with
    | nil => exact absurd rfl hkeys
    | cons a t => simp
  have hw : o.wire = envelope (keys.map (fun k => (stored L (database C idx) k).getD [])) := by
    rw [ho, Execute_MGET L R { Arguments := c :: keys, Connection := conn, Index := idx } C hc]
    unfold mgetCommand
    dsimp only
    simp only [List.drop_succ_cons, List.drop_zero, hlen, if_false, respond]
    refine BuildResponse_envelope _ _ _ (by simp) ?_
    rw [mgetLines_Join]
    congr 2
    refine List.map_congr_left (fun k _ => ?_)
    rw [Load_eq, commaOk_fst, commaOk_snd]
    cases stored L (database C idx) k <;> simp
  refine ⟨?_, hw, ?_⟩
  · rw [hw]
    simp [envelope, List.map_map, Function.comp_def]
  · rw [ho, Execute_MGET L R { Arguments := c :: keys, Connection := conn, Index := idx } C hc]
    unfold mgetCommand
    dsimp only
    simp only [List.drop_succ_cons, List.drop_zero, hlen, if_false, respond]

theorem C21_mget_witness :
    (Execute testLib testRuntime
      { Arguments := [lit "mget", lit "500", lit "600", lit "800"], Connection := testConn,
        Index := 0 } (testContainerWith "500" "hi")).wire = lit "!3\r\nhi\r\n\r\n\r\n" :=
  (C21_mget testLib testRuntime (testContainerWith "500" "hi") testConn 0 (lit "mget")
    [lit "500", lit "600", lit "800"] _ (by decide) (by decide) rfl).1.trans (by decide)

/-- The line of LEN for a key: `$` and the decimal length of the value in
bytes, or `$-1` for an absent key. -/
theorem lenLine_eq (L : Lib) (db : ShardedCache) (k : GoString) :
    (if (Load L db k).2 then lit "$" ++ Itoa (Load L db k).1.length else lit "$-1") =
      match stored L db k with
      | some v => lit "$" ++ Itoa v.length
      | none => lit "$-1" := by
  rw [Load_eq]
  cases stored L db k <;> simp [commaOk]

/-- C22: for every LEN with n >= 1 keys the reply is the count line of n
followed by n lines in the order of the arguments, the line of a key being
`$` and the decimal byte length of the value stored at it, or `$-1` when the
key is absent; the container is unchanged. -/
theorem C22_len (L : Lib) (R : Runtime) (C : CacheContainer) (conn : Conn) (idx : Int)
    (c : GoString) (keys : List GoString) (o : Outcome)
    (hc : ToUpper L c = lit "LEN") (hkeys : keys ≠ [])
    (ho : o = Execute L R { Arguments := c :: keys, Connection := conn, Index := idx } C) :
    o.wire = envelope (keys.map (fun k =>
      match stored L (database C idx) k with
      | some v => lit "$" ++ natDecimal v.length
      | none => lit "$-1")) ∧
    o.Container = C := by
  have hlen : ¬ (keys.length < 1) := by
    cases keys with
    | nil => exact absurd rfl hkeys
    | cons a t => simp
  rw [ho, Execute_LEN L R { Arguments := c :: keys, Connection := conn, Index := idx } C hc]
  unfold lenCommand
  dsimp only
  simp only [List.drop_succ_cons, List.drop_zero, hlen, if_false, respond, and_true]
  refine BuildResponse_envelope _ _ _ (by simp) ?_
  rw [lenLines_Join]
  congr 2
  refine List.map_congr_left (fun k _ => ?_)
  rw [lenLine_eq]
  cases stored L (database C idx) k with
  | none => rfl
  | some v => simp [Itoa]

theorem C22_len_witness :
    (Execute testLib testRuntime
      { Arguments := [lit "len", lit "80000", lit "600"], Connection := testConn,
        Index := 0 } (testContainerWith "80000" "! :)(:")).wire = lit "!2\r\n$6\r\n$-1\r\n" :=
  (C22_len testLib testRuntime (testContainerWith "80000" "! :)(:") testConn 0 (lit "len")
    [lit "80000", lit "600"] _ (by decide) (by decide) rfl).1.trans (by decide)

/-! ## APPEND and PREPEND -/

theorem Execute_PREPEND (L : Lib) (R : Runtime) (cmd : Command) (C : CacheContainer)
    (h : ToUpper L (cmd.arg 0) = lit "PREPEND") :
    Execute L R cmd C = prependCommand L cmd C := by
  simp only [Execute, h]
  rfl

/-- PREPEND with three arguments: the reply and the container. -/
theorem prependCommand_three (L : Lib) (C : CacheContainer) (conn : Conn) (idx : Int)
    (c k s : GoString) :
    (prependCommand L { Arguments := [c, k, s], Connection := conn, Index := idx } C).wire =
      lit "!1\r\n" ++ (s ++ (stored L (database C idx) k).getD []) ++ lit "\r\n" ∧
    (prependCommand L { Arguments := [c, k, s], Connection := conn, Index := idx } C).Container =
      setDatabase C idx
        (Store L (database C idx) k (s ++ (stored L (database C idx) k).getD [])) := by
  unfold prependCommand
  dsimp only
  rw [if_neg (by simp), LoadModifyStore_result, LoadModifyStore_cache]
  simp only [respond, Command.arg, List.getD_cons_succ, List.getD_cons_zero, lit_empty]
  constructor
  · rw [BuildResponse_three]
    simp [Join]
  · simp [Join]

/-- What a command that stores `v` at `k` in the current database leaves:
`k` holds `v`, every other key of the database and every other database is
as before. -/
theorem stored_after_write (L : Lib) (C : CacheContainer) (idx : Int) (k v : GoString)
    (hC : CacheContainer.ok C) (hi : indexOk idx) :
    stored L (database (setDatabase C idx (Store L (database C idx) k v)) idx) k = some v ∧
    (∀ k', k' ≠ k →
      stored L (database (setDatabase C idx (Store L (database C idx) k v)) idx) k' =
        stored L (database C idx) k') ∧
    (∀ j : Nat, j ≠ idx.toNat →
      (setDatabase C idx (Store L (database C idx) k v))[j]? = C[j]?) := by
  have hdb := database_ne_nil C idx hC hi
  have hlt := toNat_lt_length C idx hC hi
  rw [database_setDatabase_same C idx _ hlt]
  refine ⟨?_, fun k' hk' => ?_, fun j hj => getElem?_setDatabase_other C idx _ j hj⟩
  · rw [stored_Store L _ k v k hdb]; simp
  · rw [stored_Store L _ k v k' hdb]; simp [hk']

/-- C23: APPEND k s and PREPEND k s always succeed.  With `old` the value
of k before the command, the empty string when k was absent, APPEND stores
`old ++ s` at k and replies with it, PREPEND stores `s ++ old` at k and
replies with it; every other key of the database and every other database
is unchanged, and the command stays on the current database. -/
theorem C23_append_prepend (L : Lib) (R : Runtime) (C : CacheContainer) (conn : Conn)
    (idx : Int) (ca cp k s : GoString) (oa op : Outcome)
    (hC : CacheContainer.ok C) (hi : indexOk idx)
    (hca : ToUpper L ca = lit "APPEND") (hcp : ToUpper L cp = lit "PREPEND")
    (hoa : oa = Execute L R { Arguments := [ca, k, s], Connection := conn, Index := idx } C)
    (hop : op = Execute L R { Arguments := [cp, k, s], Connection := conn, Index := idx } C) :
    (oa.wire = lit "!1\r\n" ++ ((stored L (database C idx) k).getD [] ++ s) ++ lit "\r\n" ∧
      stored L (database oa.Container idx) k = some ((stored L (database C idx) k).getD [] ++ s) ∧
      (∀ k', k' ≠ k →
        stored L (database oa.Container idx) k' = stored L (database C idx) k') ∧
      (∀ j : Nat, j ≠ idx.toNat → oa.Container[j]? = C[j]?)) ∧
    (op.wire = lit "!1\r\n" ++ (s ++ (stored L (database C idx) k).getD []) ++ lit "\r\n" ∧
      stored L (database op.Container idx) k = some (s ++ (stored L (database C idx) k).getD []) ∧
      (∀ k', k' ≠ k →
        stored L (database op.Container idx) k' = stored L (database C idx) k') ∧
      (∀ j : Nat, j ≠ idx.toNat → op.Container[j]? = C[j]?)) := by
  rw [Execute_APPEND L R { Arguments := [ca, k, s], Connection := conn, Index := idx } C hca]
    at hoa
  rw [Execute_PREPEND L R { Arguments := [cp, k, s], Connection := conn, Index := idx } C hcp]
    at hop
  obtain ⟨hwa, hca3⟩ := appendCommand_three L C conn idx ca k s
  obtain ⟨hwp, hcp3⟩ := prependCommand_three L C conn idx cp k s
  rw [← hoa] at hwa hca3
  rw [← hop] at hwp hcp3
  refine ⟨⟨hwa, ?_⟩, ⟨hwp, ?_⟩⟩
  · rw [hca3]
    exact stored_after_write L C idx k _ hC hi
  · rw [hcp3]
    exact stored_after_write L C idx k _ hC hi

theorem C23_append_prepend_witness :
    (Execute testLib testRuntime
        { Arguments := [lit "append", lit "80000", lit "(:"], Connection := testConn,
          Index := 0 } (testContainerWith "80000" ":)")).wire = lit "!1\r\n:)(:\r\n" ∧
    (Execute testLib testRuntime
        { Arguments := [lit "prepend", lit "80000", lit "!"], Connection := testConn,
          Index := 0 } (testContainerWith "80000" ":)")).wire = lit "!1\r\n!:)\r\n" :=
  have h := C23_append_prepend testLib testRuntime (testContainerWith "80000" ":)") testConn 0
    (lit "append") (lit "prepend") (lit "80000") (lit "(:") _ _ (by decide) (by decide)
    (by decide) (by decide) rfl rfl
  have h2 := C23_append_prepend testLib testRuntime (testContainerWith "80000" ":)") testConn 0
    (lit "append") (lit "prepend") (lit "80000") (lit "!") _ _ (by decide) (by decide)
    (by decide) (by decide) rfl rfl
  ⟨h.1.1.trans (by decide), h2.2.1.trans (by decide)⟩

/-! ## SELECT -/

theorem Execute_SELECT (L : Lib) (R : Runtime) (cmd : Command) (C : CacheContainer)
    (h : ToUpper L (cmd.arg 0) = lit "SELECT") : Execute L R cmd C = selectCommand cmd C := by
  simp only [Execute, h]
  rfl

/-- SELECT leaves the container alone, whatever its arguments are. -/
theorem selectCommand_Container (cmd : Command) (C : CacheContainer) :
    (selectCommand cmd C).Container = C := by
  unfold selectCommand wrongArguments
  dsimp only
  split_ifs <;> rfl

/-- Every branch of SELECT returns `false` exactly on a write error. -/
theorem selectCommand_keepOpen (cmd : Command) (C : CacheContainer) :
    (selectCommand cmd C).keepOpen = !cmd.Connection.writeErr := by
  unfold selectCommand wrongArguments
  dsimp only
  split_ifs <;> rfl

/-- C24, the claim as written fails: `SELECT 1` on a connection whose write
fails replies `+OK` and returns the index 1, which parses and is within the
three databases, but the second result is false, not true. -/
theorem C24_select_write_error_counterexample :
    Atoi (lit "1") = (1, none) ∧ (0 : Int) ≤ 1 ∧ (1 : Int) < MemoryCacheContainerSize ∧
    (Execute testLib testRuntime
      { Arguments := [lit "SELECT", lit "1"],
        Connection := { RemoteAddr := { Network := lit "tcp", String := lit "10.0.0.7:50000" },
                        writeErr := true },
        Index := 0 } testContainer).wire = lit "!1\r\n+OK\r\n" ∧
    (Execute testLib testRuntime
      { Arguments := [lit "SELECT", lit "1"],
        Connection := { RemoteAddr := { Network := lit "tcp", String := lit "10.0.0.7:50000" },
                        writeErr := true },
        Index := 0 } testContainer).Index = 1 ∧
    (Execute testLib testRuntime
      { Arguments := [lit "SELECT", lit "1"],
        Connection := { RemoteAddr := { Network := lit "tcp", String := lit "10.0.0.7:50000" },
                        writeErr := true },
        Index := 0 } testContainer).keepOpen = false := by
  decide

/-- C24, amended: SELECT i replies `+OK` and returns i as the next index if
and only if i parses as an integer with 0 <= i < N, N = 3; the second result
is true when the write of the reply succeeded and false when it failed.  When
i does not parse the reply is `-ERR index value is not an integer`, when it
parses outside the range the reply is `-ERR index value is out of bounds`, and
in both cases the returned index is the current one.  SELECT with any number
of arguments leaves the container as it was. -/
theorem C24_select (L : Lib) (R : Runtime) (C : CacheContainer) (conn : Conn) (idx : Int)
    (c s : GoString) (o : Outcome) (hc : ToUpper L c = lit "SELECT")
    (ho : o = Execute L R { Arguments := [c, s], Connection := conn, Index := idx } C) :
    MemoryCacheContainerSize = 3 ∧
    (o.wire = lit "!1\r\n+OK\r\n" ↔
      (Atoi s).2 = none ∧ 0 ≤ (Atoi s).1 ∧ (Atoi s).1 < MemoryCacheContainerSize) ∧
    (∀ i, Atoi s = (i, none) → 0 ≤ i → i < MemoryCacheContainerSize →
      o.wire = lit "!1\r\n+OK\r\n" ∧ o.Index = i ∧ (conn.writeErr = false → o.keepOpen = true) ∧
      (conn.writeErr = true → o.keepOpen = false)) ∧
    ((Atoi s).2 ≠ none →
      o.wire = lit "!1\r\n-ERR index value is not an integer\r\n" ∧ o.Index = idx) ∧
    ((Atoi s).2 = none → ((Atoi s).1 < 0 ∨ MemoryCacheContainerSize ≤ (Atoi s).1) →
      o.wire = lit "!1\r\n-ERR index value is out of bounds\r\n" ∧ o.Index = idx) ∧
    o.keepOpen = (!conn.writeErr) ∧
    (∀ (args : List GoString) (conn1 : Conn) (i : Int),
      (Execute L R { Arguments := c :: args, Connection := conn1, Index := i } C).Container =
        C) := by
  have hrun : o = selectCommand { Arguments := [c, s], Connection := conn, Index := idx } C := by
    rw [ho, Execute_SELECT L R { Arguments := [c, s], Connection := conn, Index := idx } C hc]
  have hsel : selectCommand { Arguments := [c, s], Connection := conn, Index := idx } C =
      if (Atoi s).2 ≠ none then
        respond { Arguments := [c, s], Connection := conn, Index := idx } C
          [lit "!1\r\n", lit "-ERR index value is not an integer\r\n"] idx
      else if (Atoi s).1 < 0 ∨ (Atoi s).1 ≥ MemoryCacheContainerSize then
        respond { Arguments := [c, s], Connection := conn, Index := idx } C
          [lit "!1\r\n", lit "-ERR index value is out of bounds\r\n"] idx
      else respond { Arguments := [c, s], Connection := conn, Index := idx } C
        [lit "!1\r\n", lit "+OK\r\n"] (Atoi s).1 := by
    unfold selectCommand
    dsimp only
    rw [if_neg (by simp)]
    rfl
  have hOK : BuildResponse [lit "!1\r\n", lit "+OK\r\n"] = lit "!1\r\n+OK\r\n" := by decide
  have hNI : BuildResponse [lit "!1\r\n", lit "-ERR index value is not an integer\r\n"] =
      lit "!1\r\n-ERR index value is not an integer\r\n" := by decide
  have hOB : BuildResponse [lit "!1\r\n", lit "-ERR index value is out of bounds\r\n"] =
      lit "!1\r\n-ERR index value is out of bounds\r\n" := by decide
  have hne1 : lit "!1\r\n-ERR index value is not an integer\r\n" ≠ lit "!1\r\n+OK\r\n" := by
    decide
  have hne2 : lit "!1\r\n-ERR index value is out of bounds\r\n" ≠ lit "!1\r\n+OK\r\n" := by
    decide
  have hkeep : o.keepOpen = (!conn.writeErr) := by
    rw [hrun]
    exact selectCommand_keepOpen _ C
  rw [hsel] at hrun
  refine ⟨rfl, ?_, fun i hi h0 h3 => ?_, fun herr => ?_, fun hok hout => ?_, hkeep,
    fun args conn1 i => ?_⟩
  · by_cases herr : (Atoi s).2 ≠ none
    · rw [if_pos herr] at hrun
      rw [hrun]
      simp only [respond, hNI]
      exact ⟨fun h => absurd h hne1, fun h => absurd h.1 herr⟩
    · rw [if_neg herr] at hrun
      by_cases hout : (Atoi s).1 < 0 ∨ (Atoi s).1 ≥ MemoryCacheContainerSize
      · rw [if_pos hout] at hrun
        rw [hrun]
        simp only [respond, hOB]
        refine ⟨fun h => absurd h hne2, fun h => ?_⟩
        rcases hout with hlt | hge
        · exact absurd h.2.1 (not_le.mpr hlt)
        · exact absurd h.2.2 (not_lt.mpr hge)
      · rw [if_neg hout] at hrun
        rw [hrun]
        simp only [respond, hOK, true_iff]
        push_neg at hout herr
        exact ⟨herr, hout.1, hout.2⟩
  · have herr : ¬ ((Atoi s).2 ≠ none) := by rw [hi]; simp
    have hout : ¬ ((Atoi s).1 < 0 ∨ (Atoi s).1 ≥ MemoryCacheContainerSize) := by
      rw [hi]
      push_neg
      exact ⟨h0, h3⟩
    rw [if_neg herr, if_neg hout] at hrun
    refine ⟨?_, ?_, fun hw => ?_, fun hw => ?_⟩
    · rw [hrun]; exact hOK
    · rw [hrun, hi]; rfl
    · rw [hkeep, hw]; rfl
    · rw [hkeep, hw]; rfl
  · rw [if_pos herr] at hrun
    rw [hrun]
    exact ⟨hNI, rfl⟩
  · have herr : ¬ ((Atoi s).2 ≠ none) := by simp [hok]
    have hout2 : (Atoi s).1 < 0 ∨ (Atoi s).1 ≥ MemoryCacheContainerSize := hout
    rw [if_neg herr, if_pos hout2] at hrun
    rw [hrun]
    exact ⟨hOB, rfl⟩
  · rw [Execute_SELECT L R { Arguments := c :: args, Connection := conn1, Index := i } C hc]
    exact selectCommand_Container _ C

theorem C24_select_witness :
    (Execute testLib testRuntime
      { Arguments := [lit "select", lit "2"], Connection := testConn, Index := 0 }
      testContainer).wire = lit "!1\r\n+OK\r\n" ∧
    (Execute testLib testRuntime
      { Arguments := [lit "select", lit "2"], Connection := testConn, Index := 0 }
      testContainer).Index = 2 ∧
    (Execute testLib testRuntime
      { Arguments := [lit "select", lit "2"], Connection := testConn, Index := 0 }
      testContainer).keepOpen = true :=
  have h := (C24_select testLib testRuntime testContainer testConn 0 (lit "select") (lit "2") _
    (by decide) rfl).2.2.1 2 (by decide) (by decide) (by decide)
  ⟨h.1, h.2.1, h.2.2.1 (by decide)⟩

/-! ## Administrative peers -/

/-- The function `strings.Contains` on bytes: `sub` occurs in `s` exactly
when `s` is some bytes, then `sub`, then some bytes. -/
theorem Contains_iff (s sub : GoString) :
    Contains s sub = true ↔ ∃ p q : GoString, s = p ++ sub ++ q := by
  unfold Contains
  rw [List.any_eq_true]
  constructor
  · rintro ⟨t, ht, hpre⟩
    obtain ⟨q, hq⟩ := List.isPrefixOf_iff_prefix.mp hpre
    obtain ⟨p, hp⟩ := (List.mem_tails t s).mp ht
    exact ⟨p, q, by rw [← hp, ← hq, List.append_assoc]⟩
  · rintro ⟨p, q, h⟩
    refine ⟨sub ++ q, (List.mem_tails _ _).mpr ⟨p, by rw [h, List.append_assoc]⟩, ?_⟩
    exact List.isPrefixOf_iff_prefix.mpr ⟨q, rfl⟩

/-- C26: `isAdmin` returns true for a peer address exactly when the
connection is over the Unix domain socket of the server, whose network is
`unix`, or the textual form of the address contains `127.0.0.1` or contains
`[::1]`. -/
theorem C26_isAdmin (address : Addr) :
    isAdmin address = true ↔
      address.Network = ServerUnixNetwork ∨
      (∃ p q : GoString, address.String = p ++ lit "127.0.0.1" ++ q) ∨
      (∃ p q : GoString, address.String = p ++ lit "[::1]" ++ q) := by
  rw [← Contains_iff, ← Contains_iff]
  unfold isAdmin ServerUnixNetwork
  by_cases hn : address.Network = lit "unix"
  · simp [hn]
  · simp [hn]

theorem Execute_FLUSHALL (L : Lib) (R : Runtime) (cmd : Command) (C : CacheContainer)
    (h : ToUpper L (cmd.arg 0) = lit "FLUSHALL") :
    Execute L R cmd C = flushallCommand cmd C := by
  simp only [Execute, h]
  rfl

theorem Execute_FLUSH (L : Lib) (R : Runtime) (cmd : Command) (C : CacheContainer)
    (h : ToUpper L (cmd.arg 0) = lit "FLUSH") : Execute L R cmd C = flushCommand cmd C := by
  simp only [Execute, h]
  rfl

theorem Execute_SHUTDOWN (L : Lib) (R : Runtime) (cmd : Command) (C : CacheContainer)
    (h : ToUpper L (cmd.arg 0) = lit "SHUTDOWN") :
    Execute L R cmd C = shutdownCommand cmd C := by
  simp only [Execute, h]
  rfl

/-- The reply to a peer without the permission, as an outcome. -/
theorem refused_eq (cmd : Command) (C : CacheContainer) :
    respond cmd C [lit "!1\r\n", lit "-ERR insufficient permissions\r\n"] cmd.Index =
      { Container := C, wire := lit "!1\r\n-ERR insufficient permissions\r\n", timers := [],
        sigint := false, Index := cmd.Index, keepOpen := !cmd.Connection.writeErr } := by
  unfold respond
  congr 1

/-- C27, the claim as written fails: FLUSH from a peer that is not
administrative, on a connection whose write fails, is refused, but the
second result is false, so the session closes the connection. -/
theorem C27_refused_write_error_counterexample :
    isAdmin { Network := lit "tcp", String := lit "10.0.0.7:50000" } = false ∧
    (Execute testLib testRuntime
      { Arguments := [lit "FLUSH"],
        Connection := { RemoteAddr := { Network := lit "tcp", String := lit "10.0.0.7:50000" },
                        writeErr := true },
        Index := 0 } testContainer).wire = lit "!1\r\n-ERR insufficient permissions\r\n" ∧
    (Execute testLib testRuntime
      { Arguments := [lit "FLUSH"],
        Connection := { RemoteAddr := { Network := lit "tcp", String := lit "10.0.0.7:50000" },
                        writeErr := true },
        Index := 0 } testContainer).keepOpen = false := by
  decide

/-- C27, amended: for every peer that is not administrative, FLUSH, FLUSHALL
and SHUTDOWN with no further argument reply `-ERR insufficient permissions`,
leave the container as it was, send no signal, start nothing, stay on the
current database, and keep the connection open when the write of the reply
succeeded; when that write failed the second result is false. -/
theorem C27_admin_only (L : Lib) (R : Runtime) (C : CacheContainer) (conn : Conn) (idx : Int)
    (c : GoString) (o : Outcome)
    (hadmin : isAdmin conn.RemoteAddr = false)
    (hc : ToUpper L c = lit "FLUSH" ∨ ToUpper L c = lit "FLUSHALL" ∨
      ToUpper L c = lit "SHUTDOWN")
    (ho : o = Execute L R { Arguments := [c], Connection := conn, Index := idx } C) :
    o.wire = lit "!1\r\n-ERR insufficient permissions\r\n" ∧
    o.Container = C ∧ o.sigint = false ∧ o.timers = [] ∧ o.Index = idx ∧
    (conn.writeErr = false → o.keepOpen = true) ∧
    (conn.writeErr = true → o.keepOpen = false) := by
  have hrun : o = Outcome.mk C (lit "!1\r\n-ERR insufficient permissions\r\n") [] false idx
      (!conn.writeErr) := by
    rw [ho, ← refused_eq { Arguments := [c], Connection := conn, Index := idx } C]
    rcases hc with h | h | h
    · rw [Execute_FLUSH L R { Arguments := [c], Connection := conn, Index := idx } C h]
      unfold flushCommand
      simp [hadmin]
    · rw [Execute_FLUSHALL L R { Arguments := [c], Connection := conn, Index := idx } C h]
      unfold flushallCommand
      simp [hadmin]
    · rw [Execute_SHUTDOWN L R { Arguments := [c], Connection := conn, Index := idx } C h]
      unfold shutdownCommand
      simp [hadmin]
  rw [hrun]
  refine ⟨rfl, rfl, rfl, rfl, rfl, fun hw => ?_, fun hw => ?_⟩
  · simp [hw]
  · simp [hw]

theorem C27_admin_only_witness :
    (Execute testLib testRuntime
      { Arguments := [lit "shutdown"],
        Connection := { RemoteAddr := { Network := lit "tcp", String := lit "10.0.0.7:50000" },
                        writeErr := false },
        Index := 0 } (testContainerWith "k" "v")).sigint = false ∧
    (Execute testLib testRuntime
      { Arguments := [lit "shutdown"],
        Connection := { RemoteAddr := { Network := lit "tcp", String := lit "10.0.0.7:50000" },
                        writeErr := false },
        Index := 0 } (testContainerWith "k" "v")).keepOpen = true :=
  have h := C27_admin_only testLib testRuntime (testContainerWith "k" "v")
    { RemoteAddr := { Network := lit "tcp", String := lit "10.0.0.7:50000" }, writeErr := false }
    0 (lit "shutdown") _ (by decide) (by decide) rfl
  ⟨h.2.2.1, h.2.2.2.2.2.1 rfl⟩

/-! ## INFO -/

theorem Execute_INFO (L : Lib) (R : Runtime) (cmd : Command) (C : CacheContainer)
    (h : ToUpper L (cmd.arg 0) = lit "INFO") : Execute L R cmd C = infoCommand R cmd C := by
  simp only [Execute, h]
  rfl

theorem Itoa_natCast (n : Nat) : Itoa (n : Int) = natDecimal n := by
  unfold Itoa
  rw [if_neg (by omega)]
  simp

theorem Count_foldl (sc : ShardedCache) (n : Nat) (l : List Nat) :
    (sc.foldl (fun acc sh => (acc.1 + sh.m.length, acc.2 ++ [sh.m.length])) (n, l)).1 =
      n + (sc.map (fun sh => sh.m.length)).sum := by
  induction sc generalizing n l with
  | nil => simp
  | cons sh sc ih =>
    rw [List.foldl_cons, ih]
    simp [Nat.add_assoc]

/-- The total of `Count` is the number of entries of all the shards. -/
theorem Count_total (sc : ShardedCache) :
    (Count sc).1 = (sc.map (fun sh => sh.m.length)).sum := by
  unfold Count
  rw [Count_foldl]
  simp

/-- INFO without further arguments: the envelope of the lines of `GetStats`
for the current index and the total of `Count` on the current database. -/
theorem infoCommand_one (L : Lib) (R : Runtime) (C : CacheContainer) (conn : Conn) (idx : Int)
    (c : GoString) (hc : ToUpper L c = lit "INFO") :
    (Execute L R { Arguments := [c], Connection := conn, Index := idx } C).wire =
      envelope (GetStats R idx (Count (database C idx)).1) ∧
    (Execute L R { Arguments := [c], Connection := conn, Index := idx } C).Container = C := by
  rw [Execute_INFO L R { Arguments := [c], Connection := conn, Index := idx } C hc]
  unfold infoCommand
  dsimp only
  rw [if_neg (by simp)]
  exact ⟨BuildResponse_envelope _ _ _ rfl (infoLines_Join _), rfl⟩

/-- C28, the claim as written fails: the eighth line of the reply to INFO
has the key `release_go_version`, and no line of the reply has the key
`release_runtime_version`. -/
theorem C28_info_key_counterexample :
    (Execute testLib testRuntime
      { Arguments := [lit "INFO"], Connection := testConn, Index := 0 } testContainer).wire =
      envelope (GetStats testRuntime 0 0) ∧
    (GetStats testRuntime 0 0).length = 12 ∧
    (GetStats testRuntime 0 0).getD 6 [] = lit "release_os_arch:linux-amd64" ∧
    (GetStats testRuntime 0 0).getD 7 [] = lit "release_go_version:go1.22.1" ∧
    (GetStats testRuntime 0 0).getD 8 [] = lit "keyspace_keys:0" ∧
    (∀ l ∈ GetStats testRuntime 0 0, (lit "release_runtime_version").isPrefixOf l = false) := by
  refine ⟨?_, by decide, by decide, by decide, by decide, by decide⟩
  exact (infoCommand_one testLib testRuntime testContainer testConn 0 (lit "INFO")
    (by decide)).1.trans
    (by rw [show (Count (database testContainer 0)).1 = 0 from by decide]; rfl)

/-- C28, amended: INFO replies with exactly 12 payload lines of the form
key:value whose keys are, in this order, server_pid, server_uptime,
server_version, server_network, system_logical_cpus, runtime_current_threads,
release_os_arch, release_go_version, keyspace_keys, memory_database_shards,
memory_logical_databases, memory_active_database; keyspace_keys carries the
number of entries of the active database and memory_active_database the
current index.  The container is unchanged. -/
theorem C28_info (L : Lib) (R : Runtime) (C : CacheContainer) (conn : Conn) (idx : Int)
    (c : GoString) (o : Outcome) (hc : ToUpper L c = lit "INFO")
    (ho : o = Execute L R { Arguments := [c], Connection := conn, Index := idx } C) :
    o.wire = envelope
      [ lit "server_pid:" ++ Itoa R.ProcessId,
        lit "server_uptime:" ++ R.uptime,
        lit "server_version:" ++ lit "1.0.31",
        lit "server_network:" ++ lit "tcp",
        lit "system_logical_cpus:" ++ Itoa R.NumCPU,
        lit "runtime_current_threads:" ++ Itoa R.NumGoroutine,
        lit "release_os_arch:" ++ (R.GOOS ++ lit "-" ++ R.GOARCH),
        lit "release_go_version:" ++ R.Version,
        lit "keyspace_keys:" ++
          natDecimal (((database C idx).map (fun sh => sh.m.length)).sum),
        lit "memory_database_shards:" ++ lit "50",
        lit "memory_logical_databases:" ++ lit "3",
        lit "memory_active_database:" ++ Itoa idx ] ∧
    (lit "!12\r\n").isPrefixOf o.wire = true ∧
    o.Container = C := by
  obtain ⟨hw, hcont⟩ := infoCommand_one L R C conn idx c hc
  rw [← ho] at hw hcont
  have hkeys : Itoa ((Count (database C idx)).1 : Int) =
      natDecimal (((database C idx).map (fun sh => sh.m.length)).sum) := by
    rw [Count_total]
    exact Itoa_natCast _
  have h50 : Itoa (MemoryCacheShardCount : Int) = lit "50" := by decide
  have h3 : Itoa MemoryCacheContainerSize = lit "3" := by decide
  have hstats : GetStats R idx (Count (database C idx)).1 =
      [ lit "server_pid:" ++ Itoa R.ProcessId,
        lit "server_uptime:" ++ R.uptime,
        lit "server_version:" ++ lit "1.0.31",
        lit "server_network:" ++ lit "tcp",
        lit "system_logical_cpus:" ++ Itoa R.NumCPU,
        lit "runtime_current_threads:" ++ Itoa R.NumGoroutine,
        lit "release_os_arch:" ++ (R.GOOS ++ lit "-" ++ R.GOARCH),
        lit "release_go_version:" ++ R.Version,
        lit "keyspace_keys:" ++
          natDecimal (((database C idx).map (fun sh => sh.m.length)).sum),
        lit "memory_database_shards:" ++ lit "50",
        lit "memory_logical_databases:" ++ lit "3",
        lit "memory_active_database:" ++ Itoa idx ] := by
    unfold GetStats
    rw [hkeys, h50, h3]
    simp [Join, ReleaseVersion, ServerInetNetwork]
  refine ⟨?_, ?_, ?_⟩
  · rw [hw, hstats]
  · rw [hw]
    unfold envelope GetStats
    simp only [List.length_cons, List.length_nil]
    have h12 : lit "!" ++ Itoa ((0 + 1 + 1 + 1 + 1 + 1 + 1 + 1 + 1 + 1 + 1 + 1 + 1 : Nat) : Int)
        ++ lit "\r\n" = lit "!12\r\n" := by decide
    rw [h12]
    exact List.isPrefixOf_iff_prefix.mpr ⟨_, rfl⟩
  · exact hcont

theorem C28_info_witness :
    (lit "!12\r\n").isPrefixOf (Execute testLib testRuntime
      { Arguments := [lit "info"], Connection := testConn, Index := 2 }
      (testContainerWith "k" "v")).wire = true :=
  (C28_info testLib testRuntime (testContainerWith "k" "v") testConn 2 (lit "info") _
    (by decide) rfl).2.1

/-! ## Snapshots: the rows of a file -/

theorem Split_ne_nil (s : GoString) (sep : UInt8) : Split s sep ≠ [] := by
  cases s with
  | nil => simp [Split]
  | cons c s =>
    unfold Split
    split_ifs <;> simp

/-- A piece without the separator, followed by the separator, is the first
piece of the split. -/
theorem Split_append_sep (r rest : GoString) (sep : UInt8) (h : sep ∉ r) :
    Split (r ++ sep :: rest) sep = r :: Split rest sep := by
  induction r with
  | nil => simp [Split]
  | cons c r ih =>
    have hc : c ≠ sep := fun e => h (by simp [e])
    have hr : sep ∉ r := fun e => h (List.mem_cons_of_mem _ e)
    show Split (c :: (r ++ sep :: rest)) sep = _
    rw [Split, if_neg hc, ih hr]
    rfl

/-- The rows written one per line are the pieces of the split, followed by
the empty piece after the last newline. -/
theorem Split_snapshotBytes (rows : List GoString) (h : ∀ r ∈ rows, (10 : UInt8) ∉ r) :
    Split (snapshotBytes rows) 10 = rows ++ [[]] := by
  induction rows with
  | nil => rfl
  | cons r rows ih =>
    have hr : (10 : UInt8) ∉ r := h r (List.mem_cons_self _ _)
    have hrows : ∀ r' ∈ rows, (10 : UInt8) ∉ r' := fun r' hr' => h r' (List.mem_cons_of_mem _ hr')
    have hstep : snapshotBytes (r :: rows) = r ++ 10 :: snapshotBytes rows := by
      simp [snapshotBytes, Join]
    rw [hstep, Split_append_sep r _ 10 hr, ih hrows]
    rfl

/-- The split has one piece more than the content has separators. -/
theorem Split_length (s : GoString) (sep : UInt8) :
    (Split s sep).length = s.count sep + 1 := by
  induction s with
  | nil => rfl
  | cons c s ih =>
    unfold Split
    by_cases hc : c = sep
    · rw [if_pos hc, List.length_cons, ih, hc, List.count_cons_self]
    · have hne : ¬ sep = c := fun e => hc e.symm
      rw [if_neg hc, List.length_cons, List.length_tail, ih, List.count_cons_of_ne hne]
      omega

/-- The rows `DiskRead` keeps: the pieces before the last one, as many as
the content has newline bytes. -/
theorem rows_length (content : GoString) :
    ((Split content 10).take ((Split content 10).length - 1)).length = content.count 10 := by
  rw [List.length_take, Split_length]
  omega

/-- The result of `DiskRead` on a file that could be read, by the parity of
the number of newline bytes of its content. -/
theorem DiskRead_ok (L : Lib) (content : GoString) (database : ShardedCache) :
    DiskRead L (FileRead.ok content) database =
      if content.count 10 % 2 ≠ 0 then
        (database, some (lit "error loading incomplete snapshot"))
      else
        (diskReadLoop L ((Split content 10).take ((Split content 10).length - 1)) 0 []
          database, none) := by
  have hpos : (Split content 10).length > 0 := by rw [Split_length]; omega
  have hcount : (Split content 10).length - 1 = content.count 10 := by
    rw [Split_length]; omega
  unfold DiskRead
  simp only [hpos, if_true, hcount]

/-- C29, the claim as written fails: the content `k`, newline, newline has
one row that is not empty, an odd number, and `DiskRead` accepts it and
stores the empty string at `k`; the content `k` without a newline has one
row that is not empty too, and `DiskRead` accepts it and stores nothing. -/
theorem C29_nonempty_rows_counterexample :
    ((Split (lit "k\n\n") 10).filter (fun row => decide (row ≠ []))).length = 1 ∧
    DiskRead testLib (FileRead.ok (lit "k\n\n")) (NewShardedCache 4) =
      (Store testLib (NewShardedCache 4) (lit "k") (lit ""), none) ∧
    ((Split (lit "k") 10).filter (fun row => decide (row ≠ []))).length = 1 ∧
    DiskRead testLib (FileRead.ok (lit "k")) (NewShardedCache 4) = (NewShardedCache 4, none) := by
  decide

/-- C29, amended: `DiskRead` rejects every snapshot file whose number of
rows is odd, where the rows are the lines of the file that a newline byte
closes, the empty lines among them, as many as the file has newline bytes:
it returns the error `error loading incomplete snapshot` and stores nothing
in the database.  The bytes after the last newline are no row. -/
theorem C29_incomplete_snapshot (L : Lib) (content : GoString) (database : ShardedCache)
    (hodd : content.count 10 % 2 = 1) :
    ((Split content 10).take ((Split content 10).length - 1)).length = content.count 10 ∧
    (∀ tail : GoString, (10 : UInt8) ∉ tail →
      DiskRead L (FileRead.ok (content ++ tail)) database =
        (database, some (lit "error loading incomplete snapshot"))) ∧
    DiskRead L (FileRead.ok content) database =
      (database, some (lit "error loading incomplete snapshot")) := by
  refine ⟨rows_length content, fun tail ht => ?_, ?_⟩
  · rw [DiskRead_ok, if_pos]
    rw [List.count_append, List.count_eq_zero_of_not_mem ht]
    omega
  · rw [DiskRead_ok, if_pos]
    omega

theorem C29_incomplete_snapshot_witness :
    DiskRead testLib (FileRead.ok (lit "k\nv\nk2\n")) (NewShardedCache 4) =
      (NewShardedCache 4, some (lit "error loading incomplete snapshot")) :=
  (C29_incomplete_snapshot testLib (lit "k\nv\nk2\n") (NewShardedCache 4) (by decide)).2.2

/-! ## The shape of a database is kept by the store -/

theorem wf_NewShardedCache (L : Lib) (n : Nat) : ShardedCache.wf L (NewShardedCache n) := by
  unfold NewShardedCache
  constructor
  · intro sh hsh
    rw [List.eq_of_mem_replicate hsh]
    exact List.nodup_nil
  · intro i hi e he
    rw [List.getD_eq_getElem _ _ hi, List.getElem_replicate] at he
    simp at he

theorem getShardIndex_putShard (L : Lib) (sc : ShardedCache) (key k : GoString) (m : GoMap) :
    getShardIndex L (putShard L sc key m) k = getShardIndex L sc k := by
  unfold getShardIndex
  rw [putShard_length]

/-- Writing back the shard of `key` with a map that holds each key once and
only keys of that shard keeps the shape. -/
theorem wf_putShard (L : Lib) (sc : ShardedCache) (key : GoString) (m : GoMap)
    (hwf : ShardedCache.wf L sc) (hnd : (m.map Prod.fst).Nodup)
    (hk : ∀ e ∈ m, getShardIndex L sc e.1 = getShardIndex L sc key) :
    ShardedCache.wf L (putShard L sc key m) := by
  constructor
  · intro sh hsh
    unfold putShard at hsh
    rcases List.mem_or_eq_of_mem_set hsh with h | h
    · exact hwf.1 sh h
    · rw [h]
      exact hnd
  · intro i hi e he
    rw [putShard_length] at hi
    rw [getShardIndex_putShard]
    unfold putShard at he
    rw [List.getD_eq_getElem?_getD, List.getElem?_set] at he
    by_cases hidx : getShardIndex L sc key = i
    · rw [if_pos hidx] at he
      have hlt : getShardIndex L sc key < sc.length := by rw [hidx]; exact hi
      simp only [hlt, if_true, Option.getD_some] at he
      rw [hk e he, hidx]
    · rw [if_neg hidx] at he
      rw [← List.getD_eq_getElem?_getD] at he
      exact hwf.2 i hi e he

theorem keys_filter_nodup (m : GoMap) (p : GoString × GoString → Bool)
    (h : (m.map Prod.fst).Nodup) : ((m.filter p).map Prod.fst).Nodup :=
  h.sublist ((List.filter_sublist m).map Prod.fst)

theorem getShard_mem_index (L : Lib) (sc : ShardedCache) (key : GoString)
    (hwf : ShardedCache.wf L sc) (hne : sc ≠ []) :
    ∀ e ∈ (getShard L sc key).m, getShardIndex L sc e.1 = getShardIndex L sc key := by
  intro e he
  exact hwf.2 _ (getShardIndex_lt L sc key hne) e he

theorem getShard_nodup (L : Lib) (sc : ShardedCache) (key : GoString)
    (hwf : ShardedCache.wf L sc) (hne : sc ≠ []) :
    ((getShard L sc key).m.map Prod.fst).Nodup := by
  refine hwf.1 _ ?_
  unfold getShard
  rw [List.getD_eq_getElem _ _ (getShardIndex_lt L sc key hne)]
  exact List.getElem_mem _

theorem wf_Store (L : Lib) (sc : ShardedCache) (key value : GoString)
    (hwf : ShardedCache.wf L sc) (hne : sc ≠ []) : ShardedCache.wf L (Store L sc key value) := by
  unfold Store
  refine wf_putShard L sc key _ hwf ?_ ?_
  · unfold mapStore
    rw [List.map_cons, List.nodup_cons]
    refine ⟨?_, keys_filter_nodup _ _ (getShard_nodup L sc key hwf hne)⟩
    intro hin
    obtain ⟨e, he, hek⟩ := List.mem_map.mp hin
    have := (List.mem_filter.mp he).2
    simp only [decide_eq_true_eq] at this
    exact this hek
  · intro e he
    unfold mapStore at he
    rcases List.mem_cons.mp he with h | h
    · rw [h]
    · exact getShard_mem_index L sc key hwf hne e (List.mem_filter.mp h).1

theorem wf_Delete (L : Lib) (sc : ShardedCache) (key : GoString)
    (hwf : ShardedCache.wf L sc) (hne : sc ≠ []) : ShardedCache.wf L (Delete L sc key) := by
  unfold Delete
  refine wf_putShard L sc key _ hwf ?_ ?_
  · exact keys_filter_nodup _ _ (getShard_nodup L sc key hwf hne)
  · intro e he
    exact getShard_mem_index L sc key hwf hne e (List.mem_filter.mp he).1

/-! ## Snapshots: the round trip -/

/-- An entry found by the map read is an entry of the map. -/
theorem mapLookup_some_mem (m : GoMap) (k v : GoString) (h : mapLookup m k = some v) :
    (k, v) ∈ m := by
  induction m with
  | nil => simp [mapLookup] at h
  | cons e m ih =>
    obtain ⟨a, b⟩ := e
    unfold mapLookup at h
    split_ifs at h with hk
    · have hv : b = v := by simpa using h
      rw [hk, hv]
      exact List.mem_cons_self _ _
    · exact List.mem_cons_of_mem _ (ih h)

/-- In a map that holds each key once, the entries are what the map read
finds. -/
theorem mapLookup_of_mem (m : GoMap) (k v : GoString) (hnd : (m.map Prod.fst).Nodup)
    (h : (k, v) ∈ m) : mapLookup m k = some v := by
  induction m with
  | nil => simp at h
  | cons e m ih =>
    obtain ⟨a, b⟩ := e
    rw [List.map_cons, List.nodup_cons] at hnd
    unfold mapLookup
    rcases List.mem_cons.mp h with heq | hin
    · have ha : a = k := (Prod.mk.inj heq).1.symm
      have hb : b = v := (Prod.mk.inj heq).2.symm
      rw [if_pos ha, hb]
    · have hne : ¬ a = k := by
        intro ha
        apply hnd.1
        rw [ha]
        exact List.mem_map.mpr ⟨(k, v), hin, rfl⟩
      rw [if_neg hne]
      exact ih hnd.2 hin

theorem mapLookup_none_of_not_mem (m : GoMap) (k : GoString) (h : k ∉ m.map Prod.fst) :
    mapLookup m k = none := by
  cases hl : mapLookup m k with
  | none => rfl
  | some v => exact absurd (List.mem_map.mpr ⟨(k, v), mapLookup_some_mem m k v hl, rfl⟩) h

/-- The entries of a well-shaped database are what it holds. -/
theorem mem_entries_iff (L : Lib) (sc : ShardedCache) (k v : GoString)
    (hwf : ShardedCache.wf L sc) (hne : sc ≠ []) :
    (k, v) ∈ entries sc ↔ stored L sc k = some v := by
  have hlt := getShardIndex_lt L sc k hne
  unfold entries
  rw [List.mem_flatten]
  constructor
  · rintro ⟨m, hm, hkv⟩
    obtain ⟨sh, hsh, rfl⟩ := List.mem_map.mp hm
    obtain ⟨i, hi, hget⟩ := List.getElem_of_mem hsh
    have hD : sc.getD i { m := [] } = sh := by rw [List.getD_eq_getElem _ _ hi, hget]
    have hidx : getShardIndex L sc k = i := hwf.2 i hi (k, v) (by rw [hD]; exact hkv)
    unfold stored getShard
    rw [hidx, hD]
    exact mapLookup_of_mem sh.m k v (hwf.1 sh hsh) hkv
  · intro hst
    unfold stored getShard at hst
    refine ⟨(sc.getD (getShardIndex L sc k) { m := [] }).m, ?_, mapLookup_some_mem _ k v hst⟩
    refine List.mem_map.mpr ⟨_, ?_, rfl⟩
    rw [List.getD_eq_getElem _ _ hlt]
    exact List.getElem_mem _

/-- The items of `Range` are the entries of the shards, key then value. -/
theorem Range_items (sc : ShardedCache) :
    (Range sc).1 = (entries sc).flatMap (fun e => [e.1, e.2]) := by
  have hpairs : ∀ m : GoMap,
      m.foldr (fun e r => e.1 :: e.2 :: r) [] = m.flatMap (fun e => [e.1, e.2]) := by
    intro m
    induction m with
    | nil => rfl
    | cons e m ih => rw [List.foldr_cons, ih, List.flatMap_cons]; rfl
  have hfold : ∀ (sc : ShardedCache) (acc : List GoString),
      sc.foldl (fun acc sh => acc ++ sh.m.foldr (fun e r => e.1 :: e.2 :: r) []) acc =
        acc ++ (entries sc).flatMap (fun e => [e.1, e.2]) := by
    intro sc
    induction sc with
    | nil => intro acc; simp [entries]
    | cons sh sc ih =>
      intro acc
      rw [List.foldl_cons, ih, hpairs]
      simp [entries, List.flatMap_append, List.append_assoc]
  unfold Range
  exact (hfold sc []).trans (List.nil_append _)

/-- The loop of `DiskRead` on rows that come in pairs stores the pairs in
their order. -/
theorem diskReadLoop_pairs (L : Lib) (m : GoMap) (database : ShardedCache) :
    diskReadLoop L (m.flatMap (fun e => [e.1, e.2])) 0 [] database =
      m.foldl (fun db e => Store L db e.1 e.2) database := by
  induction m generalizing database with
  | nil => rfl
  | cons e m ih =>
    rw [List.flatMap_cons, List.foldl_cons, ← ih]
    show diskReadLoop L (e.1 :: e.2 :: m.flatMap (fun e => [e.1, e.2])) 0 [] database = _
    rw [diskReadLoop]
    simp only [Nat.zero_add, List.nil_append]
    rw [if_neg (by decide), diskReadLoop]
    simp

theorem foldl_Store_ne_nil (L : Lib) (m : GoMap) (database : ShardedCache)
    (h : database ≠ []) : m.foldl (fun db e => Store L db e.1 e.2) database ≠ [] := by
  induction m generalizing database with
  | nil => exact h
  | cons e m ih => exact ih _ (Store_ne_nil L database e.1 e.2 h)

/-- A key that is not among the pairs stored keeps what it held. -/
theorem stored_foldl_Store_other (L : Lib) (m : GoMap) (database : ShardedCache)
    (k : GoString) (h : database ≠ []) (hk : k ∉ m.map Prod.fst) :
    stored L (m.foldl (fun db e => Store L db e.1 e.2) database) k = stored L database k := by
  induction m generalizing database with
  | nil => rfl
  | cons e m ih =>
    rw [List.map_cons, List.mem_cons, not_or] at hk
    rw [List.foldl_cons, ih _ (Store_ne_nil L database e.1 e.2 h) hk.2,
      stored_Store L database e.1 e.2 k h, if_neg hk.1]

/-- A key among the pairs stored holds the value of one of its pairs. -/
theorem stored_foldl_Store_mem (L : Lib) (m : GoMap) (database : ShardedCache)
    (k : GoString) (h : database ≠ []) (hk : k ∈ m.map Prod.fst) :
    ∃ v, (k, v) ∈ m ∧
      stored L (m.foldl (fun db e => Store L db e.1 e.2) database) k = some v := by
  induction m generalizing database with
  | nil => simp at hk
  | cons e m ih =>
    rw [List.foldl_cons]
    by_cases hin : k ∈ m.map Prod.fst
    · obtain ⟨v, hv, hst⟩ := ih _ (Store_ne_nil L database e.1 e.2 h) hin
      exact ⟨v, List.mem_cons_of_mem _ hv, hst⟩
    · have hke : k = e.1 := by
        rw [List.map_cons, List.mem_cons] at hk
        exact hk.resolve_right hin
      refine ⟨e.2, ?_, ?_⟩
      · rw [hke]
        exact List.mem_cons_self _ _
      · rw [stored_foldl_Store_other L m _ k (Store_ne_nil L database e.1 e.2 h) hin,
          stored_Store L database e.1 e.2 k h, if_pos hke]

/-- A database without entries holds nothing. -/
theorem stored_of_empty (L : Lib) (sc : ShardedCache) (k : GoString)
    (h : ∀ sh ∈ sc, sh.m = []) : stored L sc k = none := by
  unfold stored getShard
  rw [List.getD_eq_getElem?_getD]
  cases hi : sc[getShardIndex L sc k]? with
  | none => rfl
  | some sh =>
    have hm : sh.m = [] := h sh (List.getElem?_mem hi)
    simp [hm, mapLookup]

theorem length_pairs (m : GoMap) : (m.flatMap (fun e => [e.1, e.2])).length = 2 * m.length := by
  induction m with
  | nil => rfl
  | cons e m ih =>
    rw [List.flatMap_cons, List.length_append, ih, List.length_cons]
    simp only [List.length_cons, List.length_nil]
    omega

/-- Reading back the pairs of a well-shaped database, written in any order,
one row per key and per value, into a database without entries: no error,
and the database read holds what the database written held. -/
theorem DiskRead_snapshot (L : Lib) (database empty : ShardedCache) (items : GoMap)
    (hwf : ShardedCache.wf L database) (hne : database ≠ [])
    (hmem : ∀ e, e ∈ items ↔ e ∈ entries database)
    (hclean : ∀ e ∈ items, (10 : UInt8) ∉ e.1 ∧ (10 : UInt8) ∉ e.2)
    (he1 : empty ≠ []) (he2 : ∀ sh ∈ empty, sh.m = []) :
    DiskRead L (FileRead.ok (snapshotBytes (items.flatMap (fun e => [e.1, e.2])))) empty =
      (items.foldl (fun db e => Store L db e.1 e.2) empty, none) ∧
    ∀ k, stored L (items.foldl (fun db e => Store L db e.1 e.2) empty) k =
      stored L database k := by
  have hrows : ∀ r ∈ items.flatMap (fun e => [e.1, e.2]), (10 : UInt8) ∉ r := by
    intro r hr
    obtain ⟨e, he, hre⟩ := List.mem_flatMap.mp hr
    rcases List.mem_cons.mp hre with h1 | h2
    · rw [h1]; exact (hclean e he).1
    · rw [List.mem_singleton.mp h2]; exact (hclean e he).2
  have hsplit := Split_snapshotBytes _ hrows
  have htake : (Split (snapshotBytes (items.flatMap (fun e => [e.1, e.2]))) 10).take
      ((Split (snapshotBytes (items.flatMap (fun e => [e.1, e.2]))) 10).length - 1) =
      items.flatMap (fun e => [e.1, e.2]) := by
    rw [hsplit, List.length_append, List.length_singleton, Nat.add_sub_cancel,
      List.take_left']
    rfl
  have hcount : (snapshotBytes (items.flatMap (fun e => [e.1, e.2]))).count 10 =
      2 * items.length := by
    rw [← rows_length, htake, length_pairs]
  constructor
  · rw [DiskRead_ok, hcount, if_neg (by omega), htake, diskReadLoop_pairs]
  · intro k
    cases hst : stored L database k with
    | some v =>
      have hin : (k, v) ∈ items := (hmem (k, v)).mpr ((mem_entries_iff L database k v hwf hne).mpr hst)
      obtain ⟨v', hv', hst'⟩ := stored_foldl_Store_mem L items empty k he1
        (List.mem_map.mpr ⟨(k, v), hin, rfl⟩)
      have h2 := (mem_entries_iff L database k v' hwf hne).mp ((hmem (k, v')).mp hv')
      rw [hst] at h2
      rw [hst', h2]
    | none =>
      have hk : k ∉ items.map Prod.fst := by
        intro hin
        obtain ⟨e, he, hek⟩ := List.mem_map.mp hin
        have h2 := (mem_entries_iff L database k e.2 hwf hne).mp
          ((hmem (k, e.2)).mp (by rw [← hek]; exact he))
        rw [hst] at h2
        exact Option.noConfusion h2
      rw [stored_foldl_Store_other L items empty k he1 hk]
      exact stored_of_empty L empty k he2

/-- C30: the snapshot round trip.  For a database that holds at least one
key and whose keys and values hold no newline byte, `DiskWrite`, when it
returns no error, has written the items of `Range`, each followed by a
newline; `DiskRead` on that content, into a database without entries, returns
no error and leaves a database that holds exactly what the first held, and so
it does for the pairs written in any other order.  For a database without
entries `DiskWrite` creates or truncates no file and returns its error. -/
theorem C30_snapshot_round_trip (L : Lib) (database empty : ShardedCache)
    (hwf : ShardedCache.wf L database)
    (hclean : ∀ e ∈ entries database, (10 : UInt8) ∉ e.1 ∧ (10 : UInt8) ∉ e.2)
    (he1 : empty ≠ []) (he2 : ∀ sh ∈ empty, sh.m = []) :
    (entries database ≠ [] →
      DiskWrite database none none = (some (snapshotBytes (Range database).1), none) ∧
      (∀ createErr writeErr, (DiskWrite database createErr writeErr).2 = none →
        (DiskWrite database createErr writeErr).1 = some (snapshotBytes (Range database).1)) ∧
      (DiskRead L (FileRead.ok (snapshotBytes (Range database).1)) empty).2 = none ∧
      (∀ k, stored L (DiskRead L (FileRead.ok (snapshotBytes (Range database).1)) empty).1 k =
        stored L database k) ∧
      (∀ items : GoMap, items.Perm (entries database) →
        (DiskRead L (FileRead.ok (snapshotBytes (items.flatMap (fun e => [e.1, e.2]))))
          empty).2 = none ∧
        ∀ k, stored L (DiskRead L
            (FileRead.ok (snapshotBytes (items.flatMap (fun e => [e.1, e.2])))) empty).1 k =
          stored L database k)) ∧
    (entries database = [] →
      ∀ createErr writeErr,
        DiskWrite database createErr writeErr = (none, some (lit "no data to persist to disk")))
    := by
  constructor
  · intro hne
    have hdb : database ≠ [] := by
      intro h
      apply hne
      rw [h]
      rfl
    have hlen : ¬ ((Range database).1.length = 0) := by
      rw [Range_items, length_pairs]
      have := List.length_pos.mpr hne
      omega
    have hperm : ∀ items : GoMap, items.Perm (entries database) →
        (DiskRead L (FileRead.ok (snapshotBytes (items.flatMap (fun e => [e.1, e.2]))))
          empty).2 = none ∧
        ∀ k, stored L (DiskRead L
            (FileRead.ok (snapshotBytes (items.flatMap (fun e => [e.1, e.2])))) empty).1 k =
          stored L database k := by
      intro items hp
      obtain ⟨h1, h2⟩ := DiskRead_snapshot L database empty items hwf hdb
        (fun e => hp.mem_iff) (fun e he => hclean e (hp.mem_iff.mp he)) he1 he2
      rw [h1]
      exact ⟨rfl, h2⟩
    have hself := hperm (entries database) (List.Perm.refl _)
    rw [← Range_items] at hself
    refine ⟨?_, fun createErr writeErr hok => ?_, hself.1, hself.2, hperm⟩
    · unfold DiskWrite
      simp only [hlen, if_false]
    · unfold DiskWrite at hok ⊢
      simp only [hlen, if_false] at hok ⊢
      cases createErr with
      | some err => simp at hok
      | none =>
        cases writeErr with
        | none => rfl
        | some p =>
          obtain ⟨n, err⟩ := p
          simp only at hok ⊢
          by_cases hn : n < (Range database).1.length
          · rw [if_pos hn] at hok
            simp at hok
          · rw [if_neg hn]
  · intro hnil createErr writeErr
    have hlen : (Range database).1.length = 0 := by
      rw [Range_items, hnil]
      rfl
    unfold DiskWrite
    simp only [hlen, if_true]

theorem C30_snapshot_round_trip_witness :
    DiskWrite (Store testLib (Store testLib (NewShardedCache 4) (lit "k") (lit "v")) (lit "key")
        (lit "value")) none none = (some (lit "k\nv\nkey\nvalue\n"), none) ∧
    ∀ k, stored testLib (DiskRead testLib (FileRead.ok (snapshotBytes (Range
        (Store testLib (Store testLib (NewShardedCache 4) (lit "k") (lit "v")) (lit "key")
          (lit "value"))).1)) (NewShardedCache 50)).1 k =
      stored testLib (Store testLib (Store testLib (NewShardedCache 4) (lit "k") (lit "v"))
        (lit "key") (lit "value")) k :=
  have h := (C30_snapshot_round_trip testLib
    (Store testLib (Store testLib (NewShardedCache 4) (lit "k") (lit "v")) (lit "key")
      (lit "value")) (NewShardedCache 50) (by decide) (by decide) (by decide) (by decide)).1
    (by decide)
  ⟨h.1.trans (by decide), h.2.2.2.1⟩

/-! ## Errors leave everything as it was -/

theorem sameContent_refl (L : Lib) (C : CacheContainer) : sameContent L C C :=
  ⟨rfl, fun _ _ => rfl⟩

theorem BuildResponse_line (e : GoString) :
    BuildResponse [lit "!1\r\n", e] = lit "!1\r\n" ++ e := by
  simp [BuildResponse, Join]

/-- A branch that writes an error line and leaves the container alone. -/
theorem rejected_respond (L : Lib) (cmd : Command) (C : CacheContainer) (e : GoString)
    (pieces : List GoString) (hp : BuildResponse pieces = lit "!1\r\n" ++ e) :
    rejected L cmd C e (respond cmd C pieces cmd.Index) :=
  ⟨hp, sameContent_refl L C, fun _ => rfl, rfl, rfl, rfl, rfl⟩

theorem rejected_wrongArguments (L : Lib) (cmd : Command) (C : CacheContainer) :
    rejected L cmd C (arityLine cmd) (wrongArguments cmd C) :=
  rejected_respond L cmd C _ _ rfl

/-- A command that checks its arity only. -/
theorem rejected_arity (L : Lib) (cmd : Command) (C : CacheContainer) (wrong : Prop)
    [Decidable wrong] (s : Outcome) (e : GoString)
    (h : arityError cmd (decide wrong) = some e) :
    rejected L cmd C e (if wrong then wrongArguments cmd C else s) := by
  unfold arityError at h
  by_cases hw : wrong
  · rw [if_pos hw]
    simp only [hw, decide_True, if_true, Option.some.injEq] at h
    rw [← h]
    exact rejected_wrongArguments L cmd C
  · simp [hw] at h

theorem rejected_ite (L : Lib) (cmd : Command) (C : CacheContainer) (c : Prop) [Decidable c]
    (a b : Outcome) (ea eb : Option GoString)
    (ha : ∀ e, ea = some e → rejected L cmd C e a)
    (hb : ∀ e, eb = some e → rejected L cmd C e b) :
    ∀ e, (if c then ea else eb) = some e → rejected L cmd C e (if c then a else b) := by
  intro e h
  by_cases hc : c
  · rw [if_pos hc] at h ⊢
    exact ha e h
  · rw [if_neg hc] at h ⊢
    exact hb e h

theorem database_congr (C : CacheContainer) (i j : Int) (h : i.toNat = j.toNat) :
    database C i = database C j := by
  unfold database
  rw [h]

theorem selectCommand_rejected (L : Lib) (cmd : Command) (C : CacheContainer) (e : GoString)
    (h : selectError cmd = some e) : rejected L cmd C e (selectCommand cmd C) := by
  unfold selectError at h
  unfold selectCommand
  dsimp only
  split_ifs at h ⊢
  · rw [← Option.some.inj h]; exact rejected_wrongArguments L cmd C
  · rw [← Option.some.inj h]; exact rejected_respond L cmd C _ _ (BuildResponse_line _)
  · rw [← Option.some.inj h]; exact rejected_respond L cmd C _ _ (BuildResponse_line _)

theorem flushallCommand_rejected (L : Lib) (cmd : Command) (C : CacheContainer) (e : GoString)
    (h : adminError cmd = some e) : rejected L cmd C e (flushallCommand cmd C) := by
  unfold adminError at h
  unfold flushallCommand
  by_cases h1 : cmd.Arguments.length ≠ 1
  · rw [if_pos h1] at h ⊢
    rw [← Option.some.inj h]
    exact rejected_wrongArguments L cmd C
  · rw [if_neg h1] at h ⊢
    cases h2 : isAdmin cmd.Connection.RemoteAddr
    · rw [h2] at h
      simp only [Bool.false_eq_true, if_false, Bool.not_false, if_true] at h ⊢
      rw [← Option.some.inj h]
      exact rejected_respond L cmd C _ _ (BuildResponse_line _)
    · rw [h2] at h
      simp at h

theorem flushCommand_rejected (L : Lib) (cmd : Command) (C : CacheContainer) (e : GoString)
    (h : adminError cmd = some e) : rejected L cmd C e (flushCommand cmd C) := by
  unfold adminError at h
  unfold flushCommand
  split_ifs at h ⊢
  · rw [← Option.some.inj h]; exact rejected_wrongArguments L cmd C
  · rw [← Option.some.inj h]; exact rejected_respond L cmd C _ _ (BuildResponse_line _)

theorem shutdownCommand_rejected (L : Lib) (cmd : Command) (C : CacheContainer) (e : GoString)
    (h : adminError cmd = some e) : rejected L cmd C e (shutdownCommand cmd C) := by
  unfold adminError at h
  unfold shutdownCommand
  split_ifs at h ⊢
  · rw [← Option.some.inj h]; exact rejected_wrongArguments L cmd C
  · rw [← Option.some.inj h]; exact rejected_respond L cmd C _ _ (BuildResponse_line _)

theorem setCommand_rejected (L : Lib) (cmd : Command) (C : CacheContainer) (e : GoString)
    (h : setError L cmd = some e) : rejected L cmd C e (setCommand L cmd C) := by
  unfold setError at h
  by_cases hlen : cmd.Arguments.length < 3 ∨ cmd.Arguments.length > 6
  · rw [if_pos hlen] at h
    unfold setCommand
    dsimp only
    rw [if_pos hlen, ← Option.some.inj h]
    exact rejected_wrongArguments L cmd C
  · rw [if_neg hlen] at h
    by_cases hse : (setParse L (cmd.Arguments.drop 3) setOptionsInit).syntaxError = true
    · rw [if_pos hse] at h
      rw [setCommand_syntaxError L cmd C hlen hse, ← Option.some.inj h]
      exact rejected_respond L cmd C _ _ rfl
    · rw [if_neg hse] at h
      exact Option.noConfusion h

/-- A branch that writes an error line after an operation of the store that
left the database at `i` as it was. -/
theorem rejected_respond_self (L : Lib) (cmd : Command) (C : CacheContainer) (e : GoString)
    (i : Int) (db : ShardedCache) (hi : i.toNat < C.length) (hdb : db = database C i) :
    rejected L cmd C e (respond cmd (setDatabase C i db) [lit "!1\r\n", e] cmd.Index) := by
  rw [hdb, setDatabase_self C i hi]
  exact rejected_respond L cmd C e _ (BuildResponse_line e)

theorem moveCommand_rejected (L : Lib) (cmd : Command) (C : CacheContainer) (e : GoString)
    (hC : CacheContainer.ok C) (h : moveError L cmd C = some e) :
    rejected L cmd C e (moveCommand L cmd C) := by
  unfold moveError at h
  unfold moveCommand
  dsimp only
  by_cases h1 : cmd.Arguments.length ≠ 3
  · rw [if_pos h1] at h ⊢
    rw [← Option.some.inj h]
    exact rejected_wrongArguments L cmd C
  rw [if_neg h1] at h ⊢
  by_cases h2 : (Atoi (cmd.arg 2)).2 ≠ none
  · rw [if_pos h2] at h ⊢
    rw [← Option.some.inj h]
    exact rejected_respond L cmd C _ _ (BuildResponse_line _)
  rw [if_neg h2] at h ⊢
  by_cases h3 : (Atoi (cmd.arg 2)).1 < 0 ∨ (Atoi (cmd.arg 2)).1 ≥ MemoryCacheContainerSize
  · rw [if_pos h3] at h ⊢
    rw [← Option.some.inj h]
    exact rejected_respond L cmd C _ _ (BuildResponse_line _)
  rw [if_neg h3] at h ⊢
  by_cases h4 : (Atoi (cmd.arg 2)).1 = cmd.Index
  · rw [if_pos h4] at h
    exact Option.noConfusion h
  rw [if_neg h4] at h ⊢
  have hj : indexOk (Atoi (cmd.arg 2)).1 := by
    push_neg at h3
    exact ⟨h3.1, h3.2⟩
  cases h5 : (Load L (database C cmd.Index) (cmd.arg 1)).2
  · rw [h5] at h
    simp only [Bool.false_eq_true, if_false] at h ⊢
    rw [← Option.some.inj h]
    exact rejected_respond L cmd C _ _ (BuildResponse_line _)
  · rw [h5] at h
    simp only [if_true] at h ⊢
    cases h6 : (LoadExistStore L (database C (Atoi (cmd.arg 2)).1) (cmd.arg 1)
        (Load L (database C cmd.Index) (cmd.arg 1)).1 false false).2.2
    · rw [h6] at h
      simp at h
    · rw [h6] at h
      simp only [if_true] at h ⊢
      rw [← Option.some.inj h]
      refine rejected_respond_self L cmd C _ _ _ (toNat_lt_length C _ hC hj) ?_
      rw [LoadExistStore_result, commaOk_snd] at h6
      rw [LoadExistStore_cache, if_neg (by simp [h6])]

theorem stepCommand_fields (L : Lib) (cmd : Command) (C : CacheContainer)
    (f : GoString → GoString × Bool) :
    (stepCommand L cmd C f).Index = cmd.Index ∧
    (stepCommand L cmd C f).keepOpen = (!cmd.Connection.writeErr) ∧
    (stepCommand L cmd C f).timers = [] ∧ (stepCommand L cmd C f).sigint = false := by
  unfold stepCommand
  dsimp only
  split_ifs <;> exact ⟨rfl, rfl, rfl, rfl⟩

theorem stepCommand_rejected (L : Lib) (cmd : Command) (C : CacheContainer)
    (f : GoString → GoString × Bool) (e : GoString)
    (hC : CacheContainer.ok C) (hi : indexOk cmd.Index)
    (hzero : (f (lit "0")).2 = true)
    (hshape : ∀ v, ((f v).2 = false ∧ (f v).1 = v) ∨ ((f v).2 = true ∧ ∃ i, (f v).1 = Itoa i))
    (h : stepError L cmd C f = some e) : rejected L cmd C e (stepCommand L cmd C f) := by
  unfold stepError at h
  rw [LoadModifyStore_result] at h
  cases hst : (f ((stored L (database C cmd.Index) (cmd.arg 1)).getD (lit "0"))).2
  · rw [hst] at h
    simp only [Bool.not_false, if_true] at h
    have hw : (stepCommand L cmd C f).wire =
        lit "!1\r\n-ERR value is either not an integer or too large\r\n" := by
      rw [stepCommand_wire, hst]
      rfl
    obtain ⟨hk, hj, hlen⟩ := stepCommand_error_keeps L cmd C f hC hi hzero hshape hw
    obtain ⟨f1, f2, f3, f4⟩ := stepCommand_fields L cmd C f
    rw [← Option.some.inj h]
    refine ⟨hw, ⟨hlen, fun j k => ?_⟩, fun hne => absurd rfl hne, f1, f2, f3, f4⟩
    by_cases hjj : j.toNat = cmd.Index.toNat
    · rw [database_congr _ j cmd.Index hjj, database_congr C j cmd.Index hjj]
      exact hk k
    · have := hj j.toNat hjj
      unfold database
      rw [List.getD_eq_getElem?_getD, List.getD_eq_getElem?_getD, this]
  · rw [hst] at h
    simp at h

theorem incrCommand_rejected (L : Lib) (cmd : Command) (C : CacheContainer) (e : GoString)
    (hC : CacheContainer.ok C) (hi : indexOk cmd.Index) (h : incrError L cmd C = some e) :
    rejected L cmd C e (incrCommand L cmd C) := by
  unfold incrError at h
  unfold incrCommand
  dsimp only
  split_ifs at h ⊢
  · rw [← Option.some.inj h]; exact rejected_wrongArguments L cmd C
  · rw [← Option.some.inj h]; exact rejected_respond L cmd C _ _ (BuildResponse_line _)
  · rw [← Option.some.inj h]; exact rejected_respond L cmd C _ _ (BuildResponse_line _)
  · exact stepCommand_rejected L cmd C _ e hC hi (incrModifier_zero _) (incrModifier_shape _) h
  · exact stepCommand_rejected L cmd C _ e hC hi (incrModifier_zero _) (incrModifier_shape _) h

theorem decrCommand_rejected (L : Lib) (cmd : Command) (C : CacheContainer) (e : GoString)
    (hC : CacheContainer.ok C) (hi : indexOk cmd.Index) (h : decrError L cmd C = some e) :
    rejected L cmd C e (decrCommand L cmd C) := by
  unfold decrError at h
  unfold decrCommand
  dsimp only
  split_ifs at h ⊢
  · rw [← Option.some.inj h]; exact rejected_wrongArguments L cmd C
  · rw [← Option.some.inj h]; exact rejected_respond L cmd C _ _ (BuildResponse_line _)
  · rw [← Option.some.inj h]; exact rejected_respond L cmd C _ _ (BuildResponse_line _)
  · exact stepCommand_rejected L cmd C _ e hC hi (decrModifier_zero _) (decrModifier_shape _) h
  · exact stepCommand_rejected L cmd C _ e hC hi (decrModifier_zero _) (decrModifier_shape _) h

theorem renameCommand_rejected (L : Lib) (cmd : Command) (C : CacheContainer) (e : GoString)
    (hC : CacheContainer.ok C) (hi : indexOk cmd.Index) (h : renameError L cmd C = some e) :
    rejected L cmd C e (renameCommand L cmd C) := by
  unfold renameError at h
  unfold renameCommand
  dsimp only
  by_cases h1 : cmd.Arguments.length ≠ 3
  · rw [if_pos h1] at h ⊢
    rw [← Option.some.inj h]
    exact rejected_wrongArguments L cmd C
  rw [if_neg h1] at h ⊢
  cases h2 : (LoadAndDelete L (database C cmd.Index) (cmd.arg 1)).2.2
  · rw [h2] at h
    simp only [Bool.false_eq_true, if_false] at h ⊢
    rw [← Option.some.inj h]
    refine rejected_respond_self L cmd C _ _ _ (toNat_lt_length C _ hC hi) ?_
    rw [LoadAndDelete_result, commaOk_snd] at h2
    rw [LoadAndDelete_cache, h2]
    simp
  · rw [h2] at h
    simp at h

theorem copyCommand_rejected (L : Lib) (cmd : Command) (C : CacheContainer) (e : GoString)
    (hC : CacheContainer.ok C) (hi : indexOk cmd.Index) (h : copyError L cmd C = some e) :
    rejected L cmd C e (copyCommand L cmd C) := by
  unfold copyError at h
  unfold copyCommand
  dsimp only
  by_cases h1 : cmd.Arguments.length < 3 ∨ cmd.Arguments.length > 4
  · rw [if_pos h1] at h ⊢
    rw [← Option.some.inj h]
    exact rejected_wrongArguments L cmd C
  rw [if_neg h1] at h ⊢
  by_cases h2 : cmd.Arguments.length = 4 ∧ ToUpper L (cmd.arg 3) ≠ lit "REPLACE"
  · rw [if_pos h2] at h ⊢
    rw [← Option.some.inj h]
    exact rejected_respond L cmd C _ _ (BuildResponse_line _)
  rw [if_neg h2] at h ⊢
  cases h3 : (Load L (database C cmd.Index) (cmd.arg 1)).2
  · rw [h3] at h
    simp only [Bool.false_eq_true, if_false] at h ⊢
    rw [← Option.some.inj h]
    exact rejected_respond L cmd C _ _ (BuildResponse_line _)
  · rw [h3] at h
    simp only [if_true] at h ⊢
    by_cases h4 : (LoadExistStore L (database C cmd.Index) (cmd.arg 2)
          (Load L (database C cmd.Index) (cmd.arg 1)).1 false
          (decide (cmd.Arguments.length = 4))).2.2 = false ∨
        decide (cmd.Arguments.length = 4) = true
    · rw [if_pos h4] at h
      exact Option.noConfusion h
    · rw [if_neg h4] at h ⊢
      rw [← Option.some.inj h]
      refine rejected_respond_self L cmd C _ _ _ (toNat_lt_length C _ hC hi) ?_
      rw [LoadExistStore_result, commaOk_snd] at h4
      rw [LoadExistStore_cache, if_neg h4]

/-- Every error branch of `Execute` leaves an outcome that changed nothing. -/
theorem Execute_rejected (L : Lib) (R : Runtime) (cmd : Command) (C : CacheContainer)
    (hC : CacheContainer.ok C) (hi : indexOk cmd.Index) :
    ∀ e, errorReply L cmd C = some e → rejected L cmd C e (Execute L R cmd C) := by
  unfold Execute errorReply
  dsimp only
  refine rejected_ite L cmd C _ _ _ _ _ (fun e h => selectCommand_rejected L cmd C e h) ?_
  refine rejected_ite L cmd C _ _ _ _ _ (fun e h => flushallCommand_rejected L cmd C e h) ?_
  refine rejected_ite L cmd C _ _ _ _ _ (fun e h => moveCommand_rejected L cmd C e hC h) ?_
  refine rejected_ite L cmd C _ _ _ _ _
    (fun e h => by unfold mgetCommand; dsimp only; exact rejected_arity L cmd C _ _ e h) ?_
  refine rejected_ite L cmd C _ _ _ _ _
    (fun e h => by unfold msetCommand; dsimp only; exact rejected_arity L cmd C _ _ e h) ?_
  refine rejected_ite L cmd C _ _ _ _ _
    (fun e h => by unfold getCommand; dsimp only; exact rejected_arity L cmd C _ _ e h) ?_
  refine rejected_ite L cmd C _ _ _ _ _ (fun e h => setCommand_rejected L cmd C e h) ?_
  refine rejected_ite L cmd C _ _ _ _ _ (fun e h => incrCommand_rejected L cmd C e hC hi h) ?_
  refine rejected_ite L cmd C _ _ _ _ _ (fun e h => decrCommand_rejected L cmd C e hC hi h) ?_
  refine rejected_ite L cmd C _ _ _ _ _
    (fun e h => by unfold appendCommand; dsimp only; exact rejected_arity L cmd C _ _ e h) ?_
  refine rejected_ite L cmd C _ _ _ _ _
    (fun e h => by unfold prependCommand; dsimp only; exact rejected_arity L cmd C _ _ e h) ?_
  refine rejected_ite L cmd C _ _ _ _ _
    (fun e h => by unfold lenCommand; dsimp only; exact rejected_arity L cmd C _ _ e h) ?_
  refine rejected_ite L cmd C _ _ _ _ _ (fun e h => renameCommand_rejected L cmd C e hC hi h) ?_
  refine rejected_ite L cmd C _ _ _ _ _ (fun e h => copyCommand_rejected L cmd C e hC hi h) ?_
  refine rejected_ite L cmd C _ _ _ _ _
    (fun e h => by unfold getsetCommand; dsimp only; exact rejected_arity L cmd C _ _ e h) ?_
  refine rejected_ite L cmd C _ _ _ _ _
    (fun e h => by unfold getdelCommand; dsimp only; exact rejected_arity L cmd C _ _ e h) ?_
  refine rejected_ite L cmd C _ _ _ _ _
    (fun e h => by unfold delCommand; dsimp only; exact rejected_arity L cmd C _ _ e h) ?_
  refine rejected_ite L cmd C _ _ _ _ _
    (fun e h => by unfold existsCommand; exact rejected_arity L cmd C _ _ e h) ?_
  refine rejected_ite L cmd C _ _ _ _ _
    (fun e h => by unfold quitCommand; dsimp only; exact rejected_arity L cmd C _ _ e h) ?_
  refine rejected_ite L cmd C _ _ _ _ _
    (fun e h => by unfold infoCommand; dsimp only; exact rejected_arity L cmd C _ _ e h) ?_
  refine rejected_ite L cmd C _ _ _ _ _
    (fun e h => by unfold echoCommand; exact rejected_arity L cmd C _ _ e h) ?_
  refine rejected_ite L cmd C _ _ _ _ _ (fun e h => flushCommand_rejected L cmd C e h) ?_
  refine rejected_ite L cmd C _ _ _ _ _ (fun e h => shutdownCommand_rejected L cmd C e h) ?_
  intro e h
  rw [← Option.some.inj h]
  exact rejected_respond L cmd C _ _ rfl

/-- C25: whenever `Execute` answers a command with an argument, semantic,
authorization or unknown-command error, that is on each of its branches that
write a `-ERR` line, the reply is that line in its envelope, every key of
every database holds what it held before (the container itself is the same,
except after `-ERR value is either not an integer or too large`, where the
value is written back as it was), the returned index is the current index,
and the second result is true provided the write of the reply succeeded. -/
theorem C25_errors_change_nothing (L : Lib) (R : Runtime) (cmd : Command)
    (C : CacheContainer) (e : GoString) (o : Outcome)
    (hC : CacheContainer.ok C) (hi : indexOk cmd.Index)
    (he : errorReply L cmd C = some e) (ho : o = Execute L R cmd C) :
    o.wire = lit "!1\r\n" ++ e ∧
    o.Container.length = C.length ∧
    (∀ (j : Int) (k : GoString), stored L (database o.Container j) k = stored L (database C j) k) ∧
    (e ≠ lit "-ERR value is either not an integer or too large\r\n" → o.Container = C) ∧
    o.Index = cmd.Index ∧
    (cmd.Connection.writeErr = false → o.keepOpen = true) ∧
    o.timers = [] ∧ o.sigint = false := by
  obtain ⟨h1, ⟨h2, h3⟩, h4, h5, h6, h7, h8⟩ := Execute_rejected L R cmd C hC hi e he
  rw [ho]
  refine ⟨h1, h2, h3, h4, h5, fun hw => ?_, h7, h8⟩
  rw [h6, hw]
  rfl

theorem C25_errors_change_nothing_witness :
    (Execute testLib testRuntime
      { Arguments := [lit "incr", lit "600"], Connection := testConn, Index := 0 }
      (testContainerWith "600" "hi")).wire =
      lit "!1\r\n" ++ lit "-ERR value is either not an integer or too large\r\n" ∧
    (∀ (j : Int) (k : GoString),
      stored testLib (database (Execute testLib testRuntime
        { Arguments := [lit "incr", lit "600"], Connection := testConn, Index := 0 }
        (testContainerWith "600" "hi")).Container j) k =
      stored testLib (database (testContainerWith "600" "hi") j) k) ∧
    (Execute testLib testRuntime
      { Arguments := [lit "incr", lit "600"], Connection := testConn, Index := 0 }
      (testContainerWith "600" "hi")).keepOpen = true :=
  have h := C25_errors_change_nothing testLib testRuntime
    { Arguments := [lit "incr", lit "600"], Connection := testConn, Index := 0 }
    (testContainerWith "600" "hi") (lit "-ERR value is either not an integer or too large\r\n")
    _ (by decide) (by decide) (by decide) rfl
  ⟨h.1, h.2.2.1, h.2.2.2.2.2.1 (by decide)⟩

/-! ## The shard of a key -/

theorem wf_Clear (L : Lib) (sc : ShardedCache) : ShardedCache.wf L (Clear sc) := by
  unfold Clear
  constructor
  · intro sh hsh
    obtain ⟨_, _, rfl⟩ := List.mem_map.mp hsh
    exact List.nodup_nil
  · intro i hi e he
    rw [List.getD_eq_getElem _ _ hi, List.getElem_map] at he
    simp at he

theorem Store_length (L : Lib) (sc : ShardedCache) (key value : GoString) :
    (Store L sc key value).length = sc.length := putShard_length L sc key _

theorem Delete_length (L : Lib) (sc : ShardedCache) (key : GoString) :
    (Delete L sc key).length = sc.length := putShard_length L sc key _

/-- Every reachable database has the `S` shards it was made with and the
shape of the store. -/
theorem Reachable_wf (L : Lib) (S : Nat) (hS : 1 ≤ S) (sc : ShardedCache)
    (h : Reachable L S sc) : sc.length = S ∧ ShardedCache.wf L sc := by
  have hne : ∀ sc : ShardedCache, sc.length = S → sc ≠ [] := by
    intro sc hlen hnil
    rw [hnil] at hlen
    simp at hlen
    omega
  induction h with
  | new => exact ⟨by simp [NewShardedCache], wf_NewShardedCache L S⟩
  | store sc key value _ ih =>
    exact ⟨(Store_length L sc key value).trans ih.1, wf_Store L sc key value ih.2 (hne sc ih.1)⟩
  | delete sc key _ ih =>
    exact ⟨(Delete_length L sc key).trans ih.1, wf_Delete L sc key ih.2 (hne sc ih.1)⟩
  | loadAndDelete sc key _ ih =>
    rw [LoadAndDelete_cache]
    split_ifs
    · exact ⟨(Delete_length L sc key).trans ih.1, wf_Delete L sc key ih.2 (hne sc ih.1)⟩
    · exact ih
  | loadExistStore sc key value e o _ ih =>
    rw [LoadExistStore_cache]
    split_ifs
    · exact ⟨(Store_length L sc key value).trans ih.1,
        wf_Store L sc key value ih.2 (hne sc ih.1)⟩
    · exact ih
  | loadModifyStore sc key f initial _ ih =>
    rw [LoadModifyStore_cache]
    exact ⟨(Store_length L sc key _).trans ih.1, wf_Store L sc key _ ih.2 (hne sc ih.1)⟩
  | clear sc _ ih =>
    exact ⟨by simp [Clear, ih.1], wf_Clear L sc⟩

/-- In a database of the shape of the store the keys of all the shards are
pairwise different. -/
theorem keys_nodup (L : Lib) (sc : ShardedCache) (hwf : ShardedCache.wf L sc) :
    ((entries sc).map Prod.fst).Nodup := by
  unfold entries
  rw [List.map_flatten, List.map_map, List.nodup_flatten]
  constructor
  · intro l hl
    obtain ⟨sh, hsh, rfl⟩ := List.mem_map.mp hl
    exact hwf.1 sh hsh
  · rw [List.pairwise_iff_getElem]
    intro i j hi hj hij
    rw [List.length_map] at hi hj
    simp only [List.getElem_map, Function.comp_apply]
    intro k hki hkj
    obtain ⟨ei, hei, rfl⟩ := List.mem_map.mp hki
    obtain ⟨ej, hej, hek⟩ := List.mem_map.mp hkj
    have h1 := hwf.2 i hi ei (by rw [List.getD_eq_getElem _ _ hi]; exact hei)
    have h2 := hwf.2 j hj ej (by rw [List.getD_eq_getElem _ _ hj]; exact hej)
    rw [hek, h1] at h2
    omega

theorem entries_length (sc : ShardedCache) :
    (entries sc).length = (sc.map (fun sh => sh.m.length)).sum := by
  unfold entries
  rw [List.length_flatten, List.map_map]
  rfl

/-- C31: in every state reachable from `NewShardedCache(S)`, S >= 1, by any
sequence of Store, Delete, LoadAndDelete, LoadExistStore, LoadModifyStore and
Clear, the database has its S shards and every key stored in shard i has
the shard index i, below S; hence a key is in at most one shard, `Load`
finds a key, with its value, whenever a shard holds it, and the total of
`Count` is the number of distinct keys, which are the keys `Load` finds. -/
theorem C31_key_in_its_shard (L : Lib) (S : Nat) (sc : ShardedCache) (hS : 1 ≤ S)
    (h : Reachable L S sc) :
    sc.length = S ∧
    (∀ (i : Nat) (sh : shard), sc[i]? = some sh → ∀ e ∈ sh.m,
      getShardIndex L sc e.1 = i ∧ i < S) ∧
    (∀ (k : GoString) (i j : Nat) (shi shj : shard), sc[i]? = some shi → sc[j]? = some shj →
      k ∈ shi.m.map Prod.fst → k ∈ shj.m.map Prod.fst → i = j) ∧
    (∀ (k v : GoString) (i : Nat) (sh : shard), sc[i]? = some sh → (k, v) ∈ sh.m →
      Load L sc k = (v, true)) ∧
    (Count sc).1 = ((entries sc).map Prod.fst).toFinset.card ∧
    (∀ k, k ∈ ((entries sc).map Prod.fst).toFinset ↔ (Load L sc k).2 = true) := by
  obtain ⟨hlen, hwf⟩ := Reachable_wf L S hS sc h
  have hne : sc ≠ [] := by
    intro hnil
    rw [hnil] at hlen
    simp at hlen
    omega
  have hidx : ∀ (i : Nat) (sh : shard), sc[i]? = some sh → ∀ e ∈ sh.m,
      getShardIndex L sc e.1 = i ∧ i < S := by
    intro i sh hi e he
    obtain ⟨hlt, hget⟩ := List.getElem?_eq_some.mp hi
    refine ⟨hwf.2 i hlt e ?_, by omega⟩
    rw [List.getD_eq_getElem _ _ hlt, hget]
    exact he
  have hmem : ∀ (k v : GoString) (i : Nat) (sh : shard), sc[i]? = some sh → (k, v) ∈ sh.m →
      (k, v) ∈ entries sc := by
    intro k v i sh hi hkv
    unfold entries
    exact List.mem_flatten.mpr ⟨sh.m, List.mem_map.mpr ⟨sh, List.getElem?_mem hi, rfl⟩, hkv⟩
  refine ⟨hlen, hidx, ?_, ?_, ?_, ?_⟩
  · intro k i j shi shj hi hj hki hkj
    obtain ⟨ei, hei, hek⟩ := List.mem_map.mp hki
    obtain ⟨ej, hej, hek2⟩ := List.mem_map.mp hkj
    have h1 := (hidx i shi hi ei hei).1
    have h2 := (hidx j shj hj ej hej).1
    rw [hek] at h1
    rw [hek2] at h2
    omega
  · intro k v i sh hi hkv
    rw [Load_eq, (mem_entries_iff L sc k v hwf hne).mp (hmem k v i sh hi hkv)]
    rfl
  · rw [List.toFinset_card_of_nodup (keys_nodup L sc hwf), List.length_map, entries_length,
      Count_total]
  · intro k
    rw [List.mem_toFinset, Load_eq, commaOk_snd]
    constructor
    · intro hk
      obtain ⟨e, he, hek⟩ := List.mem_map.mp hk
      have := (mem_entries_iff L sc k e.2 hwf hne).mp (by rw [← hek]; exact he)
      rw [this]
      rfl
    · intro hk
      cases hst : stored L sc k with
      | none => rw [hst] at hk; simp at hk
      | some v =>
        exact List.mem_map.mpr ⟨(k, v), (mem_entries_iff L sc k v hwf hne).mpr hst, rfl⟩

theorem C31_key_in_its_shard_witness :
    (Count (Delete testLib (Store testLib (Store testLib (NewShardedCache 4) (lit "k") (lit "v"))
      (lit "key") (lit "value")) (lit "k"))).1 =
      ((entries (Delete testLib (Store testLib (Store testLib (NewShardedCache 4) (lit "k")
        (lit "v")) (lit "key") (lit "value")) (lit "k"))).map Prod.fst).toFinset.card :=
  (C31_key_in_its_shard testLib 4 _ (by decide)
    (Reachable.delete _ _ (Reachable.store _ _ _ (Reachable.store _ _ _ Reachable.new)))).2.2.2.2.1

/-! ## The line of a request -/

/-- The function `readLine` on a line of at least two bytes before its
newline: whether the last of them is the carriage return decides. -/
theorem readLine_concat (p : GoString) (c : UInt8) :
    readLine (p ++ [c, 10]) =
      if p = [] ∨ c ≠ 13 then ([], some ReadError.errIncompleteEmptyData) else (p, none) := by
  unfold readLine readMinMessage
  have hlen : (p ++ [c, 10]).length = p.length + 2 := by simp
  have hget : (p ++ [c, 10]).getD (p.length + 2 - 2) 0 = c := by
    rw [List.getD_eq_getElem?_getD, Nat.add_sub_cancel,
      List.getElem?_append_right (Nat.le_refl _), Nat.sub_self]
    rfl
  have htake : (p ++ [c, 10]).take (p.length + 2 - 2) = p := by simp
  simp only [hlen, hget, htake]
  cases p with
  | nil => simp
  | cons a p =>
    have h3 : ¬ ((a :: p).length + 2 < 3) := by simp
    rw [if_neg h3]
    by_cases hc : c = 13
    · simp [hc]
    · simp [hc]

/-- C32: for the bytes of one line, which end at their first newline,
`readLine` returns the error `incomplete or empty client data stream` exactly
when the line is shorter than 3 bytes or its second-to-last byte is not the
carriage return; otherwise it returns the line without its last two bytes,
the carriage return and the newline, and this payload is not empty and holds
no newline byte. -/
theorem C32_readLine (body : GoString) (hbody : (10 : UInt8) ∉ body) :
    ((readLine (body ++ [10])).2 = some ReadError.errIncompleteEmptyData ↔
      (body ++ [10]).length < 3 ∨ (body ++ [10]).reverse.getD 1 0 ≠ 13) ∧
    ((readLine (body ++ [10])).2 ≠ none →
      readLine (body ++ [10]) = ([], some ReadError.errIncompleteEmptyData)) ∧
    ((readLine (body ++ [10])).2 = none →
      body ++ [10] = (readLine (body ++ [10])).1 ++ [13, 10] ∧
      (readLine (body ++ [10])).1 ≠ [] ∧ (10 : UInt8) ∉ (readLine (body ++ [10])).1) := by
  rcases List.eq_nil_or_concat body with hnil | ⟨p, c, hpc⟩
  · subst hnil
    refine ⟨?_, ?_, ?_⟩ <;> decide
  · rw [List.concat_eq_append] at hpc
    subst hpc
    have hline : p ++ [c] ++ [10] = p ++ [c, 10] := by simp
    have hp : (10 : UInt8) ∉ p := fun h => hbody (List.mem_append_left _ h)
    have hrev : (p ++ [c, 10]).reverse.getD 1 0 = c := by simp
    have hlen : (p ++ [c, 10]).length < 3 ↔ p = [] := by
      cases p <;> simp
    rw [hline, readLine_concat, hrev, hlen]
    by_cases hbad : p = [] ∨ c ≠ 13
    · rw [if_pos hbad]
      exact ⟨⟨fun _ => hbad, fun _ => rfl⟩, fun _ => rfl, fun h => Option.noConfusion h⟩
    · rw [if_neg hbad]
      push_neg at hbad
      refine ⟨⟨fun h => Option.noConfusion h, fun h => ?_⟩, fun h => absurd rfl h, fun _ => ?_⟩
      · rcases h with h | h
        · exact absurd h hbad.1
        · exact absurd hbad.2 h
      · exact ⟨by rw [hbad.2], hbad.1, hp⟩

theorem C32_readLine_witness :
    readLine (lit "GET k\r" ++ [10]) = (lit "GET k", none) ∧
    readLine (lit "GET k" ++ [10]) = ([], some ReadError.errIncompleteEmptyData) :=
  have h2 := (C32_readLine (lit "GET k") (by decide)).2.1 (by decide)
  ⟨by decide, h2⟩

/-! ## MOVE to the current database -/

/-- C34: MOVE k j with j a valid index equal to the current database index
replies `+OK` for every key k, present or not, leaves the container as it was
and stays on the current database. -/
theorem C34_move_same_index (L : Lib) (R : Runtime) (C : CacheContainer) (conn : Conn)
    (idx : Int) (c k js : GoString) (o : Outcome)
    (hi : indexOk idx) (hc : ToUpper L c = lit "MOVE") (hjs : Atoi js = (idx, none))
    (ho : o = Execute L R { Arguments := [c, k, js], Connection := conn, Index := idx } C) :
    o.wire = lit "!1\r\n+OK\r\n" ∧ o.Container = C ∧ o.Index = idx := by
  obtain ⟨h0, h3⟩ := hi
  have hb : ¬ (idx < 0 ∨ idx ≥ MemoryCacheContainerSize) := by omega
  have hrun : o = respond { Arguments := [c, k, js], Connection := conn, Index := idx } C
      [lit "!1\r\n", lit "+OK\r\n"] idx := by
    rw [ho, Execute_MOVE L R { Arguments := [c, k, js], Connection := conn, Index := idx } C hc]
    unfold moveCommand
    simp [Command.arg, hjs, hb]
  rw [hrun]
  exact ⟨okLine, rfl, rfl⟩

theorem C34_move_same_index_witness :
    (Execute testLib testRuntime
      { Arguments := [lit "move", lit "454545", lit "1"], Connection := testConn, Index := 1 }
      testContainer).wire = lit "!1\r\n+OK\r\n" ∧
    (Execute testLib testRuntime
      { Arguments := [lit "move", lit "454545", lit "1"], Connection := testConn, Index := 1 }
      testContainer).Container = testContainer :=
  have h := C34_move_same_index testLib testRuntime testContainer testConn 1 (lit "move")
    (lit "454545") (lit "1") _ (by decide) (by decide) (by decide) rfl
  ⟨h.1, h.2.1⟩

/-! ## FLUSH and FLUSHALL -/

theorem Clear_empty (sc : ShardedCache) : ∀ sh ∈ Clear sc, sh.m = [] := by
  intro sh hsh
  unfold Clear at hsh
  obtain ⟨_, _, rfl⟩ := List.mem_map.mp hsh
  rfl

theorem Count_of_empty (sc : ShardedCache) (h : ∀ sh ∈ sc, sh.m = []) : (Count sc).1 = 0 := by
  rw [Count_total]
  apply List.sum_eq_zero
  intro n hn
  obtain ⟨sh, hsh, rfl⟩ := List.mem_map.mp hn
  rw [h sh hsh]
  rfl

theorem keyspace_zero (R : Runtime) (idx : Int) :
    (GetStats R idx 0).getD 8 [] = lit "keyspace_keys:0" := by
  show Join [lit "keyspace_keys:", Itoa 0] = lit "keyspace_keys:0"
  decide

/-- C33: after FLUSH issued by an administrative peer the reply is `+OK`,
the active database holds no key and the total of its `Count` is zero, so
that an INFO issued next on it reports `keyspace_keys:0`, and every other
database is unchanged; after FLUSHALL issued by an administrative peer the
reply is `+OK` and every database holds no key. -/
theorem C33_flush (L : Lib) (R : Runtime) (C : CacheContainer) (conn : Conn) (idx : Int)
    (c ca : GoString) (o oa : Outcome)
    (hC : CacheContainer.ok C) (hi : indexOk idx) (hadmin : isAdmin conn.RemoteAddr = true)
    (hc : ToUpper L c = lit "FLUSH") (hca : ToUpper L ca = lit "FLUSHALL")
    (ho : o = Execute L R { Arguments := [c], Connection := conn, Index := idx } C)
    (hoa : oa = Execute L R { Arguments := [ca], Connection := conn, Index := idx } C) :
    (o.wire = lit "!1\r\n+OK\r\n" ∧
      (∀ k, stored L (database o.Container idx) k = none) ∧
      (Count (database o.Container idx)).1 = 0 ∧
      (∀ (ci : GoString) (conn1 : Conn), ToUpper L ci = lit "INFO" →
        (Execute L R { Arguments := [ci], Connection := conn1, Index := idx } o.Container).wire =
          envelope (GetStats R idx 0)) ∧
      (GetStats R idx 0).getD 8 [] = lit "keyspace_keys:0" ∧
      (∀ j : Nat, j ≠ idx.toNat → o.Container[j]? = C[j]?)) ∧
    (oa.wire = lit "!1\r\n+OK\r\n" ∧
      oa.Container.length = C.length ∧
      (∀ (j : Int) (k : GoString), stored L (database oa.Container j) k = none) ∧
      (∀ db ∈ oa.Container, (Count db).1 = 0)) := by
  have hlt := toNat_lt_length C idx hC hi
  have hrun : o = respond { Arguments := [c], Connection := conn, Index := idx }
      (setDatabase C idx (Clear (database C idx))) [lit "!1\r\n", lit "+OK\r\n"] idx := by
    rw [ho, Execute_FLUSH L R { Arguments := [c], Connection := conn, Index := idx } C hc]
    unfold flushCommand
    simp [hadmin]
  have hruna : oa = respond { Arguments := [ca], Connection := conn, Index := idx }
      (C.map Clear) [lit "!1\r\n", lit "+OK\r\n"] idx := by
    rw [hoa, Execute_FLUSHALL L R { Arguments := [ca], Connection := conn, Index := idx } C hca]
    unfold flushallCommand
    simp [hadmin]
  have hdb : database o.Container idx = Clear (database C idx) := by
    rw [hrun]
    exact database_setDatabase_same C idx _ hlt
  have hcount : (Count (database o.Container idx)).1 = 0 := by
    rw [hdb]
    exact Count_of_empty _ (Clear_empty _)
  constructor
  · refine ⟨by rw [hrun]; exact okLine, fun k => ?_, hcount, fun ci conn1 hci => ?_,
      keyspace_zero R idx, fun j hj => ?_⟩
    · rw [hdb]
      exact stored_of_empty L _ k (Clear_empty _)
    · rw [(infoCommand_one L R o.Container conn1 idx ci hci).1, hcount]
      rfl
    · rw [hrun]
      exact getElem?_setDatabase_other C idx _ j hj
  · rw [hruna]
    refine ⟨okLine, by simp [respond], fun j k => ?_, fun db hdb => ?_⟩
    · refine stored_of_empty L _ k ?_
      intro sh hsh
      unfold database at hsh
      rw [List.getD_eq_getElem?_getD] at hsh
      simp only [respond, List.getElem?_map] at hsh
      cases hj : C[j.toNat]? with
      | none => rw [hj] at hsh; simp at hsh
      | some d =>
        rw [hj] at hsh
        exact Clear_empty d sh hsh
    · simp only [respond] at hdb
      obtain ⟨d, _, rfl⟩ := List.mem_map.mp hdb
      exact Count_of_empty _ (Clear_empty d)

theorem C33_flush_witness :
    (∀ k, stored testLib (database (Execute testLib testRuntime
      { Arguments := [lit "flush"], Connection := testConn, Index := 0 }
      (testContainerWith "k" "v")).Container 0) k = none) ∧
    (Execute testLib testRuntime
      { Arguments := [lit "info"], Connection := testConn, Index := 0 }
      (Execute testLib testRuntime
        { Arguments := [lit "flush"], Connection := testConn, Index := 0 }
        (testContainerWith "k" "v")).Container).wire = envelope (GetStats testRuntime 0 0) :=
  have h := (C33_flush testLib testRuntime (testContainerWith "k" "v") testConn 0 (lit "flush")
    (lit "flushall") _ _ (by decide) (by decide) (by decide) (by decide) (by decide) rfl rfl).1
  ⟨h.2.1, h.2.2.2.1 (lit "info") testConn (by decide)⟩

/-! ## The index stays within the container -/

theorem framed_ite (cmd : Command) (C : CacheContainer) (c : Prop) [Decidable c]
    (a b : Outcome) (ha : framed cmd C a) (hb : framed cmd C b) :
    framed cmd C (if c then a else b) := by
  split_ifs
  · exact ha
  · exact hb

theorem selectCommand_framed (cmd : Command) (C : CacheContainer) :
    framed cmd C (selectCommand cmd C) := by
  unfold selectCommand wrongArguments
  dsimp only
  split_ifs with h1 h2 h3
  · exact ⟨fun h => h, rfl⟩
  · exact ⟨fun h => h, rfl⟩
  · exact ⟨fun h => h, rfl⟩
  · refine ⟨fun _ => ?_, rfl⟩
    push_neg at h3
    exact ⟨h3.1, h3.2⟩

theorem flushallCommand_framed (cmd : Command) (C : CacheContainer) :
    framed cmd C (flushallCommand cmd C) := by
  unfold flushallCommand wrongArguments
  split_ifs <;> exact ⟨fun h => h, by simp [respond, setDatabase]⟩

theorem moveCommand_framed (L : Lib) (cmd : Command) (C : CacheContainer) :
    framed cmd C (moveCommand L cmd C) := by
  unfold moveCommand wrongArguments
  dsimp only
  split_ifs <;> exact ⟨fun h => h, by simp [respond, setDatabase]⟩

theorem mgetCommand_framed (L : Lib) (cmd : Command) (C : CacheContainer) :
    framed cmd C (mgetCommand L cmd C) := by
  unfold mgetCommand wrongArguments
  dsimp only
  split_ifs <;> exact ⟨fun h => h, by simp [respond, setDatabase]⟩

theorem msetCommand_framed (L : Lib) (cmd : Command) (C : CacheContainer) :
    framed cmd C (msetCommand L cmd C) := by
  unfold msetCommand wrongArguments
  dsimp only
  split_ifs <;> exact ⟨fun h => h, by simp [respond, setDatabase]⟩

theorem getCommand_framed (L : Lib) (cmd : Command) (C : CacheContainer) :
    framed cmd C (getCommand L cmd C) := by
  unfold getCommand wrongArguments
  dsimp only
  split_ifs <;> exact ⟨fun h => h, by simp [respond, setDatabase]⟩

theorem setCommand_framed (L : Lib) (cmd : Command) (C : CacheContainer) :
    framed cmd C (setCommand L cmd C) := by
  unfold setCommand wrongArguments
  dsimp only
  split_ifs <;> exact ⟨fun h => h, by simp [respond, setDatabase]⟩

theorem incrCommand_framed (L : Lib) (cmd : Command) (C : CacheContainer) :
    framed cmd C (incrCommand L cmd C) := by
  unfold incrCommand wrongArguments stepCommand
  dsimp only
  split_ifs <;> exact ⟨fun h => h, by simp [respond, setDatabase]⟩

theorem decrCommand_framed (L : Lib) (cmd : Command) (C : CacheContainer) :
    framed cmd C (decrCommand L cmd C) := by
  unfold decrCommand wrongArguments stepCommand
  dsimp only
  split_ifs <;> exact ⟨fun h => h, by simp [respond, setDatabase]⟩

theorem appendCommand_framed (L : Lib) (cmd : Command) (C : CacheContainer) :
    framed cmd C (appendCommand L cmd C) := by
  unfold appendCommand wrongArguments
  dsimp only
  split_ifs <;> exact ⟨fun h => h, by simp [respond, setDatabase]⟩

theorem prependCommand_framed (L : Lib) (cmd : Command) (C : CacheContainer) :
    framed cmd C (prependCommand L cmd C) := by
  unfold prependCommand wrongArguments
  dsimp only
  split_ifs <;> exact ⟨fun h => h, by simp [respond, setDatabase]⟩

theorem lenCommand_framed (L : Lib) (cmd : Command) (C : CacheContainer) :
    framed cmd C (lenCommand L cmd C) := by
  unfold lenCommand wrongArguments
  dsimp only
  split_ifs <;> exact ⟨fun h => h, by simp [respond, setDatabase]⟩

theorem renameCommand_framed (L : Lib) (cmd : Command) (C : CacheContainer) :
    framed cmd C (renameCommand L cmd C) := by
  unfold renameCommand wrongArguments
  dsimp only
  split_ifs <;> exact ⟨fun h => h, by simp [respond, setDatabase]⟩

theorem copyCommand_framed (L : Lib) (cmd : Command) (C : CacheContainer) :
    framed cmd C (copyCommand L cmd C) := by
  unfold copyCommand wrongArguments
  dsimp only
  split_ifs <;> exact ⟨fun h => h, by simp [respond, setDatabase]⟩

theorem getsetCommand_framed (L : Lib) (cmd : Command) (C : CacheContainer) :
    framed cmd C (getsetCommand L cmd C) := by
  unfold getsetCommand wrongArguments
  dsimp only
  split_ifs <;> exact ⟨fun h => h, by simp [respond, setDatabase]⟩

theorem getdelCommand_framed (L : Lib) (cmd : Command) (C : CacheContainer) :
    framed cmd C (getdelCommand L cmd C) := by
  unfold getdelCommand wrongArguments
  dsimp only
  split_ifs <;> exact ⟨fun h => h, by simp [respond, setDatabase]⟩

theorem delCommand_framed (L : Lib) (cmd : Command) (C : CacheContainer) :
    framed cmd C (delCommand L cmd C) := by
  unfold delCommand wrongArguments
  dsimp only
  split_ifs <;> exact ⟨fun h => h, by simp [respond, setDatabase]⟩

theorem existsCommand_framed (L : Lib) (cmd : Command) (C : CacheContainer) :
    framed cmd C (existsCommand L cmd C) := by
  unfold existsCommand wrongArguments
  split_ifs <;> exact ⟨fun h => h, by simp [respond, setDatabase]⟩

theorem quitCommand_framed (cmd : Command) (C : CacheContainer) :
    framed cmd C (quitCommand cmd C) := by
  unfold quitCommand wrongArguments
  dsimp only
  split_ifs <;> exact ⟨fun h => h, by simp [respond, setDatabase]⟩

theorem infoCommand_framed (R : Runtime) (cmd : Command) (C : CacheContainer) :
    framed cmd C (infoCommand R cmd C) := by
  unfold infoCommand wrongArguments
  dsimp only
  split_ifs <;> exact ⟨fun h => h, by simp [respond, setDatabase]⟩

theorem echoCommand_framed (cmd : Command) (C : CacheContainer) :
    framed cmd C (echoCommand cmd C) := by
  unfold echoCommand wrongArguments
  split_ifs <;> exact ⟨fun h => h, by simp [respond, setDatabase]⟩

theorem flushCommand_framed (cmd : Command) (C : CacheContainer) :
    framed cmd C (flushCommand cmd C) := by
  unfold flushCommand wrongArguments
  split_ifs <;> exact ⟨fun h => h, by simp [respond, setDatabase]⟩

theorem shutdownCommand_framed (cmd : Command) (C : CacheContainer) :
    framed cmd C (shutdownCommand cmd C) := by
  unfold shutdownCommand wrongArguments
  dsimp only
  split_ifs <;> exact ⟨fun h => h, by simp [respond, setDatabase]⟩

/-- Every command keeps the index within the container and the container at
its size. -/
theorem Execute_framed (L : Lib) (R : Runtime) (cmd : Command) (C : CacheContainer) :
    framed cmd C (Execute L R cmd C) := by
  unfold Execute
  dsimp only
  refine framed_ite cmd C _ _ _ (selectCommand_framed cmd C) ?_
  refine framed_ite cmd C _ _ _ (flushallCommand_framed cmd C) ?_
  refine framed_ite cmd C _ _ _ (moveCommand_framed L cmd C) ?_
  refine framed_ite cmd C _ _ _ (mgetCommand_framed L cmd C) ?_
  refine framed_ite cmd C _ _ _ (msetCommand_framed L cmd C) ?_
  refine framed_ite cmd C _ _ _ (getCommand_framed L cmd C) ?_
  refine framed_ite cmd C _ _ _ (setCommand_framed L cmd C) ?_
  refine framed_ite cmd C _ _ _ (incrCommand_framed L cmd C) ?_
  refine framed_ite cmd C _ _ _ (decrCommand_framed L cmd C) ?_
  refine framed_ite cmd C _ _ _ (appendCommand_framed L cmd C) ?_
  refine framed_ite cmd C _ _ _ (prependCommand_framed L cmd C) ?_
  refine framed_ite cmd C _ _ _ (lenCommand_framed L cmd C) ?_
  refine framed_ite cmd C _ _ _ (renameCommand_framed L cmd C) ?_
  refine framed_ite cmd C _ _ _ (copyCommand_framed L cmd C) ?_
  refine framed_ite cmd C _ _ _ (getsetCommand_framed L cmd C) ?_
  refine framed_ite cmd C _ _ _ (getdelCommand_framed L cmd C) ?_
  refine framed_ite cmd C _ _ _ (delCommand_framed L cmd C) ?_
  refine framed_ite cmd C _ _ _ (existsCommand_framed L cmd C) ?_
  refine framed_ite cmd C _ _ _ (quitCommand_framed cmd C) ?_
  refine framed_ite cmd C _ _ _ (infoCommand_framed R cmd C) ?_
  refine framed_ite cmd C _ _ _ (echoCommand_framed cmd C) ?_
  refine framed_ite cmd C _ _ _ (flushCommand_framed cmd C) ?_
  refine framed_ite cmd C _ _ _ (shutdownCommand_framed cmd C) ?_
  exact ⟨fun h => h, rfl⟩

theorem indexOk_lt (C : CacheContainer) (i : Int)
    (hlen : (C.length : Int) = MemoryCacheContainerSize) (hi : indexOk i) :
    i.toNat < C.length := by
  obtain ⟨h0, h3⟩ := hi
  have : ((i.toNat : Nat) : Int) = i := Int.toNat_of_nonneg h0
  omega

/-- Along a session every index the loop binds and executes with is within
the container. -/
theorem sessionIndices_ok (L : Lib) (R : Runtime) (conn : Conn) (cmds : List (List GoString)) :
    ∀ (newIndex : Int) (C : CacheContainer),
      (C.length : Int) = MemoryCacheContainerSize → indexOk newIndex →
      ∀ i ∈ sessionIndices L R conn cmds newIndex C, indexOk i ∧ i.toNat < C.length := by
  induction cmds with
  | nil =>
    intro newIndex C _ _ i hi
    simp [sessionIndices] at hi
  | cons args rest ih =>
    intro newIndex C hlen hidx i hi
    unfold sessionIndices at hi
    dsimp only at hi
    split_ifs at hi with hempty hkeep
    · simp at hi
    · obtain ⟨hnext, hsize⟩ := Execute_framed L R
        { Arguments := args, Connection := conn, Index := newIndex } C
      rcases List.mem_cons.mp hi with h | h
      · rw [h]
        exact ⟨hidx, indexOk_lt C newIndex hlen hidx⟩
      · have := ih _ _ (by rw [hsize]; exact hlen) (hnext hidx) i h
        rw [hsize] at this
        exact this
    · rcases List.mem_cons.mp hi with h | h
      · rw [h]
        exact ⟨hidx, indexOk_lt C newIndex hlen hidx⟩
      · simp at h

/-- C37: for every command and every current database index in [0, N), the
next index returned by `Execute` is in [0, N) again and the container keeps
its size; therefore along any session, starting at index 0, every index the
session binds `memory.Container[newIndex]` with is inside the container, and
so is the index of the destination lookup of MOVE, which is made only after
the bounds check. -/
theorem C37_index_in_range (L : Lib) (R : Runtime) (cmd : Command) (C : CacheContainer)
    (hC : CacheContainer.ok C) (hi : indexOk cmd.Index) :
    indexOk (Execute L R cmd C).Index ∧
    (Execute L R cmd C).Container.length = C.length ∧
    (∀ (conn : Conn) (cmds : List (List GoString)),
      ∀ i ∈ sessionIndices L R conn cmds 0 C, indexOk i ∧ i.toNat < C.length) ∧
    (∀ j, moveDestination cmd = some j → indexOk j ∧ j.toNat < C.length) ∧
    (moveDestination cmd = none → (moveCommand L cmd C).Container = C) := by
  obtain ⟨hnext, hsize⟩ := Execute_framed L R cmd C
  refine ⟨hnext hi, hsize, fun conn cmds => sessionIndices_ok L R conn cmds 0 C hC.1 (by decide),
    fun j hj => ?_, fun hnone => ?_⟩
  · unfold moveDestination at hj
    split_ifs at hj with h1 h2 h3 h4
    have hj' : (Atoi (cmd.arg 2)).1 = j := Option.some.inj hj
    push_neg at h3
    have hok : indexOk j := by rw [← hj']; exact ⟨h3.1, h3.2⟩
    exact ⟨hok, indexOk_lt C j hC.1 hok⟩
  · unfold moveDestination at hnone
    unfold moveCommand wrongArguments
    dsimp only
    split_ifs at hnone ⊢ <;> rfl

theorem C37_index_in_range_witness :
    indexOk (Execute testLib testRuntime
      { Arguments := [lit "select", lit "2"], Connection := testConn, Index := 0 }
      testContainer).Index ∧
    (∀ i ∈ sessionIndices testLib testRuntime testConn
        [[lit "select", lit "2"], [lit "select", lit "7"], [lit "set", lit "k", lit "v"]] 0
        testContainer,
      indexOk i ∧ i.toNat < testContainer.length) :=
  have h := C37_index_in_range testLib testRuntime
    { Arguments := [lit "select", lit "2"], Connection := testConn, Index := 0 } testContainer
    (by decide) (by decide)
  ⟨h.1, h.2.2.1 testConn _⟩

/-! ## The tokenizer terminates -/

theorem consumeString_open_end (r : Reader) (h : closingQuote r.rest = none) :
    ∃ r1, consumeString r = some (r1, [], some ReadError.errIncongruousQuotes) ∧
      r1.end_ = true ∧ r1.line = r.line := by
  have hfuel : r.rest.length < r.line.length + 1 :=
    Nat.lt_succ_of_le (Reader.rest_length_le r)
  obtain ⟨r1, s1, h1, h2, h3⟩ := (consumeStringLoop_spec (r.line.length + 1) r [] hfuel).2 h
  have hcur : r1.current = 10 := by
    unfold Reader.current
    simp [h2]
  refine ⟨r1, ?_, h2, h3⟩
  unfold consumeString
  rw [h1]
  simp [hcur]

theorem byteToString_no_newline (b : UInt8) (hb : b ≠ 10) : (10 : UInt8) ∉ byteToString b := by
  unfold byteToString
  split_ifs with h
  · simp
    exact fun e => hb e.symm
  · have hlt : b.toNat < 256 := b.toNat_lt
    have h1 : 2 ≤ b.toNat / 64 := by omega
    have h2 : b.toNat / 64 ≤ 3 := by omega
    have h3 : b.toNat % 64 < 64 := Nat.mod_lt _ (by decide)
    generalize b.toNat / 64 = q at h1 h2
    generalize b.toNat % 64 = m at h3
    interval_cases q <;> interval_cases m <;> decide

theorem Join_no_newline (pieces : List GoString) (h : ∀ p ∈ pieces, (10 : UInt8) ∉ p) :
    (10 : UInt8) ∉ Join pieces := by
  induction pieces with
  | nil => simp [Join]
  | cons p ps ih =>
    rw [Join_cons, List.mem_append, not_or]
    exact ⟨h p (List.mem_cons_self _ _), ih (fun q hq => h q (List.mem_cons_of_mem _ hq))⟩

theorem Reader.pos_add_rest (r : Reader) (h : r.pos ≤ r.line.length) :
    r.pos + r.rest.length = r.line.length := by
  unfold Reader.rest
  rw [List.length_drop]
  omega

theorem takeWhile_dropWhile_length (p : UInt8 → Bool) (l : GoString) :
    (l.takeWhile p).length + (l.dropWhile p).length = l.length := by
  have := congrArg List.length (List.takeWhile_append_dropWhile p l)
  rw [List.length_append] at this
  exact this

/-- A call of `consumeArg` before the end of a line without a newline byte
returns, keeps the line and moves the position forward; when it returns no
error the position is within the line and the argument holds no newline. -/
theorem consumeArg_progress (r : Reader) (hnl : (10 : UInt8) ∉ r.line) (hend : r.end_ = false) :
    ∃ r1 arg err, consumeArg r = some (r1, arg, err) ∧ r1.line = r.line ∧ r.pos < r1.pos ∧
      (err = none → r1.pos ≤ r.line.length ∧ (10 : UInt8) ∉ arg) := by
  have hpos := Reader.pos_lt_of_not_end r hend
  have hsum := Reader.pos_add_rest r (Nat.le_of_lt hpos)
  have hsplit := takeWhile_dropWhile_length isSpace r.rest
  by_cases hq : (r.rest.dropWhile isSpace).headD 10 = 34
  · cases hdw : r.rest.dropWhile isSpace with
    | nil => rw [hdw] at hq; exact absurd hq (by decide)
    | cons c body =>
      rw [hdw] at hq hsplit
      have hc : c = 34 := by simpa using hq
      subst hc
      rw [List.length_cons] at hsplit
      cases hcq : closingQuote body with
      | none =>
        have hrest := Reader.rest_skipped r
        rw [hdw] at hrest
        have hcur := Reader.current_of_cons _ _ _ hrest
        have hadv := Reader.rest_advance_of_cons _ _ _ hrest
        obtain ⟨r1, h1, h2, h3⟩ := consumeString_open_end
          ({ line := r.line, pos := r.pos + (r.rest.takeWhile isSpace).length } : Reader).advance
          (by rw [hadv]; exact hcq)
        refine ⟨r1, [], some ReadError.errIncongruousQuotes, ?_, h3, ?_,
          fun h => Option.noConfusion h⟩
        · unfold consumeArg
          rw [skipSpaces_consumeArg]
          simp only [hcur, if_true]
          exact h1
        · have h4 : r1.line.length ≤ r1.pos := by
            unfold Reader.end_ at h2
            simpa using h2
          have h5 : r1.line.length = r.line.length := by rw [h3]; rfl
          omega
      | some i =>
        have hi : i < body.length := by
          have := closingQuote_is_quote body.length body i (Nat.le_refl _) hcq
          exact (List.getElem?_eq_some.mp this).1
        refine ⟨_, _, none, consumeArg_quoted_closed r body i hdw hcq, rfl, by simp only; omega,
          fun _ => ⟨by simp only; omega, ?_⟩⟩
        intro h10
        apply hnl
        apply Reader.rest_subset r
        have : (10 : UInt8) ∈ r.rest.dropWhile isSpace := by
          rw [hdw]
          exact List.mem_cons_of_mem _ (List.mem_of_mem_take h10)
        exact (List.dropWhile_sublist _).subset this
  · have hbl := takeWhile_dropWhile_length isBare (r.rest.dropWhile isSpace)
    refine ⟨_, _, none, consumeArg_bare r hq, rfl, ?_, fun _ => ⟨by simp only; omega, ?_⟩⟩
    · have := (consumeArg_advances r _ _ hnl hend (consumeArg_bare r hq)).2
      exact this
    · apply Join_no_newline
      intro p hp
      obtain ⟨b, hb, rfl⟩ := List.mem_map.mp hp
      apply byteToString_no_newline
      intro hb10
      apply hnl
      apply Reader.rest_subset r
      rw [hb10] at hb
      exact (List.dropWhile_sublist _).subset ((List.takeWhile_sublist _).subset hb)

/-- With fuel for the rest of the line the loop of `Read` returns, and it
emits only arguments that are not empty and hold no newline byte. -/
theorem readLoop_total (fuel : Nat) :
    ∀ (r : Reader) (args : List GoString), (10 : UInt8) ∉ r.line → r.pos ≤ r.line.length →
      r.line.length + 1 ≤ fuel + r.pos → (∀ a ∈ args, a ≠ [] ∧ (10 : UInt8) ∉ a) →
      ∃ res err, readLoop fuel r args = some (res, err) ∧
        ∀ a ∈ res, a ≠ [] ∧ (10 : UInt8) ∉ a := by
  induction fuel with
  | zero =>
    intro r args _ hpos hfuel _
    omega
  | succ fuel ih =>
    intro r args hnl hpos hfuel hargs
    unfold readLoop
    cases hend : r.end_
    · obtain ⟨r1, arg, err, hca, hline, hadv, hok⟩ := consumeArg_progress r hnl hend
      simp only [if_true, hca]
      cases err with
      | some e =>
        refine ⟨args, some e, ?_, hargs⟩
        simp
      | none =>
        obtain ⟨hle, hclean⟩ := hok rfl
        have hlen : r1.line.length = r.line.length := by rw [hline]
        obtain ⟨res, err, hres, hall⟩ := ih r1 (if arg ≠ [] then args ++ [arg] else args)
          (by rw [hline]; exact hnl) (by omega) (by omega) (by
            intro a ha
            split_ifs at ha with hne
            · rcases List.mem_append.mp ha with h | h
              · exact hargs a h
              · rw [List.mem_singleton.mp h]
                exact ⟨hne, hclean⟩
            · exact hargs a ha)
        refine ⟨res, err, ?_, hall⟩
        simp only [ne_eq, not_true_eq_false, if_false]
        exact hres
    · exact ⟨args, none, by simp, hargs⟩

/-- C38: for every request line that holds no newline byte the tokenizer
loop of `Read` terminates, with the fuel of the length of the line; each call
of `consumeArg` made while the position is before the end of the line returns
and advances the position by at least one byte, and every argument emitted
is not empty and holds no newline byte. -/
theorem C38_tokenizer_terminates (line : GoString) (hnl : (10 : UInt8) ∉ line) :
    (∃ args err, tokenize line = some (args, err) ∧
      ∀ a ∈ args, a ≠ [] ∧ (10 : UInt8) ∉ a) ∧
    (∀ r : Reader, r.line = line → r.end_ = false →
      ∃ r1 arg err, consumeArg r = some (r1, arg, err) ∧ r1.line = line ∧ r.pos + 1 ≤ r1.pos) := by
  constructor
  · have hskip := skipSpaces_consumeArg { line := line, pos := 0 }
    simp only at hskip
    have hsp := takeWhile_dropWhile_length isSpace (Reader.rest { line := line, pos := 0 })
    have hrest : (Reader.rest { line := line, pos := 0 }).length = line.length := by
      simp [Reader.rest]
    unfold tokenize
    rw [hskip]
    exact readLoop_total (line.length + 1) _ [] hnl (by simp only; omega) (by simp only; omega)
      (fun a ha => absurd ha (List.not_mem_nil a))
  · intro r hr hend
    obtain ⟨r1, arg, err, h1, h2, h3, _⟩ := consumeArg_progress r (by rw [hr]; exact hnl) hend
    exact ⟨r1, arg, err, h1, by rw [h2, hr], h3⟩

theorem C38_tokenizer_terminates_witness :
    ∃ args err, tokenize (lit "set  k \"a b\" \"\" c") = some (args, err) ∧
      ∀ a ∈ args, a ≠ [] ∧ (10 : UInt8) ∉ a :=
  (C38_tokenizer_terminates (lit "set  k \"a b\" \"\" c") (by decide)).1

/-! ## Dispatch does not look at the letter case -/

theorem sameButName_of_eq (cmd cmd1 : Command) (o o1 : Outcome) (h : o1 = o) :
    sameButName cmd cmd1 o o1 := by
  rw [h]
  exact ⟨rfl, rfl, rfl, rfl, rfl, Or.inl rfl⟩

theorem sameButName_ite (cmd cmd1 : Command) (c c1 : Prop) [Decidable c] [Decidable c1]
    (hcc : c ↔ c1) (x y x1 y1 : Outcome) (hx : sameButName cmd cmd1 x x1)
    (hy : sameButName cmd cmd1 y y1) :
    sameButName cmd cmd1 (if c then x else y) (if c1 then x1 else y1) := by
  by_cases h : c
  · rw [if_pos h, if_pos (hcc.mp h)]
    exact hx
  · rw [if_neg h, if_neg (fun h1 => h (hcc.mpr h1))]
    exact hy

theorem sameButName_wrongArguments (C : CacheContainer) (conn : Conn) (idx : Int)
    (a a1 : GoString) (rest : List GoString) :
    sameButName { Arguments := a :: rest, Connection := conn, Index := idx }
      { Arguments := a1 :: rest, Connection := conn, Index := idx }
      (wrongArguments { Arguments := a :: rest, Connection := conn, Index := idx } C)
      (wrongArguments { Arguments := a1 :: rest, Connection := conn, Index := idx } C) :=
  ⟨rfl, rfl, rfl, rfl, rfl, Or.inr (Or.inl ⟨rfl, rfl⟩)⟩

theorem selectCommand_sameButName (C : CacheContainer) (conn : Conn) (idx : Int)
    (a a1 : GoString) (rest : List GoString) :
    sameButName { Arguments := a :: rest, Connection := conn, Index := idx }
      { Arguments := a1 :: rest, Connection := conn, Index := idx }
      (selectCommand { Arguments := a :: rest, Connection := conn, Index := idx } C)
      (selectCommand { Arguments := a1 :: rest, Connection := conn, Index := idx } C) := by
  unfold selectCommand
  exact sameButName_ite _ _ _ _ Iff.rfl _ _ _ _ (sameButName_wrongArguments C conn idx a a1 rest)
    (sameButName_of_eq _ _ _ _ rfl)

theorem flushallCommand_sameButName (C : CacheContainer) (conn : Conn) (idx : Int)
    (a a1 : GoString) (rest : List GoString) :
    sameButName { Arguments := a :: rest, Connection := conn, Index := idx }
      { Arguments := a1 :: rest, Connection := conn, Index := idx }
      (flushallCommand { Arguments := a :: rest, Connection := conn, Index := idx } C)
      (flushallCommand { Arguments := a1 :: rest, Connection := conn, Index := idx } C) := by
  unfold flushallCommand
  exact sameButName_ite _ _ _ _ Iff.rfl _ _ _ _ (sameButName_wrongArguments C conn idx a a1 rest)
    (sameButName_of_eq _ _ _ _ rfl)

theorem moveCommand_sameButName (L : Lib) (C : CacheContainer) (conn : Conn) (idx : Int)
    (a a1 : GoString) (rest : List GoString) :
    sameButName { Arguments := a :: rest, Connection := conn, Index := idx }
      { Arguments := a1 :: rest, Connection := conn, Index := idx }
      (moveCommand L { Arguments := a :: rest, Connection := conn, Index := idx } C)
      (moveCommand L { Arguments := a1 :: rest, Connection := conn, Index := idx } C) := by
  unfold moveCommand
  exact sameButName_ite _ _ _ _ Iff.rfl _ _ _ _ (sameButName_wrongArguments C conn idx a a1 rest)
    (sameButName_of_eq _ _ _ _ rfl)

theorem mgetCommand_sameButName (L : Lib) (C : CacheContainer) (conn : Conn) (idx : Int)
    (a a1 : GoString) (rest : List GoString) :
    sameButName { Arguments := a :: rest, Connection := conn, Index := idx }
      { Arguments := a1 :: rest, Connection := conn, Index := idx }
      (mgetCommand L { Arguments := a :: rest, Connection := conn, Index := idx } C)
      (mgetCommand L { Arguments := a1 :: rest, Connection := conn, Index := idx } C) := by
  unfold mgetCommand
  exact sameButName_ite _ _ _ _ Iff.rfl _ _ _ _ (sameButName_wrongArguments C conn idx a a1 rest)
    (sameButName_of_eq _ _ _ _ rfl)

theorem msetCommand_sameButName (L : Lib) (C : CacheContainer) (conn : Conn) (idx : Int)
    (a a1 : GoString) (rest : List GoString) :
    sameButName { Arguments := a :: rest, Connection := conn, Index := idx }
      { Arguments := a1 :: rest, Connection := conn, Index := idx }
      (msetCommand L { Arguments := a :: rest, Connection := conn, Index := idx } C)
      (msetCommand L { Arguments := a1 :: rest, Connection := conn, Index := idx } C) := by
  unfold msetCommand
  exact sameButName_ite _ _ _ _ Iff.rfl _ _ _ _ (sameButName_wrongArguments C conn idx a a1 rest)
    (sameButName_of_eq _ _ _ _ rfl)

theorem getCommand_sameButName (L : Lib) (C : CacheContainer) (conn : Conn) (idx : Int)
    (a a1 : GoString) (rest : List GoString) :
    sameButName { Arguments := a :: rest, Connection := conn, Index := idx }
      { Arguments := a1 :: rest, Connection := conn, Index := idx }
      (getCommand L { Arguments := a :: rest, Connection := conn, Index := idx } C)
      (getCommand L { Arguments := a1 :: rest, Connection := conn, Index := idx } C) := by
  unfold getCommand
  exact sameButName_ite _ _ _ _ Iff.rfl _ _ _ _ (sameButName_wrongArguments C conn idx a a1 rest)
    (sameButName_of_eq _ _ _ _ rfl)

theorem incrCommand_sameButName (L : Lib) (C : CacheContainer) (conn : Conn) (idx : Int)
    (a a1 : GoString) (rest : List GoString) :
    sameButName { Arguments := a :: rest, Connection := conn, Index := idx }
      { Arguments := a1 :: rest, Connection := conn, Index := idx }
      (incrCommand L { Arguments := a :: rest, Connection := conn, Index := idx } C)
      (incrCommand L { Arguments := a1 :: rest, Connection := conn, Index := idx } C) := by
  unfold incrCommand
  exact sameButName_ite _ _ _ _ Iff.rfl _ _ _ _ (sameButName_wrongArguments C conn idx a a1 rest)
    (sameButName_of_eq _ _ _ _ rfl)

theorem decrCommand_sameButName (L : Lib) (C : CacheContainer) (conn : Conn) (idx : Int)
    (a a1 : GoString) (rest : List GoString) :
    sameButName { Arguments := a :: rest, Connection := conn, Index := idx }
      { Arguments := a1 :: rest, Connection := conn, Index := idx }
      (decrCommand L { Arguments := a :: rest, Connection := conn, Index := idx } C)
      (decrCommand L { Arguments := a1 :: rest, Connection := conn, Index := idx } C) := by
  unfold decrCommand
  exact sameButName_ite _ _ _ _ Iff.rfl _ _ _ _ (sameButName_wrongArguments C conn idx a a1 rest)
    (sameButName_of_eq _ _ _ _ rfl)

theorem appendCommand_sameButName (L : Lib) (C : CacheContainer) (conn : Conn) (idx : Int)
    (a a1 : GoString) (rest : List GoString) :
    sameButName { Arguments := a :: rest, Connection := conn, Index := idx }
      { Arguments := a1 :: rest, Connection := conn, Index := idx }
      (appendCommand L { Arguments := a :: rest, Connection := conn, Index := idx } C)
      (appendCommand L { Arguments := a1 :: rest, Connection := conn, Index := idx } C) := by
  unfold appendCommand
  exact sameButName_ite _ _ _ _ Iff.rfl _ _ _ _ (sameButName_wrongArguments C conn idx a a1 rest)
    (sameButName_of_eq _ _ _ _ rfl)

theorem prependCommand_sameButName (L : Lib) (C : CacheContainer) (conn : Conn) (idx : Int)
    (a a1 : GoString) (rest : List GoString) :
    sameButName { Arguments := a :: rest, Connection := conn, Index := idx }
      { Arguments := a1 :: rest, Connection := conn, Index := idx }
      (prependCommand L { Arguments := a :: rest, Connection := conn, Index := idx } C)
      (prependCommand L { Arguments := a1 :: rest, Connection := conn, Index := idx } C) := by
  unfold prependCommand
  exact sameButName_ite _ _ _ _ Iff.rfl _ _ _ _ (sameButName_wrongArguments C conn idx a a1 rest)
    (sameButName_of_eq _ _ _ _ rfl)

theorem lenCommand_sameButName (L : Lib) (C : CacheContainer) (conn : Conn) (idx : Int)
    (a a1 : GoString) (rest : List GoString) :
    sameButName { Arguments := a :: rest, Connection := conn, Index := idx }
      { Arguments := a1 :: rest, Connection := conn, Index := idx }
      (lenCommand L { Arguments := a :: rest, Connection := conn, Index := idx } C)
      (lenCommand L { Arguments := a1 :: rest, Connection := conn, Index := idx } C) := by
  unfold lenCommand
  exact sameButName_ite _ _ _ _ Iff.rfl _ _ _ _ (sameButName_wrongArguments C conn idx a a1 rest)
    (sameButName_of_eq _ _ _ _ rfl)

theorem renameCommand_sameButName (L : Lib) (C : CacheContainer) (conn : Conn) (idx : Int)
    (a a1 : GoString) (rest : List GoString) :
    sameButName { Arguments := a :: rest, Connection := conn, Index := idx }
      { Arguments := a1 :: rest, Connection := conn, Index := idx }
      (renameCommand L { Arguments := a :: rest, Connection := conn, Index := idx } C)
      (renameCommand L { Arguments := a1 :: rest, Connection := conn, Index := idx } C) := by
  unfold renameCommand
  exact sameButName_ite _ _ _ _ Iff.rfl _ _ _ _ (sameButName_wrongArguments C conn idx a a1 rest)
    (sameButName_of_eq _ _ _ _ rfl)

theorem copyCommand_sameButName (L : Lib) (C : CacheContainer) (conn : Conn) (idx : Int)
    (a a1 : GoString) (rest : List GoString) :
    sameButName { Arguments := a :: rest, Connection := conn, Index := idx }
      { Arguments := a1 :: rest, Connection := conn, Index := idx }
      (copyCommand L { Arguments := a :: rest, Connection := conn, Index := idx } C)
      (copyCommand L { Arguments := a1 :: rest, Connection := conn, Index := idx } C) := by
  unfold copyCommand
  exact sameButName_ite _ _ _ _ Iff.rfl _ _ _ _ (sameButName_wrongArguments C conn idx a a1 rest)
    (sameButName_of_eq _ _ _ _ rfl)

theorem getsetCommand_sameButName (L : Lib) (C : CacheContainer) (conn : Conn) (idx : Int)
    (a a1 : GoString) (rest : List GoString) :
    sameButName { Arguments := a :: rest, Connection := conn, Index := idx }
      { Arguments := a1 :: rest, Connection := conn, Index := idx }
      (getsetCommand L { Arguments := a :: rest, Connection := conn, Index := idx } C)
      (getsetCommand L { Arguments := a1 :: rest, Connection := conn, Index := idx } C) := by
  unfold getsetCommand
  exact sameButName_ite _ _ _ _ Iff.rfl _ _ _ _ (sameButName_wrongArguments C conn idx a a1 rest)
    (sameButName_of_eq _ _ _ _ rfl)

theorem getdelCommand_sameButName (L : Lib) (C : CacheContainer) (conn : Conn) (idx : Int)
    (a a1 : GoString) (rest : List GoString) :
    sameButName { Arguments := a :: rest, Connection := conn, Index := idx }
      { Arguments := a1 :: rest, Connection := conn, Index := idx }
      (getdelCommand L { Arguments := a :: rest, Connection := conn, Index := idx } C)
      (getdelCommand L { Arguments := a1 :: rest, Connection := conn, Index := idx } C) := by
  unfold getdelCommand
  exact sameButName_ite _ _ _ _ Iff.rfl _ _ _ _ (sameButName_wrongArguments C conn idx a a1 rest)
    (sameButName_of_eq _ _ _ _ rfl)

theorem delCommand_sameButName (L : Lib) (C : CacheContainer) (conn : Conn) (idx : Int)
    (a a1 : GoString) (rest : List GoString) :
    sameButName { Arguments := a :: rest, Connection := conn, Index := idx }
      { Arguments := a1 :: rest, Connection := conn, Index := idx }
      (delCommand L { Arguments := a :: rest, Connection := conn, Index := idx } C)
      (delCommand L { Arguments := a1 :: rest, Connection := conn, Index := idx } C) := by
  unfold delCommand
  exact sameButName_ite _ _ _ _ Iff.rfl _ _ _ _ (sameButName_wrongArguments C conn idx a a1 rest)
    (sameButName_of_eq _ _ _ _ rfl)

theorem existsCommand_sameButName (L : Lib) (C : CacheContainer) (conn : Conn) (idx : Int)
    (a a1 : GoString) (rest : List GoString) :
    sameButName { Arguments := a :: rest, Connection := conn, Index := idx }
      { Arguments := a1 :: rest, Connection := conn, Index := idx }
      (existsCommand L { Arguments := a :: rest, Connection := conn, Index := idx } C)
      (existsCommand L { Arguments := a1 :: rest, Connection := conn, Index := idx } C) := by
  unfold existsCommand
  exact sameButName_ite _ _ _ _ Iff.rfl _ _ _ _ (sameButName_wrongArguments C conn idx a a1 rest)
    (sameButName_of_eq _ _ _ _ rfl)

theorem quitCommand_sameButName (C : CacheContainer) (conn : Conn) (idx : Int)
    (a a1 : GoString) (rest : List GoString) :
    sameButName { Arguments := a :: rest, Connection := conn, Index := idx }
      { Arguments := a1 :: rest, Connection := conn, Index := idx }
      (quitCommand { Arguments := a :: rest, Connection := conn, Index := idx } C)
      (quitCommand { Arguments := a1 :: rest, Connection := conn, Index := idx } C) := by
  unfold quitCommand
  exact sameButName_ite _ _ _ _ Iff.rfl _ _ _ _ (sameButName_wrongArguments C conn idx a a1 rest)
    (sameButName_of_eq _ _ _ _ rfl)

theorem infoCommand_sameButName (R : Runtime) (C : CacheContainer) (conn : Conn) (idx : Int)
    (a a1 : GoString) (rest : List GoString) :
    sameButName { Arguments := a :: rest, Connection := conn, Index := idx }
      { Arguments := a1 :: rest, Connection := conn, Index := idx }
      (infoCommand R { Arguments := a :: rest, Connection := conn, Index := idx } C)
      (infoCommand R { Arguments := a1 :: rest, Connection := conn, Index := idx } C) := by
  unfold infoCommand
  exact sameButName_ite _ _ _ _ Iff.rfl _ _ _ _ (sameButName_wrongArguments C conn idx a a1 rest)
    (sameButName_of_eq _ _ _ _ rfl)

theorem echoCommand_sameButName (C : CacheContainer) (conn : Conn) (idx : Int)
    (a a1 : GoString) (rest : List GoString) :
    sameButName { Arguments := a :: rest, Connection := conn, Index := idx }
      { Arguments := a1 :: rest, Connection := conn, Index := idx }
      (echoCommand { Arguments := a :: rest, Connection := conn, Index := idx } C)
      (echoCommand { Arguments := a1 :: rest, Connection := conn, Index := idx } C) := by
  unfold echoCommand
  exact sameButName_ite _ _ _ _ Iff.rfl _ _ _ _ (sameButName_wrongArguments C conn idx a a1 rest)
    (sameButName_of_eq _ _ _ _ rfl)

theorem flushCommand_sameButName (C : CacheContainer) (conn : Conn) (idx : Int)
    (a a1 : GoString) (rest : List GoString) :
    sameButName { Arguments := a :: rest, Connection := conn, Index := idx }
      { Arguments := a1 :: rest, Connection := conn, Index := idx }
      (flushCommand { Arguments := a :: rest, Connection := conn, Index := idx } C)
      (flushCommand { Arguments := a1 :: rest, Connection := conn, Index := idx } C) := by
  unfold flushCommand
  exact sameButName_ite _ _ _ _ Iff.rfl _ _ _ _ (sameButName_wrongArguments C conn idx a a1 rest)
    (sameButName_of_eq _ _ _ _ rfl)

theorem shutdownCommand_sameButName (C : CacheContainer) (conn : Conn) (idx : Int)
    (a a1 : GoString) (rest : List GoString) :
    sameButName { Arguments := a :: rest, Connection := conn, Index := idx }
      { Arguments := a1 :: rest, Connection := conn, Index := idx }
      (shutdownCommand { Arguments := a :: rest, Connection := conn, Index := idx } C)
      (shutdownCommand { Arguments := a1 :: rest, Connection := conn, Index := idx } C) := by
  unfold shutdownCommand
  exact sameButName_ite _ _ _ _ Iff.rfl _ _ _ _ (sameButName_wrongArguments C conn idx a a1 rest)
    (sameButName_of_eq _ _ _ _ rfl)

theorem setCommand_sameButName (L : Lib) (C : CacheContainer) (conn : Conn) (idx : Int)
    (a a1 : GoString) (rest : List GoString) :
    sameButName { Arguments := a :: rest, Connection := conn, Index := idx }
      { Arguments := a1 :: rest, Connection := conn, Index := idx }
      (setCommand L { Arguments := a :: rest, Connection := conn, Index := idx } C)
      (setCommand L { Arguments := a1 :: rest, Connection := conn, Index := idx } C) := by
  unfold setCommand
  refine sameButName_ite _ _ _ _ Iff.rfl _ _ _ _ (sameButName_wrongArguments C conn idx a a1 rest)
    ?_
  refine sameButName_ite _ _ _ _ Iff.rfl _ _ _ _ ?_ (sameButName_of_eq _ _ _ _ rfl)
  exact ⟨rfl, rfl, rfl, rfl, rfl, Or.inr (Or.inr ⟨rfl, rfl⟩)⟩

/-- Two commands whose first arguments have the same upper-casing, and whose
other arguments, connection and index are the same, have the same outcome
but for the name in the reply of an arity or syntax error. -/
theorem Execute_sameButName (L : Lib) (R : Runtime) (C : CacheContainer) (conn : Conn)
    (idx : Int) (a a1 : GoString) (rest : List GoString) (hv : ToUpper L a1 = ToUpper L a) :
    sameButName { Arguments := a :: rest, Connection := conn, Index := idx }
      { Arguments := a1 :: rest, Connection := conn, Index := idx }
      (Execute L R { Arguments := a :: rest, Connection := conn, Index := idx } C)
      (Execute L R { Arguments := a1 :: rest, Connection := conn, Index := idx } C) := by
  have e0 : Command.arg { Arguments := a :: rest, Connection := conn, Index := idx } 0 = a := rfl
  have e1 : Command.arg { Arguments := a1 :: rest, Connection := conn, Index := idx } 0 = a1 := rfl
  unfold Execute
  dsimp only
  rw [e0, e1, hv]
  refine sameButName_ite _ _ _ _ Iff.rfl _ _ _ _
    (selectCommand_sameButName C conn idx a a1 rest) ?_
  refine sameButName_ite _ _ _ _ Iff.rfl _ _ _ _
    (flushallCommand_sameButName C conn idx a a1 rest) ?_
  refine sameButName_ite _ _ _ _ Iff.rfl _ _ _ _
    (moveCommand_sameButName L C conn idx a a1 rest) ?_
  refine sameButName_ite _ _ _ _ Iff.rfl _ _ _ _
    (mgetCommand_sameButName L C conn idx a a1 rest) ?_
  refine sameButName_ite _ _ _ _ Iff.rfl _ _ _ _
    (msetCommand_sameButName L C conn idx a a1 rest) ?_
  refine sameButName_ite _ _ _ _ Iff.rfl _ _ _ _
    (getCommand_sameButName L C conn idx a a1 rest) ?_
  refine sameButName_ite _ _ _ _ Iff.rfl _ _ _ _
    (setCommand_sameButName L C conn idx a a1 rest) ?_
  refine sameButName_ite _ _ _ _ Iff.rfl _ _ _ _
    (incrCommand_sameButName L C conn idx a a1 rest) ?_
  refine sameButName_ite _ _ _ _ Iff.rfl _ _ _ _
    (decrCommand_sameButName L C conn idx a a1 rest) ?_
  refine sameButName_ite _ _ _ _ Iff.rfl _ _ _ _
    (appendCommand_sameButName L C conn idx a a1 rest) ?_
  refine sameButName_ite _ _ _ _ Iff.rfl _ _ _ _
    (prependCommand_sameButName L C conn idx a a1 rest) ?_
  refine sameButName_ite _ _ _ _ Iff.rfl _ _ _ _
    (lenCommand_sameButName L C conn idx a a1 rest) ?_
  refine sameButName_ite _ _ _ _ Iff.rfl _ _ _ _
    (renameCommand_sameButName L C conn idx a a1 rest) ?_
  refine sameButName_ite _ _ _ _ Iff.rfl _ _ _ _
    (copyCommand_sameButName L C conn idx a a1 rest) ?_
  refine sameButName_ite _ _ _ _ Iff.rfl _ _ _ _
    (getsetCommand_sameButName L C conn idx a a1 rest) ?_
  refine sameButName_ite _ _ _ _ Iff.rfl _ _ _ _
    (getdelCommand_sameButName L C conn idx a a1 rest) ?_
  refine sameButName_ite _ _ _ _ Iff.rfl _ _ _ _
    (delCommand_sameButName L C conn idx a a1 rest) ?_
  refine sameButName_ite _ _ _ _ Iff.rfl _ _ _ _
    (existsCommand_sameButName L C conn idx a a1 rest) ?_
  refine sameButName_ite _ _ _ _ Iff.rfl _ _ _ _
    (quitCommand_sameButName C conn idx a a1 rest) ?_
  refine sameButName_ite _ _ _ _ Iff.rfl _ _ _ _
    (infoCommand_sameButName R C conn idx a a1 rest) ?_
  refine sameButName_ite _ _ _ _ Iff.rfl _ _ _ _
    (echoCommand_sameButName C conn idx a a1 rest) ?_
  refine sameButName_ite _ _ _ _ Iff.rfl _ _ _ _
    (flushCommand_sameButName C conn idx a a1 rest) ?_
  refine sameButName_ite _ _ _ _ Iff.rfl _ _ _ _
    (shutdownCommand_sameButName C conn idx a a1 rest) ?_
  exact sameButName_of_eq _ _ _ _ rfl

/-- Two ASCII spellings that differ in the case of letters only have the same
upper-casing. -/
theorem ToUpper_of_ascii_variant (L : Lib) (a a1 : GoString)
    (ha : a.all (fun c => decide (c.toNat < 128)) = true)
    (ha1 : a1.all (fun c => decide (c.toNat < 128)) = true)
    (h : a1.map asciiUpper = a.map asciiUpper) : ToUpper L a1 = ToUpper L a := by
  rw [ToUpper_ascii L a ha, ToUpper_ascii L a1 ha1, h]

/-- C35: dispatch is case-insensitive.  For every argument list and every
state, replacing the first argument by a letter-case variant of it, a
spelling with the same upper-casing, selects the same command: the container
afterwards, the next index, the second result, the goroutines started and
the signal are the same, and so is the reply, except that the reply of an
arity error or of a syntax error carries the name as the client typed it. -/
theorem C35_dispatch_case_insensitive (L : Lib) (R : Runtime) (C : CacheContainer) (conn : Conn)
    (idx : Int) (a a1 : GoString) (rest : List GoString) (o o1 : Outcome)
    (hv : ToUpper L a1 = ToUpper L a)
    (ho : o = Execute L R { Arguments := a :: rest, Connection := conn, Index := idx } C)
    (ho1 : o1 = Execute L R { Arguments := a1 :: rest, Connection := conn, Index := idx } C) :
    o1.Container = o.Container ∧ o1.Index = o.Index ∧ o1.keepOpen = o.keepOpen ∧
    o1.timers = o.timers ∧ o1.sigint = o.sigint ∧
    (o1.wire = o.wire ∨
      (o.wire = lit "!1\r\n" ++
          (lit "-ERR wrong number of arguments for '" ++ a ++ lit "' command\r\n") ∧
        o1.wire = lit "!1\r\n" ++
          (lit "-ERR wrong number of arguments for '" ++ a1 ++ lit "' command\r\n")) ∨
      (o.wire = lit "!1\r\n" ++ (lit "-ERR wrong syntax for '" ++ a ++ lit "' command\r\n") ∧
        o1.wire = lit "!1\r\n" ++
          (lit "-ERR wrong syntax for '" ++ a1 ++ lit "' command\r\n"))) := by
  obtain ⟨h1, h2, h3, h4, h5, h6⟩ := Execute_sameButName L R C conn idx a a1 rest hv
  rw [← ho, ← ho1] at h1 h2 h3 h4 h5 h6
  refine ⟨h1, h2, h3, h4, h5, ?_⟩
  have hj : ∀ x y z : GoString, Join [x, y, z] = x ++ y ++ z := by
    intro x y z
    simp [Join]
  rcases h6 with h | ⟨h, h'⟩ | ⟨h, h'⟩
  · exact Or.inl h
  · refine Or.inr (Or.inl ⟨?_, ?_⟩)
    · rw [h]; unfold arityLine; rw [hj]; rfl
    · rw [h']; unfold arityLine; rw [hj]; rfl
  · refine Or.inr (Or.inr ⟨?_, ?_⟩)
    · rw [h]; unfold syntaxLine; rw [hj]; rfl
    · rw [h']; unfold syntaxLine; rw [hj]; rfl

theorem C35_dispatch_case_insensitive_witness :
    (Execute testLib testRuntime
      { Arguments := [lit "SeLeCt", lit "2"], Connection := testConn, Index := 0 }
      testContainer).Index =
    (Execute testLib testRuntime
      { Arguments := [lit "select", lit "2"], Connection := testConn, Index := 0 }
      testContainer).Index ∧
    (Execute testLib testRuntime
      { Arguments := [lit "SeLeCt", lit "2"], Connection := testConn, Index := 0 }
      testContainer).keepOpen =
    (Execute testLib testRuntime
      { Arguments := [lit "select", lit "2"], Connection := testConn, Index := 0 }
      testContainer).keepOpen :=
  have h := C35_dispatch_case_insensitive testLib testRuntime testContainer testConn 0
    (lit "select") (lit "SeLeCt") [lit "2"] _ _ (by decide) rfl rfl
  ⟨h.2.1, h.2.2.1⟩

/-! ## Expiration and the guard -/

/-- The goroutines a SET without a syntax error starts: the expiration it
carries, whatever the guard decided, unless the write of the reply failed. -/
theorem setCommand_timers (L : Lib) (cmd : Command) (C : CacheContainer)
    (hlen : ¬ (cmd.Arguments.length < 3 ∨ cmd.Arguments.length > 6))
    (hse : (setParse L (cmd.Arguments.drop 3) setOptionsInit).syntaxError = false) :
    (setCommand L cmd C).timers =
      if cmd.Connection.writeErr then []
      else if (setParse L (cmd.Arguments.drop 3) setOptionsInit).checkExpire then
        setExpiration (cmd.arg 1) (setParse L (cmd.Arguments.drop 3) setOptionsInit).optExpire
          (setParse L (cmd.Arguments.drop 3) setOptionsInit).durExpire cmd.Index
      else [] := by
  have hse' : (setParse L (cmd.Arguments.drop 3)
      { syntaxError := false, checkExist := false, checkExpire := false,
        optExist := [], optExpire := [], durExpire := [] }).syntaxError = false := hse
  unfold setCommand
  dsimp only
  rw [if_neg hlen]
  simp only [hse', Bool.false_eq_true, if_false]
  unfold setOptionsInit
  split_ifs <;> rfl

/-- C39, the claim as written fails: `SET k v NX EX 10` on a present key and
`SET k v XX EX 10` on an absent key have options that parse without syntax
error, a guard that prevents the write and a duration that parses to 10, yet
on a connection whose write of the reply fails no delete of the key is
scheduled: `setCommand` returns before it reaches `setExpiration`. -/
theorem C39_guarded_expiration_write_error_counterexample :
    (setParse testLib [lit "NX", lit "EX", lit "10"] setOptionsInit).syntaxError = false ∧
    (setParse testLib [lit "XX", lit "EX", lit "10"] setOptionsInit).syntaxError = false ∧
    (Atoi (lit "10")).1 = 10 ∧
    stored testLib (database (testContainerWith "k" "old") 0) (lit "k") = some (lit "old") ∧
    stored testLib (database (Execute testLib testRuntime
      { Arguments := [lit "SET", lit "k", lit "v", lit "NX", lit "EX", lit "10"],
        Connection := { RemoteAddr := { Network := lit "tcp", String := lit "10.0.0.7:50000" },
                        writeErr := true },
        Index := 0 } (testContainerWith "k" "old")).Container 0) (lit "k") =
      some (lit "old") ∧
    (Execute testLib testRuntime
      { Arguments := [lit "SET", lit "k", lit "v", lit "NX", lit "EX", lit "10"],
        Connection := { RemoteAddr := { Network := lit "tcp", String := lit "10.0.0.7:50000" },
                        writeErr := true },
        Index := 0 } (testContainerWith "k" "old")).timers = [] ∧
    stored testLib (database testContainer 0) (lit "k") = none ∧
    stored testLib (database (Execute testLib testRuntime
      { Arguments := [lit "SET", lit "k", lit "v", lit "XX", lit "EX", lit "10"],
        Connection := { RemoteAddr := { Network := lit "tcp", String := lit "10.0.0.7:50000" },
                        writeErr := true },
        Index := 0 } testContainer).Container 0) (lit "k") = none ∧
    (Execute testLib testRuntime
      { Arguments := [lit "SET", lit "k", lit "v", lit "XX", lit "EX", lit "10"],
        Connection := { RemoteAddr := { Network := lit "tcp", String := lit "10.0.0.7:50000" },
                        writeErr := true },
        Index := 0 } testContainer).timers = [] := by
  decide

/-- C39, amended: a SET whose existence guard prevents the write, NX on a
present key or XX on an absent key, and that carries an expiration with a
non-zero parsed duration replies the empty line, leaves the container as it
was and still schedules the delayed delete of the key, provided the write of
the reply succeeded; when that write fails nothing is scheduled.  The
goroutines do not depend on the container the command ran on, and for every
option list that parses without syntax error the expiration is scheduled
exactly when the options carry one and the reply was written, independently
of whether the value was written. -/
theorem C39_guarded_set_schedules (L : Lib) (R : Runtime) (C : CacheContainer) (conn : Conn)
    (idx : Int) (c k v g e d : GoString) (opts : List GoString) (o : Outcome)
    (hC : CacheContainer.ok C) (hi : indexOk idx) (hc : ToUpper L c = lit "SET")
    (hg : isGuard L g) (he : isExpire L e)
    (hopts : opts = [g, e, d] ∨ opts = [e, d, g])
    (hd : (Atoi d).1 ≠ 0)
    (hprev : (ToUpper L g = lit "NX" ∧ stored L (database C idx) k ≠ none) ∨
      (ToUpper L g = lit "XX" ∧ stored L (database C idx) k = none))
    (ho : o = Execute L R { Arguments := c :: k :: v :: opts, Connection := conn, Index := idx }
      C) :
    o.wire = lit "!1\r\n\r\n" ∧ o.Container = C ∧
    (conn.writeErr = false →
      o.timers = [{ db := idx, key := k,
                    duration := if ToUpper L e = lit "PX" then wrapInt (1000000 * (Atoi d).1)
                                else wrapInt (1000000000 * (Atoi d).1) }]) ∧
    (conn.writeErr = true → o.timers = []) ∧
    (∀ C1 : CacheContainer,
      (Execute L R { Arguments := c :: k :: v :: opts, Connection := conn, Index := idx }
        C1).timers = o.timers) ∧
    (∀ (opts1 : List GoString) (C1 : CacheContainer), opts1.length ≤ 3 →
      (setParse L opts1 setOptionsInit).syntaxError = false →
      (Execute L R { Arguments := c :: k :: v :: opts1, Connection := conn, Index := idx }
        C1).timers =
        if conn.writeErr = true then []
        else if (setParse L opts1 setOptionsInit).checkExpire = true then
          setExpiration k (setParse L opts1 setOptionsInit).optExpire
            (setParse L opts1 setOptionsInit).durExpire idx
        else []) := by
  have hlt := toNat_lt_length C idx hC hi
  have hgen : ∀ (opts1 : List GoString) (C1 : CacheContainer), opts1.length ≤ 3 →
      (setParse L opts1 setOptionsInit).syntaxError = false →
      (Execute L R { Arguments := c :: k :: v :: opts1, Connection := conn, Index := idx }
        C1).timers =
        if conn.writeErr = true then []
        else if (setParse L opts1 setOptionsInit).checkExpire = true then
          setExpiration k (setParse L opts1 setOptionsInit).optExpire
            (setParse L opts1 setOptionsInit).durExpire idx
        else [] := by
    intro opts1 C1 hl hse
    have hlen : ¬ ((c :: k :: v :: opts1).length < 3 ∨ (c :: k :: v :: opts1).length > 6) := by
      simp only [List.length_cons]
      omega
    rw [Execute_SET L R { Arguments := c :: k :: v :: opts1, Connection := conn, Index := idx }
      C1 hc]
    exact setCommand_timers L
      { Arguments := c :: k :: v :: opts1, Connection := conn, Index := idx } C1 hlen hse
  obtain ⟨hst, hse⟩ : setParse L opts setOptionsInit =
        { setOptionsInit with optExist := ToUpper L g, checkExist := true,
                              optExpire := ToUpper L e, durExpire := d, checkExpire := true } ∧
      (setParse L opts setOptionsInit).syntaxError = false := by
    rcases hopts with h | h
    · rw [h, setParse_guard_expire L g e d hg he]
      exact ⟨rfl, rfl⟩
    · rw [h, setParse_expire_guard L g e d hg he]
      exact ⟨rfl, rfl⟩
  have hl3 : opts.length ≤ 3 := by
    rcases hopts with h | h <;> rw [h] <;> simp
  have hlen : ¬ ((c :: k :: v :: opts).length < 3 ∨ (c :: k :: v :: opts).length > 6) := by
    simp only [List.length_cons]
    omega
  have hexp : setExpiration k (ToUpper L e) d idx =
      [{ db := idx, key := k,
         duration := if ToUpper L e = lit "PX" then wrapInt (1000000 * (Atoi d).1)
                     else wrapInt (1000000000 * (Atoi d).1) }] := by
    unfold setExpiration
    dsimp only
    rw [if_neg hd]
  have htm : ∀ C1 : CacheContainer,
      (Execute L R { Arguments := c :: k :: v :: opts, Connection := conn, Index := idx }
        C1).timers =
        if conn.writeErr = true then [] else setExpiration k (ToUpper L e) d idx := by
    intro C1
    rw [hgen opts C1 hl3 hse, hst]
    rfl
  obtain ⟨hw, hCn, _⟩ := setCommand_guarded L
    { Arguments := c :: k :: v :: opts, Connection := conn, Index := idx } C _ hlen hst rfl rfl
  rw [← Execute_SET L R { Arguments := c :: k :: v :: opts, Connection := conn, Index := idx } C
    hc, ← ho] at hw hCn
  have hk : ({ Arguments := c :: k :: v :: opts, Connection := conn, Index := idx } :
      Command).arg 1 = k := rfl
  simp only [hk] at hw hCn
  have hno : ¬ ((stored L (database C idx) k).isSome = decide (ToUpper L g = lit "XX")) := by
    rcases hprev with ⟨hnx, hp⟩ | ⟨hxx, hp⟩
    · have hx : decide (ToUpper L g = lit "XX") = false := by
        rw [hnx]; decide
      rw [hx, Option.isSome_iff_ne_none.mpr hp]
      decide
    · have hx : decide (ToUpper L g = lit "XX") = true := by
        rw [hxx]; decide
      rw [hx, hp]
      decide
  rw [if_neg hno] at hw hCn
  refine ⟨hw, ?_, fun hwe => ?_, fun hwe => ?_, fun C1 => ?_, hgen⟩
  · rw [hCn]
    exact setDatabase_self C idx hlt
  · rw [ho, htm C, hwe, ← hexp]
    rfl
  · rw [ho, htm C, hwe]
    rfl
  · rw [ho, htm C1, htm C]

theorem C39_guarded_set_schedules_witness :
    (Execute testLib testRuntime
      { Arguments := [lit "set", lit "k", lit "v", lit "nx", lit "ex", lit "10"],
        Connection := testConn, Index := 0 } (testContainerWith "k" "old")).Container =
      testContainerWith "k" "old" ∧
    (Execute testLib testRuntime
      { Arguments := [lit "set", lit "k", lit "v", lit "nx", lit "ex", lit "10"],
        Connection := testConn, Index := 0 } (testContainerWith "k" "old")).timers =
      [{ db := 0, key := lit "k", duration := 10000000000 }] :=
  have h := C39_guarded_set_schedules testLib testRuntime (testContainerWith "k" "old") testConn 0
    (lit "set") (lit "k") (lit "v") (lit "nx") (lit "ex") (lit "10")
    [lit "nx", lit "ex", lit "10"] _ (by decide) (by decide) (by decide) (by decide) (by decide)
    (Or.inl rfl) (by decide) (Or.inl (by decide)) rfl
  ⟨h.2.1, (h.2.2.1 (by decide)).trans (by decide)⟩

/-! ## The client decodes the envelope -/

/-- The digit loops of `strconv` read the bytes of decimal digits, most
significant first, as a number. -/
theorem atoiFastLoop_digits (dl : List Nat) (hd : ∀ d ∈ dl, d < 10) :
    ∀ acc, atoiFastLoop (dl.map (fun d => UInt8.ofNat (48 + d))) acc =
      some (dl.foldl (fun a d => a * 10 + d) acc) := by
  induction dl with
  | nil => intro acc; rfl
  | cons d dl ih =>
    intro acc
    have hd0 : d < 10 := hd d (List.mem_cons_self _ _)
    have hval : (UInt8.ofNat (48 + d)).toNat - 48 = d := by
      interval_cases d <;> decide
    rw [List.map_cons, atoiFastLoop, isDigit_ofNat d hd0, hval]
    simp only [Bool.not_true, Bool.false_eq_true, if_false, List.foldl_cons]
    exact ih (fun x hx => hd x (List.mem_cons_of_mem _ hx)) _

theorem le_foldl_digits (dl : List Nat) :
    ∀ acc, acc ≤ dl.foldl (fun a d => a * 10 + d) acc := by
  induction dl with
  | nil => intro acc; exact Nat.le_refl _
  | cons d dl ih =>
    intro acc
    rw [List.foldl_cons]
    exact Nat.le_trans (by omega) (ih _)

theorem parseUintLoop_digits (dl : List Nat) (hd : ∀ d ∈ dl, d < 10) :
    ∀ acc, dl.foldl (fun a d => a * 10 + d) acc ≤ maxUint64 →
      parseUintLoop (dl.map (fun d => UInt8.ofNat (48 + d))) acc =
        (dl.foldl (fun a d => a * 10 + d) acc, none) := by
  induction dl with
  | nil => intro acc _; rfl
  | cons d dl ih =>
    intro acc hmax
    have hd0 : d < 10 := hd d (List.mem_cons_self _ _)
    have hval : (UInt8.ofNat (48 + d)).toNat - 48 = d := by
      interval_cases d <;> decide
    rw [List.foldl_cons] at hmax
    have hstep := le_foldl_digits dl (acc * 10 + d)
    have h1 : ¬ (acc ≥ maxUint64 / 10 + 1) := by
      have : acc * 10 ≤ maxUint64 := by omega
      omega
    have h2 : ¬ (acc * 10 + d > maxUint64) := by omega
    rw [List.map_cons, parseUintLoop, isDigit_ofNat d hd0, hval]
    simp only [Bool.not_true, Bool.false_eq_true, if_false, h1, h2, List.foldl_cons]
    exact ih (fun x hx => hd x (List.mem_cons_of_mem _ hx)) _ hmax

theorem foldl_digits (n : Nat) :
    (Nat.digits 10 n).reverse.foldl (fun a d => a * 10 + d) 0 = n := by
  rw [List.foldl_reverse]
  have h := Nat.ofDigits_digits 10 n
  rw [Nat.ofDigits_eq_foldr] at h
  have hfun : (fun (x y : Nat) => y * 10 + x) = (fun (x y : Nat) => ((x : Nat) : Nat) + 10 * y) := by
    funext x y
    show y * 10 + x = x + 10 * y
    omega
  rw [hfun]
  exact h

theorem digit_not_sign (c : UInt8) (h : isDigit c = true) : c ≠ 45 ∧ c ≠ 43 := by
  constructor
  · intro e; rw [e] at h; exact absurd h (by decide)
  · intro e; rw [e] at h; exact absurd h (by decide)

/-- What `Itoa` writes for a number of the range of `int`, `Atoi` reads back. -/
theorem Atoi_natDecimal (n : Nat) (hn : n < 2 ^ 63) : Atoi (natDecimal n) = ((n : Int), none) := by
  by_cases h0 : n = 0
  · subst h0
    decide
  have hdl : ∀ d ∈ (Nat.digits 10 n).reverse, d < 10 := by
    intro d hd
    exact Nat.digits_lt_base (by norm_num) (List.mem_reverse.mp hd)
  have hfast := atoiFastLoop_digits _ hdl 0
  have hslow := parseUintLoop_digits _ hdl 0
  rw [foldl_digits] at hfast hslow
  have hmax : n ≤ maxUint64 := by
    unfold maxUint64
    omega
  have hslow' := hslow hmax
  have hall := natDecimal_digits n
  rw [natDecimal_eq_digits n h0] at hall ⊢
  generalize (Nat.digits 10 n).reverse.map (fun d => UInt8.ofNat (48 + d)) = s at hfast hslow' hall
  cases s with
  | nil => simp [atoiFastLoop] at hfast; exact absurd hfast.symm h0
  | cons c cs =>
    obtain ⟨h45, h43⟩ := digit_not_sign c (hall c (List.mem_cons_self _ _))
    have hsigned : ¬ (c = 45 ∨ c = 43) := by
      rintro (h | h)
      · exact h45 h
      · exact h43 h
    have hsigned' : ¬ (c = 43 ∨ c = 45) := by
      rintro (h | h)
      · exact h43 h
      · exact h45 h
    unfold Atoi
    by_cases hlen : 0 < (c :: cs).length ∧ (c :: cs).length < 19
    · rw [if_pos hlen]
      simp [h45, h43, hfast]
    · rw [if_neg hlen]
      have hpu : ParseUint (c :: cs) = (n, none) := by
        unfold ParseUint
        rw [if_neg (by simp)]
        exact hslow'
      have hlt : ¬ (n ≥ 2 ^ 63) := by omega
      have hpi : ParseInt (c :: cs) = ((n : Int), none) := by
        unfold ParseInt
        simp [h45, h43, hpu, hlt]
        omega
      rw [hpi]
      simp only
      rw [wrapInt_of_range (n : Int) (by omega) (by exact_mod_cast hn)]

theorem takeWhile_ne_append (l rest : GoString) (d : UInt8) (h : d ∉ l) :
    (l ++ d :: rest).takeWhile (fun c => decide (c ≠ d)) = l ∧
    (l ++ d :: rest).dropWhile (fun c => decide (c ≠ d)) = d :: rest := by
  induction l with
  | nil => simp
  | cons a l ih =>
    have ha : a ≠ d := fun e => h (by simp [e])
    have hl : d ∉ l := fun e => h (List.mem_cons_of_mem _ e)
    obtain ⟨h1, h2⟩ := ih hl
    constructor
    · rw [List.cons_append, List.takeWhile_cons_of_pos (by simpa using ha), h1]
    · rw [List.cons_append, List.dropWhile_cons_of_pos (by simpa using ha), h2]

theorem ReadString_line (l rest : GoString) (h : (10 : UInt8) ∉ l) :
    Client.ReadString (l ++ 10 :: rest) 10 = ((l ++ [10], none), rest) := by
  obtain ⟨h1, h2⟩ := takeWhile_ne_append l rest 10 h
  unfold Client.ReadString
  rw [if_pos (by simp), h1, h2]
  rfl

/-- The client reads one line of the reply: the payload before `\r\n`, and
the stream goes on behind the newline. -/
theorem Client_Read_line (p rest : GoString) (h : (10 : UInt8) ∉ p) :
    Client.Read (p ++ lit "\r\n" ++ rest) = ((p, none), rest) := by
  have hcr : lit "\r\n" = [13, 10] := rfl
  have hstream : p ++ lit "\r\n" ++ rest = (p ++ [13]) ++ 10 :: rest := by
    rw [hcr]
    simp
  have hclean : (10 : UInt8) ∉ p ++ [13] := by
    intro hm
    rcases List.mem_append.mp hm with h1 | h1
    · exact h h1
    · simp at h1
  have hline : p ++ [13] ++ [10] = p ++ [13, 10] := by simp
  have hlen : (p ++ [13, 10]).length = p.length + 2 := by simp
  have hget : (p ++ [13, 10]).getD (p.length + 2 - 2) 0 = 13 := by
    rw [List.getD_eq_getElem?_getD, Nat.add_sub_cancel,
      List.getElem?_append_right (Nat.le_refl _), Nat.sub_self]
    rfl
  have htake : (p ++ [13, 10]).take (p.length + 2 - 2) = p := by simp
  unfold Client.Read
  rw [hstream, ReadString_line _ rest hclean]
  simp only [hline, hlen, hget, htake, Client.readEmptyMessage, ne_eq, not_true_eq_false,
    if_false]
  rw [if_neg (by omega)]

theorem execLoop_lines (lines : List GoString) (rest : GoString)
    (h : ∀ l ∈ lines, (10 : UInt8) ∉ l) :
    ∀ acc, Client.execLoop lines.length
        (Join (lines.map (fun l => l ++ lit "\r\n")) ++ rest) acc = ((acc ++ lines, none), rest) := by
  induction lines with
  | nil =>
    intro acc
    simp [Client.execLoop, Join]
  | cons l lines ih =>
    intro acc
    have hl : (10 : UInt8) ∉ l := h l (List.mem_cons_self _ _)
    have hstream : Join ((l :: lines).map (fun l => l ++ lit "\r\n")) ++ rest =
        l ++ lit "\r\n" ++ (Join (lines.map (fun l => l ++ lit "\r\n")) ++ rest) := by
      rw [List.map_cons, Join_cons]
      simp
    rw [List.length_cons, Client.execLoop, hstream, Client_Read_line l _ hl]
    simp only [ne_eq, not_true_eq_false, if_false]
    rw [ih (fun x hx => h x (List.mem_cons_of_mem _ hx))]
    simp

theorem digitsLoop_ne_nil (fuel : Nat) :
    ∀ (n : Nat) (acc : GoString), acc ≠ [] → digitsLoop fuel n acc ≠ [] := by
  induction fuel with
  | zero => intro n acc h; exact h
  | succ fuel ih =>
    intro n acc _
    unfold digitsLoop
    dsimp only
    split_ifs
    · simp
    · exact ih _ _ (by simp)

theorem natDecimal_ne_nil (n : Nat) : natDecimal n ≠ [] := by
  unfold natDecimal digitsLoop
  dsimp only
  split_ifs
  · simp
  · exact digitsLoop_ne_nil _ _ _ (by simp)

/-- C40: the client decoder inverts the framing of the server.  For every
list of N >= 0 payload lines without a newline byte, N within the range of
`int`, when the reply stream is the envelope of the lines, `!N\r\n` then each
line and `\r\n`, followed by any bytes, `Exec` returns exactly the lines
without error and leaves exactly the bytes that follow the envelope, so that
the next `Exec` starts at the next envelope. -/
theorem C40_client_decodes_envelope (lines : List GoString) (rest : GoString)
    (hclean : ∀ l ∈ lines, (10 : UInt8) ∉ l) (hlen : lines.length < 2 ^ 63) :
    envelope lines = lit "!" ++ Itoa lines.length ++ lit "\r\n" ++
      Join (lines.map (fun l => l ++ lit "\r\n")) ∧
    Client.Exec false (envelope lines ++ rest) = ((lines, none), rest) ∧
    (∀ lines2 : List GoString, (∀ l ∈ lines2, (10 : UInt8) ∉ l) → lines2.length < 2 ^ 63 →
      Client.Exec false (Client.Exec false (envelope lines ++ (envelope lines2 ++ rest))).2 =
        ((lines2, none), rest)) := by
  have hexec : ∀ (ls : List GoString) (tail : GoString), (∀ l ∈ ls, (10 : UInt8) ∉ l) →
      ls.length < 2 ^ 63 → Client.Exec false (envelope ls ++ tail) = ((ls, none), tail) := by
    intro ls tail hls hn
    have hhead : (10 : UInt8) ∉ lit "!" ++ Itoa ls.length := by
      intro hm
      rcases List.mem_append.mp hm with h1 | h1
      · exact absurd h1 (by decide)
      · exact Itoa_no_newline _ 10 h1 rfl
    have hstream : envelope ls ++ tail =
        (lit "!" ++ Itoa ls.length) ++ lit "\r\n" ++
          (Join (ls.map (fun l => l ++ lit "\r\n")) ++ tail) := by
      unfold envelope
      simp
    have hdrop : (lit "!" ++ Itoa ls.length).drop 1 = natDecimal ls.length := by
      rw [Itoa_natCast]
      rfl
    have hlen2 : ¬ ((lit "!" ++ Itoa ls.length).length < Client.countMinMessage) := by
      rw [Itoa_natCast, List.length_append]
      have := List.length_pos.mpr (natDecimal_ne_nil ls.length)
      have h1 : (lit "!").length = 1 := rfl
      unfold Client.countMinMessage
      omega
    unfold Client.Exec
    rw [if_neg (by simp), hstream, Client_Read_line _ _ hhead]
    simp only [ne_eq, not_true_eq_false, if_false, hlen2, hdrop, Atoi_natDecimal ls.length hn]
    rw [if_neg (by omega), Int.toNat_ofNat, execLoop_lines ls tail hls]
    rfl
  refine ⟨rfl, hexec lines rest hclean hlen, fun lines2 h2 hn2 => ?_⟩
  rw [hexec lines (envelope lines2 ++ rest) hclean hlen]
  exact hexec lines2 rest h2 hn2

theorem C40_client_decodes_envelope_witness :
    Client.Exec false (lit "!3\r\nhi\r\nbye\r\n\r\n!1\r\n+OK\r\n") =
      (([lit "hi", lit "bye", lit ""], none), lit "!1\r\n+OK\r\n") :=
  have h := (C40_client_decodes_envelope [lit "hi", lit "bye", lit ""] (lit "!1\r\n+OK\r\n")
    (by decide) (by decide)).2.1
  (congrArg (Client.Exec false) (by decide)).trans h

end Valhaj
